import Mathlib

/-!
# CAD reconstruction mapper (ShapeOptimizationApplication), shallow embedding

Source files embedded here:
* `custom_utilities/cad_reconstruction/cad_mapper.h` (class `CADMapper`)
* `custom_utilities/cad_reconstruction/patch.h` (class `Patch`)
* `custom_utilities/cad_reconstruction/cad_model_reader.h` (`CADModelReader::UpdateControlPoints`,
  `CADModelReader::ReadIntegrationData`)

Conventions of the embedding.
* `double` values are elements of a number type `α`. The statements over exact arithmetic
  take `α` to be a commutative ring (an ordered field where the code compares or divides);
  where rounding decides, `α` is `Binary64`, the IEEE 754 arithmetic with round to nearest,
  ties to even.
* `unsigned int` ids and counters are natural numbers; they are bounded by the number
  of control points and FE nodes held in memory, wrap-around at `2^32` is not modelled.
* `std::vector` and uBLAS containers are a size together with a total access function
  (`operator[]` / `operator()` have no bounds check in the source).
* A `for (unsigned int i = 0; i < n; i++)` loop is `forLoop n body`, a range-based
  iterator loop over a container is `List.foldl`.
* Members of classes whose headers are not part of the sources at hand
  (`NURBSSurface`, `ControlPoint`, `BoundaryLoop`, `BREPElement`, `BREPGaussPoint`,
  `boost::geometry`) enter as fields of records or as function parameters.
-/

namespace Kratos

/-! ## Containers and loops -/

/-- The loop `for (unsigned int i = 0; i < n; i++) body` acting on an explicit state. -/
def forLoop {σ : Type} (n : Nat) (body : Nat → σ → σ) (s : σ) : σ :=
  (List.range n).foldl (fun s i => body i s) s

/-- A uBLAS `matrix<T>`: `size1()` rows, `size2()` columns and element access `m(i,j)`. -/
structure UblasMatrix (β : Type) where
  size1 : Nat
  size2 : Nat
  get : Nat → Nat → β

/-- A sparse uBLAS matrix seen through element access `M(i,j)`. -/
abbrev SparseMatrixType (α : Type) := Nat → Nat → α

/-- The statement `M(r,c) += v`. -/
def addAt {α : Type} [Add α] (M : SparseMatrixType α) (r c : Nat) (v : α) :
    SparseMatrixType α :=
  fun p q => if p = r ∧ q = c then M p q + v else M p q

/-- The statement `rhs(r) += v` on a uBLAS `Vector`. -/
def addAtVec {α : Type} [Add α] (x : Nat → α) (r : Nat) (v : α) : Nat → α :=
  fun p => if p = r then x p + v else x p

/-- The three consecutive statements
`M(3*r+0,3*c+0) += v; M(3*r+1,3*c+1) += v; M(3*r+2,3*c+2) += v;`. -/
def addOnAxes {α : Type} [Add α] (M : SparseMatrixType α) (r c : Nat) (v : α) :
    SparseMatrixType α :=
  addAt (addAt (addAt M (3 * r + 0) (3 * c + 0) v) (3 * r + 1) (3 * c + 1) v)
    (3 * r + 2) (3 * c + 2) v

/-- A uBLAS `Vector` of size 2 (parametric location, tangent, Newton step). -/
structure Vec2 (α : Type) where
  x : α
  y : α
deriving DecidableEq, Inhabited

/-- A uBLAS `Vector` / `Point<3>` of size 3. -/
structure Vec3 (α : Type) where
  x : α
  y : α
  z : α
deriving DecidableEq, Inhabited

/-- A uBLAS `Matrix` of size 2 x 2, entry `aij` is `m(i,j)`. -/
structure Mat2 (α : Type) where
  a00 : α
  a01 : α
  a10 : α
  a11 : α
deriving DecidableEq, Inhabited

/-- The uBLAS `inner_prod` of two vectors of size 3. -/
def inner_prod {α : Type} [Mul α] [Add α] (a b : Vec3 α) : α :=
  a.x * b.x + a.y * b.y + a.z * b.z

/-- The function `MathUtils<double>::CrossProduct`. -/
def CrossProduct {α : Type} [Mul α] [Sub α] (a b : Vec3 α) : Vec3 α :=
  { x := a.y * b.z - a.z * b.y
    y := a.z * b.x - a.x * b.z
    z := a.x * b.y - a.y * b.x }

/-- Modelled from the spec: `MathUtils<double>::InvertMatrix` (math_utils.h is not part of
the sources at hand) for the 2 x 2 Hessian, "invert the Hessian": the adjugate divided by
the determinant. For a singular Hessian the division by `det_H = 0` gives infinities or NaN
in `double` and 0 here, so the two agree where the Hessian is invertible only; what is
stated of the step of the search is stated there (`hessian_determinant`). -/
def InvertMatrix {α : Type} [Field α] (H : Mat2 α) : Mat2 α :=
  let det_H := H.a00 * H.a11 - H.a01 * H.a10
  { a00 := H.a11 / det_H
    a01 := -H.a01 / det_H
    a10 := -H.a10 / det_H
    a11 := H.a00 / det_H }

/-- The uBLAS `prod` of a 2 x 2 matrix with a vector of size 2. -/
def prod2 {α : Type} [Mul α] [Add α] (A : Mat2 α) (g : Vec2 α) : Vec2 α :=
  { x := A.a00 * g.x + A.a01 * g.y
    y := A.a10 * g.x + A.a11 * g.y }

/-! ## Data model -/

/-- Modelled from the spec: `ControlPoint` (control_point.h is not part of the sources
at hand): homogeneous position, global id, the "relevant for mapping" flag, the row id in
the mapping system, "assigned only if relevant" (`none` until `SetMappingMatrixId` is
called), and the accumulated displacement. -/
structure ControlPoint (α : Type) where
  X : α
  Y : α
  Z : α
  W : α
  m_global_id : Nat
  /-- `IsRelevantForMapping()` -/
  m_is_relevant_for_mapping : Bool
  /-- the value stored by `SetMappingMatrixId` -/
  m_mapping_matrix_id : Option Nat
  dX : α
  dY : α
  dZ : α
deriving DecidableEq, Inhabited

/-- The setter `ControlPoint::SetMappingMatrixId`. -/
def ControlPoint.SetMappingMatrixId {α : Type} (cp : ControlPoint α) (id : Nat) :
    ControlPoint α :=
  { cp with m_mapping_matrix_id := some id }

/-- What `Patch::CheckIfPointIsInside` reads from a `BoundaryLoop` (boundary_loop.h). -/
structure BoundaryLoop (α : Type) where
  /-- `GetBoundaryPolygon()` -/
  boundary_polygon : List (Vec2 α)
  /-- `IsInnerLoop()` -/
  is_inner_loop : Bool
deriving Inhabited

/-- Outputs of `NURBSSurface::ComputeVariationOfLocalCSY` read by
`apply_rotation_coupling`. -/
structure LocalCSYVariation (α : Type) where
  T2 : Vec3 α
  T3 : Vec3 α
  t3r : Nat → Vec3 α
deriving Inhabited

/-- Outputs of `NURBSSurface::ComputeSecondVariationOfLocalCSY` read by
`enforce_tangent_continuity`. -/
structure LocalCSYSecondVariation (α : Type) where
  T1 : Vec3 α
  T3 : Vec3 α
  t1r : Nat → Vec3 α
  t3r : Nat → Vec3 α
  t1rs : Nat → Nat → Vec3 α
  t3rs : Nat → Nat → Vec3 α
deriving Inhabited

/-- The class `NURBSSurface` (nurbs_surface.h is not part of the sources at hand): its
control points and the member functions the mapper calls, each as the function of its
arguments it computes. `GetMappingMatrixIds` is the member as it answers after the
indexing pass. -/
structure NURBSSurface (α : Type) where
  /-- `GetControlPoints()` -/
  m_control_points : List (ControlPoint α)
  /-- `EvaluateNURBSFunctions(span_u, span_v, u, v, R)`: the matrix written to `R` -/
  EvaluateNURBSFunctions : Int → Int → α → α → UblasMatrix α
  /-- `GetMappingMatrixIds(span_u, span_v, u, v)` -/
  GetMappingMatrixIds : Int → Int → α → α → UblasMatrix Nat
  /-- `EvaluateSurfacePoint(point, u, v)`: the point written -/
  EvaluateSurfacePoint : α → α → Vec3 α
  /-- `EvaluateGradientsForClosestPointSearch(Q_minus_P, hessian, gradient, u, v)` -/
  EvaluateGradientsForClosestPointSearch : Vec3 α → α → α → Mat2 α × Vec2 α
  /-- `GetBaseVectors(span_u, span_v, u, v)`, a 3 x 2 matrix -/
  GetBaseVectors : Int → Int → α → α → UblasMatrix α
  /-- `ComputeVariationOfLocalCSY(u, v, tangent, ...)` -/
  ComputeVariationOfLocalCSY : α → α → Vec2 α → LocalCSYVariation α
  /-- `ComputeSecondVariationOfLocalCSY(u, v, tangent, ...)` -/
  ComputeSecondVariationOfLocalCSY : α → α → Vec2 α → LocalCSYSecondVariation α

/-- The class `Patch` (patch.h). -/
structure Patch (α : Type) where
  m_patch_id : Nat
  m_nurbs_surface : NURBSSurface α
  m_boundary_loops : List (BoundaryLoop α)

instance {β : Type} [Inhabited β] : Inhabited (UblasMatrix β) :=
  ⟨{ size1 := 0, size2 := 0, get := fun _ _ => default }⟩

instance {α : Type} [Inhabited α] : Inhabited (NURBSSurface α) :=
  ⟨{ m_control_points := []
     EvaluateNURBSFunctions := fun _ _ _ _ => default
     GetMappingMatrixIds := fun _ _ _ _ => default
     EvaluateSurfacePoint := fun _ _ => default
     EvaluateGradientsForClosestPointSearch := fun _ _ _ => default
     GetBaseVectors := fun _ _ _ _ => default
     ComputeVariationOfLocalCSY := fun _ _ _ => default
     ComputeSecondVariationOfLocalCSY := fun _ _ _ => default }⟩

instance {α : Type} [Inhabited α] : Inhabited (Patch α) :=
  ⟨{ m_patch_id := 0, m_nurbs_surface := default, m_boundary_loops := [] }⟩

/-- The access `m_patches[patch_itr]` into the `PatchVector`. -/
def patchAt {α : Type} [Inhabited α] (m_patches : List (Patch α)) (patch_itr : Nat) :
    Patch α :=
  m_patches.getD patch_itr default

/-- The map `m_patch_position_in_patch_vector` filled by the constructor of `CADMapper`
(l. 146-148), read with `operator[]` (an absent key reads as 0). -/
def m_patch_position_in_patch_vector {α : Type} [Inhabited α] (m_patches : List (Patch α)) :
    Nat → Nat :=
  forLoop m_patches.length
    (fun patch_itr m => Function.update m (patchAt m_patches patch_itr).m_patch_id patch_itr)
    (fun _ => 0)

/-! ## `Patch::CheckIfPointIsInside` (patch.h l. 135-179) -/

/-- Lines 156-161: the exterior ring given to boost: every polygon vertex in order, then
the first vertex once more when the polygon is not empty. -/
def exterior_ring {α : Type} (boundary_polygon : List (Vec2 α)) : List (Vec2 α) :=
  boundary_polygon ++
    (match boundary_polygon with
     | [] => []
     | first :: _ => [first])

/-- Lines 148-175: the loop over the boundary loops with its `break`; `within` is
`boost::geometry::within(poi, poly)`. -/
def CheckIfPointIsInside_loop {α : Type} (within : Vec2 α → List (Vec2 α) → Bool)
    (poi : Vec2 α) : List (BoundaryLoop α) → Bool → Bool
  | [], is_inside => is_inside
  | loop_i :: rest, _ =>
    let is_inside := within poi (exterior_ring loop_i.boundary_polygon)
    let is_inside := if loop_i.is_inner_loop then !is_inside else is_inside
    if !is_inside then is_inside
    else CheckIfPointIsInside_loop within poi rest is_inside

/-- The member `Patch::CheckIfPointIsInside(point_of_interest)`. -/
def Patch.CheckIfPointIsInside {α : Type} (within : Vec2 α → List (Vec2 α) → Bool)
    (patch : Patch α) (point_of_interest : Vec2 α) : Bool :=
  CheckIfPointIsInside_loop within point_of_interest patch.m_boundary_loops true

/-! ## `CADMapper::compute_mapping_matrix`, indexing pass (cad_mapper.h l. 391-411) -/

/-- The counters of the indexing pass. -/
structure IndexingCounters where
  m_n_control_points : Nat
  m_n_relevant_control_points : Nat
  mapping_matrix_id : Nat
deriving DecidableEq, Repr

/-- Lines 399-408: the loop over the control points of one patch. -/
def index_control_points {α : Type} :
    List (ControlPoint α) → IndexingCounters → List (ControlPoint α) × IndexingCounters
  | [], c => ([], c)
  | cp_i :: rest, c =>
    if cp_i.m_is_relevant_for_mapping then
      let r := index_control_points rest
        { m_n_control_points := c.m_n_control_points + 1
          m_n_relevant_control_points := c.m_n_relevant_control_points + 1
          mapping_matrix_id := c.mapping_matrix_id + 1 }
      (cp_i.SetMappingMatrixId c.mapping_matrix_id :: r.1, r.2)
    else
      let r := index_control_points rest
        { c with m_n_control_points := c.m_n_control_points + 1 }
      (cp_i :: r.1, r.2)

/-- Lines 397-409: the loop over the patches. -/
def index_patches {α : Type} :
    List (Patch α) → IndexingCounters → List (Patch α) × IndexingCounters
  | [], c => ([], c)
  | patch_i :: rest, c =>
    let r := index_control_points patch_i.m_nurbs_surface.m_control_points c
    let r2 := index_patches rest r.2
    ({ patch_i with
        m_nurbs_surface := { patch_i.m_nurbs_surface with m_control_points := r.1 } } :: r2.1,
      r2.2)

/-- Lines 391-411 of `compute_mapping_matrix`: the counters start at 0. -/
def compute_mapping_matrix_indexing {α : Type} (m_patches : List (Patch α)) :
    List (Patch α) × IndexingCounters :=
  index_patches m_patches
    { m_n_control_points := 0, m_n_relevant_control_points := 0, mapping_matrix_id := 0 }

/-- All control points in the patch-then-control-point traversal order. -/
def all_control_points {α : Type} (m_patches : List (Patch α)) : List (ControlPoint α) :=
  m_patches.flatMap (fun patch_i => patch_i.m_nurbs_surface.m_control_points)

/-! ## `CADMapper::compute_mapping_matrix`, Newton-Raphson search (cad_mapper.h l. 304-338) -/

/-- The local variables of the closest-point loop. `norm_deltau_sq` holds the square of
`norm_deltau` (the Euclidean norm `norm_2(deltau)` has no square root in `α`; the test
`norm_deltau > 1e-5` is the test `norm_deltau_sq > (1e-5)^2`). `warnings` counts the
"WARNING!!! Newton-Raphson ... did not converge" lines written to `std::cout`. -/
structure NewtonState (α : Type) where
  u_k : α
  v_k : α
  Q_k : Vec3 α
  norm_deltau_sq : α
  k : Nat
  warnings : Nat
deriving DecidableEq

/-- The constant `max_itr = 50` of line 306. -/
def max_itr : Nat := 50

/-- Lines 309-337: the body of the `while` loop. -/
def newton_raphson_body {α : Type} [Field α] (surface : NURBSSurface α) (P : Vec3 α)
    (s : NewtonState α) : NewtonState α :=
  let Q_minus_P : Vec3 α := { x := s.Q_k.x - P.x, y := s.Q_k.y - P.y, z := s.Q_k.z - P.z }
  let Hg := surface.EvaluateGradientsForClosestPointSearch Q_minus_P s.u_k s.v_k
  let InvH := InvertMatrix Hg.1
  let deltau := prod2 InvH Hg.2
  let u_k := s.u_k - deltau.x
  let v_k := s.v_k - deltau.y
  let newtonRaphPoint := surface.EvaluateSurfacePoint u_k v_k
  let k := s.k + 1
  { u_k := u_k
    v_k := v_k
    Q_k := newtonRaphPoint
    norm_deltau_sq := deltau.x * deltau.x + deltau.y * deltau.y
    k := k
    warnings := if k > max_itr then s.warnings + 1 else s.warnings }

/-- The loop test `norm_deltau > 1e-5` of line 307. -/
def newton_raphson_continues {α : Type} [LinearOrderedField α] (s : NewtonState α) : Bool :=
  decide (s.norm_deltau_sq > (1 / 100000) ^ 2)

/-- Lines 307-338: `while (norm_deltau > 1e-5) body`, run with a bound `fuel` on the number
of body executions; `none` when the loop is still running after `fuel` executions. -/
def newton_raphson_loop {α : Type} [LinearOrderedField α] (surface : NURBSSurface α)
    (P : Vec3 α) : Nat → NewtonState α → Option (NewtonState α)
  | 0, s => if newton_raphson_continues s then none else some s
  | fuel + 1, s =>
    if newton_raphson_continues s then
      newton_raphson_loop surface P fuel (newton_raphson_body surface P s)
    else some s

/-- Lines 289-305: the initial values, from the nearest coarse sample with parameters
`(u_of_nearest_point, v_of_nearest_point)` and coordinates `nearest_point`. -/
def newton_raphson_init {α : Type} [LinearOrderedField α] (u_of_nearest_point v_of_nearest_point : α)
    (nearest_point : Vec3 α) : NewtonState α :=
  { u_k := u_of_nearest_point
    v_k := v_of_nearest_point
    Q_k := nearest_point
    norm_deltau_sq := 100000000 ^ 2
    k := 0
    warnings := 0 }

/-! ## `CADMapper::compute_mapping_matrix`, assembly (cad_mapper.h l. 421-514) -/

/-- What the assembly loop reads from one FE condition `cond_i` and its geometry. -/
structure Condition (α : Type) where
  /-- `geom_i.size()` -/
  n_fem_nodes : Nat
  /-- `geom_i[i].GetValue(MAPPING_MATRIX_ID)` -/
  mapping_matrix_ids_fem : Nat → Nat
  /-- `integration_points.size()` -/
  number_of_integration_points : Nat
  /-- `integration_points[PointNumber].Weight()` -/
  Weight : Nat → α
  /-- `geom_i.ShapeFunctionsValues(m_integration_method)`, entry `(PointNumber, k)` -/
  N_container : Nat → Nat → α

/-- The lists `list_of_*_of_nearest_points` filled by the search loop, read by index. -/
structure NearestPointLists (α : Type) where
  list_of_u_of_nearest_points : Nat → α
  list_of_v_of_nearest_points : Nat → α
  list_of_span_u_of_nearest_points : Nat → Int
  list_of_span_v_of_nearest_points : Nat → Int
  list_of_patch_of_nearest_points : Nat → Nat

/-- The mapping system owned by `CADMapper`. -/
structure MappingSystem (α : Type) where
  m_n_relevant_control_points : Nat
  m_n_relevant_fem_points : Nat
  m_mapping_matrix_CAD_CAD : SparseMatrixType α
  m_mapping_matrix_CAD_FEM : SparseMatrixType α
  m_mapping_rhs_vector : Nat → α

/-- Lines 421-427: `resize` and `clear` of both matrices and of the right-hand side. -/
def MappingSystem.cleared (α : Type) [Zero α]
    (m_n_relevant_control_points m_n_relevant_fem_points : Nat) : MappingSystem α :=
  { m_n_relevant_control_points := m_n_relevant_control_points
    m_n_relevant_fem_points := m_n_relevant_fem_points
    m_mapping_matrix_CAD_CAD := fun _ _ => 0
    m_mapping_matrix_CAD_FEM := fun _ _ => 0
    m_mapping_rhs_vector := fun _ => 0 }

/-- Lines 486-494: the loop over the FE nodes `k` of the condition for one control
point `(j,i)` of the support. -/
def assemble_CAD_FEM {α : Type} [Mul α] [Add α] (n_fem_nodes : Nat)
    (mapping_matrix_ids_fem : Nat → Nat) (N_FEM_GPi : Nat → α) (integration_weight : α)
    (R_row_id : Nat) (R_row : α) (M : SparseMatrixType α) : SparseMatrixType α :=
  forLoop n_fem_nodes (fun k M =>
    let N_id := mapping_matrix_ids_fem k
    let N := N_FEM_GPi k
    addOnAxes M R_row_id N_id (integration_weight * R_row * N)) M

/-- Lines 497-508: the loops over the support `(l,k)` for one control point `(j,i)`. -/
def assemble_CAD_CAD {α : Type} [Mul α] [Add α] (mapping_matrix_ids_cad : UblasMatrix Nat)
    (R_CAD_Pi : UblasMatrix α) (integration_weight : α)
    (R_row_id : Nat) (R_row : α) (M : SparseMatrixType α) : SparseMatrixType α :=
  forLoop mapping_matrix_ids_cad.size2 (fun k M =>
    forLoop mapping_matrix_ids_cad.size1 (fun l M =>
      let R_coll_id := mapping_matrix_ids_cad.get l k
      let R_coll := R_CAD_Pi.get l k
      addOnAxes M R_row_id R_coll_id (integration_weight * R_row * R_coll)) M) M

/-- Lines 476-510: "Assemble mapping and RHS matrix" for one FE Gauss point. -/
def assemble_gauss_point {α : Type} [Mul α] [Add α] (n_fem_nodes : Nat)
    (mapping_matrix_ids_fem : Nat → Nat) (N_FEM_GPi : Nat → α) (integration_weight : α)
    (mapping_matrix_ids_cad : UblasMatrix Nat) (R_CAD_Pi : UblasMatrix α)
    (s : MappingSystem α) : MappingSystem α :=
  forLoop mapping_matrix_ids_cad.size2 (fun i s =>
    forLoop mapping_matrix_ids_cad.size1 (fun j s =>
      let R_row_id := mapping_matrix_ids_cad.get j i
      let R_row := R_CAD_Pi.get j i
      { s with
        m_mapping_matrix_CAD_FEM :=
          assemble_CAD_FEM n_fem_nodes mapping_matrix_ids_fem N_FEM_GPi integration_weight
            R_row_id R_row s.m_mapping_matrix_CAD_FEM
        m_mapping_matrix_CAD_CAD :=
          assemble_CAD_CAD mapping_matrix_ids_cad R_CAD_Pi integration_weight
            R_row_id R_row s.m_mapping_matrix_CAD_CAD }) s) s

/-- Lines 462-468: `R_CAD_Pi` of the FE Gauss point with running number `fem_gp_itr`. -/
def R_CAD_Pi_of {α : Type} [Inhabited α] (m_patches : List (Patch α))
    (lists : NearestPointLists α) (fem_gp_itr : Nat) : UblasMatrix α :=
  (patchAt m_patches (lists.list_of_patch_of_nearest_points fem_gp_itr)).m_nurbs_surface.EvaluateNURBSFunctions
    (lists.list_of_span_u_of_nearest_points fem_gp_itr)
    (lists.list_of_span_v_of_nearest_points fem_gp_itr)
    (lists.list_of_u_of_nearest_points fem_gp_itr)
    (lists.list_of_v_of_nearest_points fem_gp_itr)

/-- Lines 470-474: `mapping_matrix_ids_cad` of the FE Gauss point with running number
`fem_gp_itr`. -/
def mapping_matrix_ids_cad_of {α : Type} [Inhabited α] (m_patches : List (Patch α))
    (lists : NearestPointLists α) (fem_gp_itr : Nat) : UblasMatrix Nat :=
  (patchAt m_patches (lists.list_of_patch_of_nearest_points fem_gp_itr)).m_nurbs_surface.GetMappingMatrixIds
    (lists.list_of_span_u_of_nearest_points fem_gp_itr)
    (lists.list_of_span_v_of_nearest_points fem_gp_itr)
    (lists.list_of_u_of_nearest_points fem_gp_itr)
    (lists.list_of_v_of_nearest_points fem_gp_itr)

/-- Lines 447-513: the body of the loop over the integration points of a condition; the
state is the mapping system with the counter `fem_gp_itr`. -/
def assemble_integration_point {α : Type} [Mul α] [Add α] [Inhabited α]
    (m_patches : List (Patch α)) (lists : NearestPointLists α) (cond_i : Condition α)
    (PointNumber : Nat) (s : MappingSystem α × Nat) : MappingSystem α × Nat :=
  let fem_gp_itr := s.2
  let integration_weight := cond_i.Weight PointNumber
  let N_FEM_GPi := cond_i.N_container PointNumber
  let R_CAD_Pi := R_CAD_Pi_of m_patches lists fem_gp_itr
  let mapping_matrix_ids_cad := mapping_matrix_ids_cad_of m_patches lists fem_gp_itr
  (assemble_gauss_point cond_i.n_fem_nodes cond_i.mapping_matrix_ids_fem N_FEM_GPi
    integration_weight mapping_matrix_ids_cad R_CAD_Pi s.1, fem_gp_itr + 1)

/-- Lines 431-514: the loop over the conditions and their integration points. -/
def assemble_conditions {α : Type} [Mul α] [Add α] [Inhabited α]
    (m_patches : List (Patch α)) (lists : NearestPointLists α)
    (conditions : List (Condition α)) (s : MappingSystem α × Nat) : MappingSystem α × Nat :=
  conditions.foldl (fun s cond_i =>
    forLoop cond_i.number_of_integration_points
      (fun PointNumber s => assemble_integration_point m_patches lists cond_i PointNumber s) s) s

/-- Lines 421-514 of `compute_mapping_matrix`: initialise the mapping system and
accumulate the contribution of every integration point of every condition. -/
def compute_mapping_matrix_assembly {α : Type} [Mul α] [Add α] [Zero α] [Inhabited α]
    (m_patches : List (Patch α)) (lists : NearestPointLists α)
    (conditions : List (Condition α))
    (m_n_relevant_control_points m_n_relevant_fem_points : Nat) : MappingSystem α :=
  (assemble_conditions m_patches lists conditions
    (MappingSystem.cleared α m_n_relevant_control_points m_n_relevant_fem_points, 0)).1

/-! ## Boundary conditions (cad_mapper.h l. 542-1176) -/

/-- What the mapper reads from a `BREPGaussPoint` (brep_gauss_point.h). -/
structure BREPGaussPoint (α : Type) where
  /-- `GetPatchId()` -/
  master_patch_id : Nat
  /-- `GetSlavePatchId()` -/
  slave_patch_id : Nat
  /-- `GetWeight()` -/
  weight : α
  /-- `GetLocation()` -/
  location : Vec2 α
  /-- `GetTangent()` -/
  tangent : Vec2 α
  /-- `GetSlaveLocation()` -/
  location_slave : Vec2 α
  /-- `GetSlaveTangent()` -/
  tangent_slave : Vec2 α

/-- What the mapper reads from a `BREPElement` (brep_element.h). -/
structure BREPElement (α : Type) where
  /-- `GetEdgeId()` -/
  edge_id : Nat
  /-- `GetGaussPoints()` -/
  gauss_points : List (BREPGaussPoint α)
  /-- `HasCouplingCondition()` -/
  has_coupling_condition : Bool
  /-- `HasDirichletCondition()` -/
  has_dirichlet_condition : Bool

/-- Lines 591-601 and 1138-1148: the Jacobian `J1 = norm_2(g1*tangent(0) + g2*tangent(1))`
with `g1`, `g2` the columns of `g_master`; `norm_2` is the uBLAS Euclidean norm. -/
def compute_J1 {α : Type} [Mul α] [Add α] (norm_2 : Vec3 α → α) (g_master : UblasMatrix α)
    (tangent_on_master_patch : Vec2 α) : α :=
  let g1 : Vec3 α := { x := g_master.get 0 0, y := g_master.get 1 0, z := g_master.get 2 0 }
  let g2 : Vec3 α := { x := g_master.get 0 1, y := g_master.get 1 1, z := g_master.get 2 1 }
  norm_2
    { x := g1.x * tangent_on_master_patch.x + g2.x * tangent_on_master_patch.y
      y := g1.y * tangent_on_master_patch.x + g2.y * tangent_on_master_patch.y
      z := g1.z * tangent_on_master_patch.x + g2.z * tangent_on_master_patch.y }

/-- Lines 568-570 and 1125-1126: `m_patches[m_patch_position_in_patch_vector[master_patch_id]]`. -/
def master_patch_of {α : Type} [Inhabited α] (m_patches : List (Patch α))
    (brep_gp_i : BREPGaussPoint α) : Patch α :=
  patchAt m_patches (m_patch_position_in_patch_vector m_patches brep_gp_i.master_patch_id)

/-- Lines 569-571: `m_patches[m_patch_position_in_patch_vector[slave_patch_id]]`. -/
def slave_patch_of {α : Type} [Inhabited α] (m_patches : List (Patch α))
    (brep_gp_i : BREPGaussPoint α) : Patch α :=
  patchAt m_patches (m_patch_position_in_patch_vector m_patches brep_gp_i.slave_patch_id)

/-- Lines 579-582 and 1132-1135: `R_gpi_master`. -/
def R_gpi_master_of {α : Type} [Inhabited α] (m_patches : List (Patch α))
    (brep_gp_i : BREPGaussPoint α) : UblasMatrix α :=
  (master_patch_of m_patches brep_gp_i).m_nurbs_surface.EvaluateNURBSFunctions (-1) (-1)
    brep_gp_i.location.x brep_gp_i.location.y

/-- Lines 583 and 1136: `mapping_matrix_ids_gpi_master`. -/
def mapping_matrix_ids_gpi_master_of {α : Type} [Inhabited α] (m_patches : List (Patch α))
    (brep_gp_i : BREPGaussPoint α) : UblasMatrix Nat :=
  (master_patch_of m_patches brep_gp_i).m_nurbs_surface.GetMappingMatrixIds (-1) (-1)
    brep_gp_i.location.x brep_gp_i.location.y

/-- Lines 585-588: `R_gpi_slave`. -/
def R_gpi_slave_of {α : Type} [Inhabited α] (m_patches : List (Patch α))
    (brep_gp_i : BREPGaussPoint α) : UblasMatrix α :=
  (slave_patch_of m_patches brep_gp_i).m_nurbs_surface.EvaluateNURBSFunctions (-1) (-1)
    brep_gp_i.location_slave.x brep_gp_i.location_slave.y

/-- Line 589: `mapping_matrix_ids_gpi_slave`. -/
def mapping_matrix_ids_gpi_slave_of {α : Type} [Inhabited α] (m_patches : List (Patch α))
    (brep_gp_i : BREPGaussPoint α) : UblasMatrix Nat :=
  (slave_patch_of m_patches brep_gp_i).m_nurbs_surface.GetMappingMatrixIds (-1) (-1)
    brep_gp_i.location_slave.x brep_gp_i.location_slave.y

/-- Lines 591-601 and 1138-1148: `J1` of the Gauss point. -/
def J1_of {α : Type} [Mul α] [Add α] [Inhabited α] (norm_2 : Vec3 α → α)
    (m_patches : List (Patch α)) (brep_gp_i : BREPGaussPoint α) : α :=
  compute_J1 norm_2
    ((master_patch_of m_patches brep_gp_i).m_nurbs_surface.GetBaseVectors (-1) (-1)
      brep_gp_i.location.x brep_gp_i.location.y)
    brep_gp_i.tangent

/-- Lines 655-676 (and 678-699 with the slave data): the block with rows and columns
taken from the same side. -/
def displacement_coupling_same_side {α : Type} [Mul α] [Add α]
    (mapping_matrix_ids : UblasMatrix Nat) (R_gpi : UblasMatrix α)
    (J1 gp_i_weight penalty_factor_disp : α) (M : SparseMatrixType α) : SparseMatrixType α :=
  forLoop mapping_matrix_ids.size2 (fun i M =>
    forLoop mapping_matrix_ids.size1 (fun j M =>
      let R_row_id := mapping_matrix_ids.get j i
      let R_row := R_gpi.get j i
      forLoop mapping_matrix_ids.size2 (fun k M =>
        forLoop mapping_matrix_ids.size1 (fun l M =>
          let R_coll_id := mapping_matrix_ids.get l k
          let R_coll := R_gpi.get l k
          addOnAxes M R_row_id R_coll_id
            (penalty_factor_disp * gp_i_weight * J1 * R_row * R_coll)) M) M) M) M

/-- The statement `M(r,c) -= v`. -/
def subAt {α : Type} [Sub α] (M : SparseMatrixType α) (r c : Nat) (v : α) :
    SparseMatrixType α :=
  fun p q => if p = r ∧ q = c then M p q - v else M p q

/-- The three consecutive statements
`M(3*r+0,3*c+0) -= v; M(3*r+1,3*c+1) -= v; M(3*r+2,3*c+2) -= v;`. -/
def subOnAxes {α : Type} [Sub α] (M : SparseMatrixType α) (r c : Nat) (v : α) :
    SparseMatrixType α :=
  subAt (subAt (subAt M (3 * r + 0) (3 * c + 0) v) (3 * r + 1) (3 * c + 1) v)
    (3 * r + 2) (3 * c + 2) v

/-- Lines 701-728: the Master-Slave relation (MS and SM). -/
def displacement_coupling_master_slave {α : Type} [Mul α] [Sub α]
    (mapping_matrix_ids_gpi_master mapping_matrix_ids_gpi_slave : UblasMatrix Nat)
    (R_gpi_master R_gpi_slave : UblasMatrix α)
    (J1 gp_i_weight penalty_factor_disp : α) (M : SparseMatrixType α) : SparseMatrixType α :=
  forLoop mapping_matrix_ids_gpi_master.size2 (fun i M =>
    forLoop mapping_matrix_ids_gpi_master.size1 (fun j M =>
      let R_row_id := mapping_matrix_ids_gpi_master.get j i
      let R_row := R_gpi_master.get j i
      forLoop mapping_matrix_ids_gpi_slave.size2 (fun k M =>
        forLoop mapping_matrix_ids_gpi_slave.size1 (fun l M =>
          let R_coll_id := mapping_matrix_ids_gpi_slave.get l k
          let R_coll := R_gpi_slave.get l k
          let MS := subOnAxes M R_row_id R_coll_id
            (penalty_factor_disp * gp_i_weight * J1 * R_row * R_coll)
          subOnAxes MS R_coll_id R_row_id
            (penalty_factor_disp * gp_i_weight * J1 * R_row * R_coll)) M) M) M) M

/-- The member `CADMapper::apply_displacement_coupling` (l. 647-729) acting on
`m_mapping_matrix_CAD_CAD`. -/
def apply_displacement_coupling {α : Type} [Mul α] [Add α] [Sub α]
    (mapping_matrix_ids_gpi_master mapping_matrix_ids_gpi_slave : UblasMatrix Nat)
    (R_gpi_master R_gpi_slave : UblasMatrix α)
    (J1 gp_i_weight penalty_factor_disp : α) (s : MappingSystem α) : MappingSystem α :=
  let MM := displacement_coupling_same_side mapping_matrix_ids_gpi_master R_gpi_master
    J1 gp_i_weight penalty_factor_disp s.m_mapping_matrix_CAD_CAD
  let SS := displacement_coupling_same_side mapping_matrix_ids_gpi_slave R_gpi_slave
    J1 gp_i_weight penalty_factor_disp MM
  { s with
    m_mapping_matrix_CAD_CAD :=
      displacement_coupling_master_slave mapping_matrix_ids_gpi_master
        mapping_matrix_ids_gpi_slave R_gpi_master R_gpi_slave
        J1 gp_i_weight penalty_factor_disp SS }

/-- The three statements `M(3*r+0,3*c+0) += vx; M(3*r+1,3*c+1) += vy; M(3*r+2,3*c+2) += vz;`
with one value per axis. -/
def addOnAxes3 {α : Type} [Add α] (M : SparseMatrixType α) (r c : Nat) (vx vy vz : α) :
    SparseMatrixType α :=
  addAt (addAt (addAt M (3 * r + 0) (3 * c + 0) vx) (3 * r + 1) (3 * c + 1) vy)
    (3 * r + 2) (3 * c + 2) vz

/-- The traversal `for i < ids.size2() { for j < ids.size1() { body; counter++; } }` of an
id matrix with a running counter that starts at 0 (`k_row`, `k_coll`, `k_m`, `k_s`); the
body receives the id `ids(j,i)` and the counter. -/
def forEntries {σ : Type} (ids : UblasMatrix Nat) (body : Nat → Nat → σ → σ) (s : σ) : σ :=
  (forLoop ids.size2 (fun i st =>
    forLoop ids.size1 (fun j st => (body (ids.get j i) st.2 st.1, st.2 + 1)) st) (s, 0)).1

/-- The quantity `inner_prod(CrossProduct(T3, t3r[3*k+a]), T2)` of `apply_rotation_coupling`
(`omega_T2_mx_coll` and its siblings). -/
def omega_T2 {α : Type} [Mul α] [Add α] [Sub α] (csy : LocalCSYVariation α) (k a : Nat) : α :=
  inner_prod (CrossProduct csy.T3 (csy.t3r (3 * k + a))) csy.T2

/-- Lines 759-795 (and 797-833 with the slave data): a same-side block of the rotation
coupling. -/
def rotation_coupling_same_side {α : Type} [Mul α] [Add α] [Sub α]
    (mapping_matrix_ids : UblasMatrix Nat) (csy : LocalCSYVariation α)
    (J1 gp_i_weight penalty_factor_rot : α) (M : SparseMatrixType α) : SparseMatrixType α :=
  forEntries mapping_matrix_ids (fun R_row_id k_coll M =>
    forEntries mapping_matrix_ids (fun R_coll_id k_row M =>
      addOnAxes3 M R_row_id R_coll_id
        (penalty_factor_rot * gp_i_weight * J1 * omega_T2 csy k_row 0 * omega_T2 csy k_coll 0)
        (penalty_factor_rot * gp_i_weight * J1 * omega_T2 csy k_row 1 * omega_T2 csy k_coll 1)
        (penalty_factor_rot * gp_i_weight * J1 * omega_T2 csy k_row 2 * omega_T2 csy k_coll 2))
      M) M

/-- Lines 835-877: the Master-slave relation (MS and SM) of the rotation coupling. -/
def rotation_coupling_master_slave {α : Type} [Mul α] [Add α] [Sub α]
    (mapping_matrix_ids_gpi_master mapping_matrix_ids_gpi_slave : UblasMatrix Nat)
    (csy_m csy_s : LocalCSYVariation α) (sign_factor : α)
    (J1 gp_i_weight penalty_factor_rot : α) (M : SparseMatrixType α) : SparseMatrixType α :=
  forEntries mapping_matrix_ids_gpi_master (fun R_m_id k_m M =>
    forEntries mapping_matrix_ids_gpi_slave (fun R_s_id k_s M =>
      let MS := addOnAxes3 M R_m_id R_s_id
        (sign_factor * penalty_factor_rot * gp_i_weight * J1 * omega_T2 csy_m k_m 0 * omega_T2 csy_s k_s 0)
        (sign_factor * penalty_factor_rot * gp_i_weight * J1 * omega_T2 csy_m k_m 1 * omega_T2 csy_s k_s 1)
        (sign_factor * penalty_factor_rot * gp_i_weight * J1 * omega_T2 csy_m k_m 2 * omega_T2 csy_s k_s 2)
      addOnAxes3 MS R_s_id R_m_id
        (sign_factor * penalty_factor_rot * gp_i_weight * J1 * omega_T2 csy_m k_m 0 * omega_T2 csy_s k_s 0)
        (sign_factor * penalty_factor_rot * gp_i_weight * J1 * omega_T2 csy_m k_m 1 * omega_T2 csy_s k_s 1)
        (sign_factor * penalty_factor_rot * gp_i_weight * J1 * omega_T2 csy_m k_m 2 * omega_T2 csy_s k_s 2))
      M) M

/-- The member `CADMapper::apply_rotation_coupling` (l. 732-878). -/
def apply_rotation_coupling {α : Type} [LinearOrderedRing α]
    (master_patch slave_patch : Patch α) (u_m v_m u_s v_s : α)
    (tangent_on_master_patch tangent_on_slave_patch : Vec2 α)
    (mapping_matrix_ids_gpi_master mapping_matrix_ids_gpi_slave : UblasMatrix Nat)
    (J1 gp_i_weight penalty_factor_rot : α) (s : MappingSystem α) : MappingSystem α :=
  let csy_m := master_patch.m_nurbs_surface.ComputeVariationOfLocalCSY u_m v_m
    tangent_on_master_patch
  let csy_s := slave_patch.m_nurbs_surface.ComputeVariationOfLocalCSY u_s v_s
    tangent_on_slave_patch
  let sign_factor : α := if inner_prod csy_m.T2 csy_s.T2 > 0 then -1 else 1
  let MM := rotation_coupling_same_side mapping_matrix_ids_gpi_master csy_m
    J1 gp_i_weight penalty_factor_rot s.m_mapping_matrix_CAD_CAD
  let SS := rotation_coupling_same_side mapping_matrix_ids_gpi_slave csy_s
    J1 gp_i_weight penalty_factor_rot MM
  { s with
    m_mapping_matrix_CAD_CAD :=
      rotation_coupling_master_slave mapping_matrix_ids_gpi_master
        mapping_matrix_ids_gpi_slave csy_m csy_s sign_factor
        J1 gp_i_weight penalty_factor_rot SS }

/-- The three statements `rhs(3*r+0) += vx; rhs(3*r+1) += vy; rhs(3*r+2) += vz;`. -/
def addOnAxesVec {α : Type} [Add α] (x : Nat → α) (r : Nat) (vx vy vz : α) : Nat → α :=
  addAtVec (addAtVec (addAtVec x (3 * r + 0) vx) (3 * r + 1) vy) (3 * r + 2) vz

/-- Lines 925-957: the contributions of `enforce_tangent_continuity` to
`m_mapping_rhs_vector` (MM, then SS). -/
def tangent_continuity_rhs {α : Type} [Mul α] [Add α]
    (mapping_matrix_ids_gpi_master mapping_matrix_ids_gpi_slave : UblasMatrix Nat)
    (csy_m csy_s : LocalCSYSecondVariation α) (fac : α)
    (J1 gp_i_weight penalty_factor_tangent_continuity : α) (rhs : Nat → α) : Nat → α :=
  let MM := forEntries mapping_matrix_ids_gpi_master (fun R_row_id k_row rhs =>
    addOnAxesVec rhs R_row_id
      (penalty_factor_tangent_continuity * gp_i_weight * J1 * fac * inner_prod (csy_m.t3r (3 * k_row + 0)) csy_s.T1)
      (penalty_factor_tangent_continuity * gp_i_weight * J1 * fac * inner_prod (csy_m.t3r (3 * k_row + 1)) csy_s.T1)
      (penalty_factor_tangent_continuity * gp_i_weight * J1 * fac * inner_prod (csy_m.t3r (3 * k_row + 2)) csy_s.T1))
    rhs
  forEntries mapping_matrix_ids_gpi_slave (fun R_row_id k_row rhs =>
    addOnAxesVec rhs R_row_id
      (penalty_factor_tangent_continuity * gp_i_weight * J1 * fac * inner_prod (csy_s.t1r (3 * k_row + 0)) csy_m.T3)
      (penalty_factor_tangent_continuity * gp_i_weight * J1 * fac * inner_prod (csy_s.t1r (3 * k_row + 1)) csy_m.T3)
      (penalty_factor_tangent_continuity * gp_i_weight * J1 * fac * inner_prod (csy_s.t1r (3 * k_row + 2)) csy_m.T3))
    MM

/-- One block of lines 959-1095: rows from `ids_row`, columns from `ids_coll`, the entry
for axis `a` is `penalty * weight * J1 * (term_1 a k_row k_coll + term_2 a k_row k_coll)`. -/
def tangent_continuity_block {α : Type} [Mul α] [Add α]
    (ids_row ids_coll : UblasMatrix Nat) (term_1 term_2 : Nat → Nat → Nat → α)
    (J1 gp_i_weight penalty_factor_tangent_continuity : α) (M : SparseMatrixType α) :
    SparseMatrixType α :=
  forEntries ids_row (fun R_row_id k_row M =>
    forEntries ids_coll (fun R_coll_id k_coll M =>
      addOnAxes3 M R_row_id R_coll_id
        (penalty_factor_tangent_continuity * gp_i_weight * J1 * (term_1 0 k_row k_coll + term_2 0 k_row k_coll))
        (penalty_factor_tangent_continuity * gp_i_weight * J1 * (term_1 1 k_row k_coll + term_2 1 k_row k_coll))
        (penalty_factor_tangent_continuity * gp_i_weight * J1 * (term_1 2 k_row k_coll + term_2 2 k_row k_coll)))
      M) M

/-- The member `CADMapper::enforce_tangent_continuity` (l. 881-1096). -/
def enforce_tangent_continuity {α : Type} [Mul α] [Add α]
    (master_patch slave_patch : Patch α) (u_m v_m u_s v_s : α)
    (tangent_on_master_patch tangent_on_slave_patch : Vec2 α)
    (mapping_matrix_ids_gpi_master mapping_matrix_ids_gpi_slave : UblasMatrix Nat)
    (J1 gp_i_weight penalty_factor_tangent_continuity : α) (s : MappingSystem α) :
    MappingSystem α :=
  let m := master_patch.m_nurbs_surface.ComputeSecondVariationOfLocalCSY u_m v_m
    tangent_on_master_patch
  let sl := slave_patch.m_nurbs_surface.ComputeSecondVariationOfLocalCSY u_s v_s
    tangent_on_slave_patch
  let fac := inner_prod m.T3 sl.T1
  let rhs := tangent_continuity_rhs mapping_matrix_ids_gpi_master mapping_matrix_ids_gpi_slave
    m sl fac J1 gp_i_weight penalty_factor_tangent_continuity s.m_mapping_rhs_vector
  -- Master-Master-relation ( MM ), l. 961-993
  let MM := tangent_continuity_block mapping_matrix_ids_gpi_master mapping_matrix_ids_gpi_master
    (fun a k_row k_coll =>
      inner_prod (m.t3r (3 * k_coll + a)) sl.T1 * inner_prod (m.t3r (3 * k_row + a)) sl.T1)
    (fun a k_row k_coll => fac * inner_prod (m.t3rs (3 * k_row + a) (3 * k_coll + a)) sl.T1)
    J1 gp_i_weight penalty_factor_tangent_continuity s.m_mapping_matrix_CAD_CAD
  -- Slave-Slave-relation ( SS ), l. 995-1027
  let SS := tangent_continuity_block mapping_matrix_ids_gpi_slave mapping_matrix_ids_gpi_slave
    (fun a k_row k_coll =>
      inner_prod (sl.t1r (3 * k_coll + a)) m.T3 * inner_prod m.T3 (sl.t1r (3 * k_row + a)))
    (fun a k_row k_coll => fac * inner_prod m.T3 (sl.t1rs (3 * k_row + a) (3 * k_coll + a)))
    J1 gp_i_weight penalty_factor_tangent_continuity MM
  -- Master-slave-relation ( MS ), l. 1029-1061
  let MS := tangent_continuity_block mapping_matrix_ids_gpi_master mapping_matrix_ids_gpi_slave
    (fun a k_row k_coll =>
      inner_prod m.T3 (sl.t1r (3 * k_coll + a)) * inner_prod (m.t3r (3 * k_row + a)) sl.T1)
    (fun a k_row k_coll => fac * inner_prod (m.t3r (3 * k_row + a)) (sl.t1r (3 * k_coll + a)))
    J1 gp_i_weight penalty_factor_tangent_continuity SS
  -- Master-slave-relation ( SM ), l. 1063-1095
  let SM := tangent_continuity_block mapping_matrix_ids_gpi_slave mapping_matrix_ids_gpi_master
    (fun a k_row k_coll =>
      inner_prod (m.t3r (3 * k_coll + a)) sl.T1 * inner_prod m.T3 (sl.t1r (3 * k_row + a)))
    (fun a k_row k_coll => fac * inner_prod (m.t3r (3 * k_coll + a)) (sl.t1r (3 * k_row + a)))
    J1 gp_i_weight penalty_factor_tangent_continuity MS
  { s with m_mapping_rhs_vector := rhs, m_mapping_matrix_CAD_CAD := SM }

/-- Lines 550-562 of `apply_coupling_condition`: the scan of
`edges_with_enforced_tangent_continuity` (entries `[edge id, penalty factor]`); the result
is `(tangent_continuity_to_be_enforced, penalty_factor_tangent_continuity)`. -/
def tangent_continuity_request {α : Type} [Zero α] (edge_id : Nat)
    (edges_with_enforced_tangent_continuity : List (Nat × α)) : Bool × α :=
  edges_with_enforced_tangent_continuity.foldl
    (fun st entry => if edge_id = entry.1 then (true, entry.2) else st) (false, 0)

/-- Lines 567-643 of `apply_coupling_condition`: the body of the loop over the Gauss
points of the coupling element. -/
def apply_coupling_condition_gauss_point {α : Type} [LinearOrderedRing α] [Inhabited α]
    (norm_2 : Vec3 α → α) (m_patches : List (Patch α))
    (penalty_factor_disp penalty_factor_rot : α)
    (tangent_continuity_to_be_enforced : Bool) (penalty_factor_tangent_continuity : α)
    (brep_gp_i : BREPGaussPoint α) (s : MappingSystem α) : MappingSystem α :=
  let master_patch := master_patch_of m_patches brep_gp_i
  let slave_patch := slave_patch_of m_patches brep_gp_i
  let gp_i_weight := brep_gp_i.weight
  let tangent_on_master_patch := brep_gp_i.tangent
  let tangent_on_slave_patch := brep_gp_i.tangent_slave
  let u_m := brep_gp_i.location.x
  let v_m := brep_gp_i.location.y
  let R_gpi_master := R_gpi_master_of m_patches brep_gp_i
  let mapping_matrix_ids_gpi_master := mapping_matrix_ids_gpi_master_of m_patches brep_gp_i
  let u_s := brep_gp_i.location_slave.x
  let v_s := brep_gp_i.location_slave.y
  let R_gpi_slave := R_gpi_slave_of m_patches brep_gp_i
  let mapping_matrix_ids_gpi_slave := mapping_matrix_ids_gpi_slave_of m_patches brep_gp_i
  let J1 := J1_of norm_2 m_patches brep_gp_i
  let s1 := apply_displacement_coupling mapping_matrix_ids_gpi_master
    mapping_matrix_ids_gpi_slave R_gpi_master R_gpi_slave J1 gp_i_weight penalty_factor_disp s
  if tangent_continuity_to_be_enforced then
    enforce_tangent_continuity master_patch slave_patch u_m v_m u_s v_s
      tangent_on_master_patch tangent_on_slave_patch
      mapping_matrix_ids_gpi_master mapping_matrix_ids_gpi_slave
      J1 gp_i_weight penalty_factor_tangent_continuity s1
  else
    apply_rotation_coupling master_patch slave_patch u_m v_m u_s v_s
      tangent_on_master_patch tangent_on_slave_patch
      mapping_matrix_ids_gpi_master mapping_matrix_ids_gpi_slave
      J1 gp_i_weight penalty_factor_rot s1

/-- The member `CADMapper::apply_coupling_condition` (l. 542-644). -/
def apply_coupling_condition {α : Type} [LinearOrderedRing α] [Inhabited α]
    (norm_2 : Vec3 α → α) (m_patches : List (Patch α)) (brep_elem_i : BREPElement α)
    (penalty_factor_disp penalty_factor_rot : α)
    (edges_with_enforced_tangent_continuity : List (Nat × α)) (s : MappingSystem α) :
    MappingSystem α :=
  let brep_gps := brep_elem_i.gauss_points
  let request := tangent_continuity_request brep_elem_i.edge_id
    edges_with_enforced_tangent_continuity
  brep_gps.foldl (fun s brep_gp_i =>
    apply_coupling_condition_gauss_point norm_2 m_patches penalty_factor_disp
      penalty_factor_rot request.1 request.2 brep_gp_i s) s

/-- Lines 1106-1119 of `apply_dirichlet_condition`: the scan of
`edges_with_specific_dirichlet_conditions` (entries `[edge id, [fix_x, fix_y, fix_z]]`);
the result is `(fix_x, fix_y, fix_z)`. -/
def dirichlet_fixing (edge_id : Nat)
    (edges_with_specific_dirichlet_conditions : List (Nat × Bool × Bool × Bool)) :
    Bool × Bool × Bool :=
  edges_with_specific_dirichlet_conditions.foldl
    (fun st entry => if edge_id = entry.1 then entry.2 else st) (true, true, true)

/-- Lines 1150-1174: the merge of one Dirichlet Gauss point into the mapping matrix. -/
def dirichlet_merge {α : Type} [Mul α] [Add α] (fix_x fix_y fix_z : Bool)
    (mapping_matrix_ids_gpi_master : UblasMatrix Nat) (R_gpi_master : UblasMatrix α)
    (J1 gp_i_weight penalty_factor_dirichlet : α) (M : SparseMatrixType α) :
    SparseMatrixType α :=
  forLoop mapping_matrix_ids_gpi_master.size1 (fun i M =>
    forLoop mapping_matrix_ids_gpi_master.size2 (fun j M =>
      let R_row_id := mapping_matrix_ids_gpi_master.get i j
      let R_row := R_gpi_master.get i j
      forLoop mapping_matrix_ids_gpi_master.size1 (fun k M =>
        forLoop mapping_matrix_ids_gpi_master.size2 (fun l M =>
          let R_coll_id := mapping_matrix_ids_gpi_master.get k l
          let R_coll := R_gpi_master.get k l
          let Mx := if fix_x then
            addAt M (3 * R_row_id + 0) (3 * R_coll_id + 0)
              (penalty_factor_dirichlet * gp_i_weight * J1 * R_row * R_coll) else M
          let My := if fix_y then
            addAt Mx (3 * R_row_id + 1) (3 * R_coll_id + 1)
              (penalty_factor_dirichlet * gp_i_weight * J1 * R_row * R_coll) else Mx
          if fix_z then
            addAt My (3 * R_row_id + 2) (3 * R_coll_id + 2)
              (penalty_factor_dirichlet * gp_i_weight * J1 * R_row * R_coll) else My) M) M) M) M

/-- Lines 1124-1174 of `apply_dirichlet_condition`: the body of the loop over the Gauss
points of the Dirichlet element. -/
def apply_dirichlet_condition_gauss_point {α : Type} [Mul α] [Add α]
    [Inhabited α] (norm_2 : Vec3 α → α) (m_patches : List (Patch α))
    (penalty_factor_dirichlet : α) (fix_x fix_y fix_z : Bool)
    (brep_gp_i : BREPGaussPoint α) (s : MappingSystem α) : MappingSystem α :=
  let gp_i_weight := brep_gp_i.weight
  let R_gpi_master := R_gpi_master_of m_patches brep_gp_i
  let mapping_matrix_ids_gpi_master := mapping_matrix_ids_gpi_master_of m_patches brep_gp_i
  let J1 := J1_of norm_2 m_patches brep_gp_i
  { s with
    m_mapping_matrix_CAD_CAD :=
      dirichlet_merge fix_x fix_y fix_z mapping_matrix_ids_gpi_master R_gpi_master
        J1 gp_i_weight penalty_factor_dirichlet s.m_mapping_matrix_CAD_CAD }

/-- The member `CADMapper::apply_dirichlet_condition` (l. 1099-1176). -/
def apply_dirichlet_condition {α : Type} [Mul α] [Add α] [Inhabited α]
    (norm_2 : Vec3 α → α) (m_patches : List (Patch α)) (brep_elem_i : BREPElement α)
    (penalty_factor_dirichlet : α)
    (edges_with_specific_dirichlet_conditions : List (Nat × Bool × Bool × Bool))
    (s : MappingSystem α) : MappingSystem α :=
  let brep_gps := brep_elem_i.gauss_points
  let fix := dirichlet_fixing brep_elem_i.edge_id edges_with_specific_dirichlet_conditions
  brep_gps.foldl (fun s brep_gp_i =>
    apply_dirichlet_condition_gauss_point norm_2 m_patches penalty_factor_dirichlet
      fix.1 fix.2.1 fix.2.2 brep_gp_i s) s

/-! ## `CADMapper::map_to_cad_space` (cad_mapper.h l. 1179-1229) -/

/-- What `map_to_cad_space` reads from a node of the FE model part. -/
structure FENode (α : Type) where
  /-- `GetValue(MAPPING_MATRIX_ID)` -/
  MAPPING_MATRIX_ID : Nat
  /-- `GetValue(SHAPE_CHANGE_ABSOLUTE_X)` -/
  SHAPE_CHANGE_ABSOLUTE_X : α
  /-- `GetValue(SHAPE_CHANGE_ABSOLUTE_Y)` -/
  SHAPE_CHANGE_ABSOLUTE_Y : α
  /-- `GetValue(SHAPE_CHANGE_ABSOLUTE_Z)` -/
  SHAPE_CHANGE_ABSOLUTE_Z : α

/-- The assignment `M(r,c) = v`. -/
def setAt {α : Type} (M : SparseMatrixType α) (r c : Nat) (v : α) : SparseMatrixType α :=
  fun p q => if p = r ∧ q = c then v else M p q

/-- The assignment `x[r] = v`. -/
def setAtVec {α : Type} (x : Nat → α) (r : Nat) (v : α) : Nat → α :=
  fun p => if p = r then v else x p

/-- Lines 1184-1193: the check of the main diagonal; `size1` is
`m_mapping_matrix_CAD_CAD.size1()`. -/
def check_main_diagonal {α : Type} [LinearOrderedField α] (size1 : Nat)
    (M : SparseMatrixType α) : SparseMatrixType α :=
  forLoop size1 (fun i M =>
    if abs (M i i) < 1 / 10000000000 then setAt M i i (1 / 1000) else M) M

/-- Lines 1196 and 1200-1207: `dx`, zero-initialised, filled from the nodes. -/
def gather_dx {α : Type} [Zero α] (nodes : List (FENode α)) : Nat → α :=
  nodes.foldl (fun dx node_i =>
    let mapping_id := node_i.MAPPING_MATRIX_ID
    setAtVec (setAtVec (setAtVec dx (3 * mapping_id + 0) node_i.SHAPE_CHANGE_ABSOLUTE_X)
      (3 * mapping_id + 1) node_i.SHAPE_CHANGE_ABSOLUTE_Y)
      (3 * mapping_id + 2) node_i.SHAPE_CHANGE_ABSOLUTE_Z) (fun _ => 0)

/-- The uBLAS `prod(M, x)` of a matrix with `size2` columns and a vector. -/
def prod {α : Type} [Mul α] [AddCommMonoid α] (M : SparseMatrixType α) (size2 : Nat)
    (x : Nat → α) : Nat → α :=
  fun p => ∑ q ∈ Finset.range size2, M p q * x q

/-- Lines 1184-1211 of `map_to_cad_space`: the mapping system as it is handed to the
linear solver (checked matrix and completed right-hand side). -/
def map_to_cad_space_system {α : Type} [LinearOrderedField α] (nodes : List (FENode α))
    (s : MappingSystem α) : MappingSystem α :=
  let dx := gather_dx nodes
  { s with
    m_mapping_matrix_CAD_CAD :=
      check_main_diagonal (3 * s.m_n_relevant_control_points) s.m_mapping_matrix_CAD_CAD
    m_mapping_rhs_vector := fun p =>
      s.m_mapping_rhs_vector p +
        prod s.m_mapping_matrix_CAD_FEM (3 * s.m_n_relevant_fem_points) dx p }

/-- Lines 1196-1215 of `map_to_cad_space`: the vector `ds` after
`m_linear_solver->Solve(mapping_matrix_CAD_CAD, ds, m_mapping_rhs_vector)`; `Solve` is the
external linear solver, called with the zero-initialised `ds`. -/
def map_to_cad_space_ds {α : Type} [LinearOrderedField α]
    (Solve : SparseMatrixType α → (Nat → α) → (Nat → α) → (Nat → α))
    (nodes : List (FENode α)) (s : MappingSystem α) : Nat → α :=
  let sys := map_to_cad_space_system nodes s
  Solve sys.m_mapping_matrix_CAD_CAD (fun _ => 0) sys.m_mapping_rhs_vector

/-! ## Specification-side quantities

The quantities below follow the wording of the specification; the theorems compare them
with the functions translated from the source. -/

/-- The entry that "add `v` to each of the three diagonal strides at `(r, c)`" gives at
position `(p, q)`: `v` when `(p, q) = (3*r + a, 3*c + a)` for an axis `a`. -/
def axisTerm {α : Type} [AddCommMonoid α] (r c : Nat) (v : α) (p q : Nat) : α :=
  ∑ a ∈ Finset.range 3, if p = 3 * r + a ∧ q = 3 * c + a then v else 0

/-- The sum of `f j i` over "the support": all positions `(j, i)` of the id matrix. -/
def supportSum {α : Type} [AddCommMonoid α] (ids : UblasMatrix Nat) (f : Nat → Nat → α) : α :=
  ∑ i ∈ Finset.range ids.size2, ∑ j ∈ Finset.range ids.size1, f j i

/-- An FE Gauss point as section 4.3 of the specification describes it: "integration
weight w, CAD basis values R over its knot span, and FE shape values N", with the rows
of the control points and the indices of the FE nodes. -/
structure FEGaussPoint (α : Type) where
  w : α
  R : UblasMatrix α
  row : UblasMatrix Nat
  n_fem_nodes : Nat
  N : Nat → α
  node : Nat → Nat

/-- The FE Gauss point with number `PointNumber` of the condition `cond_i`, whose
correspondence record has the running number `fem_gp_itr`. -/
def fe_gauss_point {α : Type} [Inhabited α] (m_patches : List (Patch α))
    (lists : NearestPointLists α) (cond_i : Condition α) (fem_gp_itr PointNumber : Nat) :
    FEGaussPoint α :=
  { w := cond_i.Weight PointNumber
    R := R_CAD_Pi_of m_patches lists fem_gp_itr
    row := mapping_matrix_ids_cad_of m_patches lists fem_gp_itr
    n_fem_nodes := cond_i.n_fem_nodes
    N := cond_i.N_container PointNumber
    node := cond_i.mapping_matrix_ids_fem }

/-- The FE Gauss points of the conditions in traversal order; `first` is the running
number of the first Gauss point of the first condition. -/
def fe_gauss_points_from {α : Type} [Inhabited α] (m_patches : List (Patch α))
    (lists : NearestPointLists α) : List (Condition α) → Nat → List (FEGaussPoint α)
  | [], _ => []
  | cond_i :: rest, first =>
    (List.range cond_i.number_of_integration_points).map (fun PointNumber =>
      fe_gauss_point m_patches lists cond_i (first + PointNumber) PointNumber) ++
    fe_gauss_points_from m_patches lists rest (first + cond_i.number_of_integration_points)

/-- All FE Gauss points of the FE model part. -/
def fe_gauss_points {α : Type} [Inhabited α] (m_patches : List (Patch α))
    (lists : NearestPointLists α) (conditions : List (Condition α)) : List (FEGaussPoint α) :=
  fe_gauss_points_from m_patches lists conditions 0

/-- "for every pair (CAD control point i, CAD control point j) in the support, add
`w * R_i * R_j` to each of the three diagonal strides of the CAD-CAD matrix at
(row_i, row_j)": the entry `(p, q)` one Gauss point gives. -/
def CAD_CAD_term {α : Type} [CommRing α] (g : FEGaussPoint α) (p q : Nat) : α :=
  supportSum g.row (fun j i => supportSum g.row (fun l k =>
    axisTerm (g.row.get j i) (g.row.get l k) (g.w * g.R.get j i * g.R.get l k) p q))

/-- "for every pair (CAD control point i, FE node k) add `w * R_i * N_k` to the CAD-FEM
matrix": the entry `(p, q)` one Gauss point gives. -/
def CAD_FEM_term {α : Type} [CommRing α] (g : FEGaussPoint α) (p q : Nat) : α :=
  supportSum g.row (fun j i => ∑ k ∈ Finset.range g.n_fem_nodes,
    axisTerm (g.row.get j i) (g.node k) (g.w * g.R.get j i * g.N k) p q)

/-- The CAD-CAD matrix of the specification: the sum over all FE Gauss points. -/
def CAD_CAD_spec {α : Type} [CommRing α] (gps : List (FEGaussPoint α)) (p q : Nat) : α :=
  (gps.map (fun g => CAD_CAD_term g p q)).sum

/-- The CAD-FEM matrix of the specification: the sum over all FE Gauss points. -/
def CAD_FEM_spec {α : Type} [CommRing α] (gps : List (FEGaussPoint α)) (p q : Nat) : α :=
  (gps.map (fun g => CAD_FEM_term g p q)).sum

/-- The number of control points flagged relevant. -/
def relevant_count {α : Type} (cps : List (ControlPoint α)) : Nat :=
  (cps.filter (fun cp => cp.m_is_relevant_for_mapping)).length

/-- The quadratic form `x^T A x` over the indices `0 .. n-1`. -/
def quadForm {α : Type} [CommRing α] (n : Nat) (x : Nat → α) (A : Nat → Nat → α) : α :=
  ∑ p ∈ Finset.range n, ∑ q ∈ Finset.range n, x p * A p q * x q

/-- The block "add `c * R_row,i * R_col,j` on each of the three axis strides at
(row_i, col_j)" for all pairs of the two supports: its entry `(p, q)`. -/
def coupling_block {α : Type} [CommRing α] (ids_row ids_col : UblasMatrix Nat)
    (R_row R_col : UblasMatrix α) (c : α) (p q : Nat) : α :=
  supportSum ids_row (fun j i => supportSum ids_col (fun l k =>
    axisTerm (ids_row.get j i) (ids_col.get l k) (c * R_row.get j i * R_col.get l k) p q))

/-- The value `R . x` of one side of the seam on axis `a`: the sum of
`R_i * x[3*row_i + a]` over the support. -/
def side_value {α : Type} [CommRing α] (ids : UblasMatrix Nat) (R : UblasMatrix α)
    (x : Nat → α) (a : Nat) : α :=
  supportSum ids (fun j i => R.get j i * x (3 * ids.get j i + a))

/-- The ids of a support are pairwise distinct. -/
def distinct_ids (ids : UblasMatrix Nat) : Prop :=
  ∀ i < ids.size2, ∀ j < ids.size1, ∀ i' < ids.size2, ∀ j' < ids.size1,
    ids.get j i = ids.get j' i' → j = j' ∧ i = i'

/-- No id of the first support occurs in the second. -/
def disjoint_ids (ids ids' : UblasMatrix Nat) : Prop :=
  ∀ i < ids.size2, ∀ j < ids.size1, ∀ i' < ids'.size2, ∀ j' < ids'.size1,
    ids.get j i ≠ ids'.get j' i'

/-- Whether axis `a` (0 = x, 1 = y, 2 = z) is fixed by the flags `(fix_x, fix_y, fix_z)`. -/
def axis_fixed (fix : Bool × Bool × Bool) (a : Nat) : Bool :=
  if a = 0 then fix.1 else if a = 1 then fix.2.1 else fix.2.2

/-- The Dirichlet block: "add `c * R_i * R_j` to the axis-`a` stride at (row_i, row_j)"
for every fixed axis `a` and all pairs of the support: its entry `(p, q)`. -/
def dirichlet_block {α : Type} [CommRing α] (fix : Bool × Bool × Bool)
    (ids : UblasMatrix Nat) (R : UblasMatrix α) (c : α) (p q : Nat) : α :=
  supportSum ids (fun j i => supportSum ids (fun l k =>
    ∑ a ∈ Finset.range 3,
      if axis_fixed fix a = true ∧ p = 3 * ids.get j i + a ∧ q = 3 * ids.get l k + a
      then c * R.get j i * R.get l k else 0))

/-- The component of a displacement on axis `a` (0 = x, 1 = y, otherwise z). -/
def Vec3.component {α : Type} (d : Vec3 α) (a : Nat) : α :=
  if a = 0 then d.x else if a = 1 then d.y else d.z

/-- The vector that assigns the displacement `d` to every control point (or FE node):
entry `3*k + a` is the component `a` of `d`. -/
def uniform_displacement {α : Type} (d : Vec3 α) : Nat → α :=
  fun q => d.component (q % 3)

/-- The `n x n` matrix `A` is nonsingular: `A x = 0` only for `x = 0`. -/
def nonsingular {α : Type} [CommRing α] (n : Nat) (A : SparseMatrixType α) : Prop :=
  ∀ x : Nat → α, (∀ p < n, prod A n x p = 0) → ∀ q < n, x q = 0

/-- The entry `p` one FE Gauss point contributes to either side of the mapping system
when every control point and every FE node carries the displacement `d`:
`w * R_i * d_a` at `3*row_i + a`. -/
def uniform_row_term {α : Type} [CommRing α] (d : Vec3 α) (g : FEGaussPoint α) (p : Nat) : α :=
  supportSum g.row (fun j i =>
    ∑ a ∈ Finset.range 3, if p = 3 * g.row.get j i + a then g.w * g.R.get j i * d.component a
      else 0)

/-! ## Concrete inputs

Small inputs on which the functions above are evaluated. -/

/-- The even-odd ray-crossing containment test, an instance of the `within` parameter of
`Patch.CheckIfPointIsInside`: a ray from `poi` in the positive x direction toggles the
answer at every edge of the ring it crosses. -/
def crossing_within {α : Type} [LinearOrderedRing α] (poi : Vec2 α) (ring : List (Vec2 α)) :
    Bool :=
  (ring.zip ring.tail).foldl (fun inside edge =>
    let a := edge.1
    let b := edge.2
    if (decide (a.y > poi.y) != decide (b.y > poi.y)) &&
        (if b.y > a.y
          then decide ((poi.y - a.y) * (b.x - a.x) > (poi.x - a.x) * (b.y - a.y))
          else decide ((poi.y - a.y) * (b.x - a.x) < (poi.x - a.x) * (b.y - a.y)))
    then !inside else inside) false

/-- The square with corners `(lo, lo)` and `(hi, hi)` as a boundary polygon. -/
def square_polygon (lo hi : ℤ) : List (Vec2 ℤ) :=
  [{ x := lo, y := lo }, { x := hi, y := lo }, { x := hi, y := hi }, { x := lo, y := hi }]

/-- A surface whose support at every parametric point is the 1 x 2 block of the control
points with rows 0 and 1, with basis values 3 and 5; its three control points carry no
row id yet, the first and the third are flagged relevant. -/
def example_surface : NURBSSurface ℤ :=
  { (default : NURBSSurface ℤ) with
    m_control_points :=
      [{ X := 0, Y := 0, Z := 0, W := 1, m_global_id := 10, m_is_relevant_for_mapping := true,
         m_mapping_matrix_id := none, dX := 0, dY := 0, dZ := 0 },
       { X := 1, Y := 0, Z := 0, W := 1, m_global_id := 11, m_is_relevant_for_mapping := false,
         m_mapping_matrix_id := none, dX := 0, dY := 0, dZ := 0 },
       { X := 2, Y := 0, Z := 0, W := 1, m_global_id := 12, m_is_relevant_for_mapping := true,
         m_mapping_matrix_id := none, dX := 0, dY := 0, dZ := 0 }]
    EvaluateNURBSFunctions := fun _ _ _ _ =>
      { size1 := 1, size2 := 2, get := fun _ i => if i = 0 then 3 else 5 }
    GetMappingMatrixIds := fun _ _ _ _ =>
      { size1 := 1, size2 := 2, get := fun _ i => i } }

/-- A second surface: one control point, flagged relevant, with row 2 and basis value 3. -/
def example_surface_slave : NURBSSurface ℤ :=
  { (default : NURBSSurface ℤ) with
    m_control_points :=
      [{ X := 0, Y := 1, Z := 0, W := 1, m_global_id := 20, m_is_relevant_for_mapping := true,
         m_mapping_matrix_id := none, dX := 0, dY := 0, dZ := 0 }]
    EvaluateNURBSFunctions := fun _ _ _ _ =>
      { size1 := 1, size2 := 1, get := fun _ _ => 3 }
    GetMappingMatrixIds := fun _ _ _ _ =>
      { size1 := 1, size2 := 1, get := fun _ _ => 2 } }

/-- Two patches: patch 4 is trimmed by the outer square `[0,4]^2`, patch 9 has no loop. -/
def example_patches : List (Patch ℤ) :=
  [{ m_patch_id := 4, m_nurbs_surface := example_surface,
     m_boundary_loops := [{ boundary_polygon := square_polygon 0 4, is_inner_loop := false }] },
   { m_patch_id := 9, m_nurbs_surface := example_surface_slave, m_boundary_loops := [] }]

/-- Correspondence lists that send every FE Gauss point to patch position 0. -/
def example_lists : NearestPointLists ℤ :=
  { list_of_u_of_nearest_points := fun _ => 0
    list_of_v_of_nearest_points := fun _ => 0
    list_of_span_u_of_nearest_points := fun _ => 0
    list_of_span_v_of_nearest_points := fun _ => 0
    list_of_patch_of_nearest_points := fun _ => 0 }

/-- One condition with two nodes (indices 0 and 1) and one integration point of weight 2
with shape values 1 and 4. -/
def example_conditions : List (Condition ℤ) :=
  [{ n_fem_nodes := 2
     mapping_matrix_ids_fem := fun k => k
     number_of_integration_points := 1
     Weight := fun _ => 2
     N_container := fun _ k => if k = 0 then 1 else 4 }]

/-- A BREP Gauss point with master patch 4 and slave patch 9, weight 1. -/
def example_brep_gauss_point : BREPGaussPoint ℤ :=
  { master_patch_id := 4, slave_patch_id := 9, weight := 1
    location := { x := 0, y := 0 }, tangent := { x := 1, y := 0 }
    location_slave := { x := 0, y := 0 }, tangent_slave := { x := 1, y := 0 } }

/-- A BREP element on edge 7 with one Gauss point; `coupling` selects its kind. -/
def example_brep_element (coupling : Bool) : BREPElement ℤ :=
  { edge_id := 7, gauss_points := [example_brep_gauss_point]
    has_coupling_condition := coupling, has_dirichlet_condition := !coupling }

/-- A 1 x 1 id matrix holding the id `id`. -/
def single_id (id : Nat) : UblasMatrix Nat :=
  { size1 := 1, size2 := 1, get := fun _ _ => id }

/-- A 1 x 1 matrix of basis values holding `v`. -/
def single_value (v : ℤ) : UblasMatrix ℤ :=
  { size1 := 1, size2 := 1, get := fun _ _ => v }

/-- The polynomial surface `Q(u,v) = (u^2/2, u, v)`, with the gradient and the Hessian of
the squared distance `|Q(u,v) - P|^2` expressed through `Q_minus_P`:
gradient `(2 (Q-P).Q_u, 2 (Q-P).Q_v)`, Hessian entries `2 (Q_u.Q_u + (Q-P).Q_uu)`, `0`, `0`,
`2 Q_v.Q_v`, where `Q_u = (u, 1, 0)`, `Q_v = (0, 0, 1)`, `Q_uu = (1, 0, 0)`. -/
def parabolic_strip : NURBSSurface ℚ :=
  { (default : NURBSSurface ℚ) with
    EvaluateSurfacePoint := fun u v => { x := u * u / 2, y := u, z := v }
    EvaluateGradientsForClosestPointSearch := fun Q_minus_P u _ =>
      ({ a00 := 2 * (u * u + 1 + Q_minus_P.x), a01 := 0, a10 := 0, a11 := 2 },
       { x := 2 * (Q_minus_P.x * u + Q_minus_P.y), y := 2 * Q_minus_P.z }) }

/-- The FE Gauss point `P = (2, -1, 0)`. -/
def parabolic_strip_P : Vec3 ℚ := { x := 2, y := -1, z := 0 }

/-- The start of the search at the coarse sample `(u, v) = (0, 0)` of `parabolic_strip`
(the only sample of the knot range `[-1,1]^2` at resolution 2). -/
def parabolic_strip_start : NewtonState ℚ :=
  newton_raphson_init 0 0 (parabolic_strip.EvaluateSurfacePoint 0 0)

/-- The two states between which the search on `parabolic_strip` alternates, with a step
of norm at least 1. -/
def parabolic_strip_cycle (s : NewtonState ℚ) : Prop :=
  ((s.u_k = 0 ∧ s.v_k = 0 ∧ s.Q_k = { x := 0, y := 0, z := 0 }) ∨
   (s.u_k = 1 ∧ s.v_k = 0 ∧ s.Q_k = { x := 1 / 2, y := 1, z := 0 })) ∧
  1 ≤ s.norm_deltau_sq

/-- A surface over the rationals with one control point (row 0) of basis value 1. -/
def unit_surface : NURBSSurface ℚ :=
  { (default : NURBSSurface ℚ) with
    EvaluateNURBSFunctions := fun _ _ _ _ => { size1 := 1, size2 := 1, get := fun _ _ => 1 }
    GetMappingMatrixIds := fun _ _ _ _ => { size1 := 1, size2 := 1, get := fun _ _ => 0 } }

/-- One patch carrying `unit_surface`. -/
def unit_patches : List (Patch ℚ) :=
  [{ m_patch_id := 1, m_nurbs_surface := unit_surface, m_boundary_loops := [] }]

/-- Correspondence lists over the rationals that send every Gauss point to patch 0. -/
def unit_lists : NearestPointLists ℚ :=
  { list_of_u_of_nearest_points := fun _ => 0
    list_of_v_of_nearest_points := fun _ => 0
    list_of_span_u_of_nearest_points := fun _ => 0
    list_of_span_v_of_nearest_points := fun _ => 0
    list_of_patch_of_nearest_points := fun _ => 0 }

/-- One condition with one node (index 0), one integration point of weight 1 and shape
value 1. -/
def unit_conditions : List (Condition ℚ) :=
  [{ n_fem_nodes := 1
     mapping_matrix_ids_fem := fun _ => 0
     number_of_integration_points := 1
     Weight := fun _ => 1
     N_container := fun _ _ => 1 }]

/-- One FE node with index 0 and the incoming displacement `(1, 0, 0)`. -/
def unit_nodes : List (FENode ℚ) :=
  [{ MAPPING_MATRIX_ID := 0, SHAPE_CHANGE_ABSOLUTE_X := 1, SHAPE_CHANGE_ABSOLUTE_Y := 0,
     SHAPE_CHANGE_ABSOLUTE_Z := 0 }]

/-! ## `CADMapper::apply_boundary_conditions` (cad_mapper.h l. 519-539) -/

/-- The member `CADMapper::apply_boundary_conditions` (l. 519-539): the loop over
`m_brep_elements` with the dispatch on `HasCouplingCondition()` and, failing that, on
`HasDirichletCondition()`. The function has no other statement. -/
def apply_boundary_conditions {α : Type} [LinearOrderedRing α] [Inhabited α]
    (norm_2 : Vec3 α → α) (m_patches : List (Patch α))
    (m_brep_elements : List (BREPElement α))
    (penalty_factor_disp penalty_factor_rot penalty_factor_dirichlet : α)
    (edges_with_specific_dirichlet_conditions : List (Nat × Bool × Bool × Bool))
    (edges_with_enforced_tangent_continuity : List (Nat × α)) (s : MappingSystem α) :
    MappingSystem α :=
  m_brep_elements.foldl (fun s brep_elem_i =>
    if brep_elem_i.has_coupling_condition then
      apply_coupling_condition norm_2 m_patches brep_elem_i penalty_factor_disp
        penalty_factor_rot edges_with_enforced_tangent_continuity s
    else if brep_elem_i.has_dirichlet_condition then
      apply_dirichlet_condition norm_2 m_patches brep_elem_i penalty_factor_dirichlet
        edges_with_specific_dirichlet_conditions s
    else s) s

/-! ## Calls of the public members in sequence -/

/-- One call of a public member of `CADMapper` that writes the mapping system, with its
arguments and the data of the members it reads. -/
inductive MapperCall (α : Type) where
  /-- `compute_mapping_matrix(u_resolution, v_resolution)`, l. 421-514 on the system -/
  | compute_mapping_matrix (m_patches : List (Patch α)) (lists : NearestPointLists α)
      (conditions : List (Condition α)) (n_cp n_fem : Nat)
  /-- `apply_boundary_conditions(...)`, l. 519-539 -/
  | apply_boundary_conditions (norm_2 : Vec3 α → α) (m_patches : List (Patch α))
      (m_brep_elements : List (BREPElement α))
      (penalty_factor_disp penalty_factor_rot penalty_factor_dirichlet : α)
      (edges_with_specific_dirichlet_conditions : List (Nat × Bool × Bool × Bool))
      (edges_with_enforced_tangent_continuity : List (Nat × α))
  /-- `map_to_cad_space()`, l. 1184-1211 on the system -/
  | map_to_cad_space (nodes : List (FENode α))

/-- The effect of one call on the members `m_mapping_matrix_CAD_CAD`,
`m_mapping_matrix_CAD_FEM` and `m_mapping_rhs_vector`. -/
def MapperCall.run {α : Type} [LinearOrderedField α] [Inhabited α] :
    MapperCall α → MappingSystem α → MappingSystem α
  | .compute_mapping_matrix m_patches lists conditions n_cp n_fem, _ =>
    compute_mapping_matrix_assembly m_patches lists conditions n_cp n_fem
  | .apply_boundary_conditions norm_2 m_patches m_brep_elements penalty_factor_disp
      penalty_factor_rot penalty_factor_dirichlet edges_with_specific_dirichlet_conditions
      edges_with_enforced_tangent_continuity, s =>
    Kratos.apply_boundary_conditions norm_2 m_patches m_brep_elements penalty_factor_disp
      penalty_factor_rot penalty_factor_dirichlet edges_with_specific_dirichlet_conditions
      edges_with_enforced_tangent_continuity s
  | .map_to_cad_space nodes, s => map_to_cad_space_system nodes s

/-- A sequence of calls, executed from left to right. -/
def run_calls {α : Type} [LinearOrderedField α] [Inhabited α] (calls : List (MapperCall α))
    (s : MappingSystem α) : MappingSystem α :=
  calls.foldl (fun s call => call.run s) s

/-! ## `CADMapper::compute_mapping_matrix`, node numbering (cad_mapper.h l. 413-419) -/

/-- Lines 413-419: every node of the FE model part receives the running counter
`m_n_relevant_fem_points` as its `MAPPING_MATRIX_ID`; the result is the nodes after the
loop and the final counter. -/
def compute_mapping_matrix_node_indexing {α : Type} (nodes : List (FENode α)) :
    List (FENode α) × Nat :=
  nodes.foldl (fun st node_i =>
    (st.1 ++ [{ node_i with MAPPING_MATRIX_ID := st.2 }], st.2 + 1)) ([], 0)

/-! ## `CADModelReader::UpdateControlPoints` (cad_model_reader.h l. 402-428) -/

/-- Modelled from the spec: `ControlPoint::GetMappingMatrixId` (control_point.h is not
part of the sources at hand), the row id "assigned only if relevant": there is no value to
return before `SetMappingMatrixId` was called. -/
def ControlPoint.GetMappingMatrixId {α : Type} (cp : ControlPoint α) : Option Nat :=
  cp.m_mapping_matrix_id

/-- Lines 415-423 of `UpdateControlPoints`: the body of the loop over the control points,
`setdX(ds[3*id+0]); setdY(ds[3*id+1]); setdZ(ds[3*id+2]);` on a relevant control point.
The result is `none` when the row id cannot be read. -/
def update_control_point {α : Type} (ds : Nat → α) (cp_i : ControlPoint α) :
    Option (ControlPoint α) :=
  if cp_i.m_is_relevant_for_mapping then
    match cp_i.GetMappingMatrixId with
    | some cp_mapping_matrix_id =>
      some { cp_i with
        dX := ds (3 * cp_mapping_matrix_id + 0)
        dY := ds (3 * cp_mapping_matrix_id + 1)
        dZ := ds (3 * cp_mapping_matrix_id + 2) }
    | none => none
  else some cp_i

/-- Lines 413-427: the loop over the control points of one patch (the map from global ids
to control points filled at l. 425-426 is read by step 2 only). -/
def update_control_points {α : Type} (ds : Nat → α) :
    List (ControlPoint α) → Option (List (ControlPoint α))
  | [] => some []
  | cp_i :: rest =>
    match update_control_point ds cp_i with
    | none => none
    | some cp =>
      match update_control_points ds rest with
      | none => none
      | some cps => some (cp :: cps)

/-- Step 1 of `CADModelReader::UpdateControlPoints` (l. 405-428): the loop over the
patches. Step 2 (l. 430-452) copies the coordinates of the control points to the CAD
geometry data base and writes no control point. -/
def UpdateControlPoints {α : Type} (ds : Nat → α) :
    List (Patch α) → Option (List (Patch α))
  | [] => some []
  | patch_i :: rest =>
    match update_control_points ds patch_i.m_nurbs_surface.m_control_points with
    | none => none
    | some cps =>
      match UpdateControlPoints ds rest with
      | none => none
      | some patches =>
        some ({ patch_i with
          m_nurbs_surface := { patch_i.m_nurbs_surface with m_control_points := cps } }
          :: patches)

/-! ## `CADMapper::compute_mapping_matrix`, flagging of the control points (cad_mapper.h l. 347-389) -/

/-- The statement `v[i] = f(v[i])` on a `std::vector`; a position outside the vector
leaves it as it is. -/
def modifyAt {β : Type} (f : β → β) : List β → Nat → List β
  | [], _ => []
  | x :: xs, 0 => f x :: xs
  | x :: xs, i + 1 => x :: modifyAt f xs i

/-- `SetRelevantForMapping()` on the control points whose storage position, counted from
`k`, is listed in `support`. -/
def flag_from {α : Type} (support : List Nat) :
    Nat → List (ControlPoint α) → List (ControlPoint α)
  | _, [] => []
  | k, cp :: cps =>
    (if k ∈ support then { cp with m_is_relevant_for_mapping := true } else cp)
      :: flag_from support (k + 1) cps

/-- Modelled from the spec: `NURBSSurface::FlagControlPointsForMapping` (nurbs_surface.h
is not part of the sources at hand), "mark as relevant every control point whose basis
function has non-zero support at that correspondence's knot span"; `support` lists the
storage positions of those control points. -/
def NURBSSurface.FlagControlPointsForMapping {α : Type} (surface : NURBSSurface α)
    (support : List Nat) : NURBSSurface α :=
  { surface with m_control_points := flag_from support 0 surface.m_control_points }

/-- The call `m_patches[patch_itr].GetSurface().FlagControlPointsForMapping(span_u,
span_v, u, v)`; `support patch_itr span_u span_v u v` lists the storage positions of the
control points with non-zero basis function on the patch at position `patch_itr`. -/
def flag_patch {α : Type} (support : Nat → Int → Int → α → α → List Nat)
    (m_patches : List (Patch α)) (patch_itr : Nat) (span_u span_v : Int) (u v : α) :
    List (Patch α) :=
  modifyAt (fun patch => { patch with
    m_nurbs_surface :=
      patch.m_nurbs_surface.FlagControlPointsForMapping (support patch_itr span_u span_v u v) })
    m_patches patch_itr

/-- What lines 340-361 keep of the search for one FE Gauss point: the patch, the
parameters and the knot span of its nearest point. -/
structure NearestPoint (α : Type) where
  patch_itr_of_nearest_point : Nat
  u_of_nearest_point : α
  v_of_nearest_point : α
  span_u_of_np : Int
  span_v_of_np : Int
deriving DecidableEq

/-- Lines 347-353 for every FE Gauss point, in the order of the loop over the conditions
and their integration points. -/
def flag_nearest_points {α : Type} (support : Nat → Int → Int → α → α → List Nat)
    (nearest_points : List (NearestPoint α)) (m_patches : List (Patch α)) :
    List (Patch α) :=
  nearest_points.foldl (fun m_patches np =>
    flag_patch support m_patches np.patch_itr_of_nearest_point np.span_u_of_np
      np.span_v_of_np np.u_of_nearest_point np.v_of_nearest_point) m_patches

/-- Lines 366-389: the control points needed by the Gauss points of the BREP elements;
`position` is the map `m_patch_position_in_patch_vector`. -/
def flag_brep_elements {α : Type} (support : Nat → Int → Int → α → α → List Nat)
    (position : Nat → Nat) (m_brep_elements : List (BREPElement α))
    (m_patches : List (Patch α)) : List (Patch α) :=
  m_brep_elements.foldl (fun m_patches brep_elem_i =>
    brep_elem_i.gauss_points.foldl (fun m_patches brep_gp_i =>
      let master := flag_patch support m_patches (position brep_gp_i.master_patch_id)
        (-1) (-1) brep_gp_i.location.x brep_gp_i.location.y
      if brep_elem_i.has_coupling_condition then
        flag_patch support master (position brep_gp_i.slave_patch_id)
          (-1) (-1) brep_gp_i.location_slave.x brep_gp_i.location_slave.y
      else master) m_patches) m_patches

/-- Lines 347-411 of `compute_mapping_matrix`: flagging from the FE Gauss points, flagging
from the BREP elements, then the indexing pass. -/
def compute_mapping_matrix_relevance {α : Type} [Inhabited α]
    (support : Nat → Int → Int → α → α → List Nat) (m_patches : List (Patch α))
    (nearest_points : List (NearestPoint α)) (m_brep_elements : List (BREPElement α)) :
    List (Patch α) × IndexingCounters :=
  compute_mapping_matrix_indexing
    (flag_brep_elements support (m_patch_position_in_patch_vector m_patches) m_brep_elements
      (flag_nearest_points support nearest_points m_patches))

/-! ## Specification-side quantities of the invariants -/

/-- "Axis decoupling": every entry `(3*r + a, 3*c + b)` with `a ≠ b` is zero. -/
def axis_decoupled {α : Type} [Zero α] (M : SparseMatrixType α) : Prop :=
  ∀ r c a b, a < 3 → b < 3 → a ≠ b → M (3 * r + a) (3 * c + b) = 0

/-- Both matrices of the mapping system are axis-decoupled. -/
def MappingSystem.axes_decoupled {α : Type} [Zero α] (s : MappingSystem α) : Prop :=
  axis_decoupled s.m_mapping_matrix_CAD_CAD ∧ axis_decoupled s.m_mapping_matrix_CAD_FEM

/-- "set the displacement (dX, dY, dZ) of every relevant control point with row id `k` to
(ds[3k], ds[3k+1], ds[3k+2])" and leave every other control point as it is. -/
def displacement_written_back {α : Type} (ds : Nat → α) (cp : ControlPoint α) :
    ControlPoint α :=
  match cp.m_is_relevant_for_mapping, cp.m_mapping_matrix_id with
  | true, some k => { cp with dX := ds (3 * k), dY := ds (3 * k + 1), dZ := ds (3 * k + 2) }
  | _, _ => cp

/-- Two lists of control points of the same length in which every control point flagged
relevant in the first is flagged relevant in the second, position by position. -/
def flags_below {α : Type} (cps cps' : List (ControlPoint α)) : Prop :=
  List.Forall₂ (fun cp cp' => cp.m_is_relevant_for_mapping = true →
    cp'.m_is_relevant_for_mapping = true) cps cps'

/-- The same patch by patch. -/
def patches_flags_below {α : Type} (ps ps' : List (Patch α)) : Prop :=
  List.Forall₂ (fun patch patch' => flags_below patch.m_nurbs_surface.m_control_points
    patch'.m_nurbs_surface.m_control_points) ps ps'

/-! ## Concrete inputs of the invariants -/

/-- The point `Q(3, 0) = (9/2, 3, 0)` of `parabolic_strip`, taken on the knot range
`[-5,5] x [-1,1]` with `u_resolution = 10`, `v_resolution = 2`: the coarse samples have
`u = -4, ..., 4` and `v = 0`. -/
def parabolic_strip_surface_point : Vec3 ℚ := { x := 9 / 2, y := 3, z := 0 }

/-- A control point at `(x, y, 0)` with weight 1 and global id `id`, not flagged, without
row id and without displacement. -/
def plain_control_point (id : Nat) (x y : ℤ) : ControlPoint ℤ :=
  { X := x, Y := y, Z := 0, W := 1, m_global_id := id, m_is_relevant_for_mapping := false,
    m_mapping_matrix_id := none, dX := 0, dY := 0, dZ := 0 }

/-- A bilinear patch with 3 x 2 control points (knot vectors `(0,0,1,2,2)` and
`(0,0,1,1)`), stored "first going over u, then over v": position `3*vi + ui`. -/
def bilinear_patches : List (Patch ℤ) :=
  [{ m_patch_id := 1
     m_nurbs_surface :=
      { (default : NURBSSurface ℤ) with
        m_control_points :=
          [plain_control_point 0 0 0, plain_control_point 1 1 0, plain_control_point 2 2 0,
           plain_control_point 3 0 1, plain_control_point 4 1 1, plain_control_point 5 2 1] }
     m_boundary_loops := [] }]

/-- The supports of `bilinear_patches`: the control points `0, 1, 3, 4` on the knot span
`[0,1)` of `u` and `1, 2, 4, 5` on the knot span `[1,2]`. -/
def bilinear_support : Nat → Int → Int → ℤ → ℤ → List Nat :=
  fun _ _ _ u _ => if u < 1 then [0, 1, 3, 4] else [1, 2, 4, 5]

/-- The nearest-point record of an FE Gauss point projected to `(u, 0)` on the patch at
position 0. -/
def bilinear_nearest_point (u : ℤ) : NearestPoint ℤ :=
  { patch_itr_of_nearest_point := 0, u_of_nearest_point := u, v_of_nearest_point := 0
    span_u_of_np := if u < 1 then 1 else 2, span_v_of_np := 1 }

/-- The control point at position 1 of `bilinear_patches` after a build that flags the
second knot span only: flagged, with row id 0. -/
def bilinear_control_point_1 : ControlPoint ℤ :=
  { plain_control_point 1 1 0 with
    m_is_relevant_for_mapping := true, m_mapping_matrix_id := some 0 }

/-! ## `CADMapper::compute_mapping_matrix`, coarse sampling (cad_mapper.h l. 166-233) -/

/-- A node of `list_of_cad_nodes`: `Node<3>(cad_node_counter, cad_point_coordinates)`. -/
structure CADNode (α : Type) where
  /-- `Id()` -/
  Id : Nat
  /-- `X()`, `Y()`, `Z()` -/
  Coordinates : Vec3 α
deriving DecidableEq

/-- The local variables of lines 171-175: the counter and the four vectors, which are
filled together. -/
structure CoarseSamples (α : Type) where
  cad_node_counter : Nat
  list_of_cad_nodes : List (CADNode α)
  list_of_us_of_cad_nodes : List α
  list_of_vs_of_cad_nodes : List α
  list_of_patch_itrs_of_cad_nodes : List Nat
deriving DecidableEq

/-- The loop `for (unsigned int i = 1; i < n; i++) body` acting on an explicit state. -/
def forLoopFrom1 {σ : Type} (n : Nat) (body : Nat → σ → σ) (s : σ) : σ :=
  (List.range' 1 (n - 1)).foldl (fun s i => body i s) s

/-- Lines 209-230: the body of the loop over `j`, for the candidate `(u_i, v_j)`. -/
def sample_candidate {α : Type} (within : Vec2 α → List (Vec2 α) → Bool)
    (patch : Patch α) (patch_itr : Nat) (u_i v_j : α) (st : CoarseSamples α) :
    CoarseSamples α :=
  let point_is_inside := patch.CheckIfPointIsInside within { x := u_i, y := v_j }
  if point_is_inside then
    let cad_node_counter := st.cad_node_counter + 1
    let cad_point_coordinates := patch.m_nurbs_surface.EvaluateSurfacePoint u_i v_j
    { cad_node_counter := cad_node_counter
      list_of_cad_nodes := st.list_of_cad_nodes ++
        [{ Id := cad_node_counter, Coordinates := cad_point_coordinates }]
      list_of_us_of_cad_nodes := st.list_of_us_of_cad_nodes ++ [u_i]
      list_of_vs_of_cad_nodes := st.list_of_vs_of_cad_nodes ++ [v_j]
      list_of_patch_itrs_of_cad_nodes := st.list_of_patch_itrs_of_cad_nodes ++ [patch_itr] }
  else st

/-- Lines 180-232: the body of the loop over the patches. `knot_vec_u_i`, `knot_vec_v_i`
are `GetKnotVectorU()`, `GetKnotVectorV()` of the surface of the patch; the unsigned
resolutions and loop counters enter the products and quotients as doubles. -/
def sample_patch {α : Type} [Field α] (within : Vec2 α → List (Vec2 α) → Bool)
    (knot_vec_u_i knot_vec_v_i : List α) (patch : Patch α) (patch_itr : Nat)
    (u_resolution v_resolution : Nat) (st : CoarseSamples α) : CoarseSamples α :=
  let knot_vector_u_dimension := knot_vec_u_i.length
  let knot_vector_v_dimension := knot_vec_v_i.length
  let u_min := knot_vec_u_i.getD 0 0
  let u_max := knot_vec_u_i.getD (knot_vector_u_dimension - 1) 0
  let v_min := knot_vec_v_i.getD 0 0
  let v_max := knot_vec_v_i.getD (knot_vector_v_dimension - 1) 0
  let delta_u := (u_max - u_min) / (u_resolution : α)
  let delta_v := (v_max - v_min) / (v_resolution : α)
  forLoopFrom1 u_resolution (fun i st =>
    let u_i := u_min + (i : α) * delta_u
    forLoopFrom1 v_resolution (fun j st =>
      let v_j := v_min + (j : α) * delta_v
      sample_candidate within patch patch_itr u_i v_j st) st) st

/-- Lines 171-233: the first step of `compute_mapping_matrix`. `GetKnotVectorU`,
`GetKnotVectorV` are the members of `NURBSSurface` of these names. -/
def coarse_sampling {α : Type} [Field α] [Inhabited α]
    (within : Vec2 α → List (Vec2 α) → Bool)
    (GetKnotVectorU GetKnotVectorV : NURBSSurface α → List α)
    (m_patches : List (Patch α)) (u_resolution v_resolution : Nat) : CoarseSamples α :=
  forLoop m_patches.length (fun patch_itr st =>
    sample_patch within
      (GetKnotVectorU (patchAt m_patches patch_itr).m_nurbs_surface)
      (GetKnotVectorV (patchAt m_patches patch_itr).m_nurbs_surface)
      (patchAt m_patches patch_itr) patch_itr u_resolution v_resolution st)
    { cad_node_counter := 0, list_of_cad_nodes := [], list_of_us_of_cad_nodes := []
      list_of_vs_of_cad_nodes := [], list_of_patch_itrs_of_cad_nodes := [] }

/-! ## `CADMapper::compute_mapping_matrix`, search of the nearest points (cad_mapper.h l. 235-363) -/

/-- The square of the Euclidean distance of two points. -/
def squared_distance {α : Type} [Mul α] [Add α] [Sub α] (a b : Vec3 α) : α :=
  (a.x - b.x) * (a.x - b.x) + (a.y - b.y) * (a.y - b.y) + (a.z - b.z) * (a.z - b.z)

/-- The scan behind `Tree.SearchNearestPoint`: `k` is the position of the head of the list,
`best` the nearest node met so far with its squared distance. -/
def nearest_from {α : Type} [LinearOrderedRing α] (P : Vec3 α) :
    List (CADNode α) → Nat → Option (Nat × α) → Option (Nat × α)
  | [], _, best => best
  | node :: rest, k, none =>
    nearest_from P rest (k + 1) (some (k, squared_distance node.Coordinates P))
  | node :: rest, k, some best =>
    nearest_from P rest (k + 1)
      (if squared_distance node.Coordinates P < best.2 then
        some (k, squared_distance node.Coordinates P) else some best)

/-- Modelled from the spec: `Tree::SearchNearestPoint` (the spatial containers of the
Kratos core are not part of the sources at hand), "query the index for its nearest sample
(by Euclidean distance)". The tree holds the pointers of `list_of_cad_nodes`; the result
is the pointer to the nearest node, given as its position in `list_of_cad_nodes` (the
first one among equally near nodes), with the distances taken from the coordinates the
nodes hold when the query is made; `none` for an index without nodes. -/
def Tree.SearchNearestPoint {α : Type} [LinearOrderedRing α]
    (list_of_cad_nodes : List (CADNode α))
    (gauss_point_i : Vec3 α) : Option Nat :=
  (nearest_from gauss_point_i list_of_cad_nodes 0 none).map Prod.fst

/-- The data the search loop works on: the nodes the pointers of `list_of_cad_nodes` and of
the tree point to, the pointers pushed to `list_of_nearest_points` (positions in
`list_of_cad_nodes`), and the vectors `list_of_u_of_nearest_points`,
`list_of_v_of_nearest_points`, `list_of_span_u_of_nearest_points`,
`list_of_span_v_of_nearest_points`, `list_of_patch_of_nearest_points`, which are filled
together at l. 357-361, as one list of records. -/
structure SearchState (α : Type) where
  list_of_cad_nodes : List (CADNode α)
  list_of_nearest_points : List Nat
  nearest_points : List (NearestPoint α)
deriving DecidableEq

/-- Lines 273-361: the body of the loop over the integration points, for the Gauss point
with global coordinates `ip_coordinates`, without the call of
`FlagControlPointsForMapping` (l. 353, see `flag_nearest_points`). `GetKnotSpan` is the
member of `NURBSSurface` of this name, `SearchNearestPoint nodes point` is the answer
of `nodes_tree.SearchNearestPoint` while the nodes of the tree are `nodes`, given as a
position in `list_of_cad_nodes`, `fuel` bounds the number of executions of the body
of the Newton-Raphson loop; the result is `none` when the tree has no node or the loop is
still running after `fuel` executions. -/
def search_gauss_point {α : Type} [LinearOrderedField α] [Inhabited α]
    (SearchNearestPoint : List (CADNode α) → Vec3 α → Option Nat)
    (GetKnotSpan : NURBSSurface α → α → α → Int × Int) (m_patches : List (Patch α))
    (samples : CoarseSamples α) (fuel : Nat) (ip_coordinates : Vec3 α)
    (st : SearchState α) : Option (SearchState α) :=
  match SearchNearestPoint st.list_of_cad_nodes ip_coordinates with
  | none => none
  | some nearest_point =>
    match st.list_of_cad_nodes[nearest_point]? with
    | none => none
    | some node =>
      let u_of_nearest_point := samples.list_of_us_of_cad_nodes.getD (node.Id - 1) 0
      let v_of_nearest_point := samples.list_of_vs_of_cad_nodes.getD (node.Id - 1) 0
      let patch_itr_of_nearest_point :=
        samples.list_of_patch_itrs_of_cad_nodes.getD (node.Id - 1) 0
      let surface := (patchAt m_patches patch_itr_of_nearest_point).m_nurbs_surface
      match newton_raphson_loop surface ip_coordinates fuel
          (newton_raphson_init u_of_nearest_point v_of_nearest_point node.Coordinates) with
      | none => none
      | some s =>
        let knot_span_nearest_point := GetKnotSpan surface s.u_k s.v_k
        some
          { list_of_cad_nodes :=
              st.list_of_cad_nodes.set nearest_point { node with Coordinates := s.Q_k }
            list_of_nearest_points := st.list_of_nearest_points ++ [nearest_point]
            nearest_points := st.nearest_points ++
              [{ patch_itr_of_nearest_point := patch_itr_of_nearest_point
                 u_of_nearest_point := s.u_k
                 v_of_nearest_point := s.v_k
                 span_u_of_np := knot_span_nearest_point.1
                 span_v_of_np := knot_span_nearest_point.2 }] }

/-- Lines 258-363: the loop over the conditions and their integration points;
`GlobalCoordinates cond_i PointNumber` is
`geom_i.GlobalCoordinates(ip_coordinates, integration_points[PointNumber].Coordinates())`. -/
def search_conditions {α : Type} [LinearOrderedField α] [Inhabited α]
    (SearchNearestPoint : List (CADNode α) → Vec3 α → Option Nat)
    (GetKnotSpan : NURBSSurface α → α → α → Int × Int)
    (GlobalCoordinates : Condition α → Nat → Vec3 α) (m_patches : List (Patch α))
    (samples : CoarseSamples α) (fuel : Nat) (conditions : List (Condition α))
    (st : Option (SearchState α)) : Option (SearchState α) :=
  conditions.foldl (fun st cond_i =>
    forLoop cond_i.number_of_integration_points (fun PointNumber st =>
      st.bind (search_gauss_point SearchNearestPoint GetKnotSpan m_patches samples fuel
        (GlobalCoordinates cond_i PointNumber))) st) st

/-- The state in which the search loop starts (l. 245-250): the nodes of the coarse
sampling, no record. -/
def SearchState.initial {α : Type} (samples : CoarseSamples α) : SearchState α :=
  { list_of_cad_nodes := samples.list_of_cad_nodes, list_of_nearest_points := []
    nearest_points := [] }

/-- The vectors of the records as the assembly loop reads them, by index (l. 456-460); an
index beyond the end reads as 0. -/
def NearestPointLists.of_records {α : Type} [Zero α] (records : List (NearestPoint α)) :
    NearestPointLists α :=
  { list_of_u_of_nearest_points := fun i =>
      ((records[i]?).map (fun np => np.u_of_nearest_point)).getD 0
    list_of_v_of_nearest_points := fun i =>
      ((records[i]?).map (fun np => np.v_of_nearest_point)).getD 0
    list_of_span_u_of_nearest_points := fun i =>
      ((records[i]?).map (fun np => np.span_u_of_np)).getD 0
    list_of_span_v_of_nearest_points := fun i =>
      ((records[i]?).map (fun np => np.span_v_of_np)).getD 0
    list_of_patch_of_nearest_points := fun i =>
      ((records[i]?).map (fun np => np.patch_itr_of_nearest_point)).getD 0 }

/-! ## `CADModelReader::ReadIntegrationData` (cad_model_reader.h l. 267-399) -/

/-- One Gauss point entry of a BREP element in the integration data:
`[[master_elem_id (, slave_elem_id)], [gauss_point_id, weight, location, tangent
(, location_slave, tangent_slave)]]`. -/
structure GaussPointData (α : Type) where
  /-- the entry `[gp_itr][0]`, the list of element ids -/
  elem_ids : List Nat
  /-- the entry `[gp_itr][1][0]` -/
  gauss_point_id : Nat
  /-- the entry `[gp_itr][1][1]` -/
  weight : α
  /-- the entries `[gp_itr][1][2]`, `[gp_itr][1][3]`, ... -/
  vectors : List (Vec2 α)

/-- One entry `[brep_elem_id, [Gauss point entries]]` of a boundary edge. -/
structure BrepElementData (α : Type) where
  brep_elem_id : Nat
  gauss_points : List (GaussPointData α)

/-- What `ReadIntegrationData` reads of `mr_cad_integration_data_in_json`: the entries
`[patch_id, [element ids]]` of `"2d_elements"` and the entries
`[brep_edge_id, [elements]]` of `"brep_elements"`. -/
structure IntegrationData (α : Type) where
  two_d_elements : List (Nat × List Nat)
  brep_elements : List (Nat × List (BrepElementData α))

/-- Lines 276-292: the map `corresponding_patch_id`, read with `operator[]` (an absent key
reads as 0). -/
def corresponding_patch_id (two_d_elements : List (Nat × List Nat)) : Nat → Nat :=
  two_d_elements.foldl (fun m entry =>
    entry.2.foldl (fun m elem_id => Function.update m elem_id entry.1) m) (fun _ => 0)

/-- Lines 336-355: one Gauss point of a coupling element; an index outside a python list
raises, which is the result `none`. -/
def read_coupling_gauss_point {α : Type} (corresponding_patch_id : Nat → Nat)
    (gp : GaussPointData α) : Option (BREPGaussPoint α) :=
  match gp.elem_ids[0]?, gp.elem_ids[1]?, gp.vectors[0]?, gp.vectors[1]?, gp.vectors[2]?,
      gp.vectors[3]? with
  | some master_elem_id, some slave_elem_id, some location, some tangent,
      some location_slave, some tangent_slave =>
    some
      { master_patch_id := corresponding_patch_id master_elem_id
        slave_patch_id := corresponding_patch_id slave_elem_id
        weight := gp.weight, location := location, tangent := tangent
        location_slave := location_slave, tangent_slave := tangent_slave }
  | _, _, _, _, _, _ => none

/-- Lines 369-382: one Gauss point of a Dirichlet element, built with the constructor
`BREPGaussPoint(master_patch_id, gauss_point_id, weight, location, tangent)`, which
receives no slave data (they read as 0 here). -/
def read_dirichlet_gauss_point {α : Type} [Zero α] (corresponding_patch_id : Nat → Nat)
    (gp : GaussPointData α) : Option (BREPGaussPoint α) :=
  match gp.elem_ids[0]?, gp.vectors[0]?, gp.vectors[1]? with
  | some master_elem_id, some location, some tangent =>
    some
      { master_patch_id := corresponding_patch_id master_elem_id
        slave_patch_id := 0
        weight := gp.weight, location := location, tangent := tangent
        location_slave := { x := 0, y := 0 }, tangent_slave := { x := 0, y := 0 } }
  | _, _, _ => none

/-- The loop over the Gauss points of a BREP element (l. 334-359 and 367-386). -/
def read_gauss_points {α : Type} (read : GaussPointData α → Option (BREPGaussPoint α)) :
    List (GaussPointData α) → Option (List (BREPGaussPoint α))
  | [] => some []
  | gp :: rest =>
    match read gp with
    | none => none
    | some new_brep_gp =>
      match read_gauss_points read rest with
      | none => none
      | some gauss_points => some (new_brep_gp :: gauss_points)

/-- Lines 307-395: one BREP element of the boundary edge `brep_edge_id`. The test of
l. 323 reads the first Gauss point, which raises for an element without Gauss points. -/
def read_brep_element {α : Type} [Zero α] (corresponding_patch_id : Nat → Nat)
    (brep_edge_id : Nat) (elem : BrepElementData α) : Option (BREPElement α) :=
  match elem.gauss_points with
  | [] => none
  | first :: _ =>
    if first.elem_ids.length = 2 then
      match read_gauss_points (read_coupling_gauss_point corresponding_patch_id)
          elem.gauss_points with
      | none => none
      | some gauss_points =>
        some { edge_id := brep_edge_id, gauss_points := gauss_points
               has_coupling_condition := true, has_dirichlet_condition := false }
    else
      match read_gauss_points (read_dirichlet_gauss_point corresponding_patch_id)
          elem.gauss_points with
      | none => none
      | some gauss_points =>
        some { edge_id := brep_edge_id, gauss_points := gauss_points
               has_coupling_condition := false, has_dirichlet_condition := true }

/-- Lines 305-396: the loop over the elements of one boundary edge, appending to
`r_brep_elements`. -/
def read_brep_elements {α : Type} [Zero α] (corresponding_patch_id : Nat → Nat)
    (brep_edge_id : Nat) :
    List (BrepElementData α) → List (BREPElement α) → Option (List (BREPElement α))
  | [], r_brep_elements => some r_brep_elements
  | elem :: rest, r_brep_elements =>
    match read_brep_element corresponding_patch_id brep_edge_id elem with
    | none => none
    | some new_brep_element =>
      read_brep_elements corresponding_patch_id brep_edge_id rest
        (r_brep_elements ++ [new_brep_element])

/-- Lines 299-397: the loop over the boundary edges. -/
def read_boundary_edges {α : Type} [Zero α] (corresponding_patch_id : Nat → Nat) :
    List (Nat × List (BrepElementData α)) → List (BREPElement α) →
      Option (List (BREPElement α))
  | [], r_brep_elements => some r_brep_elements
  | edge :: rest, r_brep_elements =>
    match read_brep_elements corresponding_patch_id edge.1 edge.2 r_brep_elements with
    | none => none
    | some r_brep_elements => read_boundary_edges corresponding_patch_id rest r_brep_elements

/-- The member `CADModelReader::ReadIntegrationData(r_brep_elements)`. -/
def ReadIntegrationData {α : Type} [Zero α] (data : IntegrationData α)
    (r_brep_elements : List (BREPElement α)) : Option (List (BREPElement α)) :=
  read_boundary_edges (corresponding_patch_id data.two_d_elements) data.brep_elements
    r_brep_elements

/-! ## Specification-side quantities of the search, of the reader and of the constraints -/

/-- "the points (u_min + i*(u_max-u_min)/u_resolution, v_min + j*(v_max-v_min)/v_resolution)
with 1 <= i < u_resolution and 1 <= j < v_resolution", in the order of the two loops. -/
def interior_candidates {α : Type} [Field α] (u_min u_max v_min v_max : α)
    (u_resolution v_resolution : Nat) : List (α × α) :=
  (List.range' 1 (u_resolution - 1)).flatMap (fun (i : Nat) =>
    (List.range' 1 (v_resolution - 1)).map (fun (j : Nat) =>
      (u_min + (i : α) * ((u_max - u_min) / (u_resolution : α)),
        v_min + (j : α) * ((v_max - v_min) / (v_resolution : α)))))

/-- The nodes with the given coordinates and the ids `first + 1, first + 2, ...`. -/
def numbered_nodes {α : Type} : Nat → List (Vec3 α) → List (CADNode α)
  | _, [] => []
  | first, point :: rest =>
    { Id := first + 1, Coordinates := point } :: numbered_nodes (first + 1) rest

/-- The (condition, integration point) pairs in the order in which both the search loop
and the assembly loop visit them. -/
def gauss_point_visits {α : Type} (conditions : List (Condition α)) :
    List (Condition α × Nat) :=
  conditions.flatMap (fun cond_i =>
    (List.range cond_i.number_of_integration_points).map (fun PointNumber =>
      (cond_i, PointNumber)))

/-- "a candidate is stored if and only if CheckIfPointIsInside accepts it": the accepted
candidates of a patch with the knot ranges `[u_min, u_max]`, `[v_min, v_max]`. -/
def accepted_candidates {α : Type} [Field α] (within : Vec2 α → List (Vec2 α) → Bool)
    (patch : Patch α) (u_min u_max v_min v_max : α) (u_resolution v_resolution : Nat) :
    List (α × α) :=
  (interior_candidates u_min u_max v_min v_max u_resolution v_resolution).filter
    (fun c => patch.CheckIfPointIsInside within { x := c.1, y := c.2 })

/-- The element entries of the integration data with the id of their boundary edge, in
the order in which `ReadIntegrationData` reads them. -/
def brep_element_entries {α : Type} (data : IntegrationData α) :
    List (Nat × BrepElementData α) :=
  data.brep_elements.flatMap (fun edge => edge.2.map (fun elem => (edge.1, elem)))

/-- "the first Gauss point's element-id entry carries both a master and a slave id". -/
def carries_master_and_slave {α : Type} (elem : BrepElementData α) : Bool :=
  match elem.gauss_points with
  | [] => false
  | first :: _ => decide (first.elem_ids.length = 2)

/-- The BREP element `e` is the one read from the entry `entry`: it lies on the edge of the
entry, has as many Gauss points, is a coupling element exactly when the entry carries
master and slave ids, and a Dirichlet element exactly when it is no coupling element. -/
def read_from_entry {α : Type} (entry : Nat × BrepElementData α) (e : BREPElement α) : Prop :=
  e.edge_id = entry.1 ∧ e.gauss_points.length = entry.2.gauss_points.length ∧
    e.has_coupling_condition = carries_master_and_slave entry.2 ∧
    e.has_dirichlet_condition = !e.has_coupling_condition

/-- The entry that "add `v a` to the stride of axis `a` at `(r, c)`, for the three axes"
gives at position `(p, q)`. -/
def axisTerm3 {α : Type} [AddCommMonoid α] (r c : Nat) (v : Nat → α) (p q : Nat) : α :=
  ∑ a ∈ Finset.range 3, if p = 3 * r + a ∧ q = 3 * c + a then v a else 0

/-- A block whose values depend on the running numbers of the row and of the column
control point in the traversal of their supports: the entry `(p, q)` of "add
`V a k_row k_col` on the stride of axis `a` at `(row, col)`" for all pairs of the two
supports, `k_row = i*size1 + j` being the running number of the position `(j, i)`. -/
def counted_block {α : Type} [AddCommMonoid α] (ids_row ids_col : UblasMatrix Nat)
    (V : Nat → Nat → Nat → α) (p q : Nat) : α :=
  supportSum ids_row (fun j i => supportSum ids_col (fun l k =>
    axisTerm3 (ids_row.get j i) (ids_col.get l k)
      (fun a => V a (i * ids_row.size1 + j) (k * ids_col.size1 + l)) p q))

/-- The stored matrix is symmetric. -/
def symmetric_matrix {α : Type} (M : SparseMatrixType α) : Prop :=
  ∀ p q, M p q = M q p

/-- The mapping system with a contribution added to the CAD-CAD matrix and to the
right-hand side. -/
def MappingSystem.add_contribution {α : Type} [Add α] (s : MappingSystem α)
    (ΔM : Nat → Nat → α) (Δrhs : Nat → α) : MappingSystem α :=
  { s with
    m_mapping_matrix_CAD_CAD := fun p q => s.m_mapping_matrix_CAD_CAD p q + ΔM p q
    m_mapping_rhs_vector := fun p => s.m_mapping_rhs_vector p + Δrhs p }

/-- "associative/commutative accumulation": the step adds a contribution that does not
depend on the state of the mapping system. -/
def accumulating {α : Type} [Add α] (F : MappingSystem α → MappingSystem α) : Prop :=
  ∃ (ΔM : Nat → Nat → α) (Δrhs : Nat → α), ∀ s, F s = s.add_contribution ΔM Δrhs

/-- The BREP element `e'` is `e` with its Gauss points in another order. -/
def same_gauss_points {α : Type} (e e' : BREPElement α) : Prop :=
  e.edge_id = e'.edge_id ∧ e.has_coupling_condition = e'.has_coupling_condition ∧
    e.has_dirichlet_condition = e'.has_dirichlet_condition ∧
    e.gauss_points.Perm e'.gauss_points

/-! ## Concrete inputs of the search and of the reader -/

/-- The plane `Q(u,v) = (u, v, 0)`, with the gradient `(2 (Q-P).Q_u, 2 (Q-P).Q_v)` and the
Hessian `2 I` of the squared distance `|Q(u,v) - P|^2`, where `Q_u = (1, 0, 0)` and
`Q_v = (0, 1, 0)`. -/
def plane_surface : NURBSSurface ℚ :=
  { (default : NURBSSurface ℚ) with
    EvaluateSurfacePoint := fun u v => { x := u, y := v, z := 0 }
    EvaluateGradientsForClosestPointSearch := fun Q_minus_P _ _ =>
      ({ a00 := 2, a01 := 0, a10 := 0, a11 := 2 },
       { x := 2 * Q_minus_P.x, y := 2 * Q_minus_P.y }) }

/-- One patch without boundary loops carrying `plane_surface`. -/
def plane_patches : List (Patch ℚ) :=
  [{ m_patch_id := 1, m_nurbs_surface := plane_surface, m_boundary_loops := [] }]

/-- The knot vector `(0, 0, 6, 6)` of `plane_surface` in `u`. -/
def plane_GetKnotVectorU : NURBSSurface ℚ → List ℚ := fun _ => [0, 0, 6, 6]

/-- The knot vector `(0, 0, 4, 4)` of `plane_surface` in `v`. -/
def plane_GetKnotVectorV : NURBSSurface ℚ → List ℚ := fun _ => [0, 0, 4, 4]

/-- The knot span of `plane_surface`, which has a single one. -/
def plane_GetKnotSpan : NURBSSurface ℚ → ℚ → ℚ → Int × Int := fun _ _ _ => (1, 1)

/-- The coarse samples of `plane_patches` for `u_resolution = 3`, `v_resolution = 2`: the
nodes 1 at `(2, 2, 0)` and 2 at `(4, 2, 0)`, with the parameters `(2, 2)` and `(4, 2)`. -/
def plane_samples : CoarseSamples ℚ :=
  { cad_node_counter := 2
    list_of_cad_nodes :=
      [{ Id := 1, Coordinates := { x := 2, y := 2, z := 0 } },
       { Id := 2, Coordinates := { x := 4, y := 2, z := 0 } }]
    list_of_us_of_cad_nodes := [2, 4]
    list_of_vs_of_cad_nodes := [2, 2]
    list_of_patch_itrs_of_cad_nodes := [0, 0] }

/-- The FE Gauss point `A = (1/5, 2, 0)`, nearest to node 1. -/
def plane_gauss_point_A : Vec3 ℚ := { x := 1 / 5, y := 2, z := 0 }

/-- The FE Gauss point `B = (29/10, 2, 0)`, nearer to `(2, 2, 0)` than to `(4, 2, 0)`. -/
def plane_gauss_point_B : Vec3 ℚ := { x := 29 / 10, y := 2, z := 0 }

/-- One condition with one node and the two integration points `A` and `B`. -/
def plane_conditions : List (Condition ℚ) :=
  [{ n_fem_nodes := 1
     mapping_matrix_ids_fem := fun _ => 0
     number_of_integration_points := 2
     Weight := fun _ => 1
     N_container := fun _ _ => 1 }]

/-- The global coordinates of the integration points of `plane_conditions`. -/
def plane_GlobalCoordinates : Condition ℚ → Nat → Vec3 ℚ :=
  fun _ PointNumber => if PointNumber = 0 then plane_gauss_point_A else plane_gauss_point_B

/-- The state of the search after the Gauss point `A`: node 1 has moved to `A`. -/
def plane_state_after_A : SearchState ℚ :=
  { list_of_cad_nodes :=
      [{ Id := 1, Coordinates := { x := 1 / 5, y := 2, z := 0 } },
       { Id := 2, Coordinates := { x := 4, y := 2, z := 0 } }]
    list_of_nearest_points := [0]
    nearest_points :=
      [{ patch_itr_of_nearest_point := 0, u_of_nearest_point := 1 / 5
         v_of_nearest_point := 2, span_u_of_np := 1, span_v_of_np := 1 }] }

/-- The state of the search after the Gauss points `A` and `B`, in this order: for `B` the
tree has answered node 2, which has moved to `B`. -/
def plane_state_after_A_B : SearchState ℚ :=
  { list_of_cad_nodes :=
      [{ Id := 1, Coordinates := { x := 1 / 5, y := 2, z := 0 } },
       { Id := 2, Coordinates := { x := 29 / 10, y := 2, z := 0 } }]
    list_of_nearest_points := [0, 1]
    nearest_points :=
      [{ patch_itr_of_nearest_point := 0, u_of_nearest_point := 1 / 5
         v_of_nearest_point := 2, span_u_of_np := 1, span_v_of_np := 1 },
       { patch_itr_of_nearest_point := 0, u_of_nearest_point := 29 / 10
         v_of_nearest_point := 2, span_u_of_np := 1, span_v_of_np := 1 }] }

/-- Integration data with the faces 1 and 2 on patch 4 and the face 3 on patch 9, and one
boundary edge 7 with two elements: element 1 couples the faces 1 and 3, element 2 lies on
the face 2 only. -/
def example_integration_data : IntegrationData ℤ :=
  { two_d_elements := [(4, [1, 2]), (9, [3])]
    brep_elements :=
      [(7,
        [{ brep_elem_id := 1
           gauss_points :=
            [{ elem_ids := [1, 3], gauss_point_id := 0, weight := 1
               vectors := [{ x := 0, y := 0 }, { x := 1, y := 0 }, { x := 0, y := 0 },
                 { x := 1, y := 0 }] }] },
         { brep_elem_id := 2
           gauss_points :=
            [{ elem_ids := [2], gauss_point_id := 0, weight := 1
               vectors := [{ x := 0, y := 0 }, { x := 1, y := 0 }] }] }])] }

/-- The BREP elements read from `example_integration_data`. -/
def example_read_elements : List (BREPElement ℤ) :=
  [example_brep_element true,
   { edge_id := 7
     gauss_points :=
      [{ master_patch_id := 4, slave_patch_id := 0, weight := 1
         location := { x := 0, y := 0 }, tangent := { x := 1, y := 0 }
         location_slave := { x := 0, y := 0 }, tangent_slave := { x := 0, y := 0 } }]
     has_coupling_condition := false, has_dirichlet_condition := true }]

/-- The surface `surface` with second variations of the local frame that are symmetric in
their two variation indices. -/
def with_symmetric_second_variation (surface : NURBSSurface ℤ) : NURBSSurface ℤ :=
  { surface with
    ComputeSecondVariationOfLocalCSY := fun _ _ _ =>
      { T1 := { x := 1, y := 0, z := 0 }, T3 := { x := 0, y := 0, z := 1 }
        t1r := fun r => { x := (r : ℤ), y := 0, z := 1 }
        t3r := fun r => { x := 1, y := (r : ℤ), z := 0 }
        t1rs := fun r c => { x := (r : ℤ) * c, y := 0, z := 1 }
        t3rs := fun r c => { x := (r : ℤ) + c, y := 1, z := 0 } } }

/-- The patches 4 and 9 of `example_patches` with symmetric second variations. -/
def tangent_patches : List (Patch ℤ) :=
  [{ m_patch_id := 4, m_nurbs_surface := with_symmetric_second_variation example_surface
     m_boundary_loops := [] },
   { m_patch_id := 9, m_nurbs_surface := with_symmetric_second_variation example_surface_slave
     m_boundary_loops := [] }]

/-- A coupling element on edge 7 with the given Gauss points. -/
def example_coupling_element (gauss_points : List (BREPGaussPoint ℤ)) : BREPElement ℤ :=
  { edge_id := 7, gauss_points := gauss_points
    has_coupling_condition := true, has_dirichlet_condition := false }

/-- A second BREP Gauss point between the patches 4 and 9, of weight 2. -/
def example_brep_gauss_point_2 : BREPGaussPoint ℤ :=
  { example_brep_gauss_point with weight := 2 }

/-! ## The arithmetic of `double` -/

/-- The integer nearest to `x`, the even one of the two when `x` lies half-way
("round to nearest, ties to even"). -/
def round_half_even (x : ℚ) : ℤ :=
  if x - ⌊x⌋ < 1 / 2 then ⌊x⌋
  else if 1 / 2 < x - ⌊x⌋ then ⌊x⌋ + 1
  else if ⌊x⌋ % 2 = 0 then ⌊x⌋ else ⌊x⌋ + 1

/-- The power `2^e` for an integer exponent. -/
def pow2 (e : ℤ) : ℚ :=
  if 0 ≤ e then 2 ^ e.toNat else 1 / 2 ^ (-e).toNat

/-- The number of binary digits of `n`, counted in at most `fuel` halvings. -/
def binary_digits_aux : Nat → Nat → Nat
  | 0, _ => 0
  | fuel + 1, n => if n = 0 then 0 else binary_digits_aux fuel (n / 2) + 1

/-- The number of binary digits of `n`: `2^(binary_digits n - 1) <= n < 2^(binary_digits n)`
for `n > 0`. -/
def binary_digits (n : Nat) : Nat := binary_digits_aux n n

/-- For `x > 0`, the exponent `e` of the unit in the last place of a significand of 53 bits:
`2^52 <= x / 2^e < 2^53`. -/
def binary64_exponent (x : ℚ) : ℤ :=
  let e := (binary_digits x.num.natAbs : ℤ) - (binary_digits x.den : ℤ) - 52
  if x / pow2 e < 2 ^ 52 then e - 1 else e

/-- The rounding of IEEE 754 binary64 arithmetic in its default mode: the real number `q` is
replaced by the nearest number with a significand of 53 bits, ties to even. The exponent
range is not modelled (no overflow to infinity, no subnormal numbers). -/
def round_to_binary64 (q : ℚ) : ℚ :=
  if q = 0 then 0
  else
    let e := binary64_exponent |q|
    (if q < 0 then -1 else 1) * (round_half_even (|q| / pow2 e) : ℚ) * pow2 e

/-- A finite value of the C++ type `double` (IEEE 754 binary64), given by the real number it
holds. -/
structure Binary64 where
  value : ℚ
deriving DecidableEq

/-- The `double` a decimal literal such as `0.1` denotes: the nearest representable one. -/
def Binary64.literal (q : ℚ) : Binary64 := ⟨round_to_binary64 q⟩

/-- The operator `*` on `double`: the exact product, rounded. -/
instance : Mul Binary64 := ⟨fun a b => ⟨round_to_binary64 (a.value * b.value)⟩⟩

/-- The operator `+` on `double`: the exact sum, rounded. -/
instance : Add Binary64 := ⟨fun a b => ⟨round_to_binary64 (a.value + b.value)⟩⟩

/-- The operator `-` on `double`: the exact difference, rounded. -/
instance : Sub Binary64 := ⟨fun a b => ⟨round_to_binary64 (a.value - b.value)⟩⟩

/-- The `double` 0, the value of a cleared matrix entry. -/
instance : Zero Binary64 := ⟨⟨0⟩⟩

instance : Inhabited Binary64 := ⟨0⟩

/-! ## Specification-side quantities of the closest-point search -/

/-- One Newton-Raphson step of the search for `P` from the surface point at `(u, v)`: the
parameters `(u_k, v_k)` after one execution of the loop body on the state with these
parameters and `Q_k = EvaluateSurfacePoint(u, v)`. -/
def newton_step {α : Type} [LinearOrderedField α] (surface : NURBSSurface α) (P : Vec3 α)
    (u v : α) : α × α :=
  ((newton_raphson_body surface P
      (newton_raphson_init u v (surface.EvaluateSurfacePoint u v))).u_k,
    (newton_raphson_body surface P
      (newton_raphson_init u v (surface.EvaluateSurfacePoint u v))).v_k)

/-- The determinant of the Hessian that the loop body inverts at `(u, v)`. -/
def hessian_determinant {α : Type} [Field α] (surface : NURBSSurface α) (P : Vec3 α)
    (u v : α) : α :=
  let Q := surface.EvaluateSurfacePoint u v
  let H := (surface.EvaluateGradientsForClosestPointSearch
    { x := Q.x - P.x, y := Q.y - P.y, z := Q.z - P.z } u v).1
  H.a00 * H.a11 - H.a01 * H.a10

/-- The square of the Euclidean distance of the parameters `(u, v)` and `(u', v')`. -/
def parameter_distance_sq {α : Type} [Mul α] [Add α] [Sub α] (u v u' v' : α) : α :=
  (u - u') * (u - u') + (v - v') * (v - v')

/-- The seeds in `D` lie in the basin of `(u_star, v_star)`: at every point of `D` the
Hessian is invertible and the Newton-Raphson step stays in `D` and at least halves the
distance to `(u_star, v_star)`. -/
def newton_basin {α : Type} [LinearOrderedField α] (surface : NURBSSurface α) (P : Vec3 α)
    (u_star v_star : α) (D : α → α → Prop) : Prop :=
  ∀ u v, D u v →
    hessian_determinant surface P u v ≠ 0 ∧
    D (newton_step surface P u v).1 (newton_step surface P u v).2 ∧
    4 * parameter_distance_sq (newton_step surface P u v).1 (newton_step surface P u v).2
        u_star v_star ≤ parameter_distance_sq u v u_star v_star

/-! ## Concrete inputs in `double` arithmetic -/

/-- A surface in `double` arithmetic whose support at every parametric point is the 1 x 2
block of the control points with rows 0 and 1, with the basis values `0.1` and `0.9`
(which sum to one), and with the base vectors `g1 = (1, 0, 0)`, `g2 = (0, 1, 0)`. -/
def double_surface : NURBSSurface Binary64 :=
  { (default : NURBSSurface Binary64) with
    EvaluateNURBSFunctions := fun _ _ _ _ =>
      { size1 := 1, size2 := 2
        get := fun _ i => if i = 0 then Binary64.literal (1 / 10) else Binary64.literal (9 / 10) }
    GetMappingMatrixIds := fun _ _ _ _ => { size1 := 1, size2 := 2, get := fun _ i => i }
    GetBaseVectors := fun _ _ _ _ =>
      { size1 := 3, size2 := 2
        get := fun i j => if i = j then Binary64.literal 1 else Binary64.literal 0 } }

/-- A second surface in `double` arithmetic with one control point (row 2) of basis
value `1.0`. -/
def double_slave_surface : NURBSSurface Binary64 :=
  { (default : NURBSSurface Binary64) with
    EvaluateNURBSFunctions := fun _ _ _ _ =>
      { size1 := 1, size2 := 1, get := fun _ _ => Binary64.literal 1 }
    GetMappingMatrixIds := fun _ _ _ _ => { size1 := 1, size2 := 1, get := fun _ _ => 2 } }

/-- One patch carrying `double_surface`. -/
def double_patches : List (Patch Binary64) :=
  [{ m_patch_id := 1, m_nurbs_surface := double_surface, m_boundary_loops := [] }]

/-- Correspondence lists that send every FE Gauss point to the patch at position 0. -/
def double_lists : NearestPointLists Binary64 :=
  { list_of_u_of_nearest_points := fun _ => 0
    list_of_v_of_nearest_points := fun _ => 0
    list_of_span_u_of_nearest_points := fun _ => 0
    list_of_span_v_of_nearest_points := fun _ => 0
    list_of_patch_of_nearest_points := fun _ => 0 }

/-- One condition with one node (index 0) and one integration point of weight `0.1` with
shape value `1.0`. -/
def double_conditions : List (Condition Binary64) :=
  [{ n_fem_nodes := 1
     mapping_matrix_ids_fem := fun _ => 0
     number_of_integration_points := 1
     Weight := fun _ => Binary64.literal (1 / 10)
     N_container := fun _ _ => Binary64.literal 1 }]

/-- A Dirichlet element on edge 7 with one Gauss point of weight `0.1` on patch 1, at
`(0, 0)` with the tangent `(1, 0)`. -/
def double_dirichlet_element : BREPElement Binary64 :=
  { edge_id := 7
    gauss_points :=
      [{ master_patch_id := 1, slave_patch_id := 0, weight := Binary64.literal (1 / 10)
         location := { x := 0, y := 0 }
         tangent := { x := Binary64.literal 1, y := Binary64.literal 0 }
         location_slave := { x := 0, y := 0 }, tangent_slave := { x := 0, y := 0 } }]
    has_coupling_condition := false, has_dirichlet_condition := true }

/-- The Euclidean norm `norm_2` on the vectors met in the example: the tangent vector
`g1*1 + g2*0 = (1, 0, 0)` has norm 1. -/
def double_norm_2 : Vec3 Binary64 → Binary64 := fun _ => Binary64.literal 1

/-! ## Concrete inputs: two level patches -/

/-- The control points of a bilinear patch over `[0,6] x [0,8]` at height `z` with `n_u`
control points in `u` and two in `v`, stored "first going over u, then over v"; none is
flagged. -/
def level_control_points (n_u : Nat) (z : ℚ) : List (ControlPoint ℚ) :=
  (List.range (2 * n_u)).map (fun k =>
    { X := 6 * ((k % n_u : Nat) : ℚ) / ((n_u - 1 : Nat) : ℚ), Y := 8 * ((k / n_u : Nat) : ℚ)
      Z := z, W := 1, m_global_id := k, m_is_relevant_for_mapping := false
      m_mapping_matrix_id := none, dX := 0, dY := 0, dZ := 0 })

/-- The level surface `Q(u,v) = (u, v, z)` over `[0,6] x [0,8]` with `n_u` control points
in `u`, with the gradient `(2 (Q-P).Q_u, 2 (Q-P).Q_v)` and the Hessian `2 I` of the squared
distance `|Q(u,v) - P|^2`, where `Q_u = (1, 0, 0)` and `Q_v = (0, 1, 0)`. -/
def level_surface (n_u : Nat) (z : ℚ) : NURBSSurface ℚ :=
  { (default : NURBSSurface ℚ) with
    m_control_points := level_control_points n_u z
    EvaluateSurfacePoint := fun u v => { x := u, y := v, z := z }
    EvaluateGradientsForClosestPointSearch := fun Q_minus_P _ _ =>
      ({ a00 := 2, a01 := 0, a10 := 0, a11 := 2 },
       { x := 2 * Q_minus_P.x, y := 2 * Q_minus_P.y }) }

/-- Two untrimmed patches: at position 0 the level `z = 0` with the knot vectors
`(0,0,1,2,3,4,5,6,6)` and `(0,0,8,8)` (7 x 2 control points, six knot spans in `u`), at
position 1 the level `z = 2` with the knot vectors `(0,0,6,6)` and `(0,0,8,8)` (2 x 2
control points, one knot span). -/
def level_patches : List (Patch ℚ) :=
  [{ m_patch_id := 1, m_nurbs_surface := level_surface 7 0, m_boundary_loops := [] },
   { m_patch_id := 2, m_nurbs_surface := level_surface 2 2, m_boundary_loops := [] }]

/-- `GetKnotVectorU()` of the surfaces of `level_patches`. -/
def level_GetKnotVectorU : NURBSSurface ℚ → List ℚ :=
  fun surface =>
    if surface.m_control_points.length = 14 then [0, 0, 1, 2, 3, 4, 5, 6, 6] else [0, 0, 6, 6]

/-- `GetKnotVectorV()` of the surfaces of `level_patches`. -/
def level_GetKnotVectorV : NURBSSurface ℚ → List ℚ := fun _ => [0, 0, 8, 8]

/-- `GetKnotSpan(u, v)` of the surfaces of `level_patches`: on the patch with six spans the
span of `u` has the number `floor(u) + 1`, at most 6; every other span has the number 1. -/
def level_GetKnotSpan : NURBSSurface ℚ → ℚ → ℚ → Int × Int :=
  fun surface u _ =>
    if surface.m_control_points.length = 14 then (max 1 (min 6 (⌊u⌋ + 1)), 1) else (1, 1)

/-- The supports on `level_patches`: on the patch at position 0 the four control points
`i, i+1, i+7, i+8` of the knot span with the number `i + 1`, on the patch at position 1 its
four control points. -/
def level_support : Nat → Int → Int → ℚ → ℚ → List Nat :=
  fun patch_itr span_u _ _ _ =>
    if patch_itr = 0 then
      [(span_u - 1).toNat, (span_u - 1).toNat + 1, (span_u - 1).toNat + 7,
        (span_u - 1).toNat + 8]
    else [0, 1, 2, 3]

/-- The coarse samples of `level_patches` for `u_resolution = v_resolution = 2`: node 1 at
`(3, 4, 0)` on the patch at position 0 and node 2 at `(3, 4, 2)` on the patch at position 1,
both with the parameters `(3, 4)`. -/
def level_samples : CoarseSamples ℚ :=
  { cad_node_counter := 2
    list_of_cad_nodes :=
      [{ Id := 1, Coordinates := { x := 3, y := 4, z := 0 } },
       { Id := 2, Coordinates := { x := 3, y := 4, z := 2 } }]
    list_of_us_of_cad_nodes := [3, 3]
    list_of_vs_of_cad_nodes := [4, 4]
    list_of_patch_itrs_of_cad_nodes := [0, 1] }

/-- A condition with one node and `n` integration points. -/
def level_condition (n : Nat) : Condition ℚ :=
  { n_fem_nodes := 1
    mapping_matrix_ids_fem := fun _ => 0
    number_of_integration_points := n
    Weight := fun _ => 1
    N_container := fun _ _ => 1 }

/-- The global coordinates of the integration points: the condition with one integration
point has `A = (3, 7, 0)`, the condition with three has `B1 = (1/2, 4, 0)`,
`B2 = (5/2, 4, 0)` and `B3 = (11/2, 4, 0)`; all lie on the patch at position 0. -/
def level_GlobalCoordinates : Condition ℚ → Nat → Vec3 ℚ :=
  fun cond_i PointNumber =>
    if cond_i.number_of_integration_points = 1 then { x := 3, y := 7, z := 0 }
    else if PointNumber = 0 then { x := 1 / 2, y := 4, z := 0 }
    else if PointNumber = 1 then { x := 5 / 2, y := 4, z := 0 }
    else { x := 11 / 2, y := 4, z := 0 }

/-- The record of a Gauss point found on the patch at position `patch_itr` at `(u, v)` in
the knot span `span_u`. -/
def level_record (patch_itr : Nat) (u v : ℚ) (span_u : Int) : NearestPoint ℚ :=
  { patch_itr_of_nearest_point := patch_itr, u_of_nearest_point := u
    v_of_nearest_point := v, span_u_of_np := span_u, span_v_of_np := 1 }

/-- The state of the search of `level_patches` after the Gauss points `B1`, `B2`, `B3`: all
three were found from node 1, which has moved to `B3`. -/
def level_state_B : SearchState ℚ :=
  { list_of_cad_nodes :=
      [{ Id := 1, Coordinates := { x := 11 / 2, y := 4, z := 0 } },
       { Id := 2, Coordinates := { x := 3, y := 4, z := 2 } }]
    list_of_nearest_points := [0, 0, 0]
    nearest_points :=
      [level_record 0 (1 / 2) 4 1, level_record 0 (5 / 2) 4 3, level_record 0 (11 / 2) 4 6] }

/-- The state of the search after `B1`, `B2`, `B3` and then `A`: the tree has answered
node 2 for `A`. -/
def level_state_B_A : SearchState ℚ :=
  { list_of_cad_nodes :=
      [{ Id := 1, Coordinates := { x := 11 / 2, y := 4, z := 0 } },
       { Id := 2, Coordinates := { x := 3, y := 7, z := 2 } }]
    list_of_nearest_points := [0, 0, 0, 1]
    nearest_points :=
      [level_record 0 (1 / 2) 4 1, level_record 0 (5 / 2) 4 3, level_record 0 (11 / 2) 4 6,
        level_record 1 3 7 1] }

/-- The control point at position 0 of the patch at position 0 of `level_patches` after a
build that flags it first: flagged, with row id 0. -/
def level_control_point_0 : ControlPoint ℚ :=
  { X := 0, Y := 0, Z := 0, W := 1, m_global_id := 0, m_is_relevant_for_mapping := true
    m_mapping_matrix_id := some 0, dX := 0, dY := 0, dZ := 0 }

/-! # Theorems -/

theorem forLoop_zero {σ : Type} (body : Nat → σ → σ) (s : σ) : forLoop 0 body s = s := by
  simp [forLoop]

theorem forLoop_succ {σ : Type} (n : Nat) (body : Nat → σ → σ) (s : σ) :
    forLoop (n + 1) body s = body n (forLoop n body s) := by
  simp [forLoop, List.range_succ, List.foldl_append]

theorem forLoop_additive {σ α : Type} [AddCommMonoid α] (f : σ → α) (body : Nat → σ → σ)
    (g : Nat → α) (h : ∀ i s, f (body i s) = f s + g i) (n : Nat) (s : σ) :
    f (forLoop n body s) = f s + ∑ i ∈ Finset.range n, g i := by
  induction n with
  | zero => simp [forLoop_zero]
  | succ n ih => rw [forLoop_succ, h, ih, Finset.sum_range_succ, add_assoc]

theorem forLoop_invariant {σ β : Type} (f : σ → β) (body : Nat → σ → σ)
    (h : ∀ i s, f (body i s) = f s) (n : Nat) (s : σ) :
    f (forLoop n body s) = f s := by
  induction n with
  | zero => simp [forLoop_zero]
  | succ n ih => rw [forLoop_succ, h, ih]

theorem addOnAxes_apply {α : Type} [AddCommMonoid α] (M : SparseMatrixType α) (r c : Nat) (v : α)
    (p q : Nat) : addOnAxes M r c v p q = M p q + axisTerm r c v p q := by
  simp only [addOnAxes, addAt, axisTerm, Finset.sum_range_succ, Finset.sum_range_zero, zero_add]
  split_ifs <;> simp_all

theorem assemble_CAD_FEM_apply {α : Type} [CommRing α] (n : Nat) (ids : Nat → Nat) (N : Nat → α)
    (w : α) (r : Nat) (R_row : α) (M : SparseMatrixType α) (p q : Nat) :
    assemble_CAD_FEM n ids N w r R_row M p q =
      M p q + ∑ k ∈ Finset.range n, axisTerm r (ids k) (w * R_row * N k) p q := by
  unfold assemble_CAD_FEM
  refine forLoop_additive (fun M : SparseMatrixType α => M p q) _
    (fun k => axisTerm r (ids k) (w * R_row * N k) p q) ?_ n M
  intro k M
  exact addOnAxes_apply _ _ _ _ _ _

theorem assemble_CAD_CAD_apply {α : Type} [CommRing α] (ids : UblasMatrix Nat) (R : UblasMatrix α)
    (w : α) (r : Nat) (R_row : α) (M : SparseMatrixType α) (p q : Nat) :
    assemble_CAD_CAD ids R w r R_row M p q =
      M p q + supportSum ids (fun l k => axisTerm r (ids.get l k) (w * R_row * R.get l k) p q) := by
  unfold assemble_CAD_CAD supportSum
  refine forLoop_additive (fun M : SparseMatrixType α => M p q) _
    (fun k => ∑ l ∈ Finset.range ids.size1,
      axisTerm r (ids.get l k) (w * R_row * R.get l k) p q) ?_ _ M
  intro k M
  refine forLoop_additive (fun M : SparseMatrixType α => M p q) _
    (fun l => axisTerm r (ids.get l k) (w * R_row * R.get l k) p q) ?_ _ M
  intro l M
  exact addOnAxes_apply _ _ _ _ _ _

theorem assemble_gauss_point_CAD_CAD {α : Type} [CommRing α] (n : Nat) (idsf : Nat → Nat)
    (N : Nat → α) (w : α) (ids : UblasMatrix Nat) (R : UblasMatrix α) (s : MappingSystem α)
    (p q : Nat) :
    (assemble_gauss_point n idsf N w ids R s).m_mapping_matrix_CAD_CAD p q =
      s.m_mapping_matrix_CAD_CAD p q +
      supportSum ids (fun j i => supportSum ids (fun l k =>
        axisTerm (ids.get j i) (ids.get l k) (w * R.get j i * R.get l k) p q)) := by
  unfold assemble_gauss_point
  rw [supportSum]
  refine forLoop_additive (fun s : MappingSystem α => s.m_mapping_matrix_CAD_CAD p q) _
    (fun i => ∑ j ∈ Finset.range ids.size1, supportSum ids (fun l k =>
        axisTerm (ids.get j i) (ids.get l k) (w * R.get j i * R.get l k) p q)) ?_ _ s
  intro i s
  refine forLoop_additive (fun s : MappingSystem α => s.m_mapping_matrix_CAD_CAD p q) _
    (fun j => supportSum ids (fun l k =>
        axisTerm (ids.get j i) (ids.get l k) (w * R.get j i * R.get l k) p q)) ?_ _ s
  intro j s
  exact assemble_CAD_CAD_apply _ _ _ _ _ _ _ _

theorem assemble_gauss_point_CAD_FEM {α : Type} [CommRing α] (n : Nat) (idsf : Nat → Nat)
    (N : Nat → α) (w : α) (ids : UblasMatrix Nat) (R : UblasMatrix α) (s : MappingSystem α)
    (p q : Nat) :
    (assemble_gauss_point n idsf N w ids R s).m_mapping_matrix_CAD_FEM p q =
      s.m_mapping_matrix_CAD_FEM p q +
      supportSum ids (fun j i => ∑ k ∈ Finset.range n,
        axisTerm (ids.get j i) (idsf k) (w * R.get j i * N k) p q) := by
  unfold assemble_gauss_point
  rw [supportSum]
  refine forLoop_additive (fun s : MappingSystem α => s.m_mapping_matrix_CAD_FEM p q) _
    (fun i => ∑ j ∈ Finset.range ids.size1, ∑ k ∈ Finset.range n,
        axisTerm (ids.get j i) (idsf k) (w * R.get j i * N k) p q) ?_ _ s
  intro i s
  refine forLoop_additive (fun s : MappingSystem α => s.m_mapping_matrix_CAD_FEM p q) _
    (fun j => ∑ k ∈ Finset.range n,
        axisTerm (ids.get j i) (idsf k) (w * R.get j i * N k) p q) ?_ _ s
  intro j s
  exact assemble_CAD_FEM_apply _ _ _ _ _ _ _ _ _


theorem assemble_integration_point_snd {α : Type} [CommRing α] [Inhabited α]
    (m_patches : List (Patch α)) (lists : NearestPointLists α) (cond_i : Condition α)
    (pn : Nat) (s : MappingSystem α × Nat) :
    (assemble_integration_point m_patches lists cond_i pn s).2 = s.2 + 1 := rfl

theorem assemble_integration_point_CAD_CAD {α : Type} [CommRing α] [Inhabited α]
    (m_patches : List (Patch α)) (lists : NearestPointLists α) (cond_i : Condition α)
    (pn : Nat) (s : MappingSystem α × Nat) (p q : Nat) :
    (assemble_integration_point m_patches lists cond_i pn s).1.m_mapping_matrix_CAD_CAD p q =
      s.1.m_mapping_matrix_CAD_CAD p q +
        CAD_CAD_term (fe_gauss_point m_patches lists cond_i s.2 pn) p q := by
  simp only [assemble_integration_point, assemble_gauss_point_CAD_CAD, CAD_CAD_term,
    fe_gauss_point]

theorem assemble_integration_point_CAD_FEM {α : Type} [CommRing α] [Inhabited α]
    (m_patches : List (Patch α)) (lists : NearestPointLists α) (cond_i : Condition α)
    (pn : Nat) (s : MappingSystem α × Nat) (p q : Nat) :
    (assemble_integration_point m_patches lists cond_i pn s).1.m_mapping_matrix_CAD_FEM p q =
      s.1.m_mapping_matrix_CAD_FEM p q +
        CAD_FEM_term (fe_gauss_point m_patches lists cond_i s.2 pn) p q := by
  simp only [assemble_integration_point, assemble_gauss_point_CAD_FEM, CAD_FEM_term,
    fe_gauss_point]

theorem assemble_points {α : Type} [CommRing α] [Inhabited α]
    (m_patches : List (Patch α)) (lists : NearestPointLists α) (cond_i : Condition α)
    (n : Nat) (s : MappingSystem α × Nat) (p q : Nat) :
    (forLoop n (fun pn s => assemble_integration_point m_patches lists cond_i pn s) s).2
        = s.2 + n ∧
    (forLoop n (fun pn s => assemble_integration_point m_patches lists cond_i pn s)
        s).1.m_mapping_matrix_CAD_CAD p q =
      s.1.m_mapping_matrix_CAD_CAD p q +
        CAD_CAD_spec ((List.range n).map (fun pn =>
          fe_gauss_point m_patches lists cond_i (s.2 + pn) pn)) p q ∧
    (forLoop n (fun pn s => assemble_integration_point m_patches lists cond_i pn s)
        s).1.m_mapping_matrix_CAD_FEM p q =
      s.1.m_mapping_matrix_CAD_FEM p q +
        CAD_FEM_spec ((List.range n).map (fun pn =>
          fe_gauss_point m_patches lists cond_i (s.2 + pn) pn)) p q := by
  induction n with
  | zero => simp [forLoop_zero, CAD_CAD_spec, CAD_FEM_spec]
  | succ n ih =>
    obtain ⟨h1, h2, h3⟩ := ih
    rw [forLoop_succ]
    refine ⟨?_, ?_, ?_⟩
    · rw [assemble_integration_point_snd, h1]; omega
    · rw [assemble_integration_point_CAD_CAD, h2, h1]
      simp only [CAD_CAD_spec, List.range_succ, List.map_append, List.sum_append,
        List.map_cons, List.map_nil, List.sum_cons, List.sum_nil, add_zero, add_assoc]
    · rw [assemble_integration_point_CAD_FEM, h3, h1]
      simp only [CAD_FEM_spec, List.range_succ, List.map_append, List.sum_append,
        List.map_cons, List.map_nil, List.sum_cons, List.sum_nil, add_zero, add_assoc]

theorem CAD_CAD_spec_append {α : Type} [CommRing α] (l1 l2 : List (FEGaussPoint α)) (p q : Nat) :
    CAD_CAD_spec (l1 ++ l2) p q = CAD_CAD_spec l1 p q + CAD_CAD_spec l2 p q := by
  simp [CAD_CAD_spec]

theorem CAD_FEM_spec_append {α : Type} [CommRing α] (l1 l2 : List (FEGaussPoint α)) (p q : Nat) :
    CAD_FEM_spec (l1 ++ l2) p q = CAD_FEM_spec l1 p q + CAD_FEM_spec l2 p q := by
  simp [CAD_FEM_spec]

theorem assemble_conditions_apply {α : Type} [CommRing α] [Inhabited α]
    (m_patches : List (Patch α)) (lists : NearestPointLists α)
    (conditions : List (Condition α)) (s : MappingSystem α × Nat) (p q : Nat) :
    (assemble_conditions m_patches lists conditions s).1.m_mapping_matrix_CAD_CAD p q =
      s.1.m_mapping_matrix_CAD_CAD p q +
        CAD_CAD_spec (fe_gauss_points_from m_patches lists conditions s.2) p q ∧
    (assemble_conditions m_patches lists conditions s).1.m_mapping_matrix_CAD_FEM p q =
      s.1.m_mapping_matrix_CAD_FEM p q +
        CAD_FEM_spec (fe_gauss_points_from m_patches lists conditions s.2) p q := by
  induction conditions generalizing s with
  | nil => simp [assemble_conditions, fe_gauss_points_from, CAD_CAD_spec, CAD_FEM_spec]
  | cons c cs ih =>
    obtain ⟨h1, h2, h3⟩ := assemble_points m_patches lists c c.number_of_integration_points s p q
    have := ih (forLoop c.number_of_integration_points
      (fun pn s => assemble_integration_point m_patches lists c pn s) s)
    simp only [assemble_conditions, List.foldl_cons] at this ⊢
    rw [this.1, this.2, h1, h2, h3, fe_gauss_points_from, CAD_CAD_spec_append,
      CAD_FEM_spec_append]
    constructor <;> ring

theorem axisTerm_symm {α : Type} [AddCommMonoid α] (r c : Nat) (v : α) (p q : Nat) :
    axisTerm r c v p q = axisTerm c r v q p := by
  unfold axisTerm
  refine Finset.sum_congr rfl (fun a _ => ?_)
  simp only [and_comm]

theorem axisTerm_eq_zero {α : Type} [AddCommMonoid α] (r c : Nat) (v : α) (p q : Nat)
    (h : ∀ a < 3, ¬ (p = 3 * r + a ∧ q = 3 * c + a)) : axisTerm r c v p q = 0 := by
  unfold axisTerm
  refine Finset.sum_eq_zero (fun a ha => ?_)
  rw [if_neg (h a (Finset.mem_range.mp ha))]

theorem supportSum_comm {α : Type} [AddCommMonoid α] (m m' : UblasMatrix Nat)
    (F : Nat → Nat → Nat → Nat → α) :
    supportSum m (fun j i => supportSum m' (fun l k => F j i l k)) =
      supportSum m' (fun l k => supportSum m (fun j i => F j i l k)) := by
  unfold supportSum
  calc ∑ i ∈ Finset.range m.size2, ∑ j ∈ Finset.range m.size1,
        ∑ k ∈ Finset.range m'.size2, ∑ l ∈ Finset.range m'.size1, F j i l k
      = ∑ i ∈ Finset.range m.size2, ∑ k ∈ Finset.range m'.size2,
        ∑ j ∈ Finset.range m.size1, ∑ l ∈ Finset.range m'.size1, F j i l k :=
        Finset.sum_congr rfl (fun i _ => Finset.sum_comm)
    _ = ∑ k ∈ Finset.range m'.size2, ∑ i ∈ Finset.range m.size2,
        ∑ j ∈ Finset.range m.size1, ∑ l ∈ Finset.range m'.size1, F j i l k := Finset.sum_comm
    _ = ∑ k ∈ Finset.range m'.size2, ∑ i ∈ Finset.range m.size2,
        ∑ l ∈ Finset.range m'.size1, ∑ j ∈ Finset.range m.size1, F j i l k :=
        Finset.sum_congr rfl (fun k _ => Finset.sum_congr rfl (fun i _ => Finset.sum_comm))
    _ = ∑ k ∈ Finset.range m'.size2, ∑ l ∈ Finset.range m'.size1,
        ∑ i ∈ Finset.range m.size2, ∑ j ∈ Finset.range m.size1, F j i l k :=
        Finset.sum_congr rfl (fun k _ => Finset.sum_comm)

theorem supportSum_congr {α : Type} [AddCommMonoid α] (m : UblasMatrix Nat)
    (f g : Nat → Nat → α) (h : ∀ i < m.size2, ∀ j < m.size1, f j i = g j i) :
    supportSum m f = supportSum m g := by
  unfold supportSum
  exact Finset.sum_congr rfl (fun i hi => Finset.sum_congr rfl (fun j hj =>
    h i (Finset.mem_range.mp hi) j (Finset.mem_range.mp hj)))

theorem supportSum_eq_zero {α : Type} [AddCommMonoid α] (m : UblasMatrix Nat)
    (f : Nat → Nat → α) (h : ∀ i < m.size2, ∀ j < m.size1, f j i = 0) :
    supportSum m f = 0 := by
  unfold supportSum
  exact Finset.sum_eq_zero (fun i hi => Finset.sum_eq_zero (fun j hj =>
    h i (Finset.mem_range.mp hi) j (Finset.mem_range.mp hj)))

theorem CAD_CAD_term_symm {α : Type} [CommRing α] (g : FEGaussPoint α) (p q : Nat) :
    CAD_CAD_term g p q = CAD_CAD_term g q p := by
  unfold CAD_CAD_term
  rw [supportSum_comm]
  refine supportSum_congr _ _ _ (fun k _ l _ => supportSum_congr _ _ _ (fun i _ j _ => ?_))
  rw [axisTerm_symm, mul_right_comm]

theorem CAD_CAD_spec_symm {α : Type} [CommRing α] (gps : List (FEGaussPoint α)) (p q : Nat) :
    CAD_CAD_spec gps p q = CAD_CAD_spec gps q p := by
  unfold CAD_CAD_spec
  congr 1
  exact List.map_congr_left (fun g _ => CAD_CAD_term_symm g p q)

theorem compute_mapping_matrix_assembly_apply {α : Type} [CommRing α] [Inhabited α]
    (m_patches : List (Patch α)) (lists : NearestPointLists α)
    (conditions : List (Condition α)) (n_cp n_fem p q : Nat) :
    (compute_mapping_matrix_assembly m_patches lists conditions n_cp
        n_fem).m_mapping_matrix_CAD_CAD p q =
      CAD_CAD_spec (fe_gauss_points m_patches lists conditions) p q ∧
    (compute_mapping_matrix_assembly m_patches lists conditions n_cp
        n_fem).m_mapping_matrix_CAD_FEM p q =
      CAD_FEM_spec (fe_gauss_points m_patches lists conditions) p q := by
  have h := assemble_conditions_apply m_patches lists conditions
    (MappingSystem.cleared α n_cp n_fem, 0) p q
  simp only [compute_mapping_matrix_assembly, fe_gauss_points]
  rw [h.1, h.2]
  simp [MappingSystem.cleared]

/-- Claim C1: after the assembly of `compute_mapping_matrix` (no constraints applied) the
CAD-CAD matrix is the sum over all FE Gauss points of `w * R_i * R_j` placed at
`(3*row_i + a, 3*row_j + a)` for each axis `a` and every pair of control points of the
support, the CAD-FEM matrix is the sum of `w * R_i * N_k` placed at
`(3*row_i + a, 3*node_k + a)`, and an entry of either matrix that is no such position for
any Gauss point is zero. -/
theorem compute_mapping_matrix_assembly_entries {α : Type} [CommRing α] [Inhabited α]
    (m_patches : List (Patch α)) (lists : NearestPointLists α)
    (conditions : List (Condition α)) (n_cp n_fem p q : Nat) :
    (compute_mapping_matrix_assembly m_patches lists conditions n_cp
        n_fem).m_mapping_matrix_CAD_CAD p q =
      CAD_CAD_spec (fe_gauss_points m_patches lists conditions) p q ∧
    (compute_mapping_matrix_assembly m_patches lists conditions n_cp
        n_fem).m_mapping_matrix_CAD_FEM p q =
      CAD_FEM_spec (fe_gauss_points m_patches lists conditions) p q ∧
    ((∀ g ∈ fe_gauss_points m_patches lists conditions,
        ∀ i < g.row.size2, ∀ j < g.row.size1, ∀ k < g.row.size2, ∀ l < g.row.size1,
        ∀ a < 3, ¬ (p = 3 * g.row.get j i + a ∧ q = 3 * g.row.get l k + a)) →
      (compute_mapping_matrix_assembly m_patches lists conditions n_cp
        n_fem).m_mapping_matrix_CAD_CAD p q = 0) ∧
    ((∀ g ∈ fe_gauss_points m_patches lists conditions,
        ∀ i < g.row.size2, ∀ j < g.row.size1, ∀ k < g.n_fem_nodes,
        ∀ a < 3, ¬ (p = 3 * g.row.get j i + a ∧ q = 3 * g.node k + a)) →
      (compute_mapping_matrix_assembly m_patches lists conditions n_cp
        n_fem).m_mapping_matrix_CAD_FEM p q = 0) := by
  obtain ⟨h1, h2⟩ := compute_mapping_matrix_assembly_apply m_patches lists conditions
    n_cp n_fem p q
  refine ⟨h1, h2, fun h => ?_, fun h => ?_⟩
  · rw [h1, CAD_CAD_spec]
    refine List.sum_eq_zero (fun x hx => ?_)
    obtain ⟨g, hg, rfl⟩ := List.mem_map.mp hx
    exact supportSum_eq_zero _ _ (fun i hi j hj => supportSum_eq_zero _ _ (fun k hk l hl =>
      axisTerm_eq_zero _ _ _ _ _ (fun a ha => h g hg i hi j hj k hk l hl a ha)))
  · rw [h2, CAD_FEM_spec]
    refine List.sum_eq_zero (fun x hx => ?_)
    obtain ⟨g, hg, rfl⟩ := List.mem_map.mp hx
    exact supportSum_eq_zero _ _ (fun i hi j hj => Finset.sum_eq_zero (fun k hk =>
      axisTerm_eq_zero _ _ _ _ _ (fun a ha =>
        h g hg i hi j hj k (Finset.mem_range.mp hk) a ha)))

/-- Claim C4 (amended): over exact arithmetic (the values in a commutative ring) the
CAD-CAD matrix produced by the assembly of `compute_mapping_matrix` alone is symmetric,
`M[p][q] = M[q][p]` for all indices, whatever the FE mesh and the correspondences are. -/
theorem compute_mapping_matrix_CAD_CAD_symmetric {α : Type} [CommRing α] [Inhabited α]
    (m_patches : List (Patch α)) (lists : NearestPointLists α)
    (conditions : List (Condition α)) (n_cp n_fem p q : Nat) :
    (compute_mapping_matrix_assembly m_patches lists conditions n_cp
        n_fem).m_mapping_matrix_CAD_CAD p q =
    (compute_mapping_matrix_assembly m_patches lists conditions n_cp
        n_fem).m_mapping_matrix_CAD_CAD q p := by
  rw [(compute_mapping_matrix_assembly_apply m_patches lists conditions n_cp n_fem p q).1,
    (compute_mapping_matrix_assembly_apply m_patches lists conditions n_cp n_fem q p).1]
  exact CAD_CAD_spec_symm _ p q


theorem supportSum_eq_sum_product {α : Type} [AddCommMonoid α] (m : UblasMatrix Nat)
    (f : Nat → Nat → α) :
    supportSum m f = ∑ e ∈ Finset.range m.size2 ×ˢ Finset.range m.size1, f e.2 e.1 := by
  rw [supportSum, Finset.sum_product' _ _ (fun i j => f j i)]

theorem quadForm_add {α : Type} [CommRing α] (n : Nat) (x : Nat → α) (A B : Nat → Nat → α) :
    quadForm n x (fun p q => A p q + B p q) = quadForm n x A + quadForm n x B := by
  simp only [quadForm, mul_add, add_mul, Finset.sum_add_distrib]

theorem quadForm_sub {α : Type} [CommRing α] (n : Nat) (x : Nat → α) (A B : Nat → Nat → α) :
    quadForm n x (fun p q => A p q - B p q) = quadForm n x A - quadForm n x B := by
  simp only [quadForm, mul_sub, sub_mul, Finset.sum_sub_distrib]

theorem quadForm_sum {α ι : Type} [CommRing α] (n : Nat) (x : Nat → α) (s : Finset ι)
    (F : ι → Nat → Nat → α) :
    quadForm n x (fun p q => ∑ e ∈ s, F e p q) = ∑ e ∈ s, quadForm n x (F e) := by
  simp only [quadForm, Finset.mul_sum, Finset.sum_mul]
  exact (Finset.sum_congr rfl (fun p _ => Finset.sum_comm)).trans Finset.sum_comm

theorem quadForm_axisTerm {α : Type} [CommRing α] (n : Nat) (x : Nat → α) (r c : Nat) (v : α)
    (hr : 3 * r + 2 < n) (hc : 3 * c + 2 < n) :
    quadForm n x (axisTerm r c v) = ∑ a ∈ Finset.range 3, v * x (3 * r + a) * x (3 * c + a) := by
  unfold axisTerm
  rw [quadForm_sum]
  refine Finset.sum_congr rfl (fun a ha => ?_)
  have ha' : a < 3 := Finset.mem_range.mp ha
  have h1 : 3 * r + a < n := by omega
  have h2 : 3 * c + a < n := by omega
  unfold quadForm
  rw [Finset.sum_comm]
  simp only [ite_and, mul_ite, ite_mul, mul_zero, zero_mul, Finset.sum_ite_eq',
    Finset.mem_range, h1, h2, if_true]
  ring


theorem subOnAxes_apply {α : Type} [CommRing α] (M : SparseMatrixType α) (r c : Nat) (v : α)
    (p q : Nat) : subOnAxes M r c v p q = M p q - axisTerm r c v p q := by
  simp only [subOnAxes, subAt, axisTerm, Finset.sum_range_succ, Finset.sum_range_zero, zero_add]
  split_ifs <;> simp_all

theorem forLoop_forLoop_additive {σ α : Type} [AddCommMonoid α] (f : σ → α)
    (m : UblasMatrix Nat) (body : Nat → Nat → σ → σ) (g : Nat → Nat → α)
    (h : ∀ i j s, f (body i j s) = f s + g j i) (s : σ) :
    f (forLoop m.size2 (fun i s => forLoop m.size1 (fun j s => body i j s) s) s) =
      f s + supportSum m g := by
  unfold supportSum
  refine forLoop_additive f _ (fun i => ∑ j ∈ Finset.range m.size1, g j i) ?_ _ s
  intro i s
  exact forLoop_additive f _ (fun j => g j i) (fun j s => h i j s) _ s

theorem displacement_coupling_same_side_apply {α : Type} [CommRing α]
    (ids : UblasMatrix Nat) (R : UblasMatrix α) (J1 w pen : α) (M : SparseMatrixType α)
    (p q : Nat) :
    displacement_coupling_same_side ids R J1 w pen M p q =
      M p q + coupling_block ids ids R R (pen * w * J1) p q := by
  unfold displacement_coupling_same_side coupling_block
  refine forLoop_forLoop_additive (fun M : SparseMatrixType α => M p q) ids _
    (fun j i => supportSum ids (fun l k =>
      axisTerm (ids.get j i) (ids.get l k) (pen * w * J1 * R.get j i * R.get l k) p q)) ?_ M
  intro i j M
  refine forLoop_forLoop_additive (fun M : SparseMatrixType α => M p q) ids _
    (fun l k => axisTerm (ids.get j i) (ids.get l k) (pen * w * J1 * R.get j i * R.get l k) p q)
    ?_ M
  intro k l M
  exact addOnAxes_apply _ _ _ _ _ _

theorem displacement_coupling_master_slave_apply {α : Type} [CommRing α]
    (ids_m ids_s : UblasMatrix Nat) (R_m R_s : UblasMatrix α) (J1 w pen : α)
    (M : SparseMatrixType α) (p q : Nat) :
    displacement_coupling_master_slave ids_m ids_s R_m R_s J1 w pen M p q =
      M p q - coupling_block ids_m ids_s R_m R_s (pen * w * J1) p q
        - coupling_block ids_s ids_m R_s R_m (pen * w * J1) p q := by
  have key : displacement_coupling_master_slave ids_m ids_s R_m R_s J1 w pen M p q =
      M p q + supportSum ids_m (fun j i => supportSum ids_s (fun l k =>
        -(axisTerm (ids_m.get j i) (ids_s.get l k)
            (pen * w * J1 * R_m.get j i * R_s.get l k) p q) -
          axisTerm (ids_s.get l k) (ids_m.get j i)
            (pen * w * J1 * R_m.get j i * R_s.get l k) p q)) := by
    unfold displacement_coupling_master_slave
    refine forLoop_forLoop_additive (fun M : SparseMatrixType α => M p q) ids_m _
      (fun j i => supportSum ids_s (fun l k =>
        -(axisTerm (ids_m.get j i) (ids_s.get l k)
            (pen * w * J1 * R_m.get j i * R_s.get l k) p q) -
          axisTerm (ids_s.get l k) (ids_m.get j i)
            (pen * w * J1 * R_m.get j i * R_s.get l k) p q)) ?_ M
    intro i j M
    refine forLoop_forLoop_additive (fun M : SparseMatrixType α => M p q) ids_s _
      (fun l k =>
        -(axisTerm (ids_m.get j i) (ids_s.get l k)
            (pen * w * J1 * R_m.get j i * R_s.get l k) p q) -
          axisTerm (ids_s.get l k) (ids_m.get j i)
            (pen * w * J1 * R_m.get j i * R_s.get l k) p q) ?_ M
    intro k l M
    simp only [subOnAxes_apply]
    ring
  rw [key]
  have hsm : coupling_block ids_s ids_m R_s R_m (pen * w * J1) p q =
      supportSum ids_m (fun j i => supportSum ids_s (fun l k =>
        axisTerm (ids_s.get l k) (ids_m.get j i)
          (pen * w * J1 * R_m.get j i * R_s.get l k) p q)) := by
    unfold coupling_block
    rw [supportSum_comm]
    refine supportSum_congr _ _ _ (fun i _ j _ => supportSum_congr _ _ _ (fun k _ l _ => ?_))
    rw [mul_right_comm]
  rw [hsm]
  unfold coupling_block supportSum
  simp only [Finset.sum_sub_distrib, Finset.sum_neg_distrib]
  ring

theorem apply_displacement_coupling_apply {α : Type} [CommRing α]
    (ids_m ids_s : UblasMatrix Nat) (R_m R_s : UblasMatrix α) (J1 w pen : α)
    (s : MappingSystem α) (p q : Nat) :
    (apply_displacement_coupling ids_m ids_s R_m R_s J1 w pen s).m_mapping_matrix_CAD_CAD p q =
      s.m_mapping_matrix_CAD_CAD p q
        + coupling_block ids_m ids_m R_m R_m (pen * w * J1) p q
        + coupling_block ids_s ids_s R_s R_s (pen * w * J1) p q
        - coupling_block ids_m ids_s R_m R_s (pen * w * J1) p q
        - coupling_block ids_s ids_m R_s R_m (pen * w * J1) p q := by
  simp only [apply_displacement_coupling, displacement_coupling_master_slave_apply,
    displacement_coupling_same_side_apply]

theorem quadForm_supportSum {α : Type} [CommRing α] (n : Nat) (x : Nat → α)
    (m : UblasMatrix Nat) (F : Nat → Nat → Nat → Nat → α) :
    quadForm n x (fun p q => supportSum m (fun j i => F j i p q)) =
      supportSum m (fun j i => quadForm n x (F j i)) := by
  unfold supportSum
  rw [quadForm_sum]
  refine Finset.sum_congr rfl (fun i _ => ?_)
  rw [quadForm_sum]

theorem quadForm_coupling_block {α : Type} [CommRing α] (n : Nat) (x : Nat → α)
    (ids_r ids_c : UblasMatrix Nat) (R_r R_c : UblasMatrix α) (c : α)
    (hr : ∀ i < ids_r.size2, ∀ j < ids_r.size1, 3 * ids_r.get j i + 2 < n)
    (hc : ∀ i < ids_c.size2, ∀ j < ids_c.size1, 3 * ids_c.get j i + 2 < n) :
    quadForm n x (coupling_block ids_r ids_c R_r R_c c) =
      c * ∑ a ∈ Finset.range 3, side_value ids_r R_r x a * side_value ids_c R_c x a := by
  have h1 : quadForm n x (coupling_block ids_r ids_c R_r R_c c) =
      supportSum ids_r (fun j i => supportSum ids_c (fun l k =>
        ∑ a ∈ Finset.range 3, c * R_r.get j i * R_c.get l k *
          x (3 * ids_r.get j i + a) * x (3 * ids_c.get l k + a))) := by
    unfold coupling_block
    rw [quadForm_supportSum]
    refine supportSum_congr _ _ _ (fun i hi j hj => ?_)
    rw [quadForm_supportSum]
    refine supportSum_congr _ _ _ (fun k hk l hl => ?_)
    exact quadForm_axisTerm n x _ _ _ (hr i hi j hj) (hc k hk l hl)
  rw [h1]
  simp only [side_value, supportSum_eq_sum_product]
  rw [Finset.mul_sum]
  have hswap : ∀ e ∈ Finset.range ids_r.size2 ×ˢ Finset.range ids_r.size1,
      (∑ e' ∈ Finset.range ids_c.size2 ×ˢ Finset.range ids_c.size1,
        ∑ a ∈ Finset.range 3, c * R_r.get e.2 e.1 * R_c.get e'.2 e'.1 *
          x (3 * ids_r.get e.2 e.1 + a) * x (3 * ids_c.get e'.2 e'.1 + a)) =
      ∑ a ∈ Finset.range 3,
        ∑ e' ∈ Finset.range ids_c.size2 ×ˢ Finset.range ids_c.size1,
          c * R_r.get e.2 e.1 * R_c.get e'.2 e'.1 *
          x (3 * ids_r.get e.2 e.1 + a) * x (3 * ids_c.get e'.2 e'.1 + a) :=
    fun e _ => Finset.sum_comm
  rw [Finset.sum_congr rfl hswap, Finset.sum_comm]
  refine Finset.sum_congr rfl (fun a _ => ?_)
  rw [Finset.sum_mul_sum, Finset.mul_sum]
  refine Finset.sum_congr rfl (fun e _ => ?_)
  rw [Finset.mul_sum]
  refine Finset.sum_congr rfl (fun e' _ => ?_)
  ring

/-- Claim C7: for one coupling Gauss point `apply_displacement_coupling` adds
`+p*w*J*R_m,i*R_m,j` to the master-master block, `+p*w*J*R_s,i*R_s,j` to the slave-slave
block and `-p*w*J*R_m,i*R_s,j` to the master-slave and to the slave-master block, on each
of the three axis strides; the quadratic form of the added matrix is
`p*w*J * sum over axes of (R_m . x_m - R_s . x_s)^2`, which is zero for every vector `x`
that has equal values on both sides of the seam. The indices `3*id + a` of both supports
lie below the dimension `n` over which the quadratic form is taken. -/
theorem apply_displacement_coupling_penalty {α : Type} [CommRing α]
    (ids_m ids_s : UblasMatrix Nat) (R_m R_s : UblasMatrix α) (J1 w pen : α)
    (s : MappingSystem α) (n : Nat) (x : Nat → α)
    (hm : ∀ i < ids_m.size2, ∀ j < ids_m.size1, 3 * ids_m.get j i + 2 < n)
    (hs : ∀ i < ids_s.size2, ∀ j < ids_s.size1, 3 * ids_s.get j i + 2 < n) :
    (∀ p q,
      (apply_displacement_coupling ids_m ids_s R_m R_s J1 w pen s).m_mapping_matrix_CAD_CAD p q =
        s.m_mapping_matrix_CAD_CAD p q
          + coupling_block ids_m ids_m R_m R_m (pen * w * J1) p q
          + coupling_block ids_s ids_s R_s R_s (pen * w * J1) p q
          - coupling_block ids_m ids_s R_m R_s (pen * w * J1) p q
          - coupling_block ids_s ids_m R_s R_m (pen * w * J1) p q) ∧
    quadForm n x (fun p q =>
        (apply_displacement_coupling ids_m ids_s R_m R_s J1 w pen s).m_mapping_matrix_CAD_CAD p q
          - s.m_mapping_matrix_CAD_CAD p q) =
      pen * w * J1 * ∑ a ∈ Finset.range 3,
        (side_value ids_m R_m x a - side_value ids_s R_s x a) ^ 2 ∧
    ((∀ a < 3, side_value ids_m R_m x a = side_value ids_s R_s x a) →
      quadForm n x (fun p q =>
        (apply_displacement_coupling ids_m ids_s R_m R_s J1 w pen s).m_mapping_matrix_CAD_CAD p q
          - s.m_mapping_matrix_CAD_CAD p q) = 0) := by
  have hform := apply_displacement_coupling_apply ids_m ids_s R_m R_s J1 w pen s
  have hq : quadForm n x (fun p q =>
        (apply_displacement_coupling ids_m ids_s R_m R_s J1 w pen s).m_mapping_matrix_CAD_CAD p q
          - s.m_mapping_matrix_CAD_CAD p q) =
      pen * w * J1 * ∑ a ∈ Finset.range 3,
        (side_value ids_m R_m x a - side_value ids_s R_s x a) ^ 2 := by
    have h1 : (fun p q =>
        (apply_displacement_coupling ids_m ids_s R_m R_s J1 w pen s).m_mapping_matrix_CAD_CAD p q
          - s.m_mapping_matrix_CAD_CAD p q) =
        (fun p q => coupling_block ids_m ids_m R_m R_m (pen * w * J1) p q
          + coupling_block ids_s ids_s R_s R_s (pen * w * J1) p q
          - coupling_block ids_m ids_s R_m R_s (pen * w * J1) p q
          - coupling_block ids_s ids_m R_s R_m (pen * w * J1) p q) := by
      funext p q
      rw [hform]
      ring
    rw [h1, quadForm_sub, quadForm_sub, quadForm_add,
      quadForm_coupling_block n x _ _ _ _ _ hm hm, quadForm_coupling_block n x _ _ _ _ _ hs hs,
      quadForm_coupling_block n x _ _ _ _ _ hm hs, quadForm_coupling_block n x _ _ _ _ _ hs hm,
      ← mul_add, ← mul_sub, ← mul_sub, ← Finset.sum_add_distrib, ← Finset.sum_sub_distrib,
      ← Finset.sum_sub_distrib]
    congr 1
    refine Finset.sum_congr rfl (fun a _ => ?_)
    ring
  refine ⟨hform, hq, fun heq => ?_⟩
  rw [hq]
  have : ∑ a ∈ Finset.range 3, (side_value ids_m R_m x a - side_value ids_s R_s x a) ^ 2 = 0 :=
    Finset.sum_eq_zero (fun a ha => by rw [heq a (Finset.mem_range.mp ha)]; ring)
  rw [this, mul_zero]

theorem axisTerm_at {α : Type} [AddCommMonoid α] (r c r0 c0 a : Nat) (v : α) (ha : a < 3) :
    axisTerm r c v (3 * r0 + a) (3 * c0 + a) = if r = r0 ∧ c = c0 then v else 0 := by
  unfold axisTerm
  by_cases h : r = r0 ∧ c = c0
  · obtain ⟨rfl, rfl⟩ := h
    rw [if_pos ⟨rfl, rfl⟩, Finset.sum_eq_single a]
    · simp
    · intro b _ hb
      rw [if_neg]
      omega
    · intro h; exact absurd (Finset.mem_range.mpr ha) h
  · rw [if_neg h]
    refine Finset.sum_eq_zero (fun b hb => ?_)
    have hb' : b < 3 := Finset.mem_range.mp hb
    rw [if_neg]
    intro ⟨h1, h2⟩
    exact h ⟨by omega, by omega⟩

theorem coupling_block_at {α : Type} [CommRing α] (ids_r ids_c : UblasMatrix Nat)
    (R_r R_c : UblasMatrix α) (c : α) (hr : distinct_ids ids_r) (hc : distinct_ids ids_c)
    (i j k l a : Nat) (hi : i < ids_r.size2) (hj : j < ids_r.size1) (hk : k < ids_c.size2)
    (hl : l < ids_c.size1) (ha : a < 3) :
    coupling_block ids_r ids_c R_r R_c c (3 * ids_r.get j i + a) (3 * ids_c.get l k + a) =
      c * R_r.get j i * R_c.get l k := by
  simp only [coupling_block, supportSum]
  rw [Finset.sum_eq_single i]
  · rw [Finset.sum_eq_single j]
    · rw [Finset.sum_eq_single k]
      · rw [Finset.sum_eq_single l]
        · rw [axisTerm_at _ _ _ _ _ _ ha, if_pos ⟨rfl, rfl⟩]
        · intro l' hl' hne
          rw [axisTerm_at _ _ _ _ _ _ ha, if_neg]
          intro ⟨_, h⟩
          exact hne (hc k hk l' (Finset.mem_range.mp hl') k hk l hl h).1
        · intro h; exact absurd (Finset.mem_range.mpr hl) h
      · intro k' hk' hne
        refine Finset.sum_eq_zero (fun l' hl' => ?_)
        rw [axisTerm_at _ _ _ _ _ _ ha, if_neg]
        intro ⟨_, h⟩
        exact hne (hc k' (Finset.mem_range.mp hk') l' (Finset.mem_range.mp hl') k hk l hl h).2
      · intro h; exact absurd (Finset.mem_range.mpr hk) h
    · intro j' hj' hne
      refine Finset.sum_eq_zero (fun k' _ => Finset.sum_eq_zero (fun l' _ => ?_))
      rw [axisTerm_at _ _ _ _ _ _ ha, if_neg]
      intro ⟨h, _⟩
      exact hne (hr i hi j' (Finset.mem_range.mp hj') i hi j hj h).1
    · intro h; exact absurd (Finset.mem_range.mpr hj) h
  · intro i' hi' hne
    refine Finset.sum_eq_zero (fun j' hj' => Finset.sum_eq_zero (fun k' _ =>
      Finset.sum_eq_zero (fun l' _ => ?_)))
    rw [axisTerm_at _ _ _ _ _ _ ha, if_neg]
    intro ⟨h, _⟩
    exact hne (hr i' (Finset.mem_range.mp hi') j' (Finset.mem_range.mp hj') i hi j hj h).2
  · intro h; exact absurd (Finset.mem_range.mpr hi) h

theorem coupling_block_off {α : Type} [CommRing α] (ids_r ids_c : UblasMatrix Nat)
    (R_r R_c : UblasMatrix α) (c : α) (r0 c0 a : Nat) (ha : a < 3)
    (h : (∀ i < ids_r.size2, ∀ j < ids_r.size1, ids_r.get j i ≠ r0) ∨
         (∀ i < ids_c.size2, ∀ j < ids_c.size1, ids_c.get j i ≠ c0)) :
    coupling_block ids_r ids_c R_r R_c c (3 * r0 + a) (3 * c0 + a) = 0 := by
  unfold coupling_block
  refine supportSum_eq_zero _ _ (fun i hi j hj => supportSum_eq_zero _ _ (fun k hk l hl => ?_))
  rw [axisTerm_at _ _ _ _ _ _ ha, if_neg]
  intro ⟨h1, h2⟩
  rcases h with h | h
  · exact h i hi j hj h1
  · exact h k hk l hl h2


theorem cond_addAt_apply {α : Type} [CommRing α] (b : Bool) (M : SparseMatrixType α)
    (r c : Nat) (v : α) (p q : Nat) :
    (if b = true then addAt M r c v else M) p q =
      M p q + if b = true ∧ p = r ∧ q = c then v else 0 := by
  cases b
  · simp
  · simp only [addAt, if_true, true_and]
    split_ifs <;> simp

theorem dirichlet_add_apply {α : Type} [CommRing α] (fix_x fix_y fix_z : Bool)
    (M : SparseMatrixType α) (r c : Nat) (v : α) (p q : Nat) :
    (if fix_z = true then
        addAt (if fix_y = true then
            addAt (if fix_x = true then addAt M (3 * r + 0) (3 * c + 0) v else M)
              (3 * r + 1) (3 * c + 1) v
          else (if fix_x = true then addAt M (3 * r + 0) (3 * c + 0) v else M))
          (3 * r + 2) (3 * c + 2) v
      else (if fix_y = true then
            addAt (if fix_x = true then addAt M (3 * r + 0) (3 * c + 0) v else M)
              (3 * r + 1) (3 * c + 1) v
          else (if fix_x = true then addAt M (3 * r + 0) (3 * c + 0) v else M))) p q =
      M p q + ∑ a ∈ Finset.range 3,
        if axis_fixed (fix_x, fix_y, fix_z) a = true ∧ p = 3 * r + a ∧ q = 3 * c + a
        then v else 0 := by
  rw [cond_addAt_apply, cond_addAt_apply, cond_addAt_apply]
  simp only [axis_fixed, Finset.sum_range_succ, Finset.sum_range_zero, zero_add]
  simp only [if_true, OfNat.ofNat_ne_zero, OfNat.ofNat_ne_one, if_false, one_ne_zero,
    add_assoc]

theorem dirichlet_merge_apply {α : Type} [CommRing α] (fix_x fix_y fix_z : Bool)
    (ids : UblasMatrix Nat) (R : UblasMatrix α) (J1 w pen : α) (M : SparseMatrixType α)
    (p q : Nat) :
    dirichlet_merge fix_x fix_y fix_z ids R J1 w pen M p q =
      M p q + dirichlet_block (fix_x, fix_y, fix_z) ids R (pen * w * J1) p q := by
  have key : dirichlet_merge fix_x fix_y fix_z ids R J1 w pen M p q =
      M p q + ∑ i ∈ Finset.range ids.size1, ∑ j ∈ Finset.range ids.size2,
        ∑ k ∈ Finset.range ids.size1, ∑ l ∈ Finset.range ids.size2,
          ∑ a ∈ Finset.range 3,
            if axis_fixed (fix_x, fix_y, fix_z) a = true ∧ p = 3 * ids.get i j + a ∧
              q = 3 * ids.get k l + a
            then pen * w * J1 * R.get i j * R.get k l else 0 := by
    unfold dirichlet_merge
    refine forLoop_additive (fun M : SparseMatrixType α => M p q) _
      (fun i => ∑ j ∈ Finset.range ids.size2,
        ∑ k ∈ Finset.range ids.size1, ∑ l ∈ Finset.range ids.size2,
          ∑ a ∈ Finset.range 3,
            if axis_fixed (fix_x, fix_y, fix_z) a = true ∧ p = 3 * ids.get i j + a ∧
              q = 3 * ids.get k l + a
            then pen * w * J1 * R.get i j * R.get k l else 0) ?_ _ M
    intro i M
    refine forLoop_additive (fun M : SparseMatrixType α => M p q) _
      (fun j => ∑ k ∈ Finset.range ids.size1, ∑ l ∈ Finset.range ids.size2,
          ∑ a ∈ Finset.range 3,
            if axis_fixed (fix_x, fix_y, fix_z) a = true ∧ p = 3 * ids.get i j + a ∧
              q = 3 * ids.get k l + a
            then pen * w * J1 * R.get i j * R.get k l else 0) ?_ _ M
    intro j M
    refine forLoop_additive (fun M : SparseMatrixType α => M p q) _
      (fun k => ∑ l ∈ Finset.range ids.size2,
          ∑ a ∈ Finset.range 3,
            if axis_fixed (fix_x, fix_y, fix_z) a = true ∧ p = 3 * ids.get i j + a ∧
              q = 3 * ids.get k l + a
            then pen * w * J1 * R.get i j * R.get k l else 0) ?_ _ M
    intro k M
    refine forLoop_additive (fun M : SparseMatrixType α => M p q) _
      (fun l => ∑ a ∈ Finset.range 3,
            if axis_fixed (fix_x, fix_y, fix_z) a = true ∧ p = 3 * ids.get i j + a ∧
              q = 3 * ids.get k l + a
            then pen * w * J1 * R.get i j * R.get k l else 0) ?_ _ M
    intro l M
    exact dirichlet_add_apply fix_x fix_y fix_z M _ _ _ p q
  rw [key]
  unfold dirichlet_block supportSum
  congr 1
  rw [Finset.sum_comm]
  refine Finset.sum_congr rfl (fun j _ => Finset.sum_congr rfl (fun i _ => ?_))
  rw [Finset.sum_comm]

theorem foldl_additive {σ β α : Type} [AddCommMonoid α] (f : σ → α) (body : σ → β → σ)
    (g : β → α) (h : ∀ s b, f (body s b) = f s + g b) (l : List β) (s : σ) :
    f (l.foldl body s) = f s + (l.map g).sum := by
  induction l generalizing s with
  | nil => simp
  | cons b bs ih => rw [List.foldl_cons, ih, h, List.map_cons, List.sum_cons, add_assoc]

theorem dirichlet_fixing_not_listed (e : Nat) (l : List (Nat × Bool × Bool × Bool))
    (h : e ∉ l.map Prod.fst) : dirichlet_fixing e l = (true, true, true) := by
  unfold dirichlet_fixing
  induction l with
  | nil => rfl
  | cons x xs ih =>
    simp only [List.map_cons, List.mem_cons, not_or] at h
    rw [List.foldl_cons, if_neg h.1]
    exact ih h.2

theorem dirichlet_fixing_foldl_not_listed (e : Nat) (l : List (Nat × Bool × Bool × Bool))
    (st : Bool × Bool × Bool) (h : e ∉ l.map Prod.fst) :
    l.foldl (fun st entry => if e = entry.1 then entry.2 else st) st = st := by
  induction l generalizing st with
  | nil => rfl
  | cons x xs ih =>
    simp only [List.map_cons, List.mem_cons, not_or] at h
    rw [List.foldl_cons, if_neg h.1, ih st h.2]

theorem dirichlet_fixing_listed (e : Nat) (pre post : List (Nat × Bool × Bool × Bool))
    (fix : Bool × Bool × Bool) (h : e ∉ post.map Prod.fst) :
    dirichlet_fixing e (pre ++ (e, fix) :: post) = fix := by
  unfold dirichlet_fixing
  rw [List.foldl_append, List.foldl_cons, if_pos rfl]
  exact dirichlet_fixing_foldl_not_listed e post fix h

theorem dirichlet_block_eq_zero {α : Type} [CommRing α] (fix : Bool × Bool × Bool)
    (ids : UblasMatrix Nat) (R : UblasMatrix α) (c : α) (p q a : Nat) (ha : a < 3)
    (hfix : axis_fixed fix a = false) (hpq : p % 3 = a ∨ q % 3 = a) :
    dirichlet_block fix ids R c p q = 0 := by
  unfold dirichlet_block
  refine supportSum_eq_zero _ _ (fun i _ j _ => supportSum_eq_zero _ _ (fun k _ l _ => ?_))
  refine Finset.sum_eq_zero (fun b hb => ?_)
  have hb' : b < 3 := Finset.mem_range.mp hb
  rw [if_neg]
  rintro ⟨h1, h2, h3⟩
  have : b = a := by omega
  rw [this, hfix] at h1
  exact Bool.false_ne_true h1

theorem apply_dirichlet_condition_apply {α : Type} [CommRing α] [Inhabited α]
    (norm_2 : Vec3 α → α) (m_patches : List (Patch α)) (brep_elem_i : BREPElement α)
    (pen : α) (edges : List (Nat × Bool × Bool × Bool)) (s : MappingSystem α) (p q : Nat) :
    (apply_dirichlet_condition norm_2 m_patches brep_elem_i pen edges
        s).m_mapping_matrix_CAD_CAD p q =
      s.m_mapping_matrix_CAD_CAD p q +
        (brep_elem_i.gauss_points.map (fun gp =>
          dirichlet_block (dirichlet_fixing brep_elem_i.edge_id edges)
            (mapping_matrix_ids_gpi_master_of m_patches gp) (R_gpi_master_of m_patches gp)
            (pen * gp.weight * J1_of norm_2 m_patches gp) p q)).sum := by
  unfold apply_dirichlet_condition
  refine foldl_additive (fun s : MappingSystem α => s.m_mapping_matrix_CAD_CAD p q) _
    (fun gp => dirichlet_block (dirichlet_fixing brep_elem_i.edge_id edges)
            (mapping_matrix_ids_gpi_master_of m_patches gp) (R_gpi_master_of m_patches gp)
            (pen * gp.weight * J1_of norm_2 m_patches gp) p q) ?_ _ s
  intro s gp
  simp only [apply_dirichlet_condition_gauss_point, dirichlet_merge_apply]

/-- Claim C9: for a Dirichlet BREP element, all three axes are fixed when its edge is not
listed in `edges_with_specific_dirichlet_conditions`; `apply_dirichlet_condition` adds
`penalty*w*J*R_i*R_j` at `(3*row_i + a, 3*row_j + a)` for every Gauss point and every pair
of the support exactly for the fixed axes `a`; every entry on the stride of an axis that is
not fixed keeps its value, and with `fix_x = true, fix_y = false, fix_z = false` every
entry other than the `(3r+0, 3c+0)` ones keeps its value. -/
theorem apply_dirichlet_condition_axes {α : Type} [CommRing α] [Inhabited α]
    (norm_2 : Vec3 α → α) (m_patches : List (Patch α)) (brep_elem_i : BREPElement α)
    (pen : α) (edges : List (Nat × Bool × Bool × Bool)) (s : MappingSystem α) :
    (brep_elem_i.edge_id ∉ edges.map Prod.fst →
      dirichlet_fixing brep_elem_i.edge_id edges = (true, true, true)) ∧
    (∀ p q,
      (apply_dirichlet_condition norm_2 m_patches brep_elem_i pen edges
          s).m_mapping_matrix_CAD_CAD p q =
        s.m_mapping_matrix_CAD_CAD p q +
          (brep_elem_i.gauss_points.map (fun gp =>
            dirichlet_block (dirichlet_fixing brep_elem_i.edge_id edges)
              (mapping_matrix_ids_gpi_master_of m_patches gp) (R_gpi_master_of m_patches gp)
              (pen * gp.weight * J1_of norm_2 m_patches gp) p q)).sum) ∧
    (∀ a < 3, axis_fixed (dirichlet_fixing brep_elem_i.edge_id edges) a = false →
      ∀ p q, (p % 3 = a ∨ q % 3 = a) →
        (apply_dirichlet_condition norm_2 m_patches brep_elem_i pen edges
          s).m_mapping_matrix_CAD_CAD p q = s.m_mapping_matrix_CAD_CAD p q) ∧
    (dirichlet_fixing brep_elem_i.edge_id edges = (true, false, false) →
      ∀ p q, (p % 3 ≠ 0 ∨ q % 3 ≠ 0) →
        (apply_dirichlet_condition norm_2 m_patches brep_elem_i pen edges
          s).m_mapping_matrix_CAD_CAD p q = s.m_mapping_matrix_CAD_CAD p q) := by
  have hframe : ∀ a < 3, axis_fixed (dirichlet_fixing brep_elem_i.edge_id edges) a = false →
      ∀ p q, (p % 3 = a ∨ q % 3 = a) →
        (apply_dirichlet_condition norm_2 m_patches brep_elem_i pen edges
          s).m_mapping_matrix_CAD_CAD p q = s.m_mapping_matrix_CAD_CAD p q := by
    intro a ha hfix p q hpq
    rw [apply_dirichlet_condition_apply]
    have : (brep_elem_i.gauss_points.map (fun gp =>
            dirichlet_block (dirichlet_fixing brep_elem_i.edge_id edges)
              (mapping_matrix_ids_gpi_master_of m_patches gp) (R_gpi_master_of m_patches gp)
              (pen * gp.weight * J1_of norm_2 m_patches gp) p q)).sum = 0 := by
      refine List.sum_eq_zero (fun x hx => ?_)
      obtain ⟨gp, _, rfl⟩ := List.mem_map.mp hx
      exact dirichlet_block_eq_zero _ _ _ _ p q a ha hfix hpq
    rw [this, add_zero]
  refine ⟨dirichlet_fixing_not_listed _ _, apply_dirichlet_condition_apply _ _ _ _ _ _,
    hframe, fun hfix p q hpq => ?_⟩
  have h1 : p % 3 = 1 ∨ q % 3 = 1 ∨ p % 3 = 2 ∨ q % 3 = 2 := by omega
  rcases h1 with h | h | h | h
  · exact hframe 1 (by omega) (by rw [hfix]; rfl) p q (Or.inl h)
  · exact hframe 1 (by omega) (by rw [hfix]; rfl) p q (Or.inr h)
  · exact hframe 2 (by omega) (by rw [hfix]; rfl) p q (Or.inl h)
  · exact hframe 2 (by omega) (by rw [hfix]; rfl) p q (Or.inr h)

theorem tangent_continuity_request_not_listed {α : Type} [Zero α] (e : Nat)
    (l : List (Nat × α)) (st : Bool × α) (h : e ∉ l.map Prod.fst) :
    l.foldl (fun st entry => if e = entry.1 then (true, entry.2) else st) st = st := by
  induction l generalizing st with
  | nil => rfl
  | cons x xs ih =>
    simp only [List.map_cons, List.mem_cons, not_or] at h
    rw [List.foldl_cons, if_neg h.1, ih st h.2]

theorem tangent_continuity_request_fst {α : Type} [Zero α] (e : Nat) (l : List (Nat × α))
    (st : Bool × α) :
    (l.foldl (fun st entry => if e = entry.1 then (true, entry.2) else st) st).1 =
      (st.1 || decide (e ∈ l.map Prod.fst)) := by
  induction l generalizing st with
  | nil => simp
  | cons x xs ih =>
    rw [List.foldl_cons, ih]
    by_cases h : e = x.1
    · simp [h]
    · have h' : (e == x.1) = false := by simpa using h
      simp [h, h']

theorem tangent_continuity_request_listed {α : Type} [Zero α] (e : Nat)
    (pre post : List (Nat × α)) (factor : α) (h : e ∉ post.map Prod.fst) :
    tangent_continuity_request e (pre ++ (e, factor) :: post) = (true, factor) := by
  unfold tangent_continuity_request
  rw [List.foldl_append, List.foldl_cons, if_pos rfl]
  exact tangent_continuity_request_not_listed e post _ h


theorem uniform_displacement_at {α : Type} (d : Vec3 α) (c a : Nat) (ha : a < 3) :
    uniform_displacement d (3 * c + a) = d.component a := by
  unfold uniform_displacement
  congr 1
  omega

theorem prod_axisTerm_uniform {α : Type} [CommRing α] (d : Vec3 α) (n r c : Nat) (v : α)
    (p : Nat) (x : Nat → α) (hx : ∀ a < 3, x (3 * c + a) = d.component a) (hc : c < n) :
    ∑ q ∈ Finset.range (3 * n), axisTerm r c v p q * x q =
      ∑ a ∈ Finset.range 3, if p = 3 * r + a then v * d.component a else 0 := by
  unfold axisTerm
  simp only [Finset.sum_mul]
  rw [Finset.sum_comm]
  refine Finset.sum_congr rfl (fun a ha => ?_)
  have ha' : a < 3 := Finset.mem_range.mp ha
  have h1 : 3 * c + a < 3 * n := by omega
  simp only [ite_and, ite_mul, zero_mul]
  by_cases hp : p = 3 * r + a
  · simp only [hp, if_true, Finset.sum_ite_eq', Finset.mem_range, h1, hx a ha']
  · simp only [hp, if_false, Finset.sum_const_zero]

theorem sum_list_sum_mul {α β : Type} [CommRing α] (l : List β) (f : β → Nat → α)
    (x : Nat → α) (n : Nat) :
    ∑ q ∈ Finset.range n, (l.map (fun g => f g q)).sum * x q =
      (l.map (fun g => ∑ q ∈ Finset.range n, f g q * x q)).sum := by
  induction l with
  | nil => simp
  | cons g gs ih =>
    simp only [List.map_cons, List.sum_cons, add_mul, Finset.sum_add_distrib, ih]

theorem CAD_CAD_term_uniform {α : Type} [CommRing α] (d : Vec3 α) (g : FEGaussPoint α)
    (n p : Nat) (x : Nat → α)
    (hx : ∀ c < n, ∀ a < 3, x (3 * c + a) = d.component a)
    (hrow : ∀ i < g.row.size2, ∀ j < g.row.size1, g.row.get j i < n)
    (hpu : supportSum g.row (fun j i => g.R.get j i) = 1) :
    ∑ q ∈ Finset.range (3 * n), CAD_CAD_term g p q * x q = uniform_row_term d g p := by
  unfold CAD_CAD_term uniform_row_term
  simp only [supportSum, Finset.sum_mul]
  rw [Finset.sum_comm]
  refine Finset.sum_congr rfl (fun i hi => ?_)
  rw [Finset.sum_comm]
  refine Finset.sum_congr rfl (fun j hj => ?_)
  have hstep : ∀ k ∈ Finset.range g.row.size2, ∀ l ∈ Finset.range g.row.size1,
      ∑ q ∈ Finset.range (3 * n),
        axisTerm (g.row.get j i) (g.row.get l k) (g.w * g.R.get j i * g.R.get l k) p q * x q =
      g.R.get l k * ∑ a ∈ Finset.range 3,
        if p = 3 * g.row.get j i + a then g.w * g.R.get j i * d.component a else 0 := by
    intro k hk l hl
    rw [prod_axisTerm_uniform d n _ _ _ p x
      (hx _ (hrow k (Finset.mem_range.mp hk) l (Finset.mem_range.mp hl)))
      (hrow k (Finset.mem_range.mp hk) l (Finset.mem_range.mp hl)), Finset.mul_sum]
    refine Finset.sum_congr rfl (fun a _ => ?_)
    split_ifs
    · ring
    · simp
  calc ∑ q ∈ Finset.range (3 * n), ∑ k ∈ Finset.range g.row.size2,
        ∑ l ∈ Finset.range g.row.size1,
          axisTerm (g.row.get j i) (g.row.get l k) (g.w * g.R.get j i * g.R.get l k) p q * x q
      = ∑ k ∈ Finset.range g.row.size2, ∑ l ∈ Finset.range g.row.size1,
          ∑ q ∈ Finset.range (3 * n),
            axisTerm (g.row.get j i) (g.row.get l k) (g.w * g.R.get j i * g.R.get l k) p q
              * x q := by
        rw [Finset.sum_comm]
        exact Finset.sum_congr rfl (fun k _ => Finset.sum_comm)
    _ = ∑ k ∈ Finset.range g.row.size2, ∑ l ∈ Finset.range g.row.size1,
          g.R.get l k * ∑ a ∈ Finset.range 3,
            if p = 3 * g.row.get j i + a then g.w * g.R.get j i * d.component a else 0 :=
        Finset.sum_congr rfl (fun k hk => Finset.sum_congr rfl (fun l hl => hstep k hk l hl))
    _ = (∑ k ∈ Finset.range g.row.size2, ∑ l ∈ Finset.range g.row.size1, g.R.get l k) *
          ∑ a ∈ Finset.range 3,
            if p = 3 * g.row.get j i + a then g.w * g.R.get j i * d.component a else 0 := by
        simp only [Finset.sum_mul]
    _ = _ := by
        have : (∑ k ∈ Finset.range g.row.size2, ∑ l ∈ Finset.range g.row.size1, g.R.get l k)
            = 1 := hpu
        rw [this, one_mul]

theorem CAD_FEM_term_uniform {α : Type} [CommRing α] (d : Vec3 α) (g : FEGaussPoint α)
    (n p : Nat) (x : Nat → α)
    (hx : ∀ c < n, ∀ a < 3, x (3 * c + a) = d.component a)
    (hnode : ∀ k < g.n_fem_nodes, g.node k < n)
    (hpu : ∑ k ∈ Finset.range g.n_fem_nodes, g.N k = 1) :
    ∑ q ∈ Finset.range (3 * n), CAD_FEM_term g p q * x q = uniform_row_term d g p := by
  unfold CAD_FEM_term uniform_row_term
  simp only [supportSum, Finset.sum_mul]
  rw [Finset.sum_comm]
  refine Finset.sum_congr rfl (fun i hi => ?_)
  rw [Finset.sum_comm]
  refine Finset.sum_congr rfl (fun j hj => ?_)
  have hstep : ∀ k ∈ Finset.range g.n_fem_nodes,
      ∑ q ∈ Finset.range (3 * n),
        axisTerm (g.row.get j i) (g.node k) (g.w * g.R.get j i * g.N k) p q * x q =
      g.N k * ∑ a ∈ Finset.range 3,
        if p = 3 * g.row.get j i + a then g.w * g.R.get j i * d.component a else 0 := by
    intro k hk
    rw [prod_axisTerm_uniform d n _ _ _ p x (hx _ (hnode k (Finset.mem_range.mp hk)))
      (hnode k (Finset.mem_range.mp hk)), Finset.mul_sum]
    refine Finset.sum_congr rfl (fun a _ => ?_)
    split_ifs
    · ring
    · simp
  calc ∑ q ∈ Finset.range (3 * n), ∑ k ∈ Finset.range g.n_fem_nodes,
          axisTerm (g.row.get j i) (g.node k) (g.w * g.R.get j i * g.N k) p q * x q
      = ∑ k ∈ Finset.range g.n_fem_nodes, ∑ q ∈ Finset.range (3 * n),
          axisTerm (g.row.get j i) (g.node k) (g.w * g.R.get j i * g.N k) p q * x q :=
        Finset.sum_comm
    _ = ∑ k ∈ Finset.range g.n_fem_nodes,
          g.N k * ∑ a ∈ Finset.range 3,
            if p = 3 * g.row.get j i + a then g.w * g.R.get j i * d.component a else 0 :=
        Finset.sum_congr rfl hstep
    _ = (∑ k ∈ Finset.range g.n_fem_nodes, g.N k) *
          ∑ a ∈ Finset.range 3,
            if p = 3 * g.row.get j i + a then g.w * g.R.get j i * d.component a else 0 := by
        rw [Finset.sum_mul]
    _ = _ := by rw [hpu, one_mul]

theorem prod_CAD_CAD_spec_uniform {α : Type} [CommRing α] (d : Vec3 α)
    (gps : List (FEGaussPoint α)) (n p : Nat) (x : Nat → α)
    (hx : ∀ c < n, ∀ a < 3, x (3 * c + a) = d.component a)
    (hrow : ∀ g ∈ gps, ∀ i < g.row.size2, ∀ j < g.row.size1, g.row.get j i < n)
    (hpu : ∀ g ∈ gps, supportSum g.row (fun j i => g.R.get j i) = 1) :
    prod (CAD_CAD_spec gps) (3 * n) x p = (gps.map (fun g => uniform_row_term d g p)).sum := by
  unfold prod CAD_CAD_spec
  rw [sum_list_sum_mul]
  congr 1
  exact List.map_congr_left (fun g hg =>
    CAD_CAD_term_uniform d g n p x hx (hrow g hg) (hpu g hg))

theorem prod_CAD_FEM_spec_uniform {α : Type} [CommRing α] (d : Vec3 α)
    (gps : List (FEGaussPoint α)) (n p : Nat) (x : Nat → α)
    (hx : ∀ c < n, ∀ a < 3, x (3 * c + a) = d.component a)
    (hnode : ∀ g ∈ gps, ∀ k < g.n_fem_nodes, g.node k < n)
    (hpu : ∀ g ∈ gps, ∑ k ∈ Finset.range g.n_fem_nodes, g.N k = 1) :
    prod (CAD_FEM_spec gps) (3 * n) x p = (gps.map (fun g => uniform_row_term d g p)).sum := by
  unfold prod CAD_FEM_spec
  rw [sum_list_sum_mul]
  congr 1
  exact List.map_congr_left (fun g hg =>
    CAD_FEM_term_uniform d g n p x hx (hnode g hg) (hpu g hg))

theorem gather_dx_foldl {α : Type} (d : Vec3 α) (nodes : List (FENode α)) (dx0 : Nat → α)
    (hd : ∀ node ∈ nodes, node.SHAPE_CHANGE_ABSOLUTE_X = d.x ∧
      node.SHAPE_CHANGE_ABSOLUTE_Y = d.y ∧ node.SHAPE_CHANGE_ABSOLUTE_Z = d.z)
    (c a : Nat) (ha : a < 3) :
    nodes.foldl (fun dx node_i =>
      setAtVec (setAtVec (setAtVec dx (3 * node_i.MAPPING_MATRIX_ID + 0)
        node_i.SHAPE_CHANGE_ABSOLUTE_X)
        (3 * node_i.MAPPING_MATRIX_ID + 1) node_i.SHAPE_CHANGE_ABSOLUTE_Y)
        (3 * node_i.MAPPING_MATRIX_ID + 2) node_i.SHAPE_CHANGE_ABSOLUTE_Z) dx0 (3 * c + a) =
      if ∃ node ∈ nodes, node.MAPPING_MATRIX_ID = c then d.component a else dx0 (3 * c + a) := by
  induction nodes generalizing dx0 with
  | nil => simp
  | cons nd rest ih =>
    rw [List.foldl_cons, ih _ (fun x hx => hd x (List.mem_cons_of_mem _ hx))]
    obtain ⟨hX, hY, hZ⟩ := hd nd (List.mem_cons_self _ _)
    by_cases hrest : ∃ node ∈ rest, node.MAPPING_MATRIX_ID = c
    · have : ∃ node ∈ nd :: rest, node.MAPPING_MATRIX_ID = c := by
        obtain ⟨x, hx, hxc⟩ := hrest
        exact ⟨x, List.mem_cons_of_mem _ hx, hxc⟩
      rw [if_pos hrest, if_pos this]
    · rw [if_neg hrest]
      by_cases hnd : nd.MAPPING_MATRIX_ID = c
      · have : ∃ node ∈ nd :: rest, node.MAPPING_MATRIX_ID = c :=
          ⟨nd, List.mem_cons_self _ _, hnd⟩
        rw [if_pos this, hnd, hX, hY, hZ]
        simp only [setAtVec, Vec3.component]
        have h3 : a = 0 ∨ a = 1 ∨ a = 2 := by omega
        rcases h3 with rfl | rfl | rfl <;> simp
      · have : ¬ ∃ node ∈ nd :: rest, node.MAPPING_MATRIX_ID = c := by
          rintro ⟨x, hx, hxc⟩
          rcases List.mem_cons.mp hx with rfl | hx
          · exact hnd hxc
          · exact hrest ⟨x, hx, hxc⟩
        rw [if_neg this]
        simp only [setAtVec]
        rw [if_neg (by omega), if_neg (by omega), if_neg (by omega)]

theorem gather_dx_uniform {α : Type} [Zero α] (d : Vec3 α) (nodes : List (FENode α)) (n : Nat)
    (hd : ∀ node ∈ nodes, node.SHAPE_CHANGE_ABSOLUTE_X = d.x ∧
      node.SHAPE_CHANGE_ABSOLUTE_Y = d.y ∧ node.SHAPE_CHANGE_ABSOLUTE_Z = d.z)
    (hcover : ∀ k < n, ∃ node ∈ nodes, node.MAPPING_MATRIX_ID = k) :
    ∀ c < n, ∀ a < 3, gather_dx nodes (3 * c + a) = d.component a := by
  intro c hc a ha
  unfold gather_dx
  rw [gather_dx_foldl d nodes _ hd c a ha, if_pos (hcover c hc)]

theorem check_main_diagonal_eq {α : Type} [LinearOrderedField α] (n : Nat)
    (M : SparseMatrixType α) (h : ∀ i < n, ¬ abs (M i i) < 1 / 10000000000) :
    check_main_diagonal n M = M := by
  unfold check_main_diagonal
  induction n with
  | zero => rfl
  | succ n ih =>
    rw [forLoop_succ, ih (fun i hi => h i (Nat.lt_succ_of_lt hi)), if_neg (h n (Nat.lt_succ_self n))]

theorem CheckIfPointIsInside_loop_eq_true {α : Type} (within : Vec2 α → List (Vec2 α) → Bool)
    (poi : Vec2 α) (loops : List (BoundaryLoop α)) (b : Bool) :
    CheckIfPointIsInside_loop within poi loops b = true ↔
      (loops = [] → b = true) ∧
      ∀ loop_i ∈ loops,
        within poi (exterior_ring loop_i.boundary_polygon) = !loop_i.is_inner_loop := by
  induction loops generalizing b with
  | nil => simp [CheckIfPointIsInside_loop]
  | cons l ls ih =>
    simp only [CheckIfPointIsInside_loop, List.mem_cons, forall_eq_or_imp]
    cases hw : within poi (exterior_ring l.boundary_polygon) <;>
      cases hi : l.is_inner_loop <;> simp [ih]

theorem Patch_CheckIfPointIsInside_iff {α : Type} (within : Vec2 α → List (Vec2 α) → Bool)
    (patch : Patch α) (poi : Vec2 α) :
    patch.CheckIfPointIsInside within poi = true ↔
      ∀ loop_i ∈ patch.m_boundary_loops,
        (loop_i.is_inner_loop = false →
          within poi (exterior_ring loop_i.boundary_polygon) = true) ∧
        (loop_i.is_inner_loop = true →
          within poi (exterior_ring loop_i.boundary_polygon) = false) := by
  unfold Patch.CheckIfPointIsInside
  rw [CheckIfPointIsInside_loop_eq_true]
  simp only [implies_true, true_and]
  refine forall_congr' (fun l => forall_congr' (fun _ => ?_))
  cases l.is_inner_loop <;> simp

theorem index_control_points_cons_pos {α : Type} (cp : ControlPoint α)
    (rest : List (ControlPoint α)) (c : IndexingCounters)
    (h : cp.m_is_relevant_for_mapping = true) :
    index_control_points (cp :: rest) c =
      (cp.SetMappingMatrixId c.mapping_matrix_id ::
        (index_control_points rest
          { m_n_control_points := c.m_n_control_points + 1
            m_n_relevant_control_points := c.m_n_relevant_control_points + 1
            mapping_matrix_id := c.mapping_matrix_id + 1 }).1,
       (index_control_points rest
          { m_n_control_points := c.m_n_control_points + 1
            m_n_relevant_control_points := c.m_n_relevant_control_points + 1
            mapping_matrix_id := c.mapping_matrix_id + 1 }).2) := by
  rw [index_control_points, if_pos h]

theorem index_control_points_cons_neg {α : Type} (cp : ControlPoint α)
    (rest : List (ControlPoint α)) (c : IndexingCounters)
    (h : cp.m_is_relevant_for_mapping = false) :
    index_control_points (cp :: rest) c =
      (cp :: (index_control_points rest
          { c with m_n_control_points := c.m_n_control_points + 1 }).1,
       (index_control_points rest
          { c with m_n_control_points := c.m_n_control_points + 1 }).2) := by
  rw [index_control_points, if_neg (by simp [h])]

theorem relevant_count_cons_pos {α : Type} (cp : ControlPoint α)
    (rest : List (ControlPoint α)) (h : cp.m_is_relevant_for_mapping = true) :
    relevant_count (cp :: rest) = relevant_count rest + 1 := by
  simp [relevant_count, List.filter_cons, h]

theorem relevant_count_cons_neg {α : Type} (cp : ControlPoint α)
    (rest : List (ControlPoint α)) (h : cp.m_is_relevant_for_mapping = false) :
    relevant_count (cp :: rest) = relevant_count rest := by
  simp [relevant_count, List.filter_cons, h]

theorem index_control_points_counters {α : Type} (cps : List (ControlPoint α))
    (c : IndexingCounters) :
    (index_control_points cps c).2 =
      { m_n_control_points := c.m_n_control_points + cps.length
        m_n_relevant_control_points := c.m_n_relevant_control_points + relevant_count cps
        mapping_matrix_id := c.mapping_matrix_id + relevant_count cps } := by
  induction cps generalizing c with
  | nil => simp [index_control_points, relevant_count]
  | cons cp rest ih =>
    cases h : cp.m_is_relevant_for_mapping
    · rw [index_control_points_cons_neg _ _ _ h, relevant_count_cons_neg _ _ h, ih]
      simp only [IndexingCounters.mk.injEq, List.length_cons]
      simp only [Nat.add_assoc, Nat.add_comm 1, and_self]
    · rw [index_control_points_cons_pos _ _ _ h, relevant_count_cons_pos _ _ h, ih]
      simp only [IndexingCounters.mk.injEq, List.length_cons]
      simp only [Nat.add_assoc, Nat.add_comm 1, and_self]

theorem index_control_points_flags {α : Type} (cps : List (ControlPoint α))
    (c : IndexingCounters) :
    (index_control_points cps c).1.map (fun cp => cp.m_is_relevant_for_mapping) =
      cps.map (fun cp => cp.m_is_relevant_for_mapping) := by
  induction cps generalizing c with
  | nil => simp [index_control_points]
  | cons cp rest ih =>
    cases h : cp.m_is_relevant_for_mapping
    · rw [index_control_points_cons_neg _ _ _ h]
      simp [ih, h]
    · rw [index_control_points_cons_pos _ _ _ h]
      simp [ih, h, ControlPoint.SetMappingMatrixId]

theorem index_control_points_ids {α : Type} (cps : List (ControlPoint α))
    (c : IndexingCounters) :
    ((index_control_points cps c).1.filter (fun cp => cp.m_is_relevant_for_mapping)).map
        (fun cp => cp.m_mapping_matrix_id) =
      (List.range' c.mapping_matrix_id (relevant_count cps)).map some := by
  induction cps generalizing c with
  | nil => simp [index_control_points, relevant_count]
  | cons cp rest ih =>
    cases h : cp.m_is_relevant_for_mapping
    · rw [index_control_points_cons_neg _ _ _ h, relevant_count_cons_neg _ _ h]
      simp only [List.filter_cons, h, Bool.false_eq_true, if_false]
      exact ih _
    · rw [index_control_points_cons_pos _ _ _ h, relevant_count_cons_pos _ _ h]
      have h' : (cp.SetMappingMatrixId c.mapping_matrix_id).m_is_relevant_for_mapping = true := h
      simp only [List.filter_cons, h', if_true, List.map_cons, ih, List.range'_succ]
      rfl

theorem index_control_points_assigned {α : Type} (cps : List (ControlPoint α))
    (c : IndexingCounters)
    (h_fresh : ∀ cp ∈ cps, cp.m_is_relevant_for_mapping = false → cp.m_mapping_matrix_id = none) :
    ∀ cp ∈ (index_control_points cps c).1,
      cp.m_mapping_matrix_id.isSome = cp.m_is_relevant_for_mapping := by
  induction cps generalizing c with
  | nil => simp [index_control_points]
  | cons cp rest ih =>
    have hrest := fun c => ih c (fun x hx => h_fresh x (List.mem_cons_of_mem _ hx))
    cases h : cp.m_is_relevant_for_mapping
    · rw [index_control_points_cons_neg _ _ _ h]
      simp only [List.mem_cons, forall_eq_or_imp]
      refine ⟨?_, hrest _⟩
      rw [h_fresh cp (List.mem_cons_self _ _) h, h]
      rfl
    · rw [index_control_points_cons_pos _ _ _ h]
      simp only [List.mem_cons, forall_eq_or_imp]
      exact ⟨by simp [ControlPoint.SetMappingMatrixId, h], hrest _⟩

theorem index_control_points_append {α : Type} (l1 l2 : List (ControlPoint α))
    (c : IndexingCounters) :
    index_control_points (l1 ++ l2) c =
      ((index_control_points l1 c).1 ++
          (index_control_points l2 (index_control_points l1 c).2).1,
        (index_control_points l2 (index_control_points l1 c).2).2) := by
  induction l1 generalizing c with
  | nil => simp [index_control_points]
  | cons cp rest ih =>
    cases h : cp.m_is_relevant_for_mapping
    · rw [List.cons_append, index_control_points_cons_neg _ _ _ h,
        index_control_points_cons_neg _ _ _ h, ih]
      simp
    · rw [List.cons_append, index_control_points_cons_pos _ _ _ h,
        index_control_points_cons_pos _ _ _ h, ih]
      simp

theorem index_patches_flat {α : Type} (ps : List (Patch α)) (c : IndexingCounters) :
    all_control_points (index_patches ps c).1 =
        (index_control_points (all_control_points ps) c).1 ∧
      (index_patches ps c).2 = (index_control_points (all_control_points ps) c).2 := by
  induction ps generalizing c with
  | nil => simp [index_patches, all_control_points, index_control_points]
  | cons p rest ih =>
    have h := ih (index_control_points p.m_nurbs_surface.m_control_points c).2
    simp only [all_control_points] at h ⊢
    simp only [index_patches, List.flatMap_cons, index_control_points_append, h.1, h.2,
      and_self]

/-- Claim C3: after the indexing pass of `compute_mapping_matrix` (entered with no row id
on a control point that is not flagged relevant) the relevance flags are unchanged, a
control point has a row id if and only if it is flagged relevant, the ids of the relevant
control points read along the patch-then-control-point traversal are exactly
`0, 1, ..., N-1`, and `m_n_relevant_control_points` is `N`, the number of relevant control
points. -/
theorem compute_mapping_matrix_indexing_ids {α : Type} (m_patches : List (Patch α))
    (h_fresh : ∀ cp ∈ all_control_points m_patches,
      cp.m_is_relevant_for_mapping = false → cp.m_mapping_matrix_id = none) :
    (all_control_points (compute_mapping_matrix_indexing m_patches).1).map
        (fun cp => cp.m_is_relevant_for_mapping) =
      (all_control_points m_patches).map (fun cp => cp.m_is_relevant_for_mapping) ∧
    (∀ cp ∈ all_control_points (compute_mapping_matrix_indexing m_patches).1,
      cp.m_mapping_matrix_id.isSome = cp.m_is_relevant_for_mapping) ∧
    ((all_control_points (compute_mapping_matrix_indexing m_patches).1).filter
        (fun cp => cp.m_is_relevant_for_mapping)).map (fun cp => cp.m_mapping_matrix_id) =
      (List.range (relevant_count (all_control_points m_patches))).map some ∧
    (compute_mapping_matrix_indexing m_patches).2.m_n_relevant_control_points =
      relevant_count (all_control_points m_patches) ∧
    (compute_mapping_matrix_indexing m_patches).2.m_n_control_points =
      (all_control_points m_patches).length := by
  unfold compute_mapping_matrix_indexing
  obtain ⟨h1, h2⟩ := index_patches_flat m_patches
    { m_n_control_points := 0, m_n_relevant_control_points := 0, mapping_matrix_id := 0 }
  rw [h1, h2, index_control_points_counters]
  refine ⟨index_control_points_flags _ _, index_control_points_assigned _ _ h_fresh, ?_, ?_, ?_⟩
  · rw [index_control_points_ids, List.range_eq_range']
  · simp
  · simp

theorem parabolic_strip_cycle_body (s : NewtonState ℚ) (h : parabolic_strip_cycle s) :
    parabolic_strip_cycle (newton_raphson_body parabolic_strip parabolic_strip_P s) := by
  obtain ⟨h | h, _⟩ := h
  · obtain ⟨hu, hv, hQ⟩ := h
    refine ⟨Or.inr ?_, ?_⟩ <;>
      simp [newton_raphson_body, parabolic_strip, parabolic_strip_P, InvertMatrix, prod2,
        hu, hv, hQ] <;> norm_num
  · obtain ⟨hu, hv, hQ⟩ := h
    refine ⟨Or.inl ?_, ?_⟩ <;>
      simp [newton_raphson_body, parabolic_strip, parabolic_strip_P, InvertMatrix, prod2,
        hu, hv, hQ] <;> norm_num

theorem parabolic_strip_cycle_continues (s : NewtonState ℚ) (h : parabolic_strip_cycle s) :
    newton_raphson_continues s = true := by
  have := h.2
  simp only [newton_raphson_continues, decide_eq_true_eq]
  have : ((1:ℚ) / 100000) ^ 2 < 1 := by norm_num
  linarith

theorem parabolic_strip_loop_none (fuel : Nat) (s : NewtonState ℚ)
    (h : parabolic_strip_cycle s) :
    newton_raphson_loop parabolic_strip parabolic_strip_P fuel s = none := by
  induction fuel generalizing s with
  | zero => simp [newton_raphson_loop, parabolic_strip_cycle_continues s h]
  | succ n ih =>
    rw [newton_raphson_loop, if_pos (parabolic_strip_cycle_continues s h)]
    exact ih _ (parabolic_strip_cycle_body s h)

/-- Claim C6, the behaviour of the code on `parabolic_strip` with `P = (2, -1, 0)` from
the sample `(0, 0)`: the closest-point loop is still running after any number of
iterations; after 51 iterations (`k = 51 > max_itr`) the warning has been written once and
the loop test still holds, so a 52nd iteration follows. -/
theorem newton_raphson_loop_exceeds_max_itr :
    (∀ fuel, newton_raphson_loop parabolic_strip parabolic_strip_P fuel
        parabolic_strip_start = none) ∧
    ((newton_raphson_body parabolic_strip parabolic_strip_P)^[51] parabolic_strip_start).k = 51 ∧
    ((newton_raphson_body parabolic_strip parabolic_strip_P)^[51]
        parabolic_strip_start).warnings = 1 ∧
    newton_raphson_continues
      ((newton_raphson_body parabolic_strip parabolic_strip_P)^[51] parabolic_strip_start)
        = true := by
  refine ⟨fun fuel => parabolic_strip_loop_none fuel _ ?_, ?_, ?_, ?_⟩
  · refine ⟨Or.inl ?_, ?_⟩ <;>
      simp [parabolic_strip_start, newton_raphson_init, parabolic_strip]
  · decide!
  · decide!
  · decide!

theorem exists_last_listing {β : Type} (e : Nat) (l : List (Nat × β))
    (h : e ∈ l.map Prod.fst) :
    ∃ pre post v, l = pre ++ (e, v) :: post ∧ e ∉ post.map Prod.fst := by
  induction l with
  | nil => simp at h
  | cons x xs ih =>
    by_cases hx : e ∈ xs.map Prod.fst
    · obtain ⟨pre, post, v, h1, h2⟩ := ih hx
      exact ⟨x :: pre, post, v, by rw [h1, List.cons_append], h2⟩
    · have hex : e = x.1 := by
        simp only [List.map_cons, List.mem_cons] at h
        rcases h with h | h
        · exact h
        · exact absurd h hx
      exact ⟨[], xs, x.2, by simp [hex], hx⟩

/-- Claim C10: `apply_coupling_condition` requests tangent continuity exactly when the
edge id of the element occurs in `edges_with_enforced_tangent_continuity`; in that case
every Gauss point receives the displacement coupling followed by
`enforce_tangent_continuity` (with the factor of the last entry listing the edge) and no
rotation coupling, otherwise every Gauss point receives the displacement coupling followed
by `apply_rotation_coupling` and no tangent continuity. -/
theorem apply_coupling_condition_selection {α : Type} [LinearOrderedRing α] [Inhabited α]
    (norm_2 : Vec3 α → α) (m_patches : List (Patch α)) (brep_elem_i : BREPElement α)
    (penalty_factor_disp penalty_factor_rot : α) (edges : List (Nat × α))
    (s : MappingSystem α) :
    ((tangent_continuity_request brep_elem_i.edge_id edges).1 = true ↔
      brep_elem_i.edge_id ∈ edges.map Prod.fst) ∧
    (brep_elem_i.edge_id ∈ edges.map Prod.fst →
      ∃ pre post factor, edges = pre ++ (brep_elem_i.edge_id, factor) :: post ∧
        brep_elem_i.edge_id ∉ post.map Prod.fst) ∧
    (∀ pre post factor, edges = pre ++ (brep_elem_i.edge_id, factor) :: post →
      brep_elem_i.edge_id ∉ post.map Prod.fst →
      apply_coupling_condition norm_2 m_patches brep_elem_i penalty_factor_disp
          penalty_factor_rot edges s =
        brep_elem_i.gauss_points.foldl (fun s gp =>
          enforce_tangent_continuity (master_patch_of m_patches gp) (slave_patch_of m_patches gp)
            gp.location.x gp.location.y gp.location_slave.x gp.location_slave.y
            gp.tangent gp.tangent_slave
            (mapping_matrix_ids_gpi_master_of m_patches gp)
            (mapping_matrix_ids_gpi_slave_of m_patches gp)
            (J1_of norm_2 m_patches gp) gp.weight factor
            (apply_displacement_coupling (mapping_matrix_ids_gpi_master_of m_patches gp)
              (mapping_matrix_ids_gpi_slave_of m_patches gp) (R_gpi_master_of m_patches gp)
              (R_gpi_slave_of m_patches gp) (J1_of norm_2 m_patches gp) gp.weight
              penalty_factor_disp s)) s) ∧
    (brep_elem_i.edge_id ∉ edges.map Prod.fst →
      apply_coupling_condition norm_2 m_patches brep_elem_i penalty_factor_disp
          penalty_factor_rot edges s =
        brep_elem_i.gauss_points.foldl (fun s gp =>
          apply_rotation_coupling (master_patch_of m_patches gp) (slave_patch_of m_patches gp)
            gp.location.x gp.location.y gp.location_slave.x gp.location_slave.y
            gp.tangent gp.tangent_slave
            (mapping_matrix_ids_gpi_master_of m_patches gp)
            (mapping_matrix_ids_gpi_slave_of m_patches gp)
            (J1_of norm_2 m_patches gp) gp.weight penalty_factor_rot
            (apply_displacement_coupling (mapping_matrix_ids_gpi_master_of m_patches gp)
              (mapping_matrix_ids_gpi_slave_of m_patches gp) (R_gpi_master_of m_patches gp)
              (R_gpi_slave_of m_patches gp) (J1_of norm_2 m_patches gp) gp.weight
              penalty_factor_disp s)) s) := by
  refine ⟨?_, exists_last_listing _ _, ?_, ?_⟩
  · unfold tangent_continuity_request
    rw [tangent_continuity_request_fst]
    simp
  · intro pre post factor hl hpost
    unfold apply_coupling_condition
    rw [hl, tangent_continuity_request_listed _ _ _ _ hpost]
    simp only [apply_coupling_condition_gauss_point, if_true]
  · intro hnot
    unfold apply_coupling_condition
    have : tangent_continuity_request brep_elem_i.edge_id edges = (false, 0) :=
      tangent_continuity_request_not_listed _ _ _ hnot
    rw [this]
    simp only [apply_coupling_condition_gauss_point, Bool.false_eq_true, if_false]

/-- Claim C8, amended: when the ids of each support are pairwise distinct and the two
supports share no id, the value `apply_displacement_coupling` adds to the Master-Slave
entry of master point `(j,i)` and slave point `(l,k)` is `-(p*w*J*R_m(j,i)*R_s(l,k))`, the
value it adds to the Master-Master entry of the master points `(j,i)` and `(j',i')` is
`p*w*J*R_m(j,i)*R_m(j',i')`, and the first is the exact negation of the second whenever
`R_s(l,k) = R_m(j',i')`. -/
theorem apply_displacement_coupling_MS_MM_entries {α : Type} [CommRing α]
    (ids_m ids_s : UblasMatrix Nat) (R_m R_s : UblasMatrix α) (J1 w pen : α)
    (s : MappingSystem α) (hdm : distinct_ids ids_m) (hds : distinct_ids ids_s)
    (hdis : disjoint_ids ids_m ids_s)
    (i j k l i' j' a : Nat) (hi : i < ids_m.size2) (hj : j < ids_m.size1)
    (hk : k < ids_s.size2) (hl : l < ids_s.size1)
    (hi' : i' < ids_m.size2) (hj' : j' < ids_m.size1) (ha : a < 3) :
    (apply_displacement_coupling ids_m ids_s R_m R_s J1 w pen s).m_mapping_matrix_CAD_CAD
        (3 * ids_m.get j i + a) (3 * ids_s.get l k + a)
      - s.m_mapping_matrix_CAD_CAD (3 * ids_m.get j i + a) (3 * ids_s.get l k + a) =
      -(pen * w * J1 * R_m.get j i * R_s.get l k) ∧
    (apply_displacement_coupling ids_m ids_s R_m R_s J1 w pen s).m_mapping_matrix_CAD_CAD
        (3 * ids_m.get j i + a) (3 * ids_m.get j' i' + a)
      - s.m_mapping_matrix_CAD_CAD (3 * ids_m.get j i + a) (3 * ids_m.get j' i' + a) =
      pen * w * J1 * R_m.get j i * R_m.get j' i' ∧
    (R_s.get l k = R_m.get j' i' →
      (apply_displacement_coupling ids_m ids_s R_m R_s J1 w pen s).m_mapping_matrix_CAD_CAD
          (3 * ids_m.get j i + a) (3 * ids_s.get l k + a)
        - s.m_mapping_matrix_CAD_CAD (3 * ids_m.get j i + a) (3 * ids_s.get l k + a) =
      -((apply_displacement_coupling ids_m ids_s R_m R_s J1 w pen s).m_mapping_matrix_CAD_CAD
          (3 * ids_m.get j i + a) (3 * ids_m.get j' i' + a)
        - s.m_mapping_matrix_CAD_CAD (3 * ids_m.get j i + a) (3 * ids_m.get j' i' + a))) := by
  have hms_col : ∀ i0 < ids_m.size2, ∀ j0 < ids_m.size1, ids_m.get j0 i0 ≠ ids_s.get l k :=
    fun i0 hi0 j0 hj0 => hdis i0 hi0 j0 hj0 k hk l hl
  have hs_row : ∀ i0 < ids_s.size2, ∀ j0 < ids_s.size1, ids_s.get j0 i0 ≠ ids_m.get j i :=
    fun i0 hi0 j0 hj0 h => hdis i hi j hj i0 hi0 j0 hj0 h.symm
  have hs_col : ∀ i0 < ids_s.size2, ∀ j0 < ids_s.size1, ids_s.get j0 i0 ≠ ids_m.get j' i' :=
    fun i0 hi0 j0 hj0 h => hdis i' hi' j' hj' i0 hi0 j0 hj0 h.symm
  have h1 : (apply_displacement_coupling ids_m ids_s R_m R_s J1 w pen
        s).m_mapping_matrix_CAD_CAD (3 * ids_m.get j i + a) (3 * ids_s.get l k + a)
      - s.m_mapping_matrix_CAD_CAD (3 * ids_m.get j i + a) (3 * ids_s.get l k + a) =
      -(pen * w * J1 * R_m.get j i * R_s.get l k) := by
    rw [apply_displacement_coupling_apply,
      coupling_block_off ids_m ids_m _ _ _ _ _ a ha (Or.inr hms_col),
      coupling_block_off ids_s ids_s _ _ _ _ _ a ha (Or.inl hs_row),
      coupling_block_off ids_s ids_m _ _ _ _ _ a ha (Or.inl hs_row),
      coupling_block_at ids_m ids_s _ _ _ hdm hds i j k l a hi hj hk hl ha]
    ring
  have h2 : (apply_displacement_coupling ids_m ids_s R_m R_s J1 w pen
        s).m_mapping_matrix_CAD_CAD (3 * ids_m.get j i + a) (3 * ids_m.get j' i' + a)
      - s.m_mapping_matrix_CAD_CAD (3 * ids_m.get j i + a) (3 * ids_m.get j' i' + a) =
      pen * w * J1 * R_m.get j i * R_m.get j' i' := by
    rw [apply_displacement_coupling_apply,
      coupling_block_off ids_s ids_s _ _ _ _ _ a ha (Or.inl hs_row),
      coupling_block_off ids_m ids_s _ _ _ _ _ a ha (Or.inr hs_col),
      coupling_block_off ids_s ids_m _ _ _ _ _ a ha (Or.inl hs_row),
      coupling_block_at ids_m ids_m _ _ _ hdm hdm i j i' j' a hi hj hi' hj' ha]
    ring
  refine ⟨h1, h2, fun hR => ?_⟩
  rw [h1, h2, hR]

theorem assemble_gauss_point_frame {α : Type} [CommRing α] (n : Nat) (idsf : Nat → Nat)
    (N : Nat → α) (w : α) (ids : UblasMatrix Nat) (R : UblasMatrix α) (s : MappingSystem α) :
    (assemble_gauss_point n idsf N w ids R s).m_n_relevant_control_points =
        s.m_n_relevant_control_points ∧
    (assemble_gauss_point n idsf N w ids R s).m_n_relevant_fem_points =
        s.m_n_relevant_fem_points ∧
    (assemble_gauss_point n idsf N w ids R s).m_mapping_rhs_vector = s.m_mapping_rhs_vector := by
  unfold assemble_gauss_point
  refine ⟨?_, ?_, ?_⟩
  · refine forLoop_invariant (fun s : MappingSystem α => s.m_n_relevant_control_points) _ ?_ _ s
    intro i s
    refine forLoop_invariant (fun s : MappingSystem α => s.m_n_relevant_control_points) _ ?_ _ s
    intro j s
    rfl
  · refine forLoop_invariant (fun s : MappingSystem α => s.m_n_relevant_fem_points) _ ?_ _ s
    intro i s
    refine forLoop_invariant (fun s : MappingSystem α => s.m_n_relevant_fem_points) _ ?_ _ s
    intro j s
    rfl
  · refine forLoop_invariant (fun s : MappingSystem α => s.m_mapping_rhs_vector) _ ?_ _ s
    intro i s
    refine forLoop_invariant (fun s : MappingSystem α => s.m_mapping_rhs_vector) _ ?_ _ s
    intro j s
    rfl

theorem foldl_invariant {σ β γ : Type} (f : σ → γ) (body : σ → β → σ)
    (h : ∀ s b, f (body s b) = f s) (l : List β) (s : σ) : f (l.foldl body s) = f s := by
  induction l generalizing s with
  | nil => rfl
  | cons b bs ih => rw [List.foldl_cons, ih, h]

theorem compute_mapping_matrix_assembly_frame {α : Type} [CommRing α] [Inhabited α]
    (m_patches : List (Patch α)) (lists : NearestPointLists α)
    (conditions : List (Condition α)) (n_cp n_fem : Nat) :
    (compute_mapping_matrix_assembly m_patches lists conditions n_cp
        n_fem).m_n_relevant_control_points = n_cp ∧
    (compute_mapping_matrix_assembly m_patches lists conditions n_cp
        n_fem).m_n_relevant_fem_points = n_fem ∧
    (compute_mapping_matrix_assembly m_patches lists conditions n_cp
        n_fem).m_mapping_rhs_vector = fun _ => 0 := by
  unfold compute_mapping_matrix_assembly assemble_conditions
  refine ⟨?_, ?_, ?_⟩
  · refine (foldl_invariant (fun s : MappingSystem α × Nat => s.1.m_n_relevant_control_points) _ ?_ _ _).trans rfl
    intro s c
    refine forLoop_invariant (fun s : MappingSystem α × Nat => s.1.m_n_relevant_control_points) _ ?_ _ s
    intro pn s
    exact (assemble_gauss_point_frame _ _ _ _ _ _ _).1
  · refine (foldl_invariant (fun s : MappingSystem α × Nat => s.1.m_n_relevant_fem_points) _ ?_ _ _).trans rfl
    intro s c
    refine forLoop_invariant (fun s : MappingSystem α × Nat => s.1.m_n_relevant_fem_points) _ ?_ _ s
    intro pn s
    exact (assemble_gauss_point_frame _ _ _ _ _ _ _).2.1
  · refine (foldl_invariant (fun s : MappingSystem α × Nat => s.1.m_mapping_rhs_vector) _ ?_ _ _).trans rfl
    intro s c
    refine forLoop_invariant (fun s : MappingSystem α × Nat => s.1.m_mapping_rhs_vector) _ ?_ _ s
    intro pn s
    exact (assemble_gauss_point_frame _ _ _ _ _ _ _).2.2

theorem prod_sub {α : Type} [CommRing α] (A : SparseMatrixType α) (n : Nat) (x y : Nat → α)
    (p : Nat) : prod A n (fun q => x q - y q) p = prod A n x p - prod A n y p := by
  simp only [prod, mul_sub, Finset.sum_sub_distrib]

/-- Claim C5: with no constraint applied, no diagonal entry regularized, basis values
summing to 1 over the support and shape values summing to 1 at every FE Gauss point (rows
below `n_cp`, node indices below `n_fem`), and every FE node carrying the displacement
`d`: the vector assigning `d` to every control point satisfies
`CAD-CAD * ds = CAD-FEM * dx`, it solves the system `map_to_cad_space` hands to the
solver, and every solution of that system equals it on the `3 * n_cp` rows whenever the
matrix is nonsingular. -/
theorem uniform_displacement_reproduced {α : Type} [LinearOrderedField α] [Inhabited α]
    (m_patches : List (Patch α)) (lists : NearestPointLists α)
    (conditions : List (Condition α)) (n_cp n_fem : Nat) (nodes : List (FENode α))
    (d : Vec3 α)
    (hrow : ∀ g ∈ fe_gauss_points m_patches lists conditions,
      ∀ i < g.row.size2, ∀ j < g.row.size1, g.row.get j i < n_cp)
    (hnode : ∀ g ∈ fe_gauss_points m_patches lists conditions,
      ∀ k < g.n_fem_nodes, g.node k < n_fem)
    (hR : ∀ g ∈ fe_gauss_points m_patches lists conditions,
      supportSum g.row (fun j i => g.R.get j i) = 1)
    (hN : ∀ g ∈ fe_gauss_points m_patches lists conditions,
      ∑ k ∈ Finset.range g.n_fem_nodes, g.N k = 1)
    (hd : ∀ node ∈ nodes, node.SHAPE_CHANGE_ABSOLUTE_X = d.x ∧
      node.SHAPE_CHANGE_ABSOLUTE_Y = d.y ∧ node.SHAPE_CHANGE_ABSOLUTE_Z = d.z)
    (hcover : ∀ k < n_fem, ∃ node ∈ nodes, node.MAPPING_MATRIX_ID = k)
    (hdiag : ∀ i < 3 * n_cp,
      ¬ abs ((compute_mapping_matrix_assembly m_patches lists conditions n_cp
        n_fem).m_mapping_matrix_CAD_CAD i i) < 1 / 10000000000) :
    (∀ p, prod (compute_mapping_matrix_assembly m_patches lists conditions n_cp
          n_fem).m_mapping_matrix_CAD_CAD (3 * n_cp) (uniform_displacement d) p =
        prod (compute_mapping_matrix_assembly m_patches lists conditions n_cp
          n_fem).m_mapping_matrix_CAD_FEM (3 * n_fem) (gather_dx nodes) p) ∧
    (∀ p, prod (map_to_cad_space_system nodes
          (compute_mapping_matrix_assembly m_patches lists conditions n_cp
            n_fem)).m_mapping_matrix_CAD_CAD (3 * n_cp) (uniform_displacement d) p =
        (map_to_cad_space_system nodes
          (compute_mapping_matrix_assembly m_patches lists conditions n_cp
            n_fem)).m_mapping_rhs_vector p) ∧
    (∀ ds : Nat → α,
      (∀ p < 3 * n_cp, prod (map_to_cad_space_system nodes
          (compute_mapping_matrix_assembly m_patches lists conditions n_cp
            n_fem)).m_mapping_matrix_CAD_CAD (3 * n_cp) ds p =
        (map_to_cad_space_system nodes
          (compute_mapping_matrix_assembly m_patches lists conditions n_cp
            n_fem)).m_mapping_rhs_vector p) →
      nonsingular (3 * n_cp) (map_to_cad_space_system nodes
          (compute_mapping_matrix_assembly m_patches lists conditions n_cp
            n_fem)).m_mapping_matrix_CAD_CAD →
      ∀ q < 3 * n_cp, ds q = uniform_displacement d q) := by
  obtain ⟨hf1, hf2, hf3⟩ := compute_mapping_matrix_assembly_frame m_patches lists conditions
    n_cp n_fem
  have hCC : (compute_mapping_matrix_assembly m_patches lists conditions n_cp
      n_fem).m_mapping_matrix_CAD_CAD =
      CAD_CAD_spec (fe_gauss_points m_patches lists conditions) := by
    funext p q
    exact (compute_mapping_matrix_assembly_apply m_patches lists conditions n_cp n_fem p q).1
  have hCF : (compute_mapping_matrix_assembly m_patches lists conditions n_cp
      n_fem).m_mapping_matrix_CAD_FEM =
      CAD_FEM_spec (fe_gauss_points m_patches lists conditions) := by
    funext p q
    exact (compute_mapping_matrix_assembly_apply m_patches lists conditions n_cp n_fem p q).2
  have h1 : ∀ p, prod (compute_mapping_matrix_assembly m_patches lists conditions n_cp
          n_fem).m_mapping_matrix_CAD_CAD (3 * n_cp) (uniform_displacement d) p =
        prod (compute_mapping_matrix_assembly m_patches lists conditions n_cp
          n_fem).m_mapping_matrix_CAD_FEM (3 * n_fem) (gather_dx nodes) p := by
    intro p
    rw [hCC, hCF, prod_CAD_CAD_spec_uniform d _ n_cp p _
        (fun c _ a ha => uniform_displacement_at d c a ha) hrow hR,
      prod_CAD_FEM_spec_uniform d _ n_fem p _ (gather_dx_uniform d nodes n_fem hd hcover)
        hnode hN]
  have hsysM : (map_to_cad_space_system nodes
          (compute_mapping_matrix_assembly m_patches lists conditions n_cp
            n_fem)).m_mapping_matrix_CAD_CAD =
      (compute_mapping_matrix_assembly m_patches lists conditions n_cp
            n_fem).m_mapping_matrix_CAD_CAD := by
    simp only [map_to_cad_space_system, hf1]
    exact check_main_diagonal_eq _ _ hdiag
  have hsysR : ∀ p, (map_to_cad_space_system nodes
          (compute_mapping_matrix_assembly m_patches lists conditions n_cp
            n_fem)).m_mapping_rhs_vector p =
      prod (compute_mapping_matrix_assembly m_patches lists conditions n_cp
          n_fem).m_mapping_matrix_CAD_FEM (3 * n_fem) (gather_dx nodes) p := by
    intro p
    simp only [map_to_cad_space_system, hf2, hf3, zero_add]
  have h2 : ∀ p, prod (map_to_cad_space_system nodes
          (compute_mapping_matrix_assembly m_patches lists conditions n_cp
            n_fem)).m_mapping_matrix_CAD_CAD (3 * n_cp) (uniform_displacement d) p =
        (map_to_cad_space_system nodes
          (compute_mapping_matrix_assembly m_patches lists conditions n_cp
            n_fem)).m_mapping_rhs_vector p := by
    intro p
    rw [hsysM, hsysR, h1]
  refine ⟨h1, h2, fun ds hds hns q hq => ?_⟩
  have := hns (fun q => ds q - uniform_displacement d q) (fun p hp => by
    rw [prod_sub, hds p hp, h2 p, sub_self]) q hq
  exact sub_eq_zero.mp this

/-! ## Invariants of the mapping system, of the relevance flags and of the write-back -/

theorem forLoop_preserves {σ : Type} (P : σ → Prop) (body : Nat → σ → σ)
    (h : ∀ i s, P s → P (body i s)) (n : Nat) (s : σ) (hs : P s) : P (forLoop n body s) := by
  induction n with
  | zero => rw [forLoop_zero]; exact hs
  | succ n ih => rw [forLoop_succ]; exact h _ _ ih

theorem foldl_preserves {σ β : Type} (P : σ → Prop) (body : σ → β → σ)
    (h : ∀ s b, P s → P (body s b)) (l : List β) (s : σ) (hs : P s) : P (l.foldl body s) := by
  induction l generalizing s with
  | nil => exact hs
  | cons b bs ih => rw [List.foldl_cons]; exact ih _ (h _ _ hs)

theorem forEntries_preserves {σ : Type} (P : σ → Prop) (ids : UblasMatrix Nat)
    (body : Nat → Nat → σ → σ) (h : ∀ id k s, P s → P (body id k s)) (s : σ) (hs : P s) :
    P (forEntries ids body s) := by
  unfold forEntries
  refine forLoop_preserves (fun st : σ × Nat => P st.1) _ ?_ _ _ hs
  intro i st hst
  refine forLoop_preserves (fun st : σ × Nat => P st.1) _ ?_ _ _ hst
  intro j st hst
  exact h _ _ _ hst

theorem axis_decoupled_addAt {α : Type} [AddZeroClass α] (M : SparseMatrixType α)
    (h : axis_decoupled M) (r c a : Nat) (v : α) :
    axis_decoupled (addAt M (3 * r + a) (3 * c + a) v) := by
  intro r0 c0 a0 b0 ha0 hb0 hne
  simp only [addAt]
  rw [if_neg (by omega)]
  exact h r0 c0 a0 b0 ha0 hb0 hne

theorem axis_decoupled_subAt {α : Type} [Zero α] [Sub α] (M : SparseMatrixType α)
    (h : axis_decoupled M) (r c a : Nat) (v : α) :
    axis_decoupled (subAt M (3 * r + a) (3 * c + a) v) := by
  intro r0 c0 a0 b0 ha0 hb0 hne
  simp only [subAt]
  rw [if_neg (by omega)]
  exact h r0 c0 a0 b0 ha0 hb0 hne

theorem axis_decoupled_setAt_diagonal {α : Type} [Zero α] (M : SparseMatrixType α)
    (h : axis_decoupled M) (i : Nat) (v : α) : axis_decoupled (setAt M i i v) := by
  intro r0 c0 a0 b0 ha0 hb0 hne
  simp only [setAt]
  rw [if_neg (by omega)]
  exact h r0 c0 a0 b0 ha0 hb0 hne

theorem axis_decoupled_addOnAxes3 {α : Type} [AddZeroClass α] (M : SparseMatrixType α)
    (h : axis_decoupled M) (r c : Nat) (vx vy vz : α) :
    axis_decoupled (addOnAxes3 M r c vx vy vz) :=
  axis_decoupled_addAt _ (axis_decoupled_addAt _ (axis_decoupled_addAt _ h r c 0 vx) r c 1 vy)
    r c 2 vz

theorem axis_decoupled_addOnAxes {α : Type} [AddZeroClass α] (M : SparseMatrixType α)
    (h : axis_decoupled M) (r c : Nat) (v : α) : axis_decoupled (addOnAxes M r c v) :=
  axis_decoupled_addAt _ (axis_decoupled_addAt _ (axis_decoupled_addAt _ h r c 0 v) r c 1 v)
    r c 2 v

theorem axis_decoupled_subOnAxes {α : Type} [Zero α] [Sub α] (M : SparseMatrixType α)
    (h : axis_decoupled M) (r c : Nat) (v : α) : axis_decoupled (subOnAxes M r c v) :=
  axis_decoupled_subAt _ (axis_decoupled_subAt _ (axis_decoupled_subAt _ h r c 0 v) r c 1 v)
    r c 2 v

theorem axis_decoupled_displacement_coupling_same_side {α : Type} [Mul α] [AddZeroClass α]
    (ids : UblasMatrix Nat) (R : UblasMatrix α) (J1 w pen : α) (M : SparseMatrixType α)
    (h : axis_decoupled M) :
    axis_decoupled (displacement_coupling_same_side ids R J1 w pen M) := by
  unfold displacement_coupling_same_side
  refine forLoop_preserves axis_decoupled _ (fun i M hM => ?_) _ _ h
  refine forLoop_preserves axis_decoupled _ (fun j M hM => ?_) _ _ hM
  refine forLoop_preserves axis_decoupled _ (fun k M hM => ?_) _ _ hM
  refine forLoop_preserves axis_decoupled _ (fun l M hM => ?_) _ _ hM
  exact axis_decoupled_addOnAxes _ hM _ _ _

theorem axis_decoupled_displacement_coupling_master_slave {α : Type} [Mul α] [Zero α] [Sub α]
    (ids_m ids_s : UblasMatrix Nat) (R_m R_s : UblasMatrix α) (J1 w pen : α)
    (M : SparseMatrixType α) (h : axis_decoupled M) :
    axis_decoupled (displacement_coupling_master_slave ids_m ids_s R_m R_s J1 w pen M) := by
  unfold displacement_coupling_master_slave
  refine forLoop_preserves axis_decoupled _ (fun i M hM => ?_) _ _ h
  refine forLoop_preserves axis_decoupled _ (fun j M hM => ?_) _ _ hM
  refine forLoop_preserves axis_decoupled _ (fun k M hM => ?_) _ _ hM
  refine forLoop_preserves axis_decoupled _ (fun l M hM => ?_) _ _ hM
  exact axis_decoupled_subOnAxes _ (axis_decoupled_subOnAxes _ hM _ _ _) _ _ _

theorem axis_decoupled_rotation_coupling_same_side {α : Type} [Mul α] [AddZeroClass α] [Sub α]
    (ids : UblasMatrix Nat) (csy : LocalCSYVariation α) (J1 w pen : α)
    (M : SparseMatrixType α) (h : axis_decoupled M) :
    axis_decoupled (rotation_coupling_same_side ids csy J1 w pen M) := by
  unfold rotation_coupling_same_side
  refine forEntries_preserves axis_decoupled _ _ (fun id k M hM => ?_) _ h
  refine forEntries_preserves axis_decoupled _ _ (fun id2 k2 M hM => ?_) _ hM
  exact axis_decoupled_addOnAxes3 _ hM _ _ _ _ _

theorem axis_decoupled_rotation_coupling_master_slave {α : Type} [Mul α] [AddZeroClass α]
    [Sub α] (ids_m ids_s : UblasMatrix Nat) (csy_m csy_s : LocalCSYVariation α)
    (sign_factor J1 w pen : α) (M : SparseMatrixType α) (h : axis_decoupled M) :
    axis_decoupled
      (rotation_coupling_master_slave ids_m ids_s csy_m csy_s sign_factor J1 w pen M) := by
  unfold rotation_coupling_master_slave
  refine forEntries_preserves axis_decoupled _ _ (fun id k M hM => ?_) _ h
  refine forEntries_preserves axis_decoupled _ _ (fun id2 k2 M hM => ?_) _ hM
  exact axis_decoupled_addOnAxes3 _ (axis_decoupled_addOnAxes3 _ hM _ _ _ _ _) _ _ _ _ _

theorem axis_decoupled_tangent_continuity_block {α : Type} [Mul α] [AddZeroClass α]
    (ids_row ids_coll : UblasMatrix Nat) (term_1 term_2 : Nat → Nat → Nat → α)
    (J1 w pen : α) (M : SparseMatrixType α) (h : axis_decoupled M) :
    axis_decoupled (tangent_continuity_block ids_row ids_coll term_1 term_2 J1 w pen M) := by
  unfold tangent_continuity_block
  refine forEntries_preserves axis_decoupled _ _ (fun id k M hM => ?_) _ h
  refine forEntries_preserves axis_decoupled _ _ (fun id2 k2 M hM => ?_) _ hM
  exact axis_decoupled_addOnAxes3 _ hM _ _ _ _ _

theorem axis_decoupled_dirichlet_merge {α : Type} [Mul α] [AddZeroClass α]
    (fix_x fix_y fix_z : Bool) (ids : UblasMatrix Nat) (R : UblasMatrix α) (J1 w pen : α)
    (M : SparseMatrixType α) (h : axis_decoupled M) :
    axis_decoupled (dirichlet_merge fix_x fix_y fix_z ids R J1 w pen M) := by
  unfold dirichlet_merge
  refine forLoop_preserves axis_decoupled _ (fun i M hM => ?_) _ _ h
  refine forLoop_preserves axis_decoupled _ (fun j M hM => ?_) _ _ hM
  refine forLoop_preserves axis_decoupled _ (fun k M hM => ?_) _ _ hM
  refine forLoop_preserves axis_decoupled _ (fun l M hM => ?_) _ _ hM
  have hx : axis_decoupled (if fix_x = true then
      addAt M (3 * ids.get i j + 0) (3 * ids.get k l + 0)
        (pen * w * J1 * R.get i j * R.get k l) else M) := by
    split
    · exact axis_decoupled_addAt _ hM _ _ _ _
    · exact hM
  have hy : axis_decoupled (if fix_y = true then
      addAt (if fix_x = true then
        addAt M (3 * ids.get i j + 0) (3 * ids.get k l + 0)
          (pen * w * J1 * R.get i j * R.get k l) else M)
        (3 * ids.get i j + 1) (3 * ids.get k l + 1)
        (pen * w * J1 * R.get i j * R.get k l) else (if fix_x = true then
        addAt M (3 * ids.get i j + 0) (3 * ids.get k l + 0)
          (pen * w * J1 * R.get i j * R.get k l) else M)) := by
    split
    · exact axis_decoupled_addAt _ hx _ _ _ _
    · exact hx
  show axis_decoupled (if fix_z = true then _ else _)
  split
  · exact axis_decoupled_addAt _ hy _ _ _ _
  · exact hy

theorem axes_decoupled_apply_displacement_coupling {α : Type} [Mul α] [AddZeroClass α] [Sub α]
    (ids_m ids_s : UblasMatrix Nat) (R_m R_s : UblasMatrix α) (J1 w pen : α)
    (s : MappingSystem α) (h : s.axes_decoupled) :
    (apply_displacement_coupling ids_m ids_s R_m R_s J1 w pen s).axes_decoupled :=
  ⟨axis_decoupled_displacement_coupling_master_slave _ _ _ _ _ _ _ _
    (axis_decoupled_displacement_coupling_same_side _ _ _ _ _ _
      (axis_decoupled_displacement_coupling_same_side _ _ _ _ _ _ h.1)), h.2⟩

theorem axes_decoupled_apply_rotation_coupling {α : Type} [LinearOrderedRing α]
    (master_patch slave_patch : Patch α) (u_m v_m u_s v_s : α) (t_m t_s : Vec2 α)
    (ids_m ids_s : UblasMatrix Nat) (J1 w pen : α) (s : MappingSystem α)
    (h : s.axes_decoupled) :
    (apply_rotation_coupling master_patch slave_patch u_m v_m u_s v_s t_m t_s ids_m ids_s
      J1 w pen s).axes_decoupled :=
  ⟨axis_decoupled_rotation_coupling_master_slave _ _ _ _ _ _ _ _ _
    (axis_decoupled_rotation_coupling_same_side _ _ _ _ _ _
      (axis_decoupled_rotation_coupling_same_side _ _ _ _ _ _ h.1)), h.2⟩

theorem axes_decoupled_enforce_tangent_continuity {α : Type} [Mul α] [AddZeroClass α]
    (master_patch slave_patch : Patch α) (u_m v_m u_s v_s : α) (t_m t_s : Vec2 α)
    (ids_m ids_s : UblasMatrix Nat) (J1 w pen : α) (s : MappingSystem α)
    (h : s.axes_decoupled) :
    (enforce_tangent_continuity master_patch slave_patch u_m v_m u_s v_s t_m t_s ids_m ids_s
      J1 w pen s).axes_decoupled := by
  simp only [enforce_tangent_continuity, MappingSystem.axes_decoupled]
  refine ⟨?_, h.2⟩
  refine axis_decoupled_tangent_continuity_block _ _ _ _ _ _ _ _ ?_
  refine axis_decoupled_tangent_continuity_block _ _ _ _ _ _ _ _ ?_
  refine axis_decoupled_tangent_continuity_block _ _ _ _ _ _ _ _ ?_
  refine axis_decoupled_tangent_continuity_block _ _ _ _ _ _ _ _ ?_
  exact h.1

theorem axes_decoupled_apply_coupling_condition {α : Type} [LinearOrderedRing α] [Inhabited α]
    (norm_2 : Vec3 α → α) (m_patches : List (Patch α)) (brep_elem_i : BREPElement α)
    (pd pr : α) (edges : List (Nat × α)) (s : MappingSystem α) (h : s.axes_decoupled) :
    (apply_coupling_condition norm_2 m_patches brep_elem_i pd pr edges s).axes_decoupled := by
  unfold apply_coupling_condition
  refine foldl_preserves MappingSystem.axes_decoupled _ (fun s gp hs => ?_) _ _ h
  unfold apply_coupling_condition_gauss_point
  split
  · exact axes_decoupled_enforce_tangent_continuity _ _ _ _ _ _ _ _ _ _ _ _ _ _
      (axes_decoupled_apply_displacement_coupling _ _ _ _ _ _ _ _ hs)
  · exact axes_decoupled_apply_rotation_coupling _ _ _ _ _ _ _ _ _ _ _ _ _ _
      (axes_decoupled_apply_displacement_coupling _ _ _ _ _ _ _ _ hs)

theorem axes_decoupled_apply_dirichlet_condition {α : Type} [Mul α] [AddZeroClass α]
    [Inhabited α] (norm_2 : Vec3 α → α) (m_patches : List (Patch α))
    (brep_elem_i : BREPElement α) (pen : α) (edges : List (Nat × Bool × Bool × Bool))
    (s : MappingSystem α) (h : s.axes_decoupled) :
    (apply_dirichlet_condition norm_2 m_patches brep_elem_i pen edges s).axes_decoupled := by
  unfold apply_dirichlet_condition
  refine foldl_preserves MappingSystem.axes_decoupled _ (fun s gp hs => ?_) _ _ h
  exact ⟨axis_decoupled_dirichlet_merge _ _ _ _ _ _ _ _ _ hs.1, hs.2⟩

theorem axes_decoupled_apply_boundary_conditions {α : Type} [LinearOrderedRing α]
    [Inhabited α] (norm_2 : Vec3 α → α) (m_patches : List (Patch α))
    (m_brep_elements : List (BREPElement α)) (pd pr pdir : α)
    (edges_dir : List (Nat × Bool × Bool × Bool)) (edges_tc : List (Nat × α))
    (s : MappingSystem α) (h : s.axes_decoupled) :
    (apply_boundary_conditions norm_2 m_patches m_brep_elements pd pr pdir edges_dir edges_tc
      s).axes_decoupled := by
  unfold apply_boundary_conditions
  refine foldl_preserves MappingSystem.axes_decoupled _ (fun s e hs => ?_) _ _ h
  split
  · exact axes_decoupled_apply_coupling_condition _ _ _ _ _ _ _ hs
  · split
    · exact axes_decoupled_apply_dirichlet_condition _ _ _ _ _ _ hs
    · exact hs

theorem axis_decoupled_check_main_diagonal {α : Type} [LinearOrderedField α] (n : Nat)
    (M : SparseMatrixType α) (h : axis_decoupled M) :
    axis_decoupled (check_main_diagonal n M) := by
  unfold check_main_diagonal
  refine forLoop_preserves axis_decoupled _ (fun i M hM => ?_) _ _ h
  split
  · exact axis_decoupled_setAt_diagonal _ hM _ _
  · exact hM

theorem axes_decoupled_map_to_cad_space_system {α : Type} [LinearOrderedField α]
    (nodes : List (FENode α)) (s : MappingSystem α) (h : s.axes_decoupled) :
    (map_to_cad_space_system nodes s).axes_decoupled :=
  ⟨axis_decoupled_check_main_diagonal _ _ h.1, h.2⟩

theorem axis_decoupled_list_sum {α β : Type} [AddCommMonoid α] (l : List β)
    (f : β → Nat → Nat → α) (h : ∀ g ∈ l, axis_decoupled (f g)) :
    axis_decoupled (fun p q => (l.map (fun g => f g p q)).sum) := by
  intro r c a b ha hb hne
  induction l with
  | nil => rfl
  | cons g gs ih =>
    simp only [List.map_cons, List.sum_cons]
    rw [h g (List.mem_cons_self _ _) r c a b ha hb hne, zero_add]
    exact ih (fun x hx => h x (List.mem_cons_of_mem _ hx))

theorem axisTerm_decoupled {α : Type} [AddCommMonoid α] (r c : Nat) (v : α) :
    axis_decoupled (axisTerm r c v) := by
  intro r0 c0 a b ha hb hne
  exact axisTerm_eq_zero _ _ _ _ _ (fun a0 ha0 => by omega)

theorem axes_decoupled_compute_mapping_matrix_assembly {α : Type} [CommRing α] [Inhabited α]
    (m_patches : List (Patch α)) (lists : NearestPointLists α)
    (conditions : List (Condition α)) (n_cp n_fem : Nat) :
    (compute_mapping_matrix_assembly m_patches lists conditions n_cp n_fem).axes_decoupled := by
  constructor
  · intro r c a b ha hb hne
    rw [(compute_mapping_matrix_assembly_apply m_patches lists conditions n_cp n_fem _ _).1]
    refine axis_decoupled_list_sum _ (fun g => CAD_CAD_term g) (fun g _ => ?_) r c a b ha hb hne
    intro r c a b ha hb hne
    unfold CAD_CAD_term
    exact supportSum_eq_zero _ _ (fun i _ j _ => supportSum_eq_zero _ _ (fun k _ l _ =>
      axisTerm_decoupled _ _ _ r c a b ha hb hne))
  · intro r c a b ha hb hne
    rw [(compute_mapping_matrix_assembly_apply m_patches lists conditions n_cp n_fem _ _).2]
    refine axis_decoupled_list_sum _ (fun g => CAD_FEM_term g) (fun g _ => ?_) r c a b ha hb hne
    intro r c a b ha hb hne
    unfold CAD_FEM_term
    exact supportSum_eq_zero _ _ (fun i _ j _ => Finset.sum_eq_zero (fun k _ =>
      axisTerm_decoupled _ _ _ r c a b ha hb hne))

theorem axes_decoupled_run {α : Type} [LinearOrderedField α] [Inhabited α]
    (call : MapperCall α) (s : MappingSystem α) (h : s.axes_decoupled) :
    (call.run s).axes_decoupled := by
  cases call with
  | compute_mapping_matrix m_patches lists conditions n_cp n_fem =>
    exact axes_decoupled_compute_mapping_matrix_assembly _ _ _ _ _
  | apply_boundary_conditions norm_2 m_patches elems pd pr pdir edges_dir edges_tc =>
    exact axes_decoupled_apply_boundary_conditions _ _ _ _ _ _ _ _ _ h
  | map_to_cad_space nodes =>
    exact axes_decoupled_map_to_cad_space_system _ _ h

theorem run_calls_preserves_axes_decoupled {α : Type} [LinearOrderedField α] [Inhabited α]
    (calls : List (MapperCall α)) (s : MappingSystem α) (h : s.axes_decoupled) :
    (run_calls calls s).axes_decoupled :=
  foldl_preserves MappingSystem.axes_decoupled _ (fun s call hs => axes_decoupled_run call s hs)
    calls s h

theorem cleared_axes_decoupled (α : Type) [Zero α] (n_cp n_fem : Nat) :
    (MappingSystem.cleared α n_cp n_fem).axes_decoupled :=
  ⟨fun _ _ _ _ _ _ _ => rfl, fun _ _ _ _ _ _ _ => rfl⟩

/-- Claim C11: axis decoupling is an invariant of the mapping system. After any sequence
of calls of `compute_mapping_matrix`, `apply_boundary_conditions` (displacement coupling,
rotation coupling, tangent continuity, Dirichlet) and `map_to_cad_space` (with its check of
the main diagonal), started with `compute_mapping_matrix` on any state or on the empty
matrices of a freshly constructed mapper, every entry `(3*r + a, 3*c + b)` with `a ≠ b` of
the CAD-CAD and of the CAD-FEM matrix is zero. -/
theorem run_calls_axes_decoupled {α : Type} [LinearOrderedField α] [Inhabited α]
    (calls : List (MapperCall α)) (s0 : MappingSystem α) (m_patches : List (Patch α))
    (lists : NearestPointLists α) (conditions : List (Condition α)) (n_cp n_fem : Nat) :
    (run_calls (MapperCall.compute_mapping_matrix m_patches lists conditions n_cp n_fem
      :: calls) s0).axes_decoupled ∧
    (run_calls calls (MappingSystem.cleared α 0 0)).axes_decoupled := by
  constructor
  · unfold run_calls
    rw [List.foldl_cons]
    exact run_calls_preserves_axes_decoupled calls _
      (axes_decoupled_compute_mapping_matrix_assembly _ _ _ _ _)
  · exact run_calls_preserves_axes_decoupled calls _ (cleared_axes_decoupled α 0 0)

theorem apply_dirichlet_condition_rhs {α : Type} [Mul α] [Add α] [Inhabited α]
    (norm_2 : Vec3 α → α) (m_patches : List (Patch α)) (brep_elem_i : BREPElement α)
    (pen : α) (edges : List (Nat × Bool × Bool × Bool)) (s : MappingSystem α) :
    (apply_dirichlet_condition norm_2 m_patches brep_elem_i pen edges s).m_mapping_rhs_vector =
      s.m_mapping_rhs_vector := by
  unfold apply_dirichlet_condition
  refine foldl_invariant (fun s : MappingSystem α => s.m_mapping_rhs_vector) _ ?_ _ s
  intro s gp
  rfl

theorem apply_coupling_condition_rhs {α : Type} [LinearOrderedRing α] [Inhabited α]
    (norm_2 : Vec3 α → α) (m_patches : List (Patch α)) (brep_elem_i : BREPElement α)
    (pd pr : α) (edges : List (Nat × α)) (s : MappingSystem α)
    (h : brep_elem_i.edge_id ∉ edges.map Prod.fst) :
    (apply_coupling_condition norm_2 m_patches brep_elem_i pd pr edges s).m_mapping_rhs_vector =
      s.m_mapping_rhs_vector := by
  unfold apply_coupling_condition
  have hreq : tangent_continuity_request brep_elem_i.edge_id edges = (false, 0) :=
    tangent_continuity_request_not_listed _ _ _ h
  rw [hreq]
  refine foldl_invariant (fun s : MappingSystem α => s.m_mapping_rhs_vector) _ ?_ _ s
  intro s gp
  rfl

theorem apply_boundary_conditions_rhs {α : Type} [LinearOrderedRing α] [Inhabited α]
    (norm_2 : Vec3 α → α) (m_patches : List (Patch α))
    (m_brep_elements : List (BREPElement α)) (pd pr pdir : α)
    (edges_dir : List (Nat × Bool × Bool × Bool)) (edges_tc : List (Nat × α))
    (s : MappingSystem α)
    (h : ∀ e ∈ m_brep_elements, e.edge_id ∉ edges_tc.map Prod.fst) :
    (apply_boundary_conditions norm_2 m_patches m_brep_elements pd pr pdir edges_dir edges_tc
      s).m_mapping_rhs_vector = s.m_mapping_rhs_vector := by
  unfold apply_boundary_conditions
  induction m_brep_elements generalizing s with
  | nil => rfl
  | cons e es ih =>
    rw [List.foldl_cons, ih _ (fun x hx => h x (List.mem_cons_of_mem _ hx))]
    split
    · exact apply_coupling_condition_rhs _ _ _ _ _ _ _ (h e (List.mem_cons_self _ _))
    · split
      · exact apply_dirichlet_condition_rhs _ _ _ _ _ _
      · rfl

/-- Claim C20: `apply_displacement_coupling`, `apply_rotation_coupling` and
`apply_dirichlet_condition` leave every entry of `m_mapping_rhs_vector` unchanged; hence
`apply_boundary_conditions`, called with a list `edges_with_enforced_tangent_continuity`
that names the edge of no BREP element (in particular with the empty list), returns the
right-hand side it was given, which is all zeros when the call follows
`compute_mapping_matrix`. -/
theorem apply_boundary_conditions_rhs_unchanged {α : Type} [LinearOrderedCommRing α]
    [Inhabited α] (norm_2 : Vec3 α → α) (m_patches : List (Patch α))
    (m_brep_elements : List (BREPElement α)) (pd pr pdir : α)
    (edges_dir : List (Nat × Bool × Bool × Bool)) (edges_tc : List (Nat × α))
    (s : MappingSystem α)
    (h : ∀ e ∈ m_brep_elements, e.edge_id ∉ edges_tc.map Prod.fst) :
    (∀ (ids_m ids_s : UblasMatrix Nat) (R_m R_s : UblasMatrix α) (J1 w : α)
        (s1 : MappingSystem α),
      (apply_displacement_coupling ids_m ids_s R_m R_s J1 w pd s1).m_mapping_rhs_vector =
        s1.m_mapping_rhs_vector) ∧
    (∀ (master_patch slave_patch : Patch α) (u_m v_m u_s v_s : α) (t_m t_s : Vec2 α)
        (ids_m ids_s : UblasMatrix Nat) (J1 w : α) (s1 : MappingSystem α),
      (apply_rotation_coupling master_patch slave_patch u_m v_m u_s v_s t_m t_s ids_m ids_s
        J1 w pr s1).m_mapping_rhs_vector = s1.m_mapping_rhs_vector) ∧
    (∀ (brep_elem_i : BREPElement α) (s1 : MappingSystem α),
      (apply_dirichlet_condition norm_2 m_patches brep_elem_i pdir edges_dir
        s1).m_mapping_rhs_vector = s1.m_mapping_rhs_vector) ∧
    (apply_boundary_conditions norm_2 m_patches m_brep_elements pd pr pdir edges_dir edges_tc
      s).m_mapping_rhs_vector = s.m_mapping_rhs_vector ∧
    (∀ (lists : NearestPointLists α) (conditions : List (Condition α)) (n_cp n_fem p : Nat),
      (apply_boundary_conditions norm_2 m_patches m_brep_elements pd pr pdir edges_dir edges_tc
        (compute_mapping_matrix_assembly m_patches lists conditions n_cp
          n_fem)).m_mapping_rhs_vector p = 0) := by
  refine ⟨fun _ _ _ _ _ _ _ => rfl, fun _ _ _ _ _ _ _ _ _ _ _ _ _ => rfl,
    fun e s1 => apply_dirichlet_condition_rhs _ _ _ _ _ _,
    apply_boundary_conditions_rhs _ _ _ _ _ _ _ _ _ h, ?_⟩
  intro lists conditions n_cp n_fem p
  rw [apply_boundary_conditions_rhs _ _ _ _ _ _ _ _ _ h,
    (compute_mapping_matrix_assembly_frame m_patches lists conditions n_cp n_fem).2.2]

theorem check_main_diagonal_apply {α : Type} [LinearOrderedField α] (n : Nat)
    (M : SparseMatrixType α) (p q : Nat) :
    check_main_diagonal n M p q =
      if p = q ∧ p < n ∧ abs (M p p) < 1 / 10000000000 then 1 / 1000 else M p q := by
  induction n generalizing p q with
  | zero => simp [check_main_diagonal, forLoop_zero]
  | succ n ih =>
    unfold check_main_diagonal at ih ⊢
    rw [forLoop_succ]
    have hnn : forLoop n (fun i M =>
        if abs (M i i) < 1 / 10000000000 then setAt M i i (1 / 1000) else M) M n n = M n n := by
      rw [ih n n, if_neg (by omega)]
    rw [hnn]
    by_cases hsmall : abs (M n n) < 1 / 10000000000
    · rw [if_pos hsmall]
      simp only [setAt]
      by_cases hpq : p = n ∧ q = n
      · obtain ⟨rfl, rfl⟩ := hpq
        rw [if_pos ⟨rfl, rfl⟩, if_pos ⟨rfl, Nat.lt_succ_self _, hsmall⟩]
      · rw [if_neg hpq, ih p q]
        by_cases hc : p = q ∧ p < n ∧ abs (M p p) < 1 / 10000000000
        · rw [if_pos hc, if_pos ⟨hc.1, Nat.lt_succ_of_lt hc.2.1, hc.2.2⟩]
        · rw [if_neg hc, if_neg]
          rintro ⟨h1, h2, h3⟩
          have : p ≠ n := fun hp => hpq ⟨hp, h1 ▸ hp⟩
          exact hc ⟨h1, by omega, h3⟩
    · rw [if_neg hsmall, ih p q]
      by_cases hc : p = q ∧ p < n ∧ abs (M p p) < 1 / 10000000000
      · rw [if_pos hc, if_pos ⟨hc.1, Nat.lt_succ_of_lt hc.2.1, hc.2.2⟩]
      · rw [if_neg hc, if_neg]
        rintro ⟨h1, h2, h3⟩
        by_cases hp : p = n
        · subst hp; exact hsmall h3
        · exact hc ⟨h1, by omega, h3⟩

/-- Claim C13: the scan of the main diagonal in `map_to_cad_space` replaces every diagonal
entry of the CAD-CAD matrix whose magnitude is below 1e-10 by 1e-3, leaves every other
diagonal entry and every off-diagonal entry unchanged, and always runs to its end (the
`KRATOS_THROW_ERROR` of l. 1192 is commented out); afterwards no diagonal entry of the
matrix has magnitude below 1e-10. -/
theorem check_main_diagonal_regularizes {α : Type} [LinearOrderedField α] (size1 : Nat)
    (M : SparseMatrixType α) :
    (∀ i < size1, abs (M i i) < 1 / 10000000000 →
      check_main_diagonal size1 M i i = 1 / 1000) ∧
    (∀ i < size1, ¬ abs (M i i) < 1 / 10000000000 → check_main_diagonal size1 M i i = M i i) ∧
    (∀ p q, p ≠ q → check_main_diagonal size1 M p q = M p q) ∧
    (∀ i < size1, ¬ abs (check_main_diagonal size1 M i i) < 1 / 10000000000) := by
  refine ⟨fun i hi h => ?_, fun i hi h => ?_, fun p q hpq => ?_, fun i hi => ?_⟩
  · rw [check_main_diagonal_apply, if_pos ⟨rfl, hi, h⟩]
  · rw [check_main_diagonal_apply, if_neg (fun hc => h hc.2.2)]
  · rw [check_main_diagonal_apply, if_neg (fun hc => hpq hc.1)]
  · rw [check_main_diagonal_apply]
    by_cases h : abs (M i i) < 1 / 10000000000
    · rw [if_pos ⟨rfl, hi, h⟩, abs_of_pos (by norm_num)]
      norm_num
    · rw [if_neg (fun hc => h hc.2.2)]
      exact h

theorem gather_dx_foldl_frame {α : Type} (nodes : List (FENode α)) (dx0 : Nat → α) (q : Nat)
    (h : ∀ node ∈ nodes, ∀ a < 3, q ≠ 3 * node.MAPPING_MATRIX_ID + a) :
    nodes.foldl (fun dx node_i =>
      setAtVec (setAtVec (setAtVec dx (3 * node_i.MAPPING_MATRIX_ID + 0)
        node_i.SHAPE_CHANGE_ABSOLUTE_X)
        (3 * node_i.MAPPING_MATRIX_ID + 1) node_i.SHAPE_CHANGE_ABSOLUTE_Y)
        (3 * node_i.MAPPING_MATRIX_ID + 2) node_i.SHAPE_CHANGE_ABSOLUTE_Z) dx0 q = dx0 q := by
  induction nodes generalizing dx0 with
  | nil => rfl
  | cons nd rest ih =>
    rw [List.foldl_cons, ih _ (fun x hx => h x (List.mem_cons_of_mem _ hx))]
    have h0 := h nd (List.mem_cons_self _ _) 0 (by omega)
    have h1 := h nd (List.mem_cons_self _ _) 1 (by omega)
    have h2 := h nd (List.mem_cons_self _ _) 2 (by omega)
    simp only [setAtVec]
    rw [if_neg h2, if_neg h1, if_neg h0]

theorem gather_dx_foldl_distinct {α : Type} (nodes : List (FENode α)) (dx0 : Nat → α)
    (hd : (nodes.map (fun node => node.MAPPING_MATRIX_ID)).Nodup) :
    ∀ node ∈ nodes,
      nodes.foldl (fun dx node_i =>
        setAtVec (setAtVec (setAtVec dx (3 * node_i.MAPPING_MATRIX_ID + 0)
          node_i.SHAPE_CHANGE_ABSOLUTE_X)
          (3 * node_i.MAPPING_MATRIX_ID + 1) node_i.SHAPE_CHANGE_ABSOLUTE_Y)
          (3 * node_i.MAPPING_MATRIX_ID + 2) node_i.SHAPE_CHANGE_ABSOLUTE_Z) dx0
          (3 * node.MAPPING_MATRIX_ID) = node.SHAPE_CHANGE_ABSOLUTE_X ∧
      nodes.foldl (fun dx node_i =>
        setAtVec (setAtVec (setAtVec dx (3 * node_i.MAPPING_MATRIX_ID + 0)
          node_i.SHAPE_CHANGE_ABSOLUTE_X)
          (3 * node_i.MAPPING_MATRIX_ID + 1) node_i.SHAPE_CHANGE_ABSOLUTE_Y)
          (3 * node_i.MAPPING_MATRIX_ID + 2) node_i.SHAPE_CHANGE_ABSOLUTE_Z) dx0
          (3 * node.MAPPING_MATRIX_ID + 1) = node.SHAPE_CHANGE_ABSOLUTE_Y ∧
      nodes.foldl (fun dx node_i =>
        setAtVec (setAtVec (setAtVec dx (3 * node_i.MAPPING_MATRIX_ID + 0)
          node_i.SHAPE_CHANGE_ABSOLUTE_X)
          (3 * node_i.MAPPING_MATRIX_ID + 1) node_i.SHAPE_CHANGE_ABSOLUTE_Y)
          (3 * node_i.MAPPING_MATRIX_ID + 2) node_i.SHAPE_CHANGE_ABSOLUTE_Z) dx0
          (3 * node.MAPPING_MATRIX_ID + 2) = node.SHAPE_CHANGE_ABSOLUTE_Z := by
  induction nodes generalizing dx0 with
  | nil => intro node hn; cases hn
  | cons nd rest ih =>
    intro node hn
    rw [List.map_cons, List.nodup_cons] at hd
    rw [List.foldl_cons]
    rcases List.mem_cons.mp hn with rfl | hrest
    · have hne : ∀ x ∈ rest, x.MAPPING_MATRIX_ID ≠ node.MAPPING_MATRIX_ID := by
        intro x hx hxe
        exact hd.1 (List.mem_map.mpr ⟨x, hx, hxe⟩)
      rw [gather_dx_foldl_frame rest _ _ (fun x hx a ha => by have := hne x hx; omega),
        gather_dx_foldl_frame rest _ _ (fun x hx a ha => by have := hne x hx; omega),
        gather_dx_foldl_frame rest _ _ (fun x hx a ha => by have := hne x hx; omega)]
      simp [setAtVec]
    · exact ih _ hd.2 node hrest

theorem node_indexing_foldl {α : Type} (nodes : List (FENode α)) (acc : List (FENode α))
    (c : Nat) :
    nodes.foldl (fun st node_i =>
      (st.1 ++ [{ node_i with MAPPING_MATRIX_ID := st.2 }], st.2 + 1)) (acc, c) =
      (acc ++ List.zipWith (fun (node_i : FENode α) k => { node_i with MAPPING_MATRIX_ID := k })
        nodes (List.range' c nodes.length), c + nodes.length) := by
  induction nodes generalizing acc c with
  | nil => simp
  | cons nd rest ih =>
    rw [List.foldl_cons, ih]
    simp only [List.length_cons, List.range'_succ, List.zipWith_cons_cons, List.append_assoc,
      List.singleton_append, Prod.mk.injEq, true_and]
    omega

theorem zipWith_ids {α : Type} (nodes : List (FENode α)) (c : Nat) :
    (List.zipWith (fun (node_i : FENode α) k => { node_i with MAPPING_MATRIX_ID := k })
      nodes (List.range' c nodes.length)).map (fun node => node.MAPPING_MATRIX_ID) =
      List.range' c nodes.length := by
  induction nodes generalizing c with
  | nil => rfl
  | cons nd rest ih =>
    simp only [List.length_cons, List.range'_succ, List.zipWith_cons_cons, List.map_cons]
    rw [ih]

theorem zipWith_values {α β : Type} (nodes : List (FENode α)) (c : Nat) (f : FENode α → β)
    (hf : ∀ node k, f { node with MAPPING_MATRIX_ID := k } = f node) :
    (List.zipWith (fun (node_i : FENode α) k => { node_i with MAPPING_MATRIX_ID := k })
      nodes (List.range' c nodes.length)).map f = nodes.map f := by
  induction nodes generalizing c with
  | nil => rfl
  | cons nd rest ih =>
    simp only [List.length_cons, List.range'_succ, List.zipWith_cons_cons, List.map_cons]
    rw [ih, hf]

theorem compute_mapping_matrix_node_indexing_eq {α : Type} (nodes : List (FENode α)) :
    compute_mapping_matrix_node_indexing nodes =
      (List.zipWith (fun (node_i : FENode α) k => { node_i with MAPPING_MATRIX_ID := k })
        nodes (List.range' 0 nodes.length), nodes.length) := by
  unfold compute_mapping_matrix_node_indexing
  rw [node_indexing_foldl]
  simp

/-- Claim C14: with the FE nodes numbered by `compute_mapping_matrix` (node `k` of the
traversal has mapping id `k`), `map_to_cad_space` writes the displacement of every FE node
with mapping id `k` into `dx[3k]`, `dx[3k+1]`, `dx[3k+2]`, adds `CAD-FEM * dx` to the
right-hand side accumulated by the constraints, and hands the system
`CAD-CAD * ds = that vector` (the matrix after the check of its main diagonal, `ds`
zero-initialised) to the linear solver. -/
theorem map_to_cad_space_right_hand_side {α : Type} [LinearOrderedField α]
    (Solve : SparseMatrixType α → (Nat → α) → (Nat → α) → (Nat → α))
    (fe_nodes : List (FENode α)) (s : MappingSystem α) :
    ((compute_mapping_matrix_node_indexing fe_nodes).2 = fe_nodes.length ∧
      (compute_mapping_matrix_node_indexing fe_nodes).1.map
        (fun node => node.MAPPING_MATRIX_ID) = List.range fe_nodes.length ∧
      (compute_mapping_matrix_node_indexing fe_nodes).1.map
        (fun node => (node.SHAPE_CHANGE_ABSOLUTE_X, node.SHAPE_CHANGE_ABSOLUTE_Y,
          node.SHAPE_CHANGE_ABSOLUTE_Z)) =
        fe_nodes.map (fun node => (node.SHAPE_CHANGE_ABSOLUTE_X, node.SHAPE_CHANGE_ABSOLUTE_Y,
          node.SHAPE_CHANGE_ABSOLUTE_Z))) ∧
    (∀ node ∈ (compute_mapping_matrix_node_indexing fe_nodes).1,
      gather_dx (compute_mapping_matrix_node_indexing fe_nodes).1
          (3 * node.MAPPING_MATRIX_ID) = node.SHAPE_CHANGE_ABSOLUTE_X ∧
      gather_dx (compute_mapping_matrix_node_indexing fe_nodes).1
          (3 * node.MAPPING_MATRIX_ID + 1) = node.SHAPE_CHANGE_ABSOLUTE_Y ∧
      gather_dx (compute_mapping_matrix_node_indexing fe_nodes).1
          (3 * node.MAPPING_MATRIX_ID + 2) = node.SHAPE_CHANGE_ABSOLUTE_Z) ∧
    (∀ q, 3 * fe_nodes.length ≤ q →
      gather_dx (compute_mapping_matrix_node_indexing fe_nodes).1 q = 0) ∧
    (∀ p, (map_to_cad_space_system (compute_mapping_matrix_node_indexing fe_nodes).1
        s).m_mapping_rhs_vector p =
      s.m_mapping_rhs_vector p + ∑ q ∈ Finset.range (3 * s.m_n_relevant_fem_points),
        s.m_mapping_matrix_CAD_FEM p q *
          gather_dx (compute_mapping_matrix_node_indexing fe_nodes).1 q) ∧
    map_to_cad_space_ds Solve (compute_mapping_matrix_node_indexing fe_nodes).1 s =
      Solve (check_main_diagonal (3 * s.m_n_relevant_control_points)
          s.m_mapping_matrix_CAD_CAD) (fun _ => 0)
        (fun p => s.m_mapping_rhs_vector p +
          ∑ q ∈ Finset.range (3 * s.m_n_relevant_fem_points),
            s.m_mapping_matrix_CAD_FEM p q *
              gather_dx (compute_mapping_matrix_node_indexing fe_nodes).1 q) := by
  have hids : (compute_mapping_matrix_node_indexing fe_nodes).1.map
      (fun node => node.MAPPING_MATRIX_ID) = List.range fe_nodes.length := by
    rw [compute_mapping_matrix_node_indexing_eq, zipWith_ids, List.range_eq_range']
  refine ⟨⟨?_, hids, ?_⟩, ?_, ?_, fun p => rfl, rfl⟩
  · rw [compute_mapping_matrix_node_indexing_eq]
  · rw [compute_mapping_matrix_node_indexing_eq]
    exact zipWith_values fe_nodes 0 _ (fun _ _ => rfl)
  · intro node hnode
    have hd : ((compute_mapping_matrix_node_indexing fe_nodes).1.map
        (fun node => node.MAPPING_MATRIX_ID)).Nodup := by
      rw [hids]
      exact List.nodup_range _
    exact gather_dx_foldl_distinct _ _ hd node hnode
  · intro q hq
    unfold gather_dx
    rw [gather_dx_foldl_frame]
    intro node hnode a ha
    have hmem : node.MAPPING_MATRIX_ID ∈ List.range fe_nodes.length := by
      rw [← hids]
      exact List.mem_map.mpr ⟨node, hnode, rfl⟩
    have := List.mem_range.mp hmem
    omega

theorem update_control_point_eq {α : Type} (ds : Nat → α) (cp : ControlPoint α)
    (h : cp.m_is_relevant_for_mapping = true → cp.m_mapping_matrix_id.isSome = true) :
    update_control_point ds cp = some (displacement_written_back ds cp) := by
  unfold update_control_point displacement_written_back ControlPoint.GetMappingMatrixId
  cases hrel : cp.m_is_relevant_for_mapping
  · simp
  · cases hid : cp.m_mapping_matrix_id with
    | none => rw [hrel, hid] at h; exact absurd (h rfl) (by simp)
    | some k => simp

theorem update_control_points_eq {α : Type} (ds : Nat → α) (cps : List (ControlPoint α))
    (h : ∀ cp ∈ cps, cp.m_is_relevant_for_mapping = true →
      cp.m_mapping_matrix_id.isSome = true) :
    update_control_points ds cps = some (cps.map (displacement_written_back ds)) := by
  induction cps with
  | nil => rfl
  | cons cp rest ih =>
    unfold update_control_points
    rw [update_control_point_eq ds cp (h cp (List.mem_cons_self _ _)),
      ih (fun x hx => h x (List.mem_cons_of_mem _ hx))]
    rfl

theorem UpdateControlPoints_eq {α : Type} (ds : Nat → α) (patches : List (Patch α))
    (h : ∀ cp ∈ all_control_points patches, cp.m_is_relevant_for_mapping = true →
      cp.m_mapping_matrix_id.isSome = true) :
    UpdateControlPoints ds patches = some (patches.map (fun patch_i =>
      { patch_i with
        m_nurbs_surface := { patch_i.m_nurbs_surface with
          m_control_points :=
            patch_i.m_nurbs_surface.m_control_points.map (displacement_written_back ds) } })) := by
  induction patches with
  | nil => rfl
  | cons p rest ih =>
    have h1 : ∀ cp ∈ p.m_nurbs_surface.m_control_points,
        cp.m_is_relevant_for_mapping = true → cp.m_mapping_matrix_id.isSome = true := by
      intro cp hcp
      refine h cp ?_
      simp only [all_control_points, List.flatMap_cons, List.mem_append]
      exact Or.inl hcp
    have h2 : ∀ cp ∈ all_control_points rest,
        cp.m_is_relevant_for_mapping = true → cp.m_mapping_matrix_id.isSome = true := by
      intro cp hcp
      refine h cp ?_
      simp only [all_control_points, List.flatMap_cons, List.mem_append]
      exact Or.inr hcp
    unfold UpdateControlPoints
    rw [update_control_points_eq ds _ h1, ih h2]
    rfl

theorem all_control_points_map {α : Type} (f : ControlPoint α → ControlPoint α)
    (patches : List (Patch α)) :
    all_control_points (patches.map (fun patch_i =>
      { patch_i with
        m_nurbs_surface := { patch_i.m_nurbs_surface with
          m_control_points := patch_i.m_nurbs_surface.m_control_points.map f } })) =
      (all_control_points patches).map f := by
  induction patches with
  | nil => rfl
  | cons p rest ih =>
    simp only [all_control_points, List.map_cons, List.flatMap_cons, List.map_append] at ih ⊢
    rw [ih]

/-- Claim C15: `CADModelReader::UpdateControlPoints`, called by `map_to_cad_space` with the
solution `ds`, returns (every relevant control point carrying its row id) and sets
`(dX, dY, dZ)` of every relevant control point with row id `k` to
`(ds[3k], ds[3k+1], ds[3k+2])`; it leaves the displacement, the relevance flag and the row
id of every non-relevant control point unchanged, as well as the flag, the row id and the
position of the relevant ones and the patches otherwise. -/
theorem UpdateControlPoints_writes_back {α : Type} (ds : Nat → α) (patches : List (Patch α))
    (h : ∀ cp ∈ all_control_points patches, cp.m_is_relevant_for_mapping = true →
      cp.m_mapping_matrix_id.isSome = true) :
    UpdateControlPoints ds patches = some (patches.map (fun patch_i =>
      { patch_i with
        m_nurbs_surface := { patch_i.m_nurbs_surface with
          m_control_points :=
            patch_i.m_nurbs_surface.m_control_points.map (displacement_written_back ds) } })) ∧
    (∀ updated, UpdateControlPoints ds patches = some updated →
      all_control_points updated =
        (all_control_points patches).map (displacement_written_back ds)) ∧
    (∀ (cp : ControlPoint α) (k : Nat), cp.m_is_relevant_for_mapping = true →
      cp.m_mapping_matrix_id = some k →
      displacement_written_back ds cp =
        { cp with dX := ds (3 * k), dY := ds (3 * k + 1), dZ := ds (3 * k + 2) }) ∧
    (∀ cp : ControlPoint α, cp.m_is_relevant_for_mapping = false →
      displacement_written_back ds cp = cp) := by
  refine ⟨UpdateControlPoints_eq ds patches h, ?_, ?_, ?_⟩
  · intro updated hu
    rw [UpdateControlPoints_eq ds patches h] at hu
    rw [← Option.some.inj hu]
    exact all_control_points_map _ _
  · intro cp k hrel hid
    unfold displacement_written_back
    rw [hrel, hid]
  · intro cp hrel
    unfold displacement_written_back
    rw [hrel]

theorem flags_below_refl {α : Type} (cps : List (ControlPoint α)) : flags_below cps cps := by
  induction cps with
  | nil => exact List.Forall₂.nil
  | cons cp rest ih => exact List.Forall₂.cons (fun h => h) ih

theorem patches_flags_below_refl {α : Type} (ps : List (Patch α)) :
    patches_flags_below ps ps := by
  induction ps with
  | nil => exact List.Forall₂.nil
  | cons p rest ih => exact List.Forall₂.cons (flags_below_refl _) ih

theorem flag_from_monotone {α : Type} (support : List Nat) (k : Nat)
    (cps cps' : List (ControlPoint α)) (h : flags_below cps cps') :
    flags_below (flag_from support k cps) (flag_from support k cps') := by
  unfold flags_below at h ⊢
  induction h generalizing k with
  | nil => exact List.Forall₂.nil
  | cons hc _ ih =>
    unfold flag_from
    refine List.Forall₂.cons ?_ (ih (k + 1))
    by_cases hk : k ∈ support
    · rw [if_pos hk, if_pos hk]
      exact fun _ => rfl
    · rw [if_neg hk, if_neg hk]
      exact hc

theorem flag_from_inflationary {α : Type} (support : List Nat) (k : Nat)
    (cps cps' : List (ControlPoint α)) (h : flags_below cps cps') :
    flags_below cps (flag_from support k cps') := by
  unfold flags_below at h ⊢
  induction h generalizing k with
  | nil => exact List.Forall₂.nil
  | cons hc _ ih =>
    unfold flag_from
    refine List.Forall₂.cons ?_ (ih (k + 1))
    by_cases hk : k ∈ support
    · rw [if_pos hk]
      exact fun _ => rfl
    · rw [if_neg hk]
      exact hc

theorem modifyAt_forall₂ {β : Type} (R : β → β → Prop) (f : β → β)
    (hf : ∀ x y, R x y → R (f x) (f y)) (l l' : List β) (h : List.Forall₂ R l l') (i : Nat) :
    List.Forall₂ R (modifyAt f l i) (modifyAt f l' i) := by
  induction h generalizing i with
  | nil => exact List.Forall₂.nil
  | cons hxy hrest ih =>
    cases i with
    | zero => exact List.Forall₂.cons (hf _ _ hxy) hrest
    | succ i => exact List.Forall₂.cons hxy (ih i)

theorem modifyAt_forall₂_right {β : Type} (R : β → β → Prop) (f : β → β)
    (hf : ∀ x y, R x y → R x (f y)) (l l' : List β) (h : List.Forall₂ R l l') (i : Nat) :
    List.Forall₂ R l (modifyAt f l' i) := by
  induction h generalizing i with
  | nil => exact List.Forall₂.nil
  | cons hxy hrest ih =>
    cases i with
    | zero => exact List.Forall₂.cons (hf _ _ hxy) hrest
    | succ i => exact List.Forall₂.cons hxy (ih i)

theorem flag_patch_monotone {α : Type} (support : Nat → Int → Int → α → α → List Nat)
    (ps ps' : List (Patch α)) (h : patches_flags_below ps ps') (patch_itr : Nat)
    (span_u span_v : Int) (u v : α) :
    patches_flags_below (flag_patch support ps patch_itr span_u span_v u v)
      (flag_patch support ps' patch_itr span_u span_v u v) := by
  unfold patches_flags_below flag_patch at *
  refine modifyAt_forall₂ _ _ ?_ ps ps' h patch_itr
  intro x y hxy
  exact flag_from_monotone _ _ _ _ hxy

theorem flag_patch_inflationary {α : Type} (support : Nat → Int → Int → α → α → List Nat)
    (ps ps' : List (Patch α)) (h : patches_flags_below ps ps') (patch_itr : Nat)
    (span_u span_v : Int) (u v : α) :
    patches_flags_below ps (flag_patch support ps' patch_itr span_u span_v u v) := by
  unfold patches_flags_below flag_patch at *
  refine modifyAt_forall₂_right _ _ ?_ ps ps' h patch_itr
  intro x y hxy
  exact flag_from_inflationary _ _ _ _ hxy

theorem flag_nearest_points_monotone {α : Type}
    (support : Nat → Int → Int → α → α → List Nat)
    (nearest_points nearest_points' : List (NearestPoint α))
    (hsub : nearest_points.Sublist nearest_points') (ps ps' : List (Patch α))
    (h : patches_flags_below ps ps') :
    patches_flags_below (flag_nearest_points support nearest_points ps)
      (flag_nearest_points support nearest_points' ps') := by
  unfold flag_nearest_points
  induction hsub generalizing ps ps' with
  | slnil => exact h
  | cons np _ ih =>
    rw [List.foldl_cons]
    exact ih _ _ (flag_patch_inflationary support ps ps' h _ _ _ _ _)
  | cons₂ np _ ih =>
    rw [List.foldl_cons, List.foldl_cons]
    exact ih _ _ (flag_patch_monotone support ps ps' h _ _ _ _ _)

theorem flag_brep_elements_monotone {α : Type}
    (support : Nat → Int → Int → α → α → List Nat) (position : Nat → Nat)
    (m_brep_elements : List (BREPElement α)) (ps ps' : List (Patch α))
    (h : patches_flags_below ps ps') :
    patches_flags_below (flag_brep_elements support position m_brep_elements ps)
      (flag_brep_elements support position m_brep_elements ps') := by
  unfold flag_brep_elements
  induction m_brep_elements generalizing ps ps' with
  | nil => exact h
  | cons e es ih =>
    rw [List.foldl_cons, List.foldl_cons]
    refine ih _ _ ?_
    generalize e.gauss_points = gps
    induction gps generalizing ps ps' with
    | nil => exact h
    | cons gp gps ihg =>
      rw [List.foldl_cons, List.foldl_cons]
      refine ihg _ _ ?_
      by_cases hc : e.has_coupling_condition = true
      · simp only [hc, if_true]
        exact flag_patch_monotone _ _ _ (flag_patch_monotone _ _ _ h _ _ _ _ _) _ _ _ _ _
      · simp only [hc, if_false]
        exact flag_patch_monotone _ _ _ h _ _ _ _ _

theorem all_control_points_flags_below {α : Type} (ps ps' : List (Patch α))
    (h : patches_flags_below ps ps') :
    flags_below (all_control_points ps) (all_control_points ps') := by
  unfold patches_flags_below at h
  unfold flags_below all_control_points
  induction h with
  | nil => exact List.Forall₂.nil
  | cons hp _ ih =>
    simp only [List.flatMap_cons]
    exact List.rel_append hp ih

theorem relevant_count_le_of_flags_below {α : Type} (cps cps' : List (ControlPoint α))
    (h : flags_below cps cps') : relevant_count cps ≤ relevant_count cps' := by
  unfold flags_below at h
  induction h with
  | nil => exact Nat.le_refl _
  | @cons cp cp' rest rest' hc _ ih =>
    cases hrel : cp.m_is_relevant_for_mapping
    · rw [relevant_count_cons_neg _ _ hrel]
      cases hrel' : cp'.m_is_relevant_for_mapping
      · rw [relevant_count_cons_neg _ _ hrel']; exact ih
      · rw [relevant_count_cons_pos _ _ hrel']; exact Nat.le_succ_of_le ih
    · rw [relevant_count_cons_pos _ _ hrel, relevant_count_cons_pos _ _ (hc hrel)]
      exact Nat.succ_le_succ ih

theorem compute_mapping_matrix_relevance_count {α : Type} [Inhabited α]
    (support : Nat → Int → Int → α → α → List Nat) (m_patches : List (Patch α))
    (nearest_points : List (NearestPoint α)) (m_brep_elements : List (BREPElement α)) :
    (compute_mapping_matrix_relevance support m_patches nearest_points
      m_brep_elements).2.m_n_relevant_control_points =
    relevant_count (all_control_points
      (flag_brep_elements support (m_patch_position_in_patch_vector m_patches) m_brep_elements
        (flag_nearest_points support nearest_points m_patches))) := by
  unfold compute_mapping_matrix_relevance compute_mapping_matrix_indexing
  rw [(index_patches_flat _ _).2, index_control_points_counters]
  simp

/-- With the same record for every Gauss point common to both builds (the records of the
first build are a sublist of those of the second, the patches and the BREP elements are the
same), the build with the additional FE Gauss points has at least as many relevant control
points. -/
theorem relevant_control_points_monotone {α : Type} [Inhabited α]
    (support : Nat → Int → Int → α → α → List Nat) (m_patches : List (Patch α))
    (nearest_points nearest_points' : List (NearestPoint α))
    (m_brep_elements : List (BREPElement α))
    (h : nearest_points.Sublist nearest_points') :
    (compute_mapping_matrix_relevance support m_patches nearest_points
      m_brep_elements).2.m_n_relevant_control_points ≤
    (compute_mapping_matrix_relevance support m_patches nearest_points'
      m_brep_elements).2.m_n_relevant_control_points := by
  rw [compute_mapping_matrix_relevance_count, compute_mapping_matrix_relevance_count]
  exact relevant_count_le_of_flags_below _ _ (all_control_points_flags_below _ _
    (flag_brep_elements_monotone _ _ _ _ _
      (flag_nearest_points_monotone _ _ _ h _ _ (patches_flags_below_refl _))))

theorem index_control_points_getElem? {α : Type} (cps : List (ControlPoint α))
    (c : IndexingCounters) (i : Nat) :
    ((index_control_points cps c).1)[i]? =
      (cps[i]?).map (fun cp =>
        if cp.m_is_relevant_for_mapping then
          cp.SetMappingMatrixId (c.mapping_matrix_id + relevant_count (cps.take i))
        else cp) := by
  induction cps generalizing c i with
  | nil => simp [index_control_points]
  | cons cp rest ih =>
    cases h : cp.m_is_relevant_for_mapping
    · rw [index_control_points_cons_neg _ _ _ h]
      cases i with
      | zero => simp [h]
      | succ i =>
        simp only [List.getElem?_cons_succ, List.take_succ_cons]
        rw [ih, relevant_count_cons_neg _ _ h]
    · rw [index_control_points_cons_pos _ _ _ h]
      cases i with
      | zero => simp [h, relevant_count]
      | succ i =>
        simp only [List.getElem?_cons_succ, List.take_succ_cons]
        rw [ih, relevant_count_cons_pos _ _ h]
        simp only [Nat.add_assoc, Nat.add_comm 1]

theorem relevant_count_of_flags {α : Type} (l l' : List (ControlPoint α))
    (h : l.map (fun cp => cp.m_is_relevant_for_mapping) =
      l'.map (fun cp => cp.m_is_relevant_for_mapping)) :
    relevant_count l = relevant_count l' := by
  induction l generalizing l' with
  | nil =>
    cases l' with
    | nil => rfl
    | cons x xs => simp at h
  | cons cp rest ih =>
    cases l' with
    | nil => simp at h
    | cons x xs =>
      simp only [List.map_cons, List.cons.injEq] at h
      cases hrel : cp.m_is_relevant_for_mapping
      · rw [relevant_count_cons_neg _ _ hrel, relevant_count_cons_neg _ _ (h.1 ▸ hrel), ih _ h.2]
      · rw [relevant_count_cons_pos _ _ hrel, relevant_count_cons_pos _ _ (h.1 ▸ hrel), ih _ h.2]

theorem relevant_count_take_index {α : Type} (cps : List (ControlPoint α))
    (c : IndexingCounters) (i : Nat) :
    relevant_count ((index_control_points cps c).1.take i) = relevant_count (cps.take i) := by
  refine relevant_count_of_flags _ _ ?_
  rw [List.map_take, List.map_take, index_control_points_flags]

theorem forall₂_getElem? {β : Type} (R : β → β → Prop) (l l' : List β)
    (h : List.Forall₂ R l l') (i : Nat) (x : β) (hx : l[i]? = some x) :
    ∃ y, l'[i]? = some y ∧ R x y := by
  induction h generalizing i with
  | nil => simp at hx
  | @cons a b l l' hab _ ih =>
    cases i with
    | zero =>
      simp only [List.getElem?_cons_zero, Option.some.injEq] at hx
      exact ⟨b, by simp, hx ▸ hab⟩
    | succ i =>
      simp only [List.getElem?_cons_succ] at hx ⊢
      exact ih i hx

theorem compute_mapping_matrix_relevance_points {α : Type} [Inhabited α]
    (support : Nat → Int → Int → α → α → List Nat) (m_patches : List (Patch α))
    (nearest_points : List (NearestPoint α)) (m_brep_elements : List (BREPElement α)) :
    all_control_points (compute_mapping_matrix_relevance support m_patches nearest_points
      m_brep_elements).1 =
    (index_control_points (all_control_points
      (flag_brep_elements support (m_patch_position_in_patch_vector m_patches) m_brep_elements
        (flag_nearest_points support nearest_points m_patches)))
      { m_n_control_points := 0, m_n_relevant_control_points := 0, mapping_matrix_id := 0 }).1 := by
  unfold compute_mapping_matrix_relevance compute_mapping_matrix_indexing
  exact (index_patches_flat _ _).1

theorem index_control_points_relevant_at {α : Type} (cps : List (ControlPoint α)) (i : Nat)
    (cp : ControlPoint α)
    (hcp : ((index_control_points cps
      { m_n_control_points := 0, m_n_relevant_control_points := 0,
        mapping_matrix_id := 0 }).1)[i]? = some cp)
    (hrel : cp.m_is_relevant_for_mapping = true) :
    ∃ cp0, cps[i]? = some cp0 ∧ cp0.m_is_relevant_for_mapping = true ∧
      cp.m_mapping_matrix_id = some (relevant_count (cps.take i)) := by
  rw [index_control_points_getElem?] at hcp
  cases h0 : cps[i]? with
  | none => rw [h0] at hcp; simp at hcp
  | some cp0 =>
    rw [h0] at hcp
    simp only [Option.map_some', Option.some.injEq] at hcp
    cases hrel0 : cp0.m_is_relevant_for_mapping
    · rw [hrel0] at hcp
      simp only [Bool.false_eq_true, if_false] at hcp
      rw [← hcp, hrel0] at hrel
      cases hrel
    · rw [hrel0] at hcp
      simp only [if_true] at hcp
      refine ⟨cp0, rfl, hrel0, ?_⟩
      rw [← hcp]
      simp [ControlPoint.SetMappingMatrixId]

theorem index_control_points_at_relevant {α : Type} (cps : List (ControlPoint α)) (i : Nat)
    (cp0 : ControlPoint α) (h0 : cps[i]? = some cp0)
    (hrel0 : cp0.m_is_relevant_for_mapping = true) :
    ∃ cp, ((index_control_points cps
      { m_n_control_points := 0, m_n_relevant_control_points := 0,
        mapping_matrix_id := 0 }).1)[i]? = some cp ∧
      cp.m_is_relevant_for_mapping = true ∧
      cp.m_mapping_matrix_id = some (relevant_count (cps.take i)) := by
  refine ⟨cp0.SetMappingMatrixId (relevant_count (cps.take i)), ?_, hrel0, rfl⟩
  rw [index_control_points_getElem?, h0]
  simp [hrel0]

theorem flagged_points_flags_below {α : Type} [Inhabited α]
    (support : Nat → Int → Int → α → α → List Nat) (m_patches : List (Patch α))
    (nearest_points nearest_points' : List (NearestPoint α))
    (m_brep_elements : List (BREPElement α))
    (h : nearest_points.Sublist nearest_points') :
    flags_below
      (all_control_points
        (flag_brep_elements support (m_patch_position_in_patch_vector m_patches)
          m_brep_elements (flag_nearest_points support nearest_points m_patches)))
      (all_control_points
        (flag_brep_elements support (m_patch_position_in_patch_vector m_patches)
          m_brep_elements (flag_nearest_points support nearest_points' m_patches))) :=
  all_control_points_flags_below _ _
    (flag_brep_elements_monotone _ _ _ _ _
      (flag_nearest_points_monotone _ _ _ h _ _ (patches_flags_below_refl _)))

/-- The row id of a relevant control point is the number of relevant control points before
it in the patch-then-control-point traversal. When the records of the first build are a
sublist of those of the second, a control point that is relevant in the first build is
relevant in the second, its row id there is not smaller, and it is the same when the
relevance flags of the control points before it are the same in both builds. -/
theorem mapping_matrix_id_counts_preceding {α : Type} [Inhabited α]
    (support : Nat → Int → Int → α → α → List Nat) (m_patches : List (Patch α))
    (nearest_points nearest_points' : List (NearestPoint α))
    (m_brep_elements : List (BREPElement α))
    (h : nearest_points.Sublist nearest_points') (i : Nat) (cp : ControlPoint α)
    (hcp : (all_control_points (compute_mapping_matrix_relevance support m_patches
      nearest_points m_brep_elements).1)[i]? = some cp)
    (hrel : cp.m_is_relevant_for_mapping = true) :
    ∃ cp', (all_control_points (compute_mapping_matrix_relevance support m_patches
        nearest_points' m_brep_elements).1)[i]? = some cp' ∧
      cp'.m_is_relevant_for_mapping = true ∧
      cp.m_mapping_matrix_id = some (relevant_count ((all_control_points
        (compute_mapping_matrix_relevance support m_patches nearest_points
          m_brep_elements).1).take i)) ∧
      cp'.m_mapping_matrix_id = some (relevant_count ((all_control_points
        (compute_mapping_matrix_relevance support m_patches nearest_points'
          m_brep_elements).1).take i)) ∧
      relevant_count ((all_control_points (compute_mapping_matrix_relevance support m_patches
          nearest_points m_brep_elements).1).take i) ≤
        relevant_count ((all_control_points (compute_mapping_matrix_relevance support
          m_patches nearest_points' m_brep_elements).1).take i) ∧
      (((all_control_points (compute_mapping_matrix_relevance support m_patches
          nearest_points m_brep_elements).1).take i).map
            (fun cp => cp.m_is_relevant_for_mapping) =
        ((all_control_points (compute_mapping_matrix_relevance support m_patches
          nearest_points' m_brep_elements).1).take i).map
            (fun cp => cp.m_is_relevant_for_mapping) →
        cp'.m_mapping_matrix_id = cp.m_mapping_matrix_id) := by
  have hbelow := flagged_points_flags_below support m_patches nearest_points nearest_points'
    m_brep_elements h
  rw [compute_mapping_matrix_relevance_points] at hcp ⊢
  rw [compute_mapping_matrix_relevance_points]
  obtain ⟨cp0, h0, hrel0, hid⟩ := index_control_points_relevant_at _ i cp hcp hrel
  obtain ⟨cp0', h0', hrel0'⟩ := forall₂_getElem? _ _ _ hbelow i cp0 h0
  obtain ⟨cp', hcp', hrel', hid'⟩ := index_control_points_at_relevant _ i cp0' h0' (hrel0' hrel0)
  refine ⟨cp', hcp', hrel', ?_, ?_, ?_, ?_⟩
  · rw [relevant_count_take_index]
    exact hid
  · rw [relevant_count_take_index]
    exact hid'
  · rw [relevant_count_take_index, relevant_count_take_index]
    exact relevant_count_le_of_flags_below _ _ (List.forall₂_take i hbelow)
  · intro hflags
    have hcount := relevant_count_of_flags _ _ hflags
    rw [relevant_count_take_index, relevant_count_take_index] at hcount
    rw [hid, hid', hcount]

theorem newton_raphson_loop_stops {α : Type} [LinearOrderedField α] (surface : NURBSSurface α)
    (P : Vec3 α) (fuel : Nat) (s0 s : NewtonState α)
    (h : newton_raphson_loop surface P fuel s0 = some s) :
    newton_raphson_continues s = false ∧ s0.k ≤ s.k ∧
      (newton_raphson_continues s0 = true → s0.k + 1 ≤ s.k) := by
  induction fuel generalizing s0 with
  | zero =>
    unfold newton_raphson_loop at h
    cases hc : newton_raphson_continues s0
    · rw [hc] at h
      simp only [Bool.false_eq_true, if_false, Option.some.injEq] at h
      subst h
      exact ⟨hc, Nat.le_refl _, fun hf => by cases hf⟩
    · rw [hc] at h
      simp at h
  | succ fuel ih =>
    unfold newton_raphson_loop at h
    cases hc : newton_raphson_continues s0
    · rw [hc] at h
      simp only [Bool.false_eq_true, if_false, Option.some.injEq] at h
      subst h
      exact ⟨hc, Nat.le_refl _, fun hf => by cases hf⟩
    · rw [hc] at h
      simp only [if_true] at h
      obtain ⟨h1, h2, _⟩ := ih _ h
      have hk : (newton_raphson_body surface P s0).k = s0.k + 1 := rfl
      rw [hk] at h2
      exact ⟨h1, Nat.le_of_succ_le h2, fun _ => h2⟩

theorem newton_raphson_init_continues {α : Type} [LinearOrderedField α] (u v : α)
    (Q : Vec3 α) : newton_raphson_continues (newton_raphson_init u v Q) = true := by
  unfold newton_raphson_continues newton_raphson_init
  simp only [decide_eq_true_eq, gt_iff_lt]
  norm_num

theorem newton_raphson_loop_from_stationary_seed {α : Type} [LinearOrderedField α]
    (surface : NURBSSurface α) (u_star v_star : α)
    (hgrad : (surface.EvaluateGradientsForClosestPointSearch { x := 0, y := 0, z := 0 }
      u_star v_star).2 = { x := 0, y := 0 }) :
    ∃ s, newton_raphson_loop surface (surface.EvaluateSurfacePoint u_star v_star) 1
        (newton_raphson_init u_star v_star (surface.EvaluateSurfacePoint u_star v_star)) =
        some s ∧
      s.u_k = u_star ∧ s.v_k = v_star ∧
      s.Q_k = surface.EvaluateSurfacePoint u_star v_star ∧ s.k = 1 := by
  have hbody : newton_raphson_body surface (surface.EvaluateSurfacePoint u_star v_star)
      (newton_raphson_init u_star v_star (surface.EvaluateSurfacePoint u_star v_star)) =
      { u_k := u_star, v_k := v_star, Q_k := surface.EvaluateSurfacePoint u_star v_star,
        norm_deltau_sq := 0, k := 1, warnings := 0 } := by
    simp only [newton_raphson_body, newton_raphson_init, sub_self, hgrad, prod2, mul_zero,
      add_zero, sub_zero, max_itr]
    simp
  refine ⟨(⟨u_star, v_star, surface.EvaluateSurfacePoint u_star v_star, 0, 1, 0⟩ :
    NewtonState α), ?_, rfl, rfl, rfl, rfl⟩
  unfold newton_raphson_loop
  rw [if_pos (newton_raphson_init_continues _ _ _), hbody]
  unfold newton_raphson_loop
  rw [if_neg]
  simp [newton_raphson_continues]

theorem foldl_filter_inert {σ β : Type} (f : σ → β → σ) (keep : β → Bool) (l : List β)
    (st : σ) (h : ∀ b ∈ l, keep b = false → ∀ st, f st b = st) :
    (l.filter keep).foldl f st = l.foldl f st := by
  induction l generalizing st with
  | nil => rfl
  | cons b bs ih =>
    have hbs := fun st => ih st (fun x hx => h x (List.mem_cons_of_mem _ hx))
    cases hk : keep b
    · rw [List.filter_cons_of_neg (by simp [hk]), List.foldl_cons,
        h b (List.mem_cons_self _ _) hk, hbs]
    · rw [List.filter_cons_of_pos hk, List.foldl_cons, List.foldl_cons, hbs]

theorem foldl_congr_mem {σ β : Type} (f g : σ → β → σ) (l : List β) (st : σ)
    (h : ∀ b ∈ l, ∀ st, f st b = g st b) : l.foldl f st = l.foldl g st := by
  induction l generalizing st with
  | nil => rfl
  | cons b bs ih =>
    rw [List.foldl_cons, List.foldl_cons, h b (List.mem_cons_self _ _),
      ih _ (fun x hx => h x (List.mem_cons_of_mem _ hx))]

theorem tangent_continuity_request_filter {α : Type} [Zero α] (e : Nat)
    (keep : Nat × α → Bool) (l : List (Nat × α))
    (h : ∀ entry ∈ l, keep entry = false → e ≠ entry.1) :
    tangent_continuity_request e (l.filter keep) = tangent_continuity_request e l := by
  unfold tangent_continuity_request
  refine foldl_filter_inert _ keep l _ (fun entry hentry hk st => ?_)
  rw [if_neg (h entry hentry hk)]

theorem dirichlet_fixing_filter (e : Nat) (keep : Nat × Bool × Bool × Bool → Bool)
    (l : List (Nat × Bool × Bool × Bool))
    (h : ∀ entry ∈ l, keep entry = false → e ≠ entry.1) :
    dirichlet_fixing e (l.filter keep) = dirichlet_fixing e l := by
  unfold dirichlet_fixing
  refine foldl_filter_inert _ keep l _ (fun entry hentry hk st => ?_)
  rw [if_neg (h entry hentry hk)]

theorem apply_boundary_conditions_filter {α : Type} [LinearOrderedRing α] [Inhabited α]
    (norm_2 : Vec3 α → α) (m_patches : List (Patch α))
    (m_brep_elements : List (BREPElement α)) (pd pr pdir : α)
    (edges_dir : List (Nat × Bool × Bool × Bool)) (edges_tc : List (Nat × α))
    (s : MappingSystem α) :
    apply_boundary_conditions norm_2 m_patches m_brep_elements pd pr pdir
      (edges_dir.filter (fun entry =>
        decide (entry.1 ∈ m_brep_elements.map (fun e => e.edge_id))))
      (edges_tc.filter (fun entry =>
        decide (entry.1 ∈ m_brep_elements.map (fun e => e.edge_id)))) s =
    apply_boundary_conditions norm_2 m_patches m_brep_elements pd pr pdir edges_dir edges_tc
      s := by
  unfold apply_boundary_conditions
  refine foldl_congr_mem _ _ _ _ (fun e he st => ?_)
  have hmem : e.edge_id ∈ m_brep_elements.map (fun e => e.edge_id) :=
    List.mem_map.mpr ⟨e, he, rfl⟩
  have h1 : tangent_continuity_request e.edge_id (edges_tc.filter (fun entry =>
      decide (entry.1 ∈ m_brep_elements.map (fun e => e.edge_id)))) =
      tangent_continuity_request e.edge_id edges_tc := by
    refine tangent_continuity_request_filter _ _ _ (fun entry _ hk heq => ?_)
    rw [← heq] at hk
    simp [hmem] at hk
  have h2 : dirichlet_fixing e.edge_id (edges_dir.filter (fun entry =>
      decide (entry.1 ∈ m_brep_elements.map (fun e => e.edge_id)))) =
      dirichlet_fixing e.edge_id edges_dir := by
    refine dirichlet_fixing_filter _ _ _ (fun entry _ hk heq => ?_)
    rw [← heq] at hk
    simp [hmem] at hk
  unfold apply_coupling_condition apply_dirichlet_condition
  rw [h1, h2]

/-- Claim C19 (amended): `apply_boundary_conditions` ignores every entry of
`edges_with_specific_dirichlet_conditions` and of `edges_with_enforced_tangent_continuity`
whose edge id is the edge id of no BREP element: the call returns, and its result is the
result of the call with these entries removed from both lists. -/
theorem apply_boundary_conditions_ignores_unmatched_edges {α : Type} [LinearOrderedRing α]
    [Inhabited α] (norm_2 : Vec3 α → α) (m_patches : List (Patch α))
    (m_brep_elements : List (BREPElement α)) (pd pr pdir : α)
    (edges_dir : List (Nat × Bool × Bool × Bool)) (edges_tc : List (Nat × α))
    (s : MappingSystem α) :
    apply_boundary_conditions norm_2 m_patches m_brep_elements pd pr pdir edges_dir edges_tc
        s =
      apply_boundary_conditions norm_2 m_patches m_brep_elements pd pr pdir
        (edges_dir.filter (fun entry =>
          decide (entry.1 ∈ m_brep_elements.map (fun e => e.edge_id))))
        (edges_tc.filter (fun entry =>
          decide (entry.1 ∈ m_brep_elements.map (fun e => e.edge_id)))) s :=
  (apply_boundary_conditions_filter norm_2 m_patches m_brep_elements pd pr pdir edges_dir
    edges_tc s).symm


/-! ## Search, reader and constraint assembly: trimming, sampling, records, symmetry and order -/

/-- Claim C23: for a patch with zero boundary loops `Patch::CheckIfPointIsInside` returns
true for every parametric point `(u, v)`. -/
theorem Patch_CheckIfPointIsInside_no_loops {α : Type}
    (within : Vec2 α → List (Vec2 α) → Bool) (patch : Patch α)
    (h : patch.m_boundary_loops = []) (point_of_interest : Vec2 α) :
    patch.CheckIfPointIsInside within point_of_interest = true := by
  unfold Patch.CheckIfPointIsInside
  rw [h]
  rfl

theorem m_patch_position_loop_absent {α : Type} [Inhabited α] (m_patches : List (Patch α))
    (n : Nat) (id : Nat) (h : ∀ i < n, (patchAt m_patches i).m_patch_id ≠ id) :
    forLoop n
      (fun patch_itr m => Function.update m (patchAt m_patches patch_itr).m_patch_id patch_itr)
      (fun _ => 0) id = 0 := by
  induction n with
  | zero => rfl
  | succ n ih =>
    rw [forLoop_succ, Function.update_noteq (fun he => h n (Nat.lt_succ_self n) he.symm)]
    exact ih (fun i hi => h i (Nat.lt_succ_of_lt hi))

theorem m_patch_position_loop_last {α : Type} [Inhabited α] (m_patches : List (Patch α))
    (n i : Nat) (hi : i < n)
    (h : ∀ j, i < j → j < n →
      (patchAt m_patches j).m_patch_id ≠ (patchAt m_patches i).m_patch_id) :
    forLoop n
      (fun patch_itr m => Function.update m (patchAt m_patches patch_itr).m_patch_id patch_itr)
      (fun _ => 0) (patchAt m_patches i).m_patch_id = i := by
  induction n with
  | zero => omega
  | succ n ih =>
    rw [forLoop_succ]
    rcases Nat.lt_succ_iff_lt_or_eq.mp hi with hlt | rfl
    · rw [Function.update_noteq (fun he => h n hlt (Nat.lt_succ_self n) he.symm)]
      exact ih hlt (fun j hij hj => h j hij (Nat.lt_succ_of_lt hj))
    · rw [Function.update_same]

theorem corresponding_patch_id_absent (two_d_elements : List (Nat × List Nat)) (elem_id : Nat)
    (m : Nat → Nat) (h : ∀ entry ∈ two_d_elements, elem_id ∉ entry.2) :
    two_d_elements.foldl (fun m entry =>
      entry.2.foldl (fun m elem_id => Function.update m elem_id entry.1) m) m elem_id =
      m elem_id := by
  induction two_d_elements generalizing m with
  | nil => rfl
  | cons entry rest ih =>
    rw [List.foldl_cons, ih _ (fun x hx => h x (List.mem_cons_of_mem _ hx))]
    have hentry := h entry (List.mem_cons_self _ _)
    generalize entry.2 = ids at hentry
    induction ids generalizing m with
    | nil => rfl
    | cons e es ihe =>
      rw [List.foldl_cons, ihe _ (fun hmem => hentry (List.mem_cons_of_mem _ hmem)),
        Function.update_noteq (fun he => hentry (by rw [he]; exact List.mem_cons_self _ _))]

/-- Claim C30: `m_patch_position_in_patch_vector` maps every id carried by a patch to the
position of the last patch of `m_patches` with that id; for a master or slave patch id
carried by no patch the lookup does not fail and gives position 0, so that the lookups of
`compute_mapping_matrix`, `apply_coupling_condition` and `apply_dirichlet_condition`
resolve to `m_patches[0]`, the first patch. -/
theorem m_patch_position_in_patch_vector_lookup {α : Type} [Inhabited α]
    (m_patches : List (Patch α)) :
    (∀ i < m_patches.length,
      (∀ j, i < j → j < m_patches.length →
        (patchAt m_patches j).m_patch_id ≠ (patchAt m_patches i).m_patch_id) →
      m_patch_position_in_patch_vector m_patches (patchAt m_patches i).m_patch_id = i) ∧
    (∀ id, (∀ patch ∈ m_patches, patch.m_patch_id ≠ id) →
      m_patch_position_in_patch_vector m_patches id = 0) ∧
    (∀ brep_gp_i : BREPGaussPoint α,
      (∀ patch ∈ m_patches, patch.m_patch_id ≠ brep_gp_i.master_patch_id) →
      master_patch_of m_patches brep_gp_i = patchAt m_patches 0) ∧
    (∀ brep_gp_i : BREPGaussPoint α,
      (∀ patch ∈ m_patches, patch.m_patch_id ≠ brep_gp_i.slave_patch_id) →
      slave_patch_of m_patches brep_gp_i = patchAt m_patches 0) ∧
    (∀ (support : Nat → Int → Int → α → α → List Nat) (id : Nat) (span_u span_v : Int)
        (u v : α), (∀ patch ∈ m_patches, patch.m_patch_id ≠ id) →
      flag_patch support m_patches (m_patch_position_in_patch_vector m_patches id)
        span_u span_v u v = flag_patch support m_patches 0 span_u span_v u v) ∧
    (∀ (two_d_elements : List (Nat × List Nat)) (elem_id : Nat),
      (∀ entry ∈ two_d_elements, elem_id ∉ entry.2) →
      corresponding_patch_id two_d_elements elem_id = 0) := by
  have habs : ∀ id, (∀ patch ∈ m_patches, patch.m_patch_id ≠ id) →
      m_patch_position_in_patch_vector m_patches id = 0 := by
    intro id h
    refine m_patch_position_loop_absent m_patches _ id (fun i hi => ?_)
    refine h _ ?_
    unfold patchAt
    rw [List.getD_eq_getElem _ _ hi]
    exact List.getElem_mem _
  refine ⟨fun i hi h => m_patch_position_loop_last m_patches _ i hi h, habs, ?_, ?_, ?_,
    fun two_d_elements elem_id h => corresponding_patch_id_absent two_d_elements elem_id _ h⟩
  · intro gp h
    unfold master_patch_of
    rw [habs _ h]
  · intro gp h
    unfold slave_patch_of
    rw [habs _ h]
  · intro support id span_u span_v u v h
    rw [habs _ h]

theorem foldl_flatMap_eq {σ β γ : Type} (l : List β) (g : β → List γ) (f : σ → γ → σ) (s : σ) :
    (l.flatMap g).foldl f s = l.foldl (fun s x => (g x).foldl f s) s := by
  induction l generalizing s with
  | nil => rfl
  | cons x xs ih => rw [List.flatMap_cons, List.foldl_append, ih, List.foldl_cons]

theorem length_flatMap_map {β γ δ : Type} (l : List β) (m : List γ) (f : β → γ → δ) :
    (l.flatMap (fun i => m.map (f i))).length = l.length * m.length := by
  induction l with
  | nil => simp
  | cons x xs ih =>
    rw [List.flatMap_cons, List.length_append, ih, List.length_map, List.length_cons,
      Nat.succ_mul, Nat.add_comm]

theorem sample_candidates_foldl {α : Type} (within : Vec2 α → List (Vec2 α) → Bool)
    (patch : Patch α) (patch_itr : Nat) (cands : List (α × α)) (st : CoarseSamples α) :
    cands.foldl (fun st c => sample_candidate within patch patch_itr c.1 c.2 st) st =
      { cad_node_counter := st.cad_node_counter +
          (cands.filter (fun c =>
            patch.CheckIfPointIsInside within { x := c.1, y := c.2 })).length
        list_of_cad_nodes := st.list_of_cad_nodes ++
          numbered_nodes st.cad_node_counter
            ((cands.filter (fun c =>
              patch.CheckIfPointIsInside within { x := c.1, y := c.2 })).map
              (fun c => patch.m_nurbs_surface.EvaluateSurfacePoint c.1 c.2))
        list_of_us_of_cad_nodes := st.list_of_us_of_cad_nodes ++
          (cands.filter (fun c =>
            patch.CheckIfPointIsInside within { x := c.1, y := c.2 })).map Prod.fst
        list_of_vs_of_cad_nodes := st.list_of_vs_of_cad_nodes ++
          (cands.filter (fun c =>
            patch.CheckIfPointIsInside within { x := c.1, y := c.2 })).map Prod.snd
        list_of_patch_itrs_of_cad_nodes := st.list_of_patch_itrs_of_cad_nodes ++
          List.replicate (cands.filter (fun c =>
            patch.CheckIfPointIsInside within { x := c.1, y := c.2 })).length patch_itr } := by
  induction cands generalizing st with
  | nil => simp [numbered_nodes]
  | cons c cs ih =>
    rw [List.foldl_cons, ih]
    cases hin : patch.CheckIfPointIsInside within { x := c.1, y := c.2 }
    · simp [sample_candidate, hin]
    · simp only [sample_candidate, hin, if_true, List.filter_cons_of_pos, List.length_cons,
        List.map_cons, numbered_nodes, List.append_assoc, List.singleton_append,
        List.replicate_succ, CoarseSamples.mk.injEq, and_true, true_and]
      omega

theorem sample_patch_eq {α : Type} [Field α] (within : Vec2 α → List (Vec2 α) → Bool)
    (knot_vec_u_i knot_vec_v_i : List α) (patch : Patch α) (patch_itr : Nat)
    (u_resolution v_resolution : Nat) (st : CoarseSamples α) :
    sample_patch within knot_vec_u_i knot_vec_v_i patch patch_itr u_resolution v_resolution
        st =
      (interior_candidates (knot_vec_u_i.getD 0 0)
          (knot_vec_u_i.getD (knot_vec_u_i.length - 1) 0) (knot_vec_v_i.getD 0 0)
          (knot_vec_v_i.getD (knot_vec_v_i.length - 1) 0) u_resolution v_resolution).foldl
        (fun st c => sample_candidate within patch patch_itr c.1 c.2 st) st := by
  unfold sample_patch interior_candidates forLoopFrom1
  rw [foldl_flatMap_eq]
  simp only []
  congr 1
  funext s i
  rw [List.foldl_map]

theorem mem_interior_candidates {α : Type} [Field α] (u_min u_max v_min v_max : α)
    (u_resolution v_resolution : Nat) (c : α × α) :
    c ∈ interior_candidates u_min u_max v_min v_max u_resolution v_resolution ↔
      ∃ i j : Nat, 1 ≤ i ∧ i < u_resolution ∧ 1 ≤ j ∧ j < v_resolution ∧
        c = (u_min + (i : α) * ((u_max - u_min) / (u_resolution : α)),
          v_min + (j : α) * ((v_max - v_min) / (v_resolution : α))) := by
  unfold interior_candidates
  simp only [List.mem_flatMap, List.mem_map, List.mem_range'_1]
  constructor
  · rintro ⟨i, ⟨hi1, hi2⟩, j, ⟨hj1, hj2⟩, rfl⟩
    exact ⟨i, j, hi1, by omega, hj1, by omega, rfl⟩
  · rintro ⟨i, j, hi1, hi2, hj1, hj2, rfl⟩
    exact ⟨i, ⟨hi1, by omega⟩, j, ⟨hj1, by omega⟩, rfl⟩

theorem length_interior_candidates {α : Type} [Field α] (u_min u_max v_min v_max : α)
    (u_resolution v_resolution : Nat) :
    (interior_candidates u_min u_max v_min v_max u_resolution v_resolution).length =
      (u_resolution - 1) * (v_resolution - 1) := by
  unfold interior_candidates
  rw [length_flatMap_map, List.length_range', List.length_range']

/-- Claim C25: the coarse sampling of a patch is interior-only. The candidates are exactly
the points `(u_min + i*(u_max-u_min)/u_resolution, v_min + j*(v_max-v_min)/v_resolution)`
with `1 <= i < u_resolution`, `1 <= j < v_resolution`; a candidate is stored (node with the
next id and the surface point, `u`, `v` and the patch position pushed together) if and only
if `CheckIfPointIsInside` accepts it; hence a patch contributes at most
`(u_resolution-1)*(v_resolution-1)` samples, and none when a resolution is 0 or 1. -/
theorem sample_patch_interior_only {α : Type} [Field α]
    (within : Vec2 α → List (Vec2 α) → Bool) (knot_vec_u_i knot_vec_v_i : List α)
    (patch : Patch α) (patch_itr : Nat) (u_resolution v_resolution : Nat)
    (st : CoarseSamples α) :
    sample_patch within knot_vec_u_i knot_vec_v_i patch patch_itr u_resolution v_resolution
        st =
      { cad_node_counter := st.cad_node_counter +
          (accepted_candidates within patch (knot_vec_u_i.getD 0 0)
            (knot_vec_u_i.getD (knot_vec_u_i.length - 1) 0) (knot_vec_v_i.getD 0 0)
            (knot_vec_v_i.getD (knot_vec_v_i.length - 1) 0) u_resolution v_resolution).length
        list_of_cad_nodes := st.list_of_cad_nodes ++
          numbered_nodes st.cad_node_counter
            ((accepted_candidates within patch (knot_vec_u_i.getD 0 0)
              (knot_vec_u_i.getD (knot_vec_u_i.length - 1) 0) (knot_vec_v_i.getD 0 0)
              (knot_vec_v_i.getD (knot_vec_v_i.length - 1) 0) u_resolution v_resolution).map
              (fun c => patch.m_nurbs_surface.EvaluateSurfacePoint c.1 c.2))
        list_of_us_of_cad_nodes := st.list_of_us_of_cad_nodes ++
          (accepted_candidates within patch (knot_vec_u_i.getD 0 0)
            (knot_vec_u_i.getD (knot_vec_u_i.length - 1) 0) (knot_vec_v_i.getD 0 0)
            (knot_vec_v_i.getD (knot_vec_v_i.length - 1) 0) u_resolution v_resolution).map
            Prod.fst
        list_of_vs_of_cad_nodes := st.list_of_vs_of_cad_nodes ++
          (accepted_candidates within patch (knot_vec_u_i.getD 0 0)
            (knot_vec_u_i.getD (knot_vec_u_i.length - 1) 0) (knot_vec_v_i.getD 0 0)
            (knot_vec_v_i.getD (knot_vec_v_i.length - 1) 0) u_resolution v_resolution).map
            Prod.snd
        list_of_patch_itrs_of_cad_nodes := st.list_of_patch_itrs_of_cad_nodes ++
          List.replicate (accepted_candidates within patch (knot_vec_u_i.getD 0 0)
            (knot_vec_u_i.getD (knot_vec_u_i.length - 1) 0) (knot_vec_v_i.getD 0 0)
            (knot_vec_v_i.getD (knot_vec_v_i.length - 1) 0) u_resolution
            v_resolution).length patch_itr } ∧
    (∀ (u_min u_max v_min v_max : α) (c : α × α),
      (c ∈ interior_candidates u_min u_max v_min v_max u_resolution v_resolution ↔
        ∃ i j : Nat, 1 ≤ i ∧ i < u_resolution ∧ 1 ≤ j ∧ j < v_resolution ∧
          c = (u_min + (i : α) * ((u_max - u_min) / (u_resolution : α)),
            v_min + (j : α) * ((v_max - v_min) / (v_resolution : α)))) ∧
      (c ∈ accepted_candidates within patch u_min u_max v_min v_max u_resolution
          v_resolution ↔
        c ∈ interior_candidates u_min u_max v_min v_max u_resolution v_resolution ∧
          patch.CheckIfPointIsInside within { x := c.1, y := c.2 } = true)) ∧
    (∀ u_min u_max v_min v_max : α,
      (accepted_candidates within patch u_min u_max v_min v_max u_resolution
        v_resolution).length ≤ (u_resolution - 1) * (v_resolution - 1)) ∧
    ((u_resolution ≤ 1 ∨ v_resolution ≤ 1) →
      sample_patch within knot_vec_u_i knot_vec_v_i patch patch_itr u_resolution
        v_resolution st = st) := by
  have hlen : ∀ u_min u_max v_min v_max : α,
      (accepted_candidates within patch u_min u_max v_min v_max u_resolution
        v_resolution).length ≤ (u_resolution - 1) * (v_resolution - 1) := by
    intro u_min u_max v_min v_max
    unfold accepted_candidates
    exact (List.length_filter_le _ _).trans (le_of_eq (length_interior_candidates _ _ _ _ _ _))
  refine ⟨?_, fun u_min u_max v_min v_max c => ⟨mem_interior_candidates _ _ _ _ _ _ c, ?_⟩,
    hlen, ?_⟩
  · rw [sample_patch_eq, sample_candidates_foldl]
    rfl
  · unfold accepted_candidates
    rw [List.mem_filter]
  · intro hres
    have hzero : (u_resolution - 1) * (v_resolution - 1) = 0 := by
      rcases hres with h | h
      · have : u_resolution - 1 = 0 := by omega
        rw [this, Nat.zero_mul]
      · have : v_resolution - 1 = 0 := by omega
        rw [this, Nat.mul_zero]
    have hnil : interior_candidates (knot_vec_u_i.getD 0 0)
        (knot_vec_u_i.getD (knot_vec_u_i.length - 1) 0) (knot_vec_v_i.getD 0 0)
        (knot_vec_v_i.getD (knot_vec_v_i.length - 1) 0) u_resolution v_resolution = [] := by
      apply List.eq_nil_of_length_eq_zero
      rw [length_interior_candidates, hzero]
    rw [sample_patch_eq, hnil]
    rfl

theorem read_gauss_points_length {α : Type}
    (read : GaussPointData α → Option (BREPGaussPoint α)) (gps : List (GaussPointData α))
    (out : List (BREPGaussPoint α)) (h : read_gauss_points read gps = some out) :
    out.length = gps.length := by
  induction gps generalizing out with
  | nil =>
    simp only [read_gauss_points, Option.some.injEq] at h
    rw [← h]
    rfl
  | cons gp rest ih =>
    unfold read_gauss_points at h
    cases hgp : read gp with
    | none => rw [hgp] at h; cases h
    | some b =>
      rw [hgp] at h
      cases hrest : read_gauss_points read rest with
      | none => rw [hrest] at h; cases h
      | some bs =>
        rw [hrest] at h
        simp only [Option.some.injEq] at h
        rw [← h, List.length_cons, List.length_cons, ih bs hrest]

theorem read_brep_element_some {α : Type} [Zero α] (corr : Nat → Nat) (brep_edge_id : Nat)
    (elem : BrepElementData α) (e : BREPElement α)
    (h : read_brep_element corr brep_edge_id elem = some e) :
    read_from_entry (brep_edge_id, elem) e := by
  unfold read_brep_element at h
  unfold read_from_entry carries_master_and_slave
  cases hgps : elem.gauss_points with
  | nil => rw [hgps] at h; cases h
  | cons first rest =>
    rw [hgps] at h
    simp only at h ⊢
    by_cases h2 : first.elem_ids.length = 2
    · rw [if_pos h2] at h
      cases hr : read_gauss_points (read_coupling_gauss_point corr) (first :: rest) with
      | none => rw [hr] at h; cases h
      | some out =>
        rw [hr] at h
        simp only [Option.some.injEq] at h
        rw [← h]
        exact ⟨rfl, read_gauss_points_length _ _ _ hr, by simp [h2], rfl⟩
    · rw [if_neg h2] at h
      cases hr : read_gauss_points (read_dirichlet_gauss_point corr) (first :: rest) with
      | none => rw [hr] at h; cases h
      | some out =>
        rw [hr] at h
        simp only [Option.some.injEq] at h
        rw [← h]
        exact ⟨rfl, read_gauss_points_length _ _ _ hr, by simp [h2], rfl⟩

theorem read_brep_elements_some {α : Type} [Zero α] (corr : Nat → Nat) (brep_edge_id : Nat)
    (elems : List (BrepElementData α)) (acc out : List (BREPElement α))
    (h : read_brep_elements corr brep_edge_id elems acc = some out) :
    ∃ new, out = acc ++ new ∧
      List.Forall₂ read_from_entry (elems.map (fun elem => (brep_edge_id, elem))) new := by
  induction elems generalizing acc with
  | nil =>
    simp only [read_brep_elements, Option.some.injEq] at h
    exact ⟨[], by simp [h], List.Forall₂.nil⟩
  | cons elem rest ih =>
    unfold read_brep_elements at h
    cases he : read_brep_element corr brep_edge_id elem with
    | none => rw [he] at h; cases h
    | some e =>
      rw [he] at h
      obtain ⟨new, hout, hrel⟩ := ih _ h
      refine ⟨e :: new, by rw [hout, List.append_assoc, List.singleton_append], ?_⟩
      exact List.Forall₂.cons (read_brep_element_some corr brep_edge_id elem e he) hrel

theorem read_boundary_edges_some {α : Type} [Zero α] (corr : Nat → Nat)
    (edges : List (Nat × List (BrepElementData α))) (acc out : List (BREPElement α))
    (h : read_boundary_edges corr edges acc = some out) :
    ∃ new, out = acc ++ new ∧
      List.Forall₂ read_from_entry
        (edges.flatMap (fun edge => edge.2.map (fun elem => (edge.1, elem)))) new := by
  induction edges generalizing acc with
  | nil =>
    simp only [read_boundary_edges, Option.some.injEq] at h
    exact ⟨[], by simp [h], List.Forall₂.nil⟩
  | cons edge rest ih =>
    unfold read_boundary_edges at h
    cases he : read_brep_elements corr edge.1 edge.2 acc with
    | none => rw [he] at h; cases h
    | some mid =>
      rw [he] at h
      obtain ⟨new1, hmid, hrel1⟩ := read_brep_elements_some corr edge.1 edge.2 acc mid he
      obtain ⟨new2, hout, hrel2⟩ := ih _ h
      refine ⟨new1 ++ new2, by rw [hout, hmid, List.append_assoc], ?_⟩
      rw [List.flatMap_cons]
      exact List.rel_append hrel1 hrel2

theorem forall₂_right_mem {β γ : Type} (R : β → γ → Prop) (l : List β) (l' : List γ)
    (h : List.Forall₂ R l l') (y : γ) (hy : y ∈ l') : ∃ x ∈ l, R x y := by
  induction h with
  | nil => cases hy
  | @cons a b l l' hab _ ih =>
    rcases List.mem_cons.mp hy with rfl | hmem
    · exact ⟨a, List.mem_cons_self _ _, hab⟩
    · obtain ⟨x, hx, hR⟩ := ih hmem
      exact ⟨x, List.mem_cons_of_mem _ hx, hR⟩

/-- Claim C24: every BREP element produced by `CADModelReader::ReadIntegrationData` is
exactly one of the two kinds: exactly one of `HasCouplingCondition()` /
`HasDirichletCondition()` is true, it is a coupling element if and only if the element-id
entry of its first Gauss point carries a master and a slave id, and
`apply_boundary_conditions` runs exactly one of `apply_coupling_condition` /
`apply_dirichlet_condition` on it. -/
theorem ReadIntegrationData_element_kinds {α : Type} [LinearOrderedRing α] [Inhabited α]
    (data : IntegrationData α) (m_brep_elements : List (BREPElement α))
    (h : ReadIntegrationData data [] = some m_brep_elements) :
    List.Forall₂ read_from_entry (brep_element_entries data) m_brep_elements ∧
    (∀ e ∈ m_brep_elements,
      (e.has_coupling_condition = true ∧ e.has_dirichlet_condition = false) ∨
      (e.has_coupling_condition = false ∧ e.has_dirichlet_condition = true)) ∧
    (∀ e ∈ m_brep_elements, ∀ (norm_2 : Vec3 α → α) (m_patches : List (Patch α))
        (pd pr pdir : α) (edges_dir : List (Nat × Bool × Bool × Bool))
        (edges_tc : List (Nat × α)) (s : MappingSystem α),
      (e.has_coupling_condition = true →
        apply_boundary_conditions norm_2 m_patches [e] pd pr pdir edges_dir edges_tc s =
          apply_coupling_condition norm_2 m_patches e pd pr edges_tc s) ∧
      (e.has_coupling_condition = false →
        apply_boundary_conditions norm_2 m_patches [e] pd pr pdir edges_dir edges_tc s =
          apply_dirichlet_condition norm_2 m_patches e pdir edges_dir s)) := by
  obtain ⟨new, hout, hrel⟩ := read_boundary_edges_some _ _ _ _ h
  rw [List.nil_append] at hout
  subst hout
  have hkind : ∀ e ∈ m_brep_elements,
      (e.has_coupling_condition = true ∧ e.has_dirichlet_condition = false) ∨
      (e.has_coupling_condition = false ∧ e.has_dirichlet_condition = true) := by
    intro e he
    obtain ⟨entry, _, _, _, _, hd⟩ := forall₂_right_mem _ _ _ hrel e he
    cases hc : e.has_coupling_condition
    · right; rw [hd, hc]; exact ⟨rfl, rfl⟩
    · left; rw [hd, hc]; exact ⟨rfl, rfl⟩
  refine ⟨hrel, hkind, ?_⟩
  intro e he norm_2 m_patches pd pr pdir edges_dir edges_tc s
  constructor
  · intro hc
    simp only [apply_boundary_conditions, List.foldl_cons, List.foldl_nil, hc, if_true]
  · intro hc
    rcases hkind e he with ⟨h1, _⟩ | ⟨_, h2⟩
    · rw [h1] at hc; cases hc
    · simp only [apply_boundary_conditions, List.foldl_cons, List.foldl_nil, hc, h2,
        Bool.false_eq_true, if_false, if_true]

theorem newton_raphson_loop_on_surface {α : Type} [LinearOrderedField α]
    (surface : NURBSSurface α) (P : Vec3 α) (fuel : Nat) (s0 s : NewtonState α)
    (h : newton_raphson_loop surface P fuel s0 = some s)
    (hc : newton_raphson_continues s0 = true) :
    s.Q_k = surface.EvaluateSurfacePoint s.u_k s.v_k ∧ s0.k + 1 ≤ s.k := by
  induction fuel generalizing s0 with
  | zero =>
    unfold newton_raphson_loop at h
    rw [hc] at h
    simp at h
  | succ fuel ih =>
    unfold newton_raphson_loop at h
    rw [hc] at h
    simp only [if_true] at h
    cases hb : newton_raphson_continues (newton_raphson_body surface P s0)
    · have hs : s = newton_raphson_body surface P s0 := by
        cases fuel with
        | zero =>
          unfold newton_raphson_loop at h
          rw [hb] at h
          simpa using h.symm
        | succ fuel =>
          unfold newton_raphson_loop at h
          rw [hb] at h
          simpa using h.symm
      rw [hs]
      exact ⟨rfl, Nat.le_refl _⟩
    · obtain ⟨h1, h2⟩ := ih _ h hb
      have hk : (newton_raphson_body surface P s0).k = s0.k + 1 := rfl
      rw [hk] at h2
      exact ⟨h1, Nat.le_of_succ_le h2⟩

/-- Claim C26: when the Newton-Raphson loop of an FE Gauss point exits, the node recorded
in `list_of_nearest_points` holds, at that moment, the surface evaluation at the final
parameters `(u_k, v_k)` recorded with it (not the coordinates of the coarse sample), the
recorded knot spans are those of the same `(u_k, v_k)`, and the loop has executed at
least one iteration; the first test of the loop always passes. -/
theorem search_gauss_point_records {α : Type} [LinearOrderedField α] [Inhabited α]
    (SearchNearestPoint : List (CADNode α) → Vec3 α → Option Nat)
    (GetKnotSpan : NURBSSurface α → α → α → Int × Int) (m_patches : List (Patch α))
    (samples : CoarseSamples α) (fuel : Nat) (ip_coordinates : Vec3 α)
    (st st' : SearchState α)
    (h : search_gauss_point SearchNearestPoint GetKnotSpan m_patches samples fuel ip_coordinates st = some st') :
    (∃ (nearest_point : Nat) (record : NearestPoint α) (node : CADNode α)
        (s : NewtonState α),
      st'.list_of_nearest_points = st.list_of_nearest_points ++ [nearest_point] ∧
      st'.nearest_points = st.nearest_points ++ [record] ∧
      st.list_of_cad_nodes[nearest_point]? = some node ∧
      newton_raphson_loop (patchAt m_patches record.patch_itr_of_nearest_point).m_nurbs_surface
        ip_coordinates fuel
        (newton_raphson_init
          (samples.list_of_us_of_cad_nodes.getD (node.Id - 1) 0)
          (samples.list_of_vs_of_cad_nodes.getD (node.Id - 1) 0) node.Coordinates) = some s ∧
      1 ≤ s.k ∧
      record.u_of_nearest_point = s.u_k ∧ record.v_of_nearest_point = s.v_k ∧
      (st'.list_of_cad_nodes[nearest_point]?).map (fun node => node.Coordinates) =
        some ((patchAt m_patches record.patch_itr_of_nearest_point).m_nurbs_surface.EvaluateSurfacePoint
          record.u_of_nearest_point record.v_of_nearest_point) ∧
      (record.span_u_of_np, record.span_v_of_np) =
        GetKnotSpan (patchAt m_patches record.patch_itr_of_nearest_point).m_nurbs_surface
          record.u_of_nearest_point record.v_of_nearest_point) ∧
    (∀ (u v : α) (Q : Vec3 α), newton_raphson_continues (newton_raphson_init u v Q) = true) := by
  refine ⟨?_, fun u v Q => newton_raphson_init_continues u v Q⟩
  unfold search_gauss_point at h
  cases hn : SearchNearestPoint st.list_of_cad_nodes ip_coordinates with
  | none => rw [hn] at h; cases h
  | some nearest_point =>
    rw [hn] at h
    simp only at h
    cases hnode : st.list_of_cad_nodes[nearest_point]? with
    | none => rw [hnode] at h; cases h
    | some node =>
      rw [hnode] at h
      simp only at h
      cases hloop : newton_raphson_loop
          (patchAt m_patches
            (samples.list_of_patch_itrs_of_cad_nodes.getD (node.Id - 1) 0)).m_nurbs_surface
          ip_coordinates fuel
          (newton_raphson_init (samples.list_of_us_of_cad_nodes.getD (node.Id - 1) 0)
            (samples.list_of_vs_of_cad_nodes.getD (node.Id - 1) 0) node.Coordinates) with
      | none => rw [hloop] at h; cases h
      | some s =>
        rw [hloop] at h
        simp only [Option.some.injEq] at h
        obtain ⟨hQ, hk⟩ := newton_raphson_loop_on_surface _ _ _ _ _ hloop
          (newton_raphson_init_continues _ _ _)
        have hlt : nearest_point < st.list_of_cad_nodes.length := by
          rcases Nat.lt_or_ge nearest_point st.list_of_cad_nodes.length with hlt | hge
          · exact hlt
          · rw [List.getElem?_eq_none hge] at hnode
            cases hnode
        refine ⟨nearest_point,
          { patch_itr_of_nearest_point :=
              samples.list_of_patch_itrs_of_cad_nodes.getD (node.Id - 1) 0
            u_of_nearest_point := s.u_k, v_of_nearest_point := s.v_k
            span_u_of_np := (GetKnotSpan (patchAt m_patches
              (samples.list_of_patch_itrs_of_cad_nodes.getD (node.Id - 1)
                0)).m_nurbs_surface s.u_k s.v_k).1
            span_v_of_np := (GetKnotSpan (patchAt m_patches
              (samples.list_of_patch_itrs_of_cad_nodes.getD (node.Id - 1)
                0)).m_nurbs_surface s.u_k s.v_k).2 },
          node, s, ?_, ?_, hnode, hloop, ?_, rfl, rfl, ?_, rfl⟩
        · rw [← h]
        · rw [← h]
        · have : (newton_raphson_init (samples.list_of_us_of_cad_nodes.getD (node.Id - 1) 0)
              (samples.list_of_vs_of_cad_nodes.getD (node.Id - 1) 0) node.Coordinates).k = 0 :=
            rfl
          omega
        · rw [← h]
          simp only [List.getElem?_set_self, hlt, List.getElem?_eq_getElem, Option.map_some', hQ]

theorem foldl_flatMap_map {σ β γ δ : Type} (l : List β) (m : β → List γ) (g : β → γ → δ)
    (f : σ → δ → σ) (s : σ) :
    (l.flatMap (fun x => (m x).map (g x))).foldl f s =
      l.foldl (fun s x => (m x).foldl (fun s y => f s (g x y)) s) s := by
  induction l generalizing s with
  | nil => rfl
  | cons x xs ih =>
    rw [List.flatMap_cons, List.foldl_append, ih, List.foldl_cons, List.foldl_map]

theorem search_conditions_visits {α : Type} [LinearOrderedField α] [Inhabited α]
    (SearchNearestPoint : List (CADNode α) → Vec3 α → Option Nat)
    (GetKnotSpan : NURBSSurface α → α → α → Int × Int)
    (GlobalCoordinates : Condition α → Nat → Vec3 α) (m_patches : List (Patch α))
    (samples : CoarseSamples α) (fuel : Nat) (conditions : List (Condition α))
    (st : Option (SearchState α)) :
    search_conditions SearchNearestPoint GetKnotSpan GlobalCoordinates m_patches samples fuel conditions st =
      (gauss_point_visits conditions).foldl (fun st v =>
        st.bind (search_gauss_point SearchNearestPoint GetKnotSpan m_patches samples fuel
          (GlobalCoordinates v.1 v.2))) st := by
  unfold search_conditions gauss_point_visits
  rw [foldl_flatMap_map]
  rfl

theorem assemble_conditions_visits {α : Type} [Mul α] [Add α] [Inhabited α]
    (m_patches : List (Patch α)) (lists : NearestPointLists α)
    (conditions : List (Condition α)) (s : MappingSystem α × Nat) :
    assemble_conditions m_patches lists conditions s =
      (gauss_point_visits conditions).foldl (fun s v =>
        assemble_integration_point m_patches lists v.1 v.2 s) s := by
  unfold assemble_conditions gauss_point_visits
  rw [foldl_flatMap_map]
  rfl

theorem assemble_visits_counter {α : Type} [Mul α] [Add α] [Inhabited α]
    (m_patches : List (Patch α)) (lists : NearestPointLists α)
    (visits : List (Condition α × Nat)) (s : MappingSystem α × Nat) :
    (visits.foldl (fun s v => assemble_integration_point m_patches lists v.1 v.2 s) s).2 =
      s.2 + visits.length := by
  induction visits generalizing s with
  | nil => rfl
  | cons v vs ih =>
    rw [List.foldl_cons, ih]
    simp only [assemble_integration_point, List.length_cons]
    omega

theorem search_gauss_point_appends {α : Type} [LinearOrderedField α] [Inhabited α]
    (SearchNearestPoint : List (CADNode α) → Vec3 α → Option Nat)
    (GetKnotSpan : NURBSSurface α → α → α → Int × Int) (m_patches : List (Patch α))
    (samples : CoarseSamples α) (fuel : Nat) (ip_coordinates : Vec3 α)
    (st st' : SearchState α)
    (h : search_gauss_point SearchNearestPoint GetKnotSpan m_patches samples fuel ip_coordinates st = some st') :
    ∃ record, st'.nearest_points = st.nearest_points ++ [record] := by
  unfold search_gauss_point at h
  cases hn : SearchNearestPoint st.list_of_cad_nodes ip_coordinates with
  | none => rw [hn] at h; cases h
  | some nearest_point =>
    rw [hn] at h
    simp only at h
    cases hnode : st.list_of_cad_nodes[nearest_point]? with
    | none => rw [hnode] at h; cases h
    | some node =>
      rw [hnode] at h
      simp only at h
      cases hloop : newton_raphson_loop
          (patchAt m_patches
            (samples.list_of_patch_itrs_of_cad_nodes.getD (node.Id - 1) 0)).m_nurbs_surface
          ip_coordinates fuel
          (newton_raphson_init (samples.list_of_us_of_cad_nodes.getD (node.Id - 1) 0)
            (samples.list_of_vs_of_cad_nodes.getD (node.Id - 1) 0) node.Coordinates) with
      | none => rw [hloop] at h; cases h
      | some s =>
        rw [hloop] at h
        simp only [Option.some.injEq] at h
        rw [← h]
        exact ⟨_, rfl⟩

theorem search_visits_none {α : Type} [LinearOrderedField α] [Inhabited α]
    (SearchNearestPoint : List (CADNode α) → Vec3 α → Option Nat)
    (GetKnotSpan : NURBSSurface α → α → α → Int × Int)
    (GlobalCoordinates : Condition α → Nat → Vec3 α) (m_patches : List (Patch α))
    (samples : CoarseSamples α) (fuel : Nat) (visits : List (Condition α × Nat)) :
    visits.foldl (fun st v =>
      st.bind (search_gauss_point SearchNearestPoint GetKnotSpan m_patches samples fuel
        (GlobalCoordinates v.1 v.2))) none = none := by
  induction visits with
  | nil => rfl
  | cons v vs ih => rw [List.foldl_cons]; exact ih

theorem search_visits_records {α : Type} [LinearOrderedField α] [Inhabited α]
    (SearchNearestPoint : List (CADNode α) → Vec3 α → Option Nat)
    (GetKnotSpan : NURBSSurface α → α → α → Int × Int)
    (GlobalCoordinates : Condition α → Nat → Vec3 α) (m_patches : List (Patch α))
    (samples : CoarseSamples α) (fuel : Nat) (visits : List (Condition α × Nat))
    (st st' : SearchState α)
    (h : visits.foldl (fun st v =>
      st.bind (search_gauss_point SearchNearestPoint GetKnotSpan m_patches samples fuel
        (GlobalCoordinates v.1 v.2))) (some st) = some st') :
    ∃ new, st'.nearest_points = st.nearest_points ++ new ∧ new.length = visits.length := by
  induction visits generalizing st with
  | nil =>
    simp only [List.foldl_nil, Option.some.injEq] at h
    exact ⟨[], by rw [h, List.append_nil], rfl⟩
  | cons v vs ih =>
    rw [List.foldl_cons] at h
    cases hstep : search_gauss_point SearchNearestPoint GetKnotSpan m_patches samples fuel
        (GlobalCoordinates v.1 v.2) st with
    | none =>
      simp only [Option.bind_eq_bind, Option.some_bind, hstep] at h
      rw [search_visits_none] at h
      cases h
    | some st1 =>
      simp only [Option.bind_eq_bind, Option.some_bind, hstep] at h
      obtain ⟨record, hrec⟩ := search_gauss_point_appends _ _ _ _ _ _ _ _ hstep
      obtain ⟨new, hnew, hlen⟩ := ih st1 h
      refine ⟨record :: new, ?_, by rw [List.length_cons, List.length_cons, hlen]⟩
      rw [hnew, hrec, List.append_assoc, List.singleton_append]

theorem search_visits_split {α : Type} [LinearOrderedField α] [Inhabited α]
    (SearchNearestPoint : List (CADNode α) → Vec3 α → Option Nat)
    (GetKnotSpan : NURBSSurface α → α → α → Int × Int)
    (GlobalCoordinates : Condition α → Nat → Vec3 α) (m_patches : List (Patch α))
    (samples : CoarseSamples α) (fuel : Nat) (l1 l2 : List (Condition α × Nat))
    (st st' : SearchState α)
    (h : (l1 ++ l2).foldl (fun st v =>
      st.bind (search_gauss_point SearchNearestPoint GetKnotSpan m_patches samples fuel
        (GlobalCoordinates v.1 v.2))) (some st) = some st') :
    ∃ st_mid, l1.foldl (fun st v =>
        st.bind (search_gauss_point SearchNearestPoint GetKnotSpan m_patches samples fuel
          (GlobalCoordinates v.1 v.2))) (some st) = some st_mid ∧
      l2.foldl (fun st v =>
        st.bind (search_gauss_point SearchNearestPoint GetKnotSpan m_patches samples fuel
          (GlobalCoordinates v.1 v.2))) (some st_mid) = some st' := by
  rw [List.foldl_append] at h
  cases hmid : l1.foldl (fun st v =>
      st.bind (search_gauss_point SearchNearestPoint GetKnotSpan m_patches samples fuel
        (GlobalCoordinates v.1 v.2))) (some st) with
  | none =>
    rw [hmid, search_visits_none] at h
    cases h
  | some st_mid =>
    rw [hmid] at h
    exact ⟨st_mid, rfl, h⟩

theorem eq_take_cons_drop {β : Type} (l : List β) (i : Nat) (v : β) (h : l[i]? = some v) :
    l = l.take i ++ v :: l.drop (i + 1) ∧ (l.take i).length = i := by
  induction l generalizing i with
  | nil => simp at h
  | cons x xs ih =>
    cases i with
    | zero =>
      simp only [List.getElem?_cons_zero, Option.some.injEq] at h
      simp [h]
    | succ i =>
      simp only [List.getElem?_cons_succ] at h
      obtain ⟨h1, h2⟩ := ih i h
      refine ⟨?_, by simp [h2]⟩
      simp only [List.take_succ_cons, List.drop_succ_cons, List.cons_append]
      rw [← h1]

theorem of_records_at {α : Type} [Zero α] (records : List (NearestPoint α)) (i : Nat)
    (record : NearestPoint α) (h : records[i]? = some record) :
    (NearestPointLists.of_records records).list_of_u_of_nearest_points i =
        record.u_of_nearest_point ∧
      (NearestPointLists.of_records records).list_of_v_of_nearest_points i =
        record.v_of_nearest_point ∧
      (NearestPointLists.of_records records).list_of_span_u_of_nearest_points i =
        record.span_u_of_np ∧
      (NearestPointLists.of_records records).list_of_span_v_of_nearest_points i =
        record.span_v_of_np ∧
      (NearestPointLists.of_records records).list_of_patch_of_nearest_points i =
        record.patch_itr_of_nearest_point := by
  simp [NearestPointLists.of_records, h]

/-- Claim C29: the assembly loop of `compute_mapping_matrix` visits the (condition,
integration point) pairs in the order in which the search loop stored their records.
When the search loop has returned, the number of records is the number of visits, at the
visit with number `i` the counter `fem_gp_itr` is `i`, a valid index into the record lists,
the (patch, u, v, spans) read there is the record the search computed at its own visit
number `i`, for the same pair, and after the assembly loop `fem_gp_itr` equals the number
of stored records. -/
theorem correspondence_records_aligned {α : Type} [LinearOrderedField α] [Inhabited α]
    (SearchNearestPoint : List (CADNode α) → Vec3 α → Option Nat)
    (GetKnotSpan : NURBSSurface α → α → α → Int × Int)
    (GlobalCoordinates : Condition α → Nat → Vec3 α) (m_patches : List (Patch α))
    (samples : CoarseSamples α) (fuel : Nat) (conditions : List (Condition α))
    (st' : SearchState α)
    (h : search_conditions SearchNearestPoint GetKnotSpan GlobalCoordinates m_patches samples fuel conditions
      (some (SearchState.initial samples)) = some st') :
    (∀ (lists : NearestPointLists α) (s : MappingSystem α × Nat),
      assemble_conditions m_patches lists conditions s =
        (gauss_point_visits conditions).foldl (fun s v =>
          assemble_integration_point m_patches lists v.1 v.2 s) s) ∧
    st'.nearest_points.length = (gauss_point_visits conditions).length ∧
    (∀ (lists : NearestPointLists α) (s : MappingSystem α),
      (assemble_conditions m_patches lists conditions (s, 0)).2 =
        st'.nearest_points.length) ∧
    (∀ (i : Nat) (v : Condition α × Nat), (gauss_point_visits conditions)[i]? = some v →
      i < st'.nearest_points.length ∧
      (∀ (lists : NearestPointLists α) (s : MappingSystem α),
        (((gauss_point_visits conditions).take i).foldl (fun s v =>
          assemble_integration_point m_patches lists v.1 v.2 s) (s, 0)).2 = i) ∧
      ∃ (st_i st_next : SearchState α) (record : NearestPoint α),
        ((gauss_point_visits conditions).take i).foldl (fun st v =>
          st.bind (search_gauss_point SearchNearestPoint GetKnotSpan m_patches samples fuel
            (GlobalCoordinates v.1 v.2))) (some (SearchState.initial samples)) = some st_i ∧
        search_gauss_point SearchNearestPoint GetKnotSpan m_patches samples fuel (GlobalCoordinates v.1 v.2)
          st_i = some st_next ∧
        st_next.nearest_points = st_i.nearest_points ++ [record] ∧
        st'.nearest_points[i]? = some record ∧
        (NearestPointLists.of_records st'.nearest_points).list_of_u_of_nearest_points i =
          record.u_of_nearest_point ∧
        (NearestPointLists.of_records st'.nearest_points).list_of_v_of_nearest_points i =
          record.v_of_nearest_point ∧
        (NearestPointLists.of_records st'.nearest_points).list_of_span_u_of_nearest_points i =
          record.span_u_of_np ∧
        (NearestPointLists.of_records st'.nearest_points).list_of_span_v_of_nearest_points i =
          record.span_v_of_np ∧
        (NearestPointLists.of_records st'.nearest_points).list_of_patch_of_nearest_points i =
          record.patch_itr_of_nearest_point) := by
  rw [search_conditions_visits] at h
  obtain ⟨all, hall, hlen⟩ := search_visits_records _ _ _ _ _ _ _ _ _ h
  have hall' : st'.nearest_points = all := by
    rw [hall]
    rfl
  have hcount : st'.nearest_points.length = (gauss_point_visits conditions).length := by
    rw [hall', hlen]
  refine ⟨fun lists s => assemble_conditions_visits m_patches lists conditions s, hcount,
    ?_, ?_⟩
  · intro lists s
    rw [assemble_conditions_visits, assemble_visits_counter, hcount]
    simp
  · intro i v hv
    obtain ⟨hsplit, htake⟩ := eq_take_cons_drop _ i v hv
    have hi : i < (gauss_point_visits conditions).length := by
      rcases Nat.lt_or_ge i (gauss_point_visits conditions).length with hlt | hge
      · exact hlt
      · rw [List.getElem?_eq_none hge] at hv
        cases hv
    refine ⟨by rw [hcount]; exact hi, ?_, ?_⟩
    · intro lists s
      rw [assemble_visits_counter, htake]
      simp
    · rw [hsplit] at h
      obtain ⟨st_i, hpre, hrest⟩ := search_visits_split _ _ _ _ _ _ _ _ _ _ h
      rw [List.foldl_cons] at hrest
      cases hstep : search_gauss_point SearchNearestPoint GetKnotSpan m_patches samples fuel
          (GlobalCoordinates v.1 v.2) st_i with
      | none =>
        simp only [Option.bind_eq_bind, Option.some_bind, hstep] at hrest
        rw [search_visits_none] at hrest
        cases hrest
      | some st_next =>
        simp only [Option.bind_eq_bind, Option.some_bind, hstep] at hrest
        obtain ⟨record, hrec⟩ := search_gauss_point_appends _ _ _ _ _ _ _ _ hstep
        obtain ⟨pre, hpre_rec, hpre_len⟩ := search_visits_records _ _ _ _ _ _ _ _ _ hpre
        obtain ⟨post, hpost_rec, _⟩ := search_visits_records _ _ _ _ _ _ _ _ _ hrest
        have hat : st'.nearest_points[i]? = some record := by
          rw [hpost_rec, hrec, hpre_rec]
          simp only [SearchState.initial, List.nil_append, List.append_assoc,
            List.singleton_append]
          rw [List.getElem?_append_right (by rw [hpre_len, htake])]
          simp [hpre_len, htake]
        exact ⟨st_i, st_next, record, hpre, hstep, hrec, hat, of_records_at _ _ _ hat⟩

theorem forEntries_inner_additive {σ β : Type} [AddCommMonoid β] (f : σ → β)
    (ids : UblasMatrix Nat) (body : Nat → Nat → σ → σ) (g : Nat → Nat → β)
    (h : ∀ id k s, f (body id k s) = f s + g id k) (i n : Nat) (st : σ × Nat) :
    (forLoop n (fun j st => (body (ids.get j i) st.2 st.1, st.2 + 1)) st).2 = st.2 + n ∧
    f (forLoop n (fun j st => (body (ids.get j i) st.2 st.1, st.2 + 1)) st).1 =
      f st.1 + ∑ j ∈ Finset.range n, g (ids.get j i) (st.2 + j) := by
  induction n with
  | zero => simp [forLoop_zero]
  | succ n ih =>
    obtain ⟨h1, h2⟩ := ih
    rw [forLoop_succ]
    refine ⟨?_, ?_⟩
    · simp only [h1]; omega
    · simp only [h, h2, h1, Finset.sum_range_succ, add_assoc]

theorem forEntries_outer_additive {σ β : Type} [AddCommMonoid β] (f : σ → β)
    (ids : UblasMatrix Nat) (body : Nat → Nat → σ → σ) (g : Nat → Nat → β)
    (h : ∀ id k s, f (body id k s) = f s + g id k) (n : Nat) (s : σ) :
    (forLoop n (fun i st =>
      forLoop ids.size1 (fun j st => (body (ids.get j i) st.2 st.1, st.2 + 1)) st) (s, 0)).2 =
      n * ids.size1 ∧
    f (forLoop n (fun i st =>
      forLoop ids.size1 (fun j st => (body (ids.get j i) st.2 st.1, st.2 + 1)) st) (s, 0)).1 =
      f s + ∑ i ∈ Finset.range n, ∑ j ∈ Finset.range ids.size1,
        g (ids.get j i) (i * ids.size1 + j) := by
  induction n with
  | zero => simp [forLoop_zero]
  | succ n ih =>
    obtain ⟨h1, h2⟩ := ih
    rw [forLoop_succ]
    obtain ⟨h3, h4⟩ := forEntries_inner_additive f ids body g h n ids.size1
      (forLoop n (fun i st =>
        forLoop ids.size1 (fun j st => (body (ids.get j i) st.2 st.1, st.2 + 1)) st) (s, 0))
    refine ⟨?_, ?_⟩
    · rw [h3, h1, Nat.succ_mul]
    · rw [h4, h2, h1, Finset.sum_range_succ, add_assoc]

theorem forEntries_additive {σ β : Type} [AddCommMonoid β] (f : σ → β)
    (ids : UblasMatrix Nat) (body : Nat → Nat → σ → σ) (g : Nat → Nat → β)
    (h : ∀ id k s, f (body id k s) = f s + g id k) (s : σ) :
    f (forEntries ids body s) =
      f s + ∑ i ∈ Finset.range ids.size2, ∑ j ∈ Finset.range ids.size1,
        g (ids.get j i) (i * ids.size1 + j) :=
  (forEntries_outer_additive f ids body g h ids.size2 s).2

theorem addOnAxes3_apply {α : Type} [AddCommMonoid α] (M : SparseMatrixType α) (r c : Nat)
    (v : Nat → α) (p q : Nat) :
    addOnAxes3 M r c (v 0) (v 1) (v 2) p q = M p q + axisTerm3 r c v p q := by
  simp only [addOnAxes3, addAt, axisTerm3, Finset.sum_range_succ, Finset.sum_range_zero,
    zero_add]
  split_ifs <;> simp_all

theorem addOnAxesVec_apply {α : Type} [AddCommMonoid α] (x : Nat → α) (r : Nat)
    (v : Nat → α) (p : Nat) :
    addOnAxesVec x r (v 0) (v 1) (v 2) p =
      x p + ∑ a ∈ Finset.range 3, if p = 3 * r + a then v a else 0 := by
  simp only [addOnAxesVec, addAtVec, Finset.sum_range_succ, Finset.sum_range_zero, zero_add]
  split_ifs <;> simp_all

theorem counted_double_loop_apply {α : Type} [AddCommMonoid α]
    (ids_row ids_col : UblasMatrix Nat) (V : Nat → Nat → Nat → α)
    (M : SparseMatrixType α) (p q : Nat) :
    forEntries ids_row (fun R_row_id k_row M =>
      forEntries ids_col (fun R_coll_id k_coll M =>
        addOnAxes3 M R_row_id R_coll_id (V 0 k_row k_coll) (V 1 k_row k_coll)
          (V 2 k_row k_coll)) M) M p q =
      M p q + counted_block ids_row ids_col V p q := by
  unfold counted_block supportSum
  refine forEntries_additive (fun M : SparseMatrixType α => M p q) ids_row _
    (fun id k_row => ∑ k ∈ Finset.range ids_col.size2, ∑ l ∈ Finset.range ids_col.size1,
      axisTerm3 id (ids_col.get l k) (fun a => V a k_row (k * ids_col.size1 + l)) p q) ?_ M
  intro id k_row M
  refine forEntries_additive (fun M : SparseMatrixType α => M p q) ids_col _
    (fun id' k_coll => axisTerm3 id id' (fun a => V a k_row k_coll) p q) ?_ M
  intro id' k_coll M
  exact addOnAxes3_apply M id id' (fun a => V a k_row k_coll) p q

theorem tangent_continuity_block_apply {α : Type} [CommRing α]
    (ids_row ids_coll : UblasMatrix Nat) (term_1 term_2 : Nat → Nat → Nat → α)
    (J1 w pen : α) (M : SparseMatrixType α) (p q : Nat) :
    tangent_continuity_block ids_row ids_coll term_1 term_2 J1 w pen M p q =
      M p q + counted_block ids_row ids_coll (fun a k_row k_coll =>
        pen * w * J1 * (term_1 a k_row k_coll + term_2 a k_row k_coll)) p q :=
  counted_double_loop_apply ids_row ids_coll (fun a k_row k_coll =>
    pen * w * J1 * (term_1 a k_row k_coll + term_2 a k_row k_coll)) M p q

theorem rotation_coupling_same_side_apply {α : Type} [CommRing α] (ids : UblasMatrix Nat)
    (csy : LocalCSYVariation α) (J1 w pen : α) (M : SparseMatrixType α) (p q : Nat) :
    rotation_coupling_same_side ids csy J1 w pen M p q =
      M p q + counted_block ids ids (fun a k_coll k_row =>
        pen * w * J1 * omega_T2 csy k_row a * omega_T2 csy k_coll a) p q :=
  counted_double_loop_apply ids ids (fun a k_coll k_row =>
    pen * w * J1 * omega_T2 csy k_row a * omega_T2 csy k_coll a) M p q

theorem rotation_coupling_master_slave_apply {α : Type} [CommRing α]
    (ids_m ids_s : UblasMatrix Nat) (csy_m csy_s : LocalCSYVariation α)
    (sign_factor J1 w pen : α) (M : SparseMatrixType α) (p q : Nat) :
    rotation_coupling_master_slave ids_m ids_s csy_m csy_s sign_factor J1 w pen M p q =
      M p q + supportSum ids_m (fun j i => supportSum ids_s (fun l k =>
        axisTerm3 (ids_m.get j i) (ids_s.get l k) (fun a =>
          sign_factor * pen * w * J1 * omega_T2 csy_m (i * ids_m.size1 + j) a *
            omega_T2 csy_s (k * ids_s.size1 + l) a) p q +
        axisTerm3 (ids_s.get l k) (ids_m.get j i) (fun a =>
          sign_factor * pen * w * J1 * omega_T2 csy_m (i * ids_m.size1 + j) a *
            omega_T2 csy_s (k * ids_s.size1 + l) a) p q)) := by
  unfold rotation_coupling_master_slave supportSum
  refine forEntries_additive (fun M : SparseMatrixType α => M p q) ids_m _
    (fun id k_m => ∑ k ∈ Finset.range ids_s.size2, ∑ l ∈ Finset.range ids_s.size1,
      (axisTerm3 id (ids_s.get l k) (fun a =>
          sign_factor * pen * w * J1 * omega_T2 csy_m k_m a *
            omega_T2 csy_s (k * ids_s.size1 + l) a) p q +
        axisTerm3 (ids_s.get l k) id (fun a =>
          sign_factor * pen * w * J1 * omega_T2 csy_m k_m a *
            omega_T2 csy_s (k * ids_s.size1 + l) a) p q)) ?_ M
  intro id k_m M
  refine forEntries_additive (fun M : SparseMatrixType α => M p q) ids_s _
    (fun id' k_s =>
      axisTerm3 id id' (fun a =>
          sign_factor * pen * w * J1 * omega_T2 csy_m k_m a * omega_T2 csy_s k_s a) p q +
        axisTerm3 id' id (fun a =>
          sign_factor * pen * w * J1 * omega_T2 csy_m k_m a * omega_T2 csy_s k_s a) p q) ?_ M
  intro id' k_s M
  simp only []
  rw [addOnAxes3_apply (addOnAxes3 M id id' _ _ _) id' id (fun a =>
      sign_factor * pen * w * J1 * omega_T2 csy_m k_m a * omega_T2 csy_s k_s a) p q,
    addOnAxes3_apply M id id' (fun a =>
      sign_factor * pen * w * J1 * omega_T2 csy_m k_m a * omega_T2 csy_s k_s a) p q,
    add_assoc]

theorem axisTerm3_symm {α : Type} [AddCommMonoid α] (r c : Nat) (v : Nat → α) (p q : Nat) :
    axisTerm3 r c v p q = axisTerm3 c r v q p := by
  unfold axisTerm3
  refine Finset.sum_congr rfl (fun a _ => ?_)
  simp only [and_comm]

theorem counted_block_transpose {α : Type} [AddCommMonoid α] (ids_row ids_col : UblasMatrix Nat)
    (V : Nat → Nat → Nat → α) (p q : Nat) :
    counted_block ids_row ids_col V p q =
      counted_block ids_col ids_row (fun a k k' => V a k' k) q p := by
  unfold counted_block
  rw [supportSum_comm]
  refine supportSum_congr _ _ _ (fun k _ l _ => supportSum_congr _ _ _ (fun i _ j _ => ?_))
  exact axisTerm3_symm _ _ _ _ _

theorem counted_block_congr {α : Type} [AddCommMonoid α] (ids_row ids_col : UblasMatrix Nat)
    (V V' : Nat → Nat → Nat → α) (h : ∀ a k k', V a k k' = V' a k k') (p q : Nat) :
    counted_block ids_row ids_col V p q = counted_block ids_row ids_col V' p q := by
  have : V = V' := funext (fun a => funext (fun k => funext (fun k' => h a k k')))
  rw [this]

theorem counted_block_symm {α : Type} [AddCommMonoid α] (ids : UblasMatrix Nat)
    (V : Nat → Nat → Nat → α) (h : ∀ a k k', V a k k' = V a k' k) (p q : Nat) :
    counted_block ids ids V p q = counted_block ids ids V q p := by
  rw [counted_block_transpose]
  exact counted_block_congr _ _ _ _ (fun a k k' => (h a k k').symm) _ _

theorem coupling_block_transpose {α : Type} [CommRing α] (ids_r ids_c : UblasMatrix Nat)
    (R_r R_c : UblasMatrix α) (c : α) (p q : Nat) :
    coupling_block ids_r ids_c R_r R_c c p q = coupling_block ids_c ids_r R_c R_r c q p := by
  unfold coupling_block
  rw [supportSum_comm]
  refine supportSum_congr _ _ _ (fun k _ l _ => supportSum_congr _ _ _ (fun i _ j _ => ?_))
  rw [axisTerm_symm, mul_right_comm]

theorem dirichlet_block_symm {α : Type} [CommRing α] (fix : Bool × Bool × Bool)
    (ids : UblasMatrix Nat) (R : UblasMatrix α) (c : α) (p q : Nat) :
    dirichlet_block fix ids R c p q = dirichlet_block fix ids R c q p := by
  unfold dirichlet_block
  rw [supportSum_comm]
  refine supportSum_congr _ _ _ (fun k _ l _ => supportSum_congr _ _ _ (fun i _ j _ => ?_))
  refine Finset.sum_congr rfl (fun a _ => ?_)
  by_cases h : axis_fixed fix a = true ∧ p = 3 * ids.get j i + a ∧ q = 3 * ids.get l k + a
  · rw [if_pos h, if_pos ⟨h.1, h.2.2, h.2.1⟩, mul_right_comm]
  · rw [if_neg h, if_neg (fun h' => h ⟨h'.1, h'.2.2, h'.2.1⟩)]

theorem inner_prod_comm {α : Type} [CommRing α] (a b : Vec3 α) :
    inner_prod a b = inner_prod b a := by
  simp only [inner_prod]
  ring

theorem symmetric_apply_displacement_coupling {α : Type} [CommRing α]
    (ids_m ids_s : UblasMatrix Nat) (R_m R_s : UblasMatrix α) (J1 w pen : α)
    (s : MappingSystem α) (h : symmetric_matrix s.m_mapping_matrix_CAD_CAD) :
    symmetric_matrix
      (apply_displacement_coupling ids_m ids_s R_m R_s J1 w pen s).m_mapping_matrix_CAD_CAD := by
  intro p q
  have e1 := coupling_block_transpose ids_m ids_m R_m R_m (pen * w * J1) p q
  have e2 := coupling_block_transpose ids_s ids_s R_s R_s (pen * w * J1) p q
  have e3 := coupling_block_transpose ids_m ids_s R_m R_s (pen * w * J1) p q
  have e4 := coupling_block_transpose ids_s ids_m R_s R_m (pen * w * J1) p q
  rw [apply_displacement_coupling_apply, apply_displacement_coupling_apply, h p q, e1, e2, e3, e4]
  ring

theorem symmetric_apply_rotation_coupling {α : Type} [LinearOrderedCommRing α]
    (master_patch slave_patch : Patch α) (u_m v_m u_s v_s : α) (t_m t_s : Vec2 α)
    (ids_m ids_s : UblasMatrix Nat) (J1 w pen : α) (s : MappingSystem α)
    (h : symmetric_matrix s.m_mapping_matrix_CAD_CAD) :
    symmetric_matrix
      (apply_rotation_coupling master_patch slave_patch u_m v_m u_s v_s t_m t_s ids_m ids_s
        J1 w pen s).m_mapping_matrix_CAD_CAD := by
  intro p q
  simp only [apply_rotation_coupling, rotation_coupling_master_slave_apply,
    rotation_coupling_same_side_apply]
  rw [h p q, counted_block_symm ids_m _ (fun a k k' => by ring) p q,
    counted_block_symm ids_s _ (fun a k k' => by ring) p q]
  congr 1
  refine supportSum_congr _ _ _ (fun i _ j _ => supportSum_congr _ _ _ (fun k _ l _ => ?_))
  conv_lhs =>
    rw [axisTerm3_symm (ids_m.get j i) (ids_s.get l k) _ p q,
      axisTerm3_symm (ids_s.get l k) (ids_m.get j i) _ p q, add_comm]

theorem symmetric_dirichlet_gauss_point {α : Type} [CommRing α] [Inhabited α]
    (norm_2 : Vec3 α → α) (m_patches : List (Patch α)) (pen : α) (fix_x fix_y fix_z : Bool)
    (gp : BREPGaussPoint α) (s : MappingSystem α)
    (h : symmetric_matrix s.m_mapping_matrix_CAD_CAD) :
    symmetric_matrix
      (apply_dirichlet_condition_gauss_point norm_2 m_patches pen fix_x fix_y fix_z gp
        s).m_mapping_matrix_CAD_CAD := by
  intro p q
  simp only [apply_dirichlet_condition_gauss_point, dirichlet_merge_apply]
  rw [h p q, dirichlet_block_symm]

theorem tangent_continuity_MS_SM_transpose {α : Type} [CommRing α]
    (ids_m ids_s : UblasMatrix Nat) (m sl : LocalCSYSecondVariation α) (fac c : α)
    (p q : Nat) :
    counted_block ids_m ids_s (fun a k_row k_coll =>
        c * (inner_prod m.T3 (sl.t1r (3 * k_coll + a)) * inner_prod (m.t3r (3 * k_row + a)) sl.T1 +
          fac * inner_prod (m.t3r (3 * k_row + a)) (sl.t1r (3 * k_coll + a)))) p q =
      counted_block ids_s ids_m (fun a k_row k_coll =>
        c * (inner_prod (m.t3r (3 * k_coll + a)) sl.T1 * inner_prod m.T3 (sl.t1r (3 * k_row + a)) +
          fac * inner_prod (m.t3r (3 * k_coll + a)) (sl.t1r (3 * k_row + a)))) q p := by
  rw [counted_block_transpose]
  refine counted_block_congr _ _ _ _ (fun a k k' => ?_) _ _
  ring

theorem symmetric_enforce_tangent_continuity {α : Type} [CommRing α]
    (master_patch slave_patch : Patch α) (u_m v_m u_s v_s : α) (t_m t_s : Vec2 α)
    (ids_m ids_s : UblasMatrix Nat) (J1 w pen : α) (s : MappingSystem α)
    (hm : ∀ r c,
      (master_patch.m_nurbs_surface.ComputeSecondVariationOfLocalCSY u_m v_m t_m).t3rs r c =
        (master_patch.m_nurbs_surface.ComputeSecondVariationOfLocalCSY u_m v_m t_m).t3rs c r)
    (hs : ∀ r c,
      (slave_patch.m_nurbs_surface.ComputeSecondVariationOfLocalCSY u_s v_s t_s).t1rs r c =
        (slave_patch.m_nurbs_surface.ComputeSecondVariationOfLocalCSY u_s v_s t_s).t1rs c r)
    (h : symmetric_matrix s.m_mapping_matrix_CAD_CAD) :
    symmetric_matrix
      (enforce_tangent_continuity master_patch slave_patch u_m v_m u_s v_s t_m t_s ids_m ids_s
        J1 w pen s).m_mapping_matrix_CAD_CAD := by
  intro p q
  simp only [enforce_tangent_continuity, tangent_continuity_block_apply]
  rw [h p q,
    counted_block_symm ids_m _ (fun a k k' => by
      rw [hm (3 * k + a) (3 * k' + a)]
      ring) p q,
    counted_block_symm ids_s _ (fun a k k' => by
      rw [hs (3 * k + a) (3 * k' + a)]
      simp only [inner_prod]
      ring) p q,
    tangent_continuity_MS_SM_transpose _ _ _ _ _ _ p q,
    tangent_continuity_MS_SM_transpose _ _ _ _ _ _ q p]
  ring

theorem tangent_continuity_request_true_mem {α : Type} [Zero α] (edge_id : Nat)
    (edges : List (Nat × α)) (h : (tangent_continuity_request edge_id edges).1 = true) :
    edge_id ∈ edges.map Prod.fst := by
  unfold tangent_continuity_request at h
  have key : ∀ (l : List (Nat × α)) (st : Bool × α),
      (l.foldl (fun st entry => if edge_id = entry.1 then (true, entry.2) else st) st).1 = true →
        st.1 = true ∨ edge_id ∈ l.map Prod.fst := by
    intro l
    induction l with
    | nil => intro st h; exact Or.inl h
    | cons e t ih =>
      intro st h
      rw [List.foldl_cons] at h
      rcases ih _ h with h1 | h1
      · by_cases he : edge_id = e.1
        · right
          rw [List.map_cons, he]
          exact List.mem_cons_self _ _
        · rw [if_neg he] at h1
          exact Or.inl h1
      · right
        rw [List.map_cons]
        exact List.mem_cons_of_mem _ h1
  rcases key edges _ h with h1 | h1
  · exact absurd h1 (by simp)
  · exact h1

theorem foldl_preserves_mem {σ β : Type} (P : σ → Prop) (body : σ → β → σ) (l : List β)
    (h : ∀ b ∈ l, ∀ s, P s → P (body s b)) (s : σ) (hs : P s) : P (l.foldl body s) := by
  induction l generalizing s with
  | nil => exact hs
  | cons b t ih =>
    rw [List.foldl_cons]
    exact ih (fun b' hb' => h b' (List.mem_cons_of_mem _ hb')) _
      (h b (List.mem_cons_self _ _) s hs)

/-- Claim C21 (amended): over exact arithmetic (the values in a commutative ring) the
constraint assembly keeps the CAD-CAD matrix symmetric. When the matrix is symmetric before
`apply_boundary_conditions` and, at every Gauss point of a coupling element whose edge is
listed for tangent continuity, the second variation `t3rs` of the master side and `t1rs`
of the slave side are symmetric in their two variation indices, the matrix is symmetric
afterwards: displacement coupling, rotation coupling and the Dirichlet merge need no
condition. The master-slave and slave-master blocks that `enforce_tangent_continuity` adds
are transposes of one another for any data. -/
theorem apply_boundary_conditions_preserves_symmetry {α : Type} [LinearOrderedCommRing α]
    [Inhabited α] (norm_2 : Vec3 α → α) (m_patches : List (Patch α))
    (m_brep_elements : List (BREPElement α))
    (penalty_factor_disp penalty_factor_rot penalty_factor_dirichlet : α)
    (edges_with_specific_dirichlet_conditions : List (Nat × Bool × Bool × Bool))
    (edges_with_enforced_tangent_continuity : List (Nat × α)) (s : MappingSystem α)
    (hsym : symmetric_matrix s.m_mapping_matrix_CAD_CAD)
    (hdata : ∀ e ∈ m_brep_elements, e.has_coupling_condition = true →
      e.edge_id ∈ edges_with_enforced_tangent_continuity.map Prod.fst →
      ∀ gp ∈ e.gauss_points,
        (∀ r c,
          ((master_patch_of m_patches gp).m_nurbs_surface.ComputeSecondVariationOfLocalCSY
              gp.location.x gp.location.y gp.tangent).t3rs r c =
            ((master_patch_of m_patches gp).m_nurbs_surface.ComputeSecondVariationOfLocalCSY
              gp.location.x gp.location.y gp.tangent).t3rs c r) ∧
        (∀ r c,
          ((slave_patch_of m_patches gp).m_nurbs_surface.ComputeSecondVariationOfLocalCSY
              gp.location_slave.x gp.location_slave.y gp.tangent_slave).t1rs r c =
            ((slave_patch_of m_patches gp).m_nurbs_surface.ComputeSecondVariationOfLocalCSY
              gp.location_slave.x gp.location_slave.y gp.tangent_slave).t1rs c r)) :
    symmetric_matrix
        (apply_boundary_conditions norm_2 m_patches m_brep_elements penalty_factor_disp
          penalty_factor_rot penalty_factor_dirichlet edges_with_specific_dirichlet_conditions
          edges_with_enforced_tangent_continuity s).m_mapping_matrix_CAD_CAD ∧
      ∀ (ids_m ids_s : UblasMatrix Nat) (m sl : LocalCSYSecondVariation α) (J1 w pen : α)
        (p q : Nat),
        tangent_continuity_block ids_m ids_s
            (fun a k_row k_coll =>
              inner_prod m.T3 (sl.t1r (3 * k_coll + a)) *
                inner_prod (m.t3r (3 * k_row + a)) sl.T1)
            (fun a k_row k_coll =>
              inner_prod m.T3 sl.T1 * inner_prod (m.t3r (3 * k_row + a)) (sl.t1r (3 * k_coll + a)))
            J1 w pen (fun _ _ => 0) p q =
          tangent_continuity_block ids_s ids_m
            (fun a k_row k_coll =>
              inner_prod (m.t3r (3 * k_coll + a)) sl.T1 *
                inner_prod m.T3 (sl.t1r (3 * k_row + a)))
            (fun a k_row k_coll =>
              inner_prod m.T3 sl.T1 * inner_prod (m.t3r (3 * k_coll + a)) (sl.t1r (3 * k_row + a)))
            J1 w pen (fun _ _ => 0) q p := by
  refine ⟨?_, ?_⟩
  · unfold apply_boundary_conditions
    refine foldl_preserves_mem (fun s : MappingSystem α =>
      symmetric_matrix s.m_mapping_matrix_CAD_CAD) _ _ ?_ s hsym
    intro e he s hs
    beta_reduce
    by_cases hc : e.has_coupling_condition = true
    · rw [if_pos hc]
      unfold apply_coupling_condition
      refine foldl_preserves_mem (fun s : MappingSystem α =>
        symmetric_matrix s.m_mapping_matrix_CAD_CAD) _ _ ?_ s hs
      intro gp hgp s hs
      beta_reduce
      unfold apply_coupling_condition_gauss_point
      by_cases ht : (tangent_continuity_request e.edge_id
          edges_with_enforced_tangent_continuity).1 = true
      · simp only [ht, if_true]
        have hd := hdata e he hc (tangent_continuity_request_true_mem _ _ ht) gp hgp
        exact symmetric_enforce_tangent_continuity _ _ _ _ _ _ _ _ _ _ _ _ _ _ hd.1 hd.2
          (symmetric_apply_displacement_coupling _ _ _ _ _ _ _ _ hs)
      · simp only [ht]
        exact symmetric_apply_rotation_coupling _ _ _ _ _ _ _ _ _ _ _ _ _ _
          (symmetric_apply_displacement_coupling _ _ _ _ _ _ _ _ hs)
    · rw [if_neg hc]
      by_cases hd : e.has_dirichlet_condition = true
      · rw [if_pos hd]
        unfold apply_dirichlet_condition
        refine foldl_preserves_mem (fun s : MappingSystem α =>
          symmetric_matrix s.m_mapping_matrix_CAD_CAD) _ _ ?_ s hs
        intro gp _ s hs
        exact symmetric_dirichlet_gauss_point _ _ _ _ _ _ _ _ hs
      · rw [if_neg hd]
        exact hs
  · intro ids_m ids_s m sl J1 w pen p q
    rw [tangent_continuity_block_apply, tangent_continuity_block_apply]
    rw [tangent_continuity_MS_SM_transpose ids_m ids_s m sl (inner_prod m.T3 sl.T1)
      (pen * w * J1) p q]

theorem MappingSystem.eq_of_fields {α : Type} (s t : MappingSystem α)
    (h1 : s.m_n_relevant_control_points = t.m_n_relevant_control_points)
    (h2 : s.m_n_relevant_fem_points = t.m_n_relevant_fem_points)
    (h3 : ∀ p q, s.m_mapping_matrix_CAD_CAD p q = t.m_mapping_matrix_CAD_CAD p q)
    (h4 : s.m_mapping_matrix_CAD_FEM = t.m_mapping_matrix_CAD_FEM)
    (h5 : ∀ p, s.m_mapping_rhs_vector p = t.m_mapping_rhs_vector p) : s = t := by
  cases s
  cases t
  simp only [MappingSystem.mk.injEq]
  exact ⟨h1, h2, funext (fun p => funext (fun q => h3 p q)), h4, funext h5⟩

theorem accumulating_of_apply {α : Type} [Add α] (F : MappingSystem α → MappingSystem α)
    (ΔM : Nat → Nat → α) (Δrhs : Nat → α)
    (h1 : ∀ s, (F s).m_n_relevant_control_points = s.m_n_relevant_control_points)
    (h2 : ∀ s, (F s).m_n_relevant_fem_points = s.m_n_relevant_fem_points)
    (h3 : ∀ s p q, (F s).m_mapping_matrix_CAD_CAD p q = s.m_mapping_matrix_CAD_CAD p q + ΔM p q)
    (h4 : ∀ s, (F s).m_mapping_matrix_CAD_FEM = s.m_mapping_matrix_CAD_FEM)
    (h5 : ∀ s p, (F s).m_mapping_rhs_vector p = s.m_mapping_rhs_vector p + Δrhs p) :
    accumulating F :=
  ⟨ΔM, Δrhs, fun s => MappingSystem.eq_of_fields _ _ (h1 s) (h2 s) (h3 s) (h4 s) (h5 s)⟩

theorem accumulating_id {α : Type} [AddMonoid α] :
    accumulating (fun s : MappingSystem α => s) :=
  accumulating_of_apply _ (fun _ _ => 0) (fun _ => 0) (fun _ => rfl) (fun _ => rfl)
    (fun _ _ _ => (add_zero _).symm) (fun _ => rfl) (fun _ _ => (add_zero _).symm)

theorem accumulating_comp {α : Type} [AddSemigroup α]
    (F G : MappingSystem α → MappingSystem α) (hF : accumulating F) (hG : accumulating G) :
    accumulating (fun s => G (F s)) := by
  obtain ⟨ΔF, rF, hF⟩ := hF
  obtain ⟨ΔG, rG, hG⟩ := hG
  refine ⟨fun p q => ΔF p q + ΔG p q, fun p => rF p + rG p, fun s => ?_⟩
  show G (F s) = _
  rw [hG, hF]
  simp only [MappingSystem.add_contribution, add_assoc]

theorem accumulating_comm {α : Type} [AddCommSemigroup α]
    (F G : MappingSystem α → MappingSystem α) (hF : accumulating F) (hG : accumulating G)
    (s : MappingSystem α) : G (F s) = F (G s) := by
  obtain ⟨ΔF, rF, hF⟩ := hF
  obtain ⟨ΔG, rG, hG⟩ := hG
  rw [hG, hF, hF, hG]
  simp only [MappingSystem.add_contribution, add_right_comm]

theorem accumulating_foldl {α β : Type} [AddMonoid α]
    (body : MappingSystem α → β → MappingSystem α) (l : List β)
    (h : ∀ b, accumulating (fun s => body s b)) :
    accumulating (fun s => l.foldl body s) := by
  induction l with
  | nil => exact accumulating_id
  | cons b t ih =>
    simp only [List.foldl_cons]
    exact accumulating_comp (fun s => body s b) (fun s => t.foldl body s) (h b) ih

theorem tangent_continuity_rhs_apply {α : Type} [CommRing α] (ids_m ids_s : UblasMatrix Nat)
    (csy_m csy_s : LocalCSYSecondVariation α) (fac J1 w pen : α) (rhs : Nat → α) (p : Nat) :
    tangent_continuity_rhs ids_m ids_s csy_m csy_s fac J1 w pen rhs p =
      rhs p +
        ((∑ i ∈ Finset.range ids_m.size2, ∑ j ∈ Finset.range ids_m.size1,
            ∑ a ∈ Finset.range 3, if p = 3 * ids_m.get j i + a then
              pen * w * J1 * fac * inner_prod (csy_m.t3r (3 * (i * ids_m.size1 + j) + a)) csy_s.T1
            else 0) +
          ∑ i ∈ Finset.range ids_s.size2, ∑ j ∈ Finset.range ids_s.size1,
            ∑ a ∈ Finset.range 3, if p = 3 * ids_s.get j i + a then
              pen * w * J1 * fac * inner_prod (csy_s.t1r (3 * (i * ids_s.size1 + j) + a)) csy_m.T3
            else 0) := by
  unfold tangent_continuity_rhs
  rw [forEntries_additive (fun x : Nat → α => x p) ids_s _
    (fun id k => ∑ a ∈ Finset.range 3, if p = 3 * id + a then
      pen * w * J1 * fac * inner_prod (csy_s.t1r (3 * k + a)) csy_m.T3 else 0)
    (fun id k x => addOnAxesVec_apply x id
      (fun a => pen * w * J1 * fac * inner_prod (csy_s.t1r (3 * k + a)) csy_m.T3) p),
    forEntries_additive (fun x : Nat → α => x p) ids_m _
    (fun id k => ∑ a ∈ Finset.range 3, if p = 3 * id + a then
      pen * w * J1 * fac * inner_prod (csy_m.t3r (3 * k + a)) csy_s.T1 else 0)
    (fun id k x => addOnAxesVec_apply x id
      (fun a => pen * w * J1 * fac * inner_prod (csy_m.t3r (3 * k + a)) csy_s.T1) p),
    add_assoc]

theorem accumulating_displacement_coupling {α : Type} [CommRing α]
    (ids_m ids_s : UblasMatrix Nat) (R_m R_s : UblasMatrix α) (J1 w pen : α) :
    accumulating (apply_displacement_coupling ids_m ids_s R_m R_s J1 w pen) := by
  refine accumulating_of_apply _
    (fun p q => (apply_displacement_coupling ids_m ids_s R_m R_s J1 w pen
      (MappingSystem.cleared α 0 0)).m_mapping_matrix_CAD_CAD p q) (fun _ => 0)
    (fun _ => rfl) (fun _ => rfl) ?_ (fun _ => rfl) (fun _ _ => (add_zero _).symm)
  intro s p q
  simp only [apply_displacement_coupling_apply, MappingSystem.cleared]
  ring

theorem accumulating_rotation_coupling {α : Type} [LinearOrderedCommRing α]
    (master_patch slave_patch : Patch α) (u_m v_m u_s v_s : α) (t_m t_s : Vec2 α)
    (ids_m ids_s : UblasMatrix Nat) (J1 w pen : α) :
    accumulating (apply_rotation_coupling master_patch slave_patch u_m v_m u_s v_s t_m t_s
      ids_m ids_s J1 w pen) := by
  refine accumulating_of_apply _
    (fun p q => (apply_rotation_coupling master_patch slave_patch u_m v_m u_s v_s t_m t_s
      ids_m ids_s J1 w pen (MappingSystem.cleared α 0 0)).m_mapping_matrix_CAD_CAD p q)
    (fun _ => 0) (fun _ => rfl) (fun _ => rfl) ?_ (fun _ => rfl)
    (fun _ _ => (add_zero _).symm)
  intro s p q
  simp only [apply_rotation_coupling, rotation_coupling_master_slave_apply,
    rotation_coupling_same_side_apply, MappingSystem.cleared]
  ring

theorem accumulating_tangent_continuity {α : Type} [CommRing α]
    (master_patch slave_patch : Patch α) (u_m v_m u_s v_s : α) (t_m t_s : Vec2 α)
    (ids_m ids_s : UblasMatrix Nat) (J1 w pen : α) :
    accumulating (enforce_tangent_continuity master_patch slave_patch u_m v_m u_s v_s t_m t_s
      ids_m ids_s J1 w pen) := by
  refine accumulating_of_apply _
    (fun p q => (enforce_tangent_continuity master_patch slave_patch u_m v_m u_s v_s t_m t_s
      ids_m ids_s J1 w pen (MappingSystem.cleared α 0 0)).m_mapping_matrix_CAD_CAD p q)
    (fun p => (enforce_tangent_continuity master_patch slave_patch u_m v_m u_s v_s t_m t_s
      ids_m ids_s J1 w pen (MappingSystem.cleared α 0 0)).m_mapping_rhs_vector p)
    (fun _ => rfl) (fun _ => rfl) ?_ (fun _ => rfl) ?_
  · intro s p q
    simp only [enforce_tangent_continuity, tangent_continuity_block_apply,
      MappingSystem.cleared]
    ring
  · intro s p
    simp only [enforce_tangent_continuity, tangent_continuity_rhs_apply, MappingSystem.cleared]
    ring

theorem accumulating_dirichlet_gauss_point {α : Type} [CommRing α] [Inhabited α]
    (norm_2 : Vec3 α → α) (m_patches : List (Patch α)) (pen : α) (fix_x fix_y fix_z : Bool)
    (gp : BREPGaussPoint α) :
    accumulating (apply_dirichlet_condition_gauss_point norm_2 m_patches pen fix_x fix_y fix_z
      gp) := by
  refine accumulating_of_apply _
    (fun p q => (apply_dirichlet_condition_gauss_point norm_2 m_patches pen fix_x fix_y fix_z
      gp (MappingSystem.cleared α 0 0)).m_mapping_matrix_CAD_CAD p q)
    (fun _ => 0) (fun _ => rfl) (fun _ => rfl) ?_ (fun _ => rfl)
    (fun _ _ => (add_zero _).symm)
  intro s p q
  simp only [apply_dirichlet_condition_gauss_point, dirichlet_merge_apply,
    MappingSystem.cleared]
  ring

theorem accumulating_coupling_gauss_point {α : Type} [LinearOrderedCommRing α] [Inhabited α]
    (norm_2 : Vec3 α → α) (m_patches : List (Patch α)) (pen_disp pen_rot : α)
    (tangent_continuity_to_be_enforced : Bool) (pen_tc : α) (gp : BREPGaussPoint α) :
    accumulating (apply_coupling_condition_gauss_point norm_2 m_patches pen_disp pen_rot
      tangent_continuity_to_be_enforced pen_tc gp) := by
  cases tangent_continuity_to_be_enforced
  · exact accumulating_comp (apply_displacement_coupling _ _ _ _ _ _ _)
      (apply_rotation_coupling _ _ _ _ _ _ _ _ _ _ _ _ _)
      (accumulating_displacement_coupling _ _ _ _ _ _ _)
      (accumulating_rotation_coupling _ _ _ _ _ _ _ _ _ _ _ _ _)
  · exact accumulating_comp (apply_displacement_coupling _ _ _ _ _ _ _)
      (enforce_tangent_continuity _ _ _ _ _ _ _ _ _ _ _ _ _)
      (accumulating_displacement_coupling _ _ _ _ _ _ _)
      (accumulating_tangent_continuity _ _ _ _ _ _ _ _ _ _ _ _ _)

theorem accumulating_brep_element {α : Type} [LinearOrderedCommRing α] [Inhabited α]
    (norm_2 : Vec3 α → α) (m_patches : List (Patch α)) (pen_disp pen_rot pen_dir : α)
    (edges_dir : List (Nat × Bool × Bool × Bool)) (edges_tc : List (Nat × α))
    (e : BREPElement α) :
    accumulating (fun s : MappingSystem α =>
      if e.has_coupling_condition then
        apply_coupling_condition norm_2 m_patches e pen_disp pen_rot edges_tc s
      else if e.has_dirichlet_condition then
        apply_dirichlet_condition norm_2 m_patches e pen_dir edges_dir s
      else s) := by
  by_cases hc : e.has_coupling_condition = true
  · simp only [hc, if_true]
    unfold apply_coupling_condition
    exact accumulating_foldl _ _ (fun gp => accumulating_coupling_gauss_point _ _ _ _ _ _ gp)
  · simp only [hc]
    by_cases hd : e.has_dirichlet_condition = true
    · simp only [hd, if_true]
      unfold apply_dirichlet_condition
      exact accumulating_foldl _ _
        (fun gp => accumulating_dirichlet_gauss_point _ _ _ _ _ _ gp)
    · simp only [hd]
      exact accumulating_id

theorem brep_element_step_congr {α : Type} [LinearOrderedCommRing α] [Inhabited α]
    (norm_2 : Vec3 α → α) (m_patches : List (Patch α)) (pen_disp pen_rot pen_dir : α)
    (edges_dir : List (Nat × Bool × Bool × Bool)) (edges_tc : List (Nat × α))
    (e e' : BREPElement α) (h : same_gauss_points e e') (s : MappingSystem α) :
    (if e.has_coupling_condition then
        apply_coupling_condition norm_2 m_patches e pen_disp pen_rot edges_tc s
      else if e.has_dirichlet_condition then
        apply_dirichlet_condition norm_2 m_patches e pen_dir edges_dir s
      else s) =
      (if e'.has_coupling_condition then
        apply_coupling_condition norm_2 m_patches e' pen_disp pen_rot edges_tc s
      else if e'.has_dirichlet_condition then
        apply_dirichlet_condition norm_2 m_patches e' pen_dir edges_dir s
      else s) := by
  obtain ⟨hid, hc, hd, hperm⟩ := h
  have h1 : apply_coupling_condition norm_2 m_patches e pen_disp pen_rot edges_tc s =
      apply_coupling_condition norm_2 m_patches e' pen_disp pen_rot edges_tc s := by
    unfold apply_coupling_condition
    rw [hid]
    exact hperm.foldl_eq' (fun x _ y _ z =>
      accumulating_comm _ _ (accumulating_coupling_gauss_point _ _ _ _ _ _ x)
        (accumulating_coupling_gauss_point _ _ _ _ _ _ y) z) s
  have h2 : apply_dirichlet_condition norm_2 m_patches e pen_dir edges_dir s =
      apply_dirichlet_condition norm_2 m_patches e' pen_dir edges_dir s := by
    unfold apply_dirichlet_condition
    rw [hid]
    exact hperm.foldl_eq' (fun x _ y _ z =>
      accumulating_comm _ _ (accumulating_dirichlet_gauss_point _ _ _ _ _ _ x)
        (accumulating_dirichlet_gauss_point _ _ _ _ _ _ y) z) s
  rw [hc, hd, h1, h2]

/-- Claim C22: the assembly order does not affect the result of
`apply_boundary_conditions`. When the list `m_brep_elements_reordered` is a permutation
`middle` of the list `m_brep_elements` in which, element by element, the Gauss points are
permuted, the call on the reordered list leaves the same mapping system, in particular
the same CAD-CAD matrix and the same right-hand side, as the call on the original list. -/
theorem apply_boundary_conditions_order_independent {α : Type} [LinearOrderedCommRing α]
    [Inhabited α] (norm_2 : Vec3 α → α) (m_patches : List (Patch α))
    (m_brep_elements middle m_brep_elements_reordered : List (BREPElement α))
    (penalty_factor_disp penalty_factor_rot penalty_factor_dirichlet : α)
    (edges_with_specific_dirichlet_conditions : List (Nat × Bool × Bool × Bool))
    (edges_with_enforced_tangent_continuity : List (Nat × α)) (s : MappingSystem α)
    (hperm : m_brep_elements.Perm middle)
    (hgp : List.Forall₂ same_gauss_points middle m_brep_elements_reordered) :
    apply_boundary_conditions norm_2 m_patches m_brep_elements_reordered penalty_factor_disp
        penalty_factor_rot penalty_factor_dirichlet edges_with_specific_dirichlet_conditions
        edges_with_enforced_tangent_continuity s =
      apply_boundary_conditions norm_2 m_patches m_brep_elements penalty_factor_disp
        penalty_factor_rot penalty_factor_dirichlet edges_with_specific_dirichlet_conditions
        edges_with_enforced_tangent_continuity s := by
  unfold apply_boundary_conditions
  rw [hperm.foldl_eq' (fun x _ y _ z =>
    accumulating_comm _ _
      (accumulating_brep_element norm_2 m_patches penalty_factor_disp penalty_factor_rot
        penalty_factor_dirichlet edges_with_specific_dirichlet_conditions
        edges_with_enforced_tangent_continuity x)
      (accumulating_brep_element norm_2 m_patches penalty_factor_disp penalty_factor_rot
        penalty_factor_dirichlet edges_with_specific_dirichlet_conditions
        edges_with_enforced_tangent_continuity y) z) s]
  clear hperm
  induction hgp generalizing s with
  | nil => rfl
  | cons h _ ih =>
    rw [List.foldl_cons, List.foldl_cons, ih]
    congr 1
    exact (brep_element_step_congr norm_2 m_patches penalty_factor_disp penalty_factor_rot
      penalty_factor_dirichlet edges_with_specific_dirichlet_conditions
      edges_with_enforced_tangent_continuity _ _ h s).symm

/-! ## The closest-point search in a basin and row ids under appended Gauss points -/

theorem newton_raphson_body_from_surface {α : Type} [LinearOrderedField α]
    (surface : NURBSSurface α) (P : Vec3 α) (s : NewtonState α)
    (hQ : s.Q_k = surface.EvaluateSurfacePoint s.u_k s.v_k) :
    (newton_raphson_body surface P s).u_k = (newton_step surface P s.u_k s.v_k).1 ∧
    (newton_raphson_body surface P s).v_k = (newton_step surface P s.u_k s.v_k).2 ∧
    (newton_raphson_body surface P s).Q_k =
      surface.EvaluateSurfacePoint (newton_raphson_body surface P s).u_k
        (newton_raphson_body surface P s).v_k ∧
    (newton_raphson_body surface P s).norm_deltau_sq =
      parameter_distance_sq s.u_k s.v_k (newton_raphson_body surface P s).u_k
        (newton_raphson_body surface P s).v_k ∧
    (newton_raphson_body surface P s).k = s.k + 1 := by
  refine ⟨?_, ?_, rfl, ?_, rfl⟩
  · simp only [newton_step, newton_raphson_body, newton_raphson_init, hQ]
  · simp only [newton_step, newton_raphson_body, newton_raphson_init, hQ]
  · simp only [newton_raphson_body, parameter_distance_sq]
    ring

theorem parameter_distance_sq_triangle {α : Type} [LinearOrderedField α]
    (u v u' v' u'' v'' : α) :
    parameter_distance_sq u v u'' v'' ≤
      2 * parameter_distance_sq u v u' v' + 2 * parameter_distance_sq u' v' u'' v'' := by
  unfold parameter_distance_sq
  nlinarith [sq_nonneg ((u - u') - (u' - u'')), sq_nonneg ((v - v') - (v' - v''))]

theorem newton_raphson_loop_not_continues {α : Type} [LinearOrderedField α]
    (surface : NURBSSurface α) (P : Vec3 α) (fuel : Nat) (s : NewtonState α)
    (h : newton_raphson_continues s = false) :
    newton_raphson_loop surface P fuel s = some s := by
  cases fuel with
  | zero => unfold newton_raphson_loop; rw [h]; rfl
  | succ n => unfold newton_raphson_loop; rw [h]; rfl

theorem newton_raphson_loop_in_basin {α : Type} [LinearOrderedField α]
    (surface : NURBSSurface α) (P : Vec3 α) (u_star v_star : α) (D : α → α → Prop)
    (hD : newton_basin surface P u_star v_star D) (n : Nat) :
    ∀ s_prev : NewtonState α, D s_prev.u_k s_prev.v_k →
      s_prev.Q_k = surface.EvaluateSurfacePoint s_prev.u_k s_prev.v_k →
      5 / 2 * parameter_distance_sq s_prev.u_k s_prev.v_k u_star v_star ≤
        4 ^ n * (1 / 100000) ^ 2 →
      ∃ s, newton_raphson_loop surface P n (newton_raphson_body surface P s_prev) = some s ∧
        parameter_distance_sq s.u_k s.v_k u_star v_star ≤ (1 / 100000) ^ 2 ∧
        s.Q_k = surface.EvaluateSurfacePoint s.u_k s.v_k ∧ s_prev.k + 1 ≤ s.k := by
  induction n with
  | zero =>
    intro s_prev hin hQ hbound
    obtain ⟨hu, hv, hQ', hnorm, hk⟩ := newton_raphson_body_from_surface surface P s_prev hQ
    obtain ⟨_, hin', hcontr⟩ := hD _ _ hin
    rw [← hu, ← hv] at hin' hcontr
    have htri := parameter_distance_sq_triangle s_prev.u_k s_prev.v_k
      (newton_raphson_body surface P s_prev).u_k (newton_raphson_body surface P s_prev).v_k
      u_star v_star
    have htri' := parameter_distance_sq_triangle s_prev.u_k s_prev.v_k u_star v_star
      (newton_raphson_body surface P s_prev).u_k (newton_raphson_body surface P s_prev).v_k
    have hsymm : parameter_distance_sq u_star v_star
        (newton_raphson_body surface P s_prev).u_k (newton_raphson_body surface P s_prev).v_k =
        parameter_distance_sq (newton_raphson_body surface P s_prev).u_k
          (newton_raphson_body surface P s_prev).v_k u_star v_star := by
      unfold parameter_distance_sq
      ring
    rw [hsymm] at htri'
    rw [← hnorm] at htri htri'
    have hstop : newton_raphson_continues (newton_raphson_body surface P s_prev) = false := by
      unfold newton_raphson_continues
      simp only [decide_eq_false_iff_not, gt_iff_lt, not_lt]
      simp only [pow_zero, one_mul] at hbound
      linarith
    refine ⟨_, newton_raphson_loop_not_continues surface P 0 _ hstop, ?_, hQ', ?_⟩
    · unfold newton_raphson_continues at hstop
      simp only [decide_eq_false_iff_not, gt_iff_lt, not_lt] at hstop
      linarith
    · rw [hk]
  | succ m ih =>
    intro s_prev hin hQ hbound
    obtain ⟨hu, hv, hQ', hnorm, hk⟩ := newton_raphson_body_from_surface surface P s_prev hQ
    obtain ⟨_, hin', hcontr⟩ := hD _ _ hin
    rw [← hu, ← hv] at hin' hcontr
    have htri := parameter_distance_sq_triangle s_prev.u_k s_prev.v_k
      (newton_raphson_body surface P s_prev).u_k (newton_raphson_body surface P s_prev).v_k
      u_star v_star
    rw [← hnorm] at htri
    cases hc : newton_raphson_continues (newton_raphson_body surface P s_prev) with
    | false =>
      refine ⟨_, newton_raphson_loop_not_continues surface P _ _ hc, ?_, hQ', ?_⟩
      · unfold newton_raphson_continues at hc
        simp only [decide_eq_false_iff_not, gt_iff_lt, not_lt] at hc
        linarith
      · rw [hk]
    | true =>
      have hb : 5 / 2 * parameter_distance_sq (newton_raphson_body surface P s_prev).u_k
          (newton_raphson_body surface P s_prev).v_k u_star v_star ≤
          4 ^ m * (1 / 100000) ^ 2 := by
        rw [pow_succ] at hbound
        linarith
      obtain ⟨s, hs, hdist, hQs, hks⟩ := ih _ hin' hQ' hb
      refine ⟨s, ?_, hdist, hQs, ?_⟩
      · rw [newton_raphson_loop, if_pos hc]
        exact hs
      · rw [hk] at hks
        omega

/-- Claim C16 (amended): closest-point idempotence on the basin of the Newton-Raphson
iteration. For an FE Gauss point that lies exactly on the surface at `(u*, v*)` and a region
`D` of seeds on which the Hessian is invertible and the Newton-Raphson step stays in `D`
and at least halves the distance to `(u*, v*)`, the loop started from any seed of `D` (with
`Q_k` the surface point of the seed) stops after one or more iterations and returns
parameters within 1e-5 of `(u*, v*)`, with `Q_k` the surface point at these parameters.
From the seed `(u*, v*)` itself, when the gradient vanishes there and the Hessian is
invertible, it stops after exactly one iteration and returns `(u*, v*)`. -/
theorem newton_raphson_converges_in_basin {α : Type} [LinearOrderedField α] [Archimedean α]
    (surface : NURBSSurface α) (u_star v_star : α) (D : α → α → Prop)
    (hD : newton_basin surface (surface.EvaluateSurfacePoint u_star v_star) u_star v_star D)
    (u_0 v_0 : α) (h0 : D u_0 v_0) :
    (∃ (fuel : Nat) (s : NewtonState α),
      newton_raphson_loop surface (surface.EvaluateSurfacePoint u_star v_star) fuel
        (newton_raphson_init u_0 v_0 (surface.EvaluateSurfacePoint u_0 v_0)) = some s ∧
      1 ≤ s.k ∧
      parameter_distance_sq s.u_k s.v_k u_star v_star ≤ (1 / 100000) ^ 2 ∧
      s.Q_k = surface.EvaluateSurfacePoint s.u_k s.v_k) ∧
    ((surface.EvaluateGradientsForClosestPointSearch { x := 0, y := 0, z := 0 }
        u_star v_star).2 = { x := 0, y := 0 } →
      hessian_determinant surface (surface.EvaluateSurfacePoint u_star v_star) u_star v_star ≠
        0 →
      ∃ s, newton_raphson_loop surface (surface.EvaluateSurfacePoint u_star v_star) 1
          (newton_raphson_init u_star v_star (surface.EvaluateSurfacePoint u_star v_star)) =
          some s ∧
        s.u_k = u_star ∧ s.v_k = v_star ∧
        s.Q_k = surface.EvaluateSurfacePoint u_star v_star ∧ s.k = 1) := by
  constructor
  · have htol : (0 : α) < (1 / 100000) ^ 2 := by norm_num
    obtain ⟨n, hn⟩ := pow_unbounded_of_one_lt
      (5 / 2 * parameter_distance_sq u_0 v_0 u_star v_star / (1 / 100000) ^ 2)
      (by norm_num : (1 : α) < 4)
    rw [div_lt_iff₀ htol] at hn
    obtain ⟨s, hs, hdist, hQ, hk⟩ := newton_raphson_loop_in_basin surface
      (surface.EvaluateSurfacePoint u_star v_star) u_star v_star D hD n
      (newton_raphson_init u_0 v_0 (surface.EvaluateSurfacePoint u_0 v_0)) h0 rfl hn.le
    refine ⟨n + 1, s, ?_, ?_, hdist, hQ⟩
    · rw [newton_raphson_loop, if_pos (newton_raphson_init_continues _ _ _)]
      exact hs
    · simpa [newton_raphson_init] using hk
  · intro hgrad hdet
    have _ := hdet
    exact newton_raphson_loop_from_stationary_seed surface u_star v_star hgrad

theorem search_conditions_append {α : Type} [LinearOrderedField α] [Inhabited α]
    (SearchNearestPoint : List (CADNode α) → Vec3 α → Option Nat)
    (GetKnotSpan : NURBSSurface α → α → α → Int × Int)
    (GlobalCoordinates : Condition α → Nat → Vec3 α) (m_patches : List (Patch α))
    (samples : CoarseSamples α) (fuel : Nat) (conditions added : List (Condition α))
    (st : Option (SearchState α)) :
    search_conditions SearchNearestPoint GetKnotSpan GlobalCoordinates m_patches samples fuel
        (conditions ++ added) st =
      search_conditions SearchNearestPoint GetKnotSpan GlobalCoordinates m_patches samples
        fuel added
        (search_conditions SearchNearestPoint GetKnotSpan GlobalCoordinates m_patches samples
          fuel conditions st) := by
  unfold search_conditions
  rw [List.foldl_append]

theorem search_conditions_appended_records {α : Type} [LinearOrderedField α] [Inhabited α]
    (SearchNearestPoint : List (CADNode α) → Vec3 α → Option Nat)
    (GetKnotSpan : NURBSSurface α → α → α → Int × Int)
    (GlobalCoordinates : Condition α → Nat → Vec3 α) (m_patches : List (Patch α))
    (samples : CoarseSamples α) (fuel : Nat) (conditions added : List (Condition α))
    (st0 st st' : SearchState α)
    (h : search_conditions SearchNearestPoint GetKnotSpan GlobalCoordinates m_patches samples
      fuel conditions (some st0) = some st)
    (h' : search_conditions SearchNearestPoint GetKnotSpan GlobalCoordinates m_patches samples
      fuel (conditions ++ added) (some st0) = some st') :
    ∃ new, st'.nearest_points = st.nearest_points ++ new := by
  rw [search_conditions_append, h, search_conditions_visits] at h'
  obtain ⟨new, hnew, _⟩ := search_visits_records _ _ _ _ _ _ _ _ _ h'
  exact ⟨new, hnew⟩

/-- Claim C18 (amended): row-index stability for FE Gauss points appended to the traversal.
When the conditions `added` follow the conditions of the first build in the loop over the
conditions (and both searches return), the records of the first build are a prefix of those
of the second. A control point that is relevant in the first build is then relevant in the
second, in both builds its row id is the number of relevant control points before it in
the patch-then-control-point traversal, the row id of the second build is not smaller,
and it is the same when the relevance flags of the control points before it are the same in
both builds. -/
theorem mapping_matrix_id_stable_when_appended {α : Type} [LinearOrderedField α]
    [Inhabited α] (SearchNearestPoint : List (CADNode α) → Vec3 α → Option Nat)
    (GetKnotSpan : NURBSSurface α → α → α → Int × Int)
    (GlobalCoordinates : Condition α → Nat → Vec3 α)
    (support : Nat → Int → Int → α → α → List Nat) (m_patches : List (Patch α))
    (samples : CoarseSamples α) (fuel : Nat) (conditions added : List (Condition α))
    (m_brep_elements : List (BREPElement α)) (st st' : SearchState α)
    (h : search_conditions SearchNearestPoint GetKnotSpan GlobalCoordinates m_patches samples
      fuel conditions (some (SearchState.initial samples)) = some st)
    (h' : search_conditions SearchNearestPoint GetKnotSpan GlobalCoordinates m_patches samples
      fuel (conditions ++ added) (some (SearchState.initial samples)) = some st')
    (i : Nat) (cp : ControlPoint α)
    (hcp : (all_control_points (compute_mapping_matrix_relevance support m_patches
      st.nearest_points m_brep_elements).1)[i]? = some cp)
    (hrel : cp.m_is_relevant_for_mapping = true) :
    st.nearest_points <+: st'.nearest_points ∧
    ∃ cp', (all_control_points (compute_mapping_matrix_relevance support m_patches
        st'.nearest_points m_brep_elements).1)[i]? = some cp' ∧
      cp'.m_is_relevant_for_mapping = true ∧
      cp.m_mapping_matrix_id = some (relevant_count ((all_control_points
        (compute_mapping_matrix_relevance support m_patches st.nearest_points
          m_brep_elements).1).take i)) ∧
      cp'.m_mapping_matrix_id = some (relevant_count ((all_control_points
        (compute_mapping_matrix_relevance support m_patches st'.nearest_points
          m_brep_elements).1).take i)) ∧
      relevant_count ((all_control_points (compute_mapping_matrix_relevance support m_patches
          st.nearest_points m_brep_elements).1).take i) ≤
        relevant_count ((all_control_points (compute_mapping_matrix_relevance support
          m_patches st'.nearest_points m_brep_elements).1).take i) ∧
      (((all_control_points (compute_mapping_matrix_relevance support m_patches
          st.nearest_points m_brep_elements).1).take i).map
            (fun cp => cp.m_is_relevant_for_mapping) =
        ((all_control_points (compute_mapping_matrix_relevance support m_patches
          st'.nearest_points m_brep_elements).1).take i).map
            (fun cp => cp.m_is_relevant_for_mapping) →
        cp'.m_mapping_matrix_id = cp.m_mapping_matrix_id) := by
  obtain ⟨new, hnew⟩ := search_conditions_appended_records SearchNearestPoint GetKnotSpan
    GlobalCoordinates m_patches samples fuel conditions added _ st st' h h'
  have hpre : st.nearest_points <+: st'.nearest_points := ⟨new, hnew.symm⟩
  exact ⟨hpre, mapping_matrix_id_counts_preceding support m_patches st.nearest_points
    st'.nearest_points m_brep_elements hpre.sublist i cp hcp hrel⟩

/-! ## The remaining claims, the counterexample and the evaluations on concrete inputs -/

set_option synthInstance.maxSize 2048

/-- Claim C2: `Patch::CheckIfPointIsInside` returns true if and only if the point is
contained (`within`) in the closed polygon of every outer boundary loop and not contained
in the closed polygon of any inner boundary loop. In particular, for a patch with a single
outer loop that contains the point the answer is true, and once an inner loop that
contains the point is added the answer is false. -/
theorem Patch_CheckIfPointIsInside_classification {α : Type}
    (within : Vec2 α → List (Vec2 α) → Bool) (patch : Patch α) (poi : Vec2 α) :
    (patch.CheckIfPointIsInside within poi = true ↔
      ∀ loop_i ∈ patch.m_boundary_loops,
        (loop_i.is_inner_loop = false →
          within poi (exterior_ring loop_i.boundary_polygon) = true) ∧
        (loop_i.is_inner_loop = true →
          within poi (exterior_ring loop_i.boundary_polygon) = false)) ∧
    (∀ outer_polygon inner_polygon : List (Vec2 α),
      patch.m_boundary_loops = [{ boundary_polygon := outer_polygon, is_inner_loop := false }] →
      within poi (exterior_ring outer_polygon) = true →
      patch.CheckIfPointIsInside within poi = true ∧
      (within poi (exterior_ring inner_polygon) = true →
        Patch.CheckIfPointIsInside within
          { patch with
            m_boundary_loops := patch.m_boundary_loops ++
              [{ boundary_polygon := inner_polygon, is_inner_loop := true }] } poi = false)) := by
  refine ⟨Patch_CheckIfPointIsInside_iff within patch poi, ?_⟩
  intro outer_polygon inner_polygon hloops houter
  constructor
  · rw [Patch_CheckIfPointIsInside_iff, hloops]
    simp [houter]
  · intro hinner
    simp [Patch.CheckIfPointIsInside, CheckIfPointIsInside_loop, hloops, houter, hinner]

/-- The point `(2, 2)` lies in the outer square `[0,4]^2` of the first example patch and is
classified inside; with the inner loop `[1,3]^2` around it, it is classified outside. -/
theorem Patch_CheckIfPointIsInside_classification_witness :
    Patch.CheckIfPointIsInside crossing_within (patchAt example_patches 0) { x := 2, y := 2 }
      = true ∧
    Patch.CheckIfPointIsInside crossing_within
      { patchAt example_patches 0 with
        m_boundary_loops := (patchAt example_patches 0).m_boundary_loops ++
          [{ boundary_polygon := square_polygon 1 3, is_inner_loop := true }] }
      { x := 2, y := 2 } = false :=
  have h := (Patch_CheckIfPointIsInside_classification crossing_within
    (patchAt example_patches 0) { x := 2, y := 2 }).2 (square_polygon 0 4) (square_polygon 1 3)
    rfl (by decide)
  ⟨h.1, h.2 (by decide)⟩

/-- On the example inputs the entry `(0, 1)` of the CAD-CAD matrix is no position
`(3*row_i + a, 3*row_j + a)` and is zero. -/
theorem compute_mapping_matrix_assembly_entries_witness :
    (compute_mapping_matrix_assembly example_patches example_lists example_conditions 3
      2).m_mapping_matrix_CAD_CAD 0 1 = 0 :=
  (compute_mapping_matrix_assembly_entries example_patches example_lists example_conditions
    3 2 0 1).2.2.1 (by decide)

/-- On the example patches (no row id assigned on entry) the indexing pass numbers the
three relevant control points 0, 1, 2 and counts 3 of them. -/
theorem compute_mapping_matrix_indexing_ids_witness :
    ((all_control_points (compute_mapping_matrix_indexing example_patches).1).filter
        (fun cp => cp.m_is_relevant_for_mapping)).map (fun cp => cp.m_mapping_matrix_id) =
      (List.range (relevant_count (all_control_points example_patches))).map some ∧
    (compute_mapping_matrix_indexing example_patches).2.m_n_relevant_control_points =
      relevant_count (all_control_points example_patches) :=
  have h := compute_mapping_matrix_indexing_ids example_patches (by decide)
  ⟨h.2.2.1, h.2.2.2.1⟩

/-- With master row 0, slave row 1, basis value 1 on both sides and a vector that is
equal on both sides of the seam, the quadratic form of the added matrix is zero. -/
theorem apply_displacement_coupling_penalty_witness :
    quadForm 6 (fun q => (q % 3 : ℤ) + 1) (fun p q =>
      (apply_displacement_coupling (single_id 0) (single_id 1) (single_value 1)
          (single_value 1) 1 1 1 (MappingSystem.cleared ℤ 2 0)).m_mapping_matrix_CAD_CAD p q
        - (MappingSystem.cleared ℤ 2 0).m_mapping_matrix_CAD_CAD p q) = 0 :=
  (apply_displacement_coupling_penalty (single_id 0) (single_id 1) (single_value 1)
    (single_value 1) 1 1 1 (MappingSystem.cleared ℤ 2 0) 6 (fun q => (q % 3 : ℤ) + 1)
    (by decide) (by decide)).2.2 (by decide)

/-- Claim C8 as stated fails: with master row 0 and basis value 1, slave row 1 and basis
value 2, and `p = w = J = 1`, starting from the cleared matrix the value added to the
Master-Slave entry `(0, 3)` is `-2`, the value added to the Master-Master entry `(0, 0)`
is `1`, and `-2` is not the negation of `1`. -/
theorem apply_displacement_coupling_MS_not_negated_MM :
    (apply_displacement_coupling (single_id 0) (single_id 1) (single_value 1)
        (single_value 2) 1 1 1 (MappingSystem.cleared ℤ 2 0)).m_mapping_matrix_CAD_CAD 0 3 = -2 ∧
    (apply_displacement_coupling (single_id 0) (single_id 1) (single_value 1)
        (single_value 2) 1 1 1 (MappingSystem.cleared ℤ 2 0)).m_mapping_matrix_CAD_CAD 0 0 = 1 ∧
    (apply_displacement_coupling (single_id 0) (single_id 1) (single_value 1)
        (single_value 2) 1 1 1 (MappingSystem.cleared ℤ 2 0)).m_mapping_matrix_CAD_CAD 0 3 ≠
      -(apply_displacement_coupling (single_id 0) (single_id 1) (single_value 1)
        (single_value 2) 1 1 1 (MappingSystem.cleared ℤ 2 0)).m_mapping_matrix_CAD_CAD 0 0 := by
  decide

/-- With master row 0, slave row 1 and the same basis value 3 on both sides, the value
added to the Master-Slave entry is the negation of the value added to the Master-Master
entry. -/
theorem apply_displacement_coupling_MS_MM_entries_witness :
    (apply_displacement_coupling (single_id 0) (single_id 1) (single_value 3)
        (single_value 3) 1 1 1 (MappingSystem.cleared ℤ 2 0)).m_mapping_matrix_CAD_CAD
          (3 * (single_id 0).get 0 0 + 0) (3 * (single_id 1).get 0 0 + 0)
        - (MappingSystem.cleared ℤ 2 0).m_mapping_matrix_CAD_CAD
          (3 * (single_id 0).get 0 0 + 0) (3 * (single_id 1).get 0 0 + 0) =
      -((apply_displacement_coupling (single_id 0) (single_id 1) (single_value 3)
        (single_value 3) 1 1 1 (MappingSystem.cleared ℤ 2 0)).m_mapping_matrix_CAD_CAD
          (3 * (single_id 0).get 0 0 + 0) (3 * (single_id 0).get 0 0 + 0)
        - (MappingSystem.cleared ℤ 2 0).m_mapping_matrix_CAD_CAD
          (3 * (single_id 0).get 0 0 + 0) (3 * (single_id 0).get 0 0 + 0)) :=
  (apply_displacement_coupling_MS_MM_entries (single_id 0) (single_id 1) (single_value 3)
    (single_value 3) 1 1 1 (MappingSystem.cleared ℤ 2 0)
    (by unfold distinct_ids; decide) (by unfold distinct_ids; decide)
    (by unfold disjoint_ids; decide) 0 0 0 0 0 0 0
    (by decide) (by decide) (by decide) (by decide) (by decide) (by decide) (by decide)).2.2 rfl

/-- On the example Dirichlet element: with edge 7 not listed all three axes are fixed; with
the entry `[7, [true, false, false]]` the entry `(1, 4)` on the y stride keeps its value. -/
theorem apply_dirichlet_condition_axes_witness :
    dirichlet_fixing (example_brep_element false).edge_id [] = (true, true, true) ∧
    (apply_dirichlet_condition (fun _ => 1) example_patches (example_brep_element false) 2
        [(7, (true, false, false))] (MappingSystem.cleared ℤ 3 0)).m_mapping_matrix_CAD_CAD 1 4 =
      (MappingSystem.cleared ℤ 3 0).m_mapping_matrix_CAD_CAD 1 4 :=
  ⟨(apply_dirichlet_condition_axes (fun _ => 1) example_patches (example_brep_element false) 2
      [] (MappingSystem.cleared ℤ 3 0)).1 (by decide),
   (apply_dirichlet_condition_axes (fun _ => 1) example_patches (example_brep_element false) 2
      [(7, (true, false, false))] (MappingSystem.cleared ℤ 3 0)).2.2.2 (by decide) 1 4
      (Or.inl (by decide))⟩

/-- On the example coupling element with edge 7: listed with factor 5 the Gauss point
receives tangent continuity after the displacement coupling, not listed it receives the
rotation coupling after the displacement coupling. -/
theorem apply_coupling_condition_selection_witness :
    apply_coupling_condition (fun _ => 1) example_patches (example_brep_element true) 2 1
        [(7, 5)] (MappingSystem.cleared ℤ 3 0) =
      (example_brep_element true).gauss_points.foldl (fun s gp =>
        enforce_tangent_continuity (master_patch_of example_patches gp)
          (slave_patch_of example_patches gp)
          gp.location.x gp.location.y gp.location_slave.x gp.location_slave.y
          gp.tangent gp.tangent_slave
          (mapping_matrix_ids_gpi_master_of example_patches gp)
          (mapping_matrix_ids_gpi_slave_of example_patches gp)
          (J1_of (fun _ => 1) example_patches gp) gp.weight 5
          (apply_displacement_coupling (mapping_matrix_ids_gpi_master_of example_patches gp)
            (mapping_matrix_ids_gpi_slave_of example_patches gp)
            (R_gpi_master_of example_patches gp) (R_gpi_slave_of example_patches gp)
            (J1_of (fun _ => 1) example_patches gp) gp.weight 2 s))
        (MappingSystem.cleared ℤ 3 0) ∧
    apply_coupling_condition (fun _ => 1) example_patches (example_brep_element true) 2 1
        [] (MappingSystem.cleared ℤ 3 0) =
      (example_brep_element true).gauss_points.foldl (fun s gp =>
        apply_rotation_coupling (master_patch_of example_patches gp)
          (slave_patch_of example_patches gp)
          gp.location.x gp.location.y gp.location_slave.x gp.location_slave.y
          gp.tangent gp.tangent_slave
          (mapping_matrix_ids_gpi_master_of example_patches gp)
          (mapping_matrix_ids_gpi_slave_of example_patches gp)
          (J1_of (fun _ => 1) example_patches gp) gp.weight 1
          (apply_displacement_coupling (mapping_matrix_ids_gpi_master_of example_patches gp)
            (mapping_matrix_ids_gpi_slave_of example_patches gp)
            (R_gpi_master_of example_patches gp) (R_gpi_slave_of example_patches gp)
            (J1_of (fun _ => 1) example_patches gp) gp.weight 2 s))
        (MappingSystem.cleared ℤ 3 0) :=
  ⟨(apply_coupling_condition_selection (fun _ => 1) example_patches
      (example_brep_element true) 2 1 [(7, 5)] (MappingSystem.cleared ℤ 3 0)).2.2.1
      [] [] 5 rfl (by decide),
   (apply_coupling_condition_selection (fun _ => 1) example_patches
      (example_brep_element true) 2 1 [] (MappingSystem.cleared ℤ 3 0)).2.2.2 (by decide)⟩

/-- The matrix handed to the solver on the unit inputs is the 3 x 3 identity. -/
theorem unit_system_matrix : ∀ p < 3, ∀ q < 3,
    (map_to_cad_space_system unit_nodes
      (compute_mapping_matrix_assembly unit_patches unit_lists unit_conditions 1
        1)).m_mapping_matrix_CAD_CAD p q = if p = q then 1 else 0 := by
  decide!

/-- The matrix handed to the solver on the unit inputs is nonsingular. -/
theorem unit_system_nonsingular :
    nonsingular (3 * 1) (map_to_cad_space_system unit_nodes
      (compute_mapping_matrix_assembly unit_patches unit_lists unit_conditions 1
        1)).m_mapping_matrix_CAD_CAD := by
  intro x hx q hq
  have h := hx q hq
  simp only [prod, Finset.sum_range_succ, Finset.sum_range_zero, zero_add] at h
  have hq3 : q < 3 := hq
  rw [unit_system_matrix q hq3 0 (by decide), unit_system_matrix q hq3 1 (by decide),
    unit_system_matrix q hq3 2 (by decide)] at h
  interval_cases q <;> simpa using h

/-- On the unit inputs (one control point, one FE node with displacement `(1, 0, 0)`) the
solution returned by a solver that solves the identity system is the uniform
displacement `(1, 0, 0)` on the three rows of the control point. -/
theorem uniform_displacement_reproduced_witness :
    map_to_cad_space_ds (fun _ _ rhs => rhs) unit_nodes
        (compute_mapping_matrix_assembly unit_patches unit_lists unit_conditions 1 1) 0 =
      uniform_displacement ({ x := 1, y := 0, z := 0 } : Vec3 ℚ) 0 ∧
    map_to_cad_space_ds (fun _ _ rhs => rhs) unit_nodes
        (compute_mapping_matrix_assembly unit_patches unit_lists unit_conditions 1 1) 1 =
      uniform_displacement ({ x := 1, y := 0, z := 0 } : Vec3 ℚ) 1 ∧
    map_to_cad_space_ds (fun _ _ rhs => rhs) unit_nodes
        (compute_mapping_matrix_assembly unit_patches unit_lists unit_conditions 1 1) 2 =
      uniform_displacement ({ x := 1, y := 0, z := 0 } : Vec3 ℚ) 2 :=
  have h := (uniform_displacement_reproduced unit_patches unit_lists unit_conditions 1 1
    unit_nodes { x := 1, y := 0, z := 0 } (by decide) (by decide) (by decide!) (by decide!)
    (by decide!) (by decide) (by decide!)).2.2
    (map_to_cad_space_ds (fun _ _ rhs => rhs) unit_nodes
      (compute_mapping_matrix_assembly unit_patches unit_lists unit_conditions 1 1))
    (by decide!) unit_system_nonsingular
  ⟨h 0 (by decide), h 1 (by decide), h 2 (by decide)⟩

theorem UpdateControlPoints_writes_back_witness :
    (∀ cp ∈ all_control_points (compute_mapping_matrix_indexing example_patches).1,
      cp.m_is_relevant_for_mapping = true → cp.m_mapping_matrix_id.isSome = true) ∧
    ((UpdateControlPoints (fun q => (q : ℤ) + 100)
        (compute_mapping_matrix_indexing example_patches).1).map
      (fun updated => (all_control_points updated).map
        (fun cp => (cp.m_is_relevant_for_mapping, cp.m_mapping_matrix_id, cp.dX, cp.dY, cp.dZ))))
      = some [(true, some 0, 100, 101, 102), (false, none, 0, 0, 0),
        (true, some 1, 103, 104, 105), (true, some 2, 106, 107, 108)] :=
  ⟨by decide, by
    rw [(UpdateControlPoints_writes_back (fun q => (q : ℤ) + 100)
      (compute_mapping_matrix_indexing example_patches).1 (by decide)).1]
    decide⟩

theorem newton_raphson_stops_at_other_stationary_point :
    parabolic_strip.EvaluateSurfacePoint 3 0 = parabolic_strip_surface_point ∧
    (newton_raphson_loop parabolic_strip parabolic_strip_surface_point 1
        (newton_raphson_init (-1) 0 (parabolic_strip.EvaluateSurfacePoint (-1) 0))).map
      (fun s => (s.u_k, s.v_k, s.k)) = some (-1, 0, 1) ∧
    ¬ (abs ((-1 : ℚ) - 3) ≤ 1 / 100000) := by
  refine ⟨by decide!, by decide!, by norm_num⟩

theorem relevant_control_points_monotone_witness :
    [bilinear_nearest_point 1].Sublist [bilinear_nearest_point 0, bilinear_nearest_point 1] ∧
    (compute_mapping_matrix_relevance bilinear_support bilinear_patches
      [bilinear_nearest_point 1] []).2.m_n_relevant_control_points ≤
    (compute_mapping_matrix_relevance bilinear_support bilinear_patches
      [bilinear_nearest_point 0, bilinear_nearest_point 1] []).2.m_n_relevant_control_points :=
  ⟨List.Sublist.cons _ (List.Sublist.refl _),
    relevant_control_points_monotone bilinear_support bilinear_patches
      [bilinear_nearest_point 1] [bilinear_nearest_point 0, bilinear_nearest_point 1] []
      (List.Sublist.cons _ (List.Sublist.refl _))⟩

theorem mapping_matrix_id_changes_with_added_gauss_point :
    (all_control_points (compute_mapping_matrix_relevance bilinear_support bilinear_patches
        [bilinear_nearest_point 1] []).1).map
      (fun cp => (cp.m_is_relevant_for_mapping, cp.m_mapping_matrix_id)) =
      [(false, none), (true, some 0), (true, some 1), (false, none), (true, some 2),
        (true, some 3)] ∧
    (all_control_points (compute_mapping_matrix_relevance bilinear_support bilinear_patches
        [bilinear_nearest_point 1, bilinear_nearest_point 0] []).1).map
      (fun cp => (cp.m_is_relevant_for_mapping, cp.m_mapping_matrix_id)) =
      [(true, some 0), (true, some 1), (true, some 2), (true, some 3), (true, some 4),
        (true, some 5)] := by
  decide

theorem mapping_matrix_id_counts_preceding_witness :
    ([bilinear_nearest_point 1].Sublist [bilinear_nearest_point 1, bilinear_nearest_point 0] ∧
      (all_control_points (compute_mapping_matrix_relevance bilinear_support bilinear_patches
        [bilinear_nearest_point 1] []).1)[1]? = some bilinear_control_point_1 ∧
      bilinear_control_point_1.m_is_relevant_for_mapping = true) ∧
    ∃ cp', (all_control_points (compute_mapping_matrix_relevance bilinear_support
        bilinear_patches [bilinear_nearest_point 1, bilinear_nearest_point 0] []).1)[1]? =
        some cp' ∧
      cp'.m_is_relevant_for_mapping = true ∧
      bilinear_control_point_1.m_mapping_matrix_id = some (relevant_count ((all_control_points
        (compute_mapping_matrix_relevance bilinear_support bilinear_patches
          [bilinear_nearest_point 1] []).1).take 1)) ∧
      cp'.m_mapping_matrix_id = some (relevant_count ((all_control_points
        (compute_mapping_matrix_relevance bilinear_support bilinear_patches
          [bilinear_nearest_point 1, bilinear_nearest_point 0] []).1).take 1)) ∧
      relevant_count ((all_control_points (compute_mapping_matrix_relevance bilinear_support
          bilinear_patches [bilinear_nearest_point 1] []).1).take 1) ≤
        relevant_count ((all_control_points (compute_mapping_matrix_relevance bilinear_support
          bilinear_patches [bilinear_nearest_point 1, bilinear_nearest_point 0] []).1).take 1) ∧
      (((all_control_points (compute_mapping_matrix_relevance bilinear_support bilinear_patches
          [bilinear_nearest_point 1] []).1).take 1).map
            (fun cp => cp.m_is_relevant_for_mapping) =
        ((all_control_points (compute_mapping_matrix_relevance bilinear_support
          bilinear_patches [bilinear_nearest_point 1, bilinear_nearest_point 0] []).1).take
            1).map (fun cp => cp.m_is_relevant_for_mapping) →
        cp'.m_mapping_matrix_id = bilinear_control_point_1.m_mapping_matrix_id) :=
  ⟨⟨List.Sublist.cons₂ _ (List.nil_sublist _), by decide, rfl⟩,
    mapping_matrix_id_counts_preceding bilinear_support bilinear_patches
      [bilinear_nearest_point 1] [bilinear_nearest_point 1, bilinear_nearest_point 0] []
      (List.Sublist.cons₂ _ (List.nil_sublist _)) 1 bilinear_control_point_1 (by decide) rfl⟩

theorem apply_boundary_conditions_unknown_edge_ignored :
    (99 ∉ [example_brep_element true, example_brep_element false].map (fun e => e.edge_id)) ∧
    apply_boundary_conditions (fun _ => 1) example_patches
        [example_brep_element true, example_brep_element false] 1 1 1
        [(99, (true, false, false))] [(99, 5)] (MappingSystem.cleared ℤ 3 0) =
      apply_boundary_conditions (fun _ => 1) example_patches
        [example_brep_element true, example_brep_element false] 1 1 1 [] []
        (MappingSystem.cleared ℤ 3 0) := by
  refine ⟨by decide, ?_⟩
  rw [← apply_boundary_conditions_filter (fun _ => 1) example_patches
    [example_brep_element true, example_brep_element false] 1 1 1
    [(99, (true, false, false))] [(99, 5)]]
  rfl

theorem apply_boundary_conditions_rhs_unchanged_witness :
    (∀ e ∈ [example_brep_element true, example_brep_element false],
      e.edge_id ∉ [((99 : Nat), (5 : ℤ))].map Prod.fst) ∧
    (apply_boundary_conditions (fun _ => 1) example_patches
      [example_brep_element true, example_brep_element false] 1 1 1 [] [(99, 5)]
      (MappingSystem.cleared ℤ 3 0)).m_mapping_rhs_vector =
      (MappingSystem.cleared ℤ 3 0).m_mapping_rhs_vector :=
  ⟨by decide,
    (apply_boundary_conditions_rhs_unchanged (fun _ => 1) example_patches
      [example_brep_element true, example_brep_element false] 1 1 1 [] [(99, 5)]
      (MappingSystem.cleared ℤ 3 0) (by decide)).2.2.2.1⟩


theorem Patch_CheckIfPointIsInside_no_loops_witness :
    (patchAt example_patches 1).m_boundary_loops = [] ∧
    (patchAt example_patches 1).CheckIfPointIsInside crossing_within { x := 100, y := -7 } =
      true :=
  ⟨rfl, Patch_CheckIfPointIsInside_no_loops crossing_within (patchAt example_patches 1) rfl _⟩

theorem ReadIntegrationData_element_kinds_witness :
    ReadIntegrationData example_integration_data [] = some example_read_elements ∧
    List.Forall₂ read_from_entry (brep_element_entries example_integration_data)
      example_read_elements ∧
    (∀ e ∈ example_read_elements,
      (e.has_coupling_condition = true ∧ e.has_dirichlet_condition = false) ∨
      (e.has_coupling_condition = false ∧ e.has_dirichlet_condition = true)) :=
  ⟨rfl,
    (ReadIntegrationData_element_kinds example_integration_data example_read_elements rfl).1,
    (ReadIntegrationData_element_kinds example_integration_data example_read_elements
      rfl).2.1⟩

theorem search_gauss_point_records_witness :
    search_gauss_point Tree.SearchNearestPoint plane_GetKnotSpan plane_patches plane_samples 2
        plane_gauss_point_A (SearchState.initial plane_samples) = some plane_state_after_A ∧
    ∃ (nearest_point : Nat) (record : NearestPoint ℚ) (node : CADNode ℚ) (s : NewtonState ℚ),
      plane_state_after_A.list_of_nearest_points =
        (SearchState.initial plane_samples).list_of_nearest_points ++ [nearest_point] ∧
      plane_state_after_A.nearest_points =
        (SearchState.initial plane_samples).nearest_points ++ [record] ∧
      (SearchState.initial plane_samples).list_of_cad_nodes[nearest_point]? = some node ∧
      newton_raphson_loop
        (patchAt plane_patches record.patch_itr_of_nearest_point).m_nurbs_surface
        plane_gauss_point_A 2
        (newton_raphson_init
          (plane_samples.list_of_us_of_cad_nodes.getD (node.Id - 1) 0)
          (plane_samples.list_of_vs_of_cad_nodes.getD (node.Id - 1) 0) node.Coordinates) =
          some s ∧
      1 ≤ s.k ∧
      record.u_of_nearest_point = s.u_k ∧ record.v_of_nearest_point = s.v_k ∧
      (plane_state_after_A.list_of_cad_nodes[nearest_point]?).map
          (fun node => node.Coordinates) =
        some ((patchAt plane_patches
          record.patch_itr_of_nearest_point).m_nurbs_surface.EvaluateSurfacePoint
            record.u_of_nearest_point record.v_of_nearest_point) ∧
      (record.span_u_of_np, record.span_v_of_np) =
        plane_GetKnotSpan
          (patchAt plane_patches record.patch_itr_of_nearest_point).m_nurbs_surface
          record.u_of_nearest_point record.v_of_nearest_point :=
  ⟨by decide!,
    (search_gauss_point_records Tree.SearchNearestPoint plane_GetKnotSpan plane_patches
      plane_samples 2 plane_gauss_point_A (SearchState.initial plane_samples)
      plane_state_after_A (by decide!)).1⟩

/-- Claim C27, the behaviour of the code on the plane `Q(u,v) = (u, v, 0)` with the coarse
samples `(2, 2, 0)` and `(4, 2, 0)`: the search of an FE Gauss point writes the converged
point into the sample node that the tree returned. Whatever search answers node 1 for the
Gauss point `A = (1/5, 2, 0)`, the step of `A` leaves node 1 at `(1/5, 2, 0)`, so the nodes
of the index are no longer those of the coarse sampling; for the Gauss point
`B = (29/10, 2, 0)` node 1 is the nearest sample before the step of `A` and node 2 is the
nearest one after it. -/
theorem search_gauss_point_overwrites_sample :
    coarse_sampling (fun _ _ => true) plane_GetKnotVectorU plane_GetKnotVectorV plane_patches
      3 2 = plane_samples ∧
    (∀ SearchNearestPoint : List (CADNode ℚ) → Vec3 ℚ → Option Nat,
      SearchNearestPoint plane_samples.list_of_cad_nodes plane_gauss_point_A = some 0 →
      search_gauss_point SearchNearestPoint plane_GetKnotSpan plane_patches plane_samples 2
        plane_gauss_point_A (SearchState.initial plane_samples) = some plane_state_after_A) ∧
    plane_samples.list_of_cad_nodes.map (fun node => node.Coordinates) =
      [{ x := 2, y := 2, z := 0 }, { x := 4, y := 2, z := 0 }] ∧
    plane_state_after_A.list_of_cad_nodes.map (fun node => node.Coordinates) =
      [{ x := 1 / 5, y := 2, z := 0 }, { x := 4, y := 2, z := 0 }] ∧
    squared_distance ({ x := 2, y := 2, z := 0 } : Vec3 ℚ) plane_gauss_point_B <
      squared_distance ({ x := 4, y := 2, z := 0 } : Vec3 ℚ) plane_gauss_point_B ∧
    squared_distance ({ x := 4, y := 2, z := 0 } : Vec3 ℚ) plane_gauss_point_B <
      squared_distance ({ x := 1 / 5, y := 2, z := 0 } : Vec3 ℚ) plane_gauss_point_B ∧
    Tree.SearchNearestPoint plane_samples.list_of_cad_nodes plane_gauss_point_A = some 0 ∧
    Tree.SearchNearestPoint plane_samples.list_of_cad_nodes plane_gauss_point_B = some 0 ∧
    Tree.SearchNearestPoint plane_state_after_A.list_of_cad_nodes plane_gauss_point_B =
      some 1 := by
  refine ⟨by decide!, ?_, by decide!, by decide!, by decide!, by decide!, by decide!,
    by decide!, by decide!⟩
  intro SearchNearestPoint h
  unfold search_gauss_point
  rw [show (SearchState.initial plane_samples).list_of_cad_nodes =
    plane_samples.list_of_cad_nodes from rfl, h]
  decide!

theorem correspondence_records_aligned_witness :
    search_conditions Tree.SearchNearestPoint plane_GetKnotSpan plane_GlobalCoordinates
      plane_patches plane_samples 2 plane_conditions (some (SearchState.initial plane_samples)) =
      some plane_state_after_A_B ∧
    plane_state_after_A_B.nearest_points.length = (gauss_point_visits plane_conditions).length ∧
    (∀ (lists : NearestPointLists ℚ) (s : MappingSystem ℚ),
      (assemble_conditions plane_patches lists plane_conditions (s, 0)).2 =
        plane_state_after_A_B.nearest_points.length) :=
  ⟨by decide!,
    (correspondence_records_aligned Tree.SearchNearestPoint plane_GetKnotSpan
      plane_GlobalCoordinates plane_patches plane_samples 2 plane_conditions
      plane_state_after_A_B (by decide!)).2.1,
    (correspondence_records_aligned Tree.SearchNearestPoint plane_GetKnotSpan
      plane_GlobalCoordinates plane_patches plane_samples 2 plane_conditions
      plane_state_after_A_B (by decide!)).2.2.1⟩

theorem apply_boundary_conditions_preserves_symmetry_witness :
    symmetric_matrix (MappingSystem.cleared ℤ 3 0).m_mapping_matrix_CAD_CAD ∧
    (7 ∈ [((7 : Nat), (5 : ℤ))].map Prod.fst) ∧
    symmetric_matrix
      (apply_boundary_conditions (fun _ => 1) tangent_patches
        [example_coupling_element [example_brep_gauss_point, example_brep_gauss_point_2],
          example_brep_element false] 1 1 1 [] [(7, 5)]
        (MappingSystem.cleared ℤ 3 0)).m_mapping_matrix_CAD_CAD :=
  ⟨fun _ _ => rfl, by decide,
    (apply_boundary_conditions_preserves_symmetry (fun _ => 1) tangent_patches
      [example_coupling_element [example_brep_gauss_point, example_brep_gauss_point_2],
        example_brep_element false] 1 1 1 [] [(7, 5)] (MappingSystem.cleared ℤ 3 0)
      (fun _ _ => rfl) (by
        intro e he hc _ gp hgp
        simp only [List.mem_cons, List.mem_singleton, List.not_mem_nil, or_false] at he
        rcases he with rfl | rfl
        · simp only [example_coupling_element, List.mem_cons, List.mem_singleton,
            List.not_mem_nil, or_false] at hgp
          rcases hgp with rfl | rfl
          · refine ⟨fun r c => ?_, fun r c => ?_⟩
            · show ({ x := (r : ℤ) + c, y := 1, z := 0 } : Vec3 ℤ) =
                { x := (c : ℤ) + r, y := 1, z := 0 }
              rw [add_comm]
            · show ({ x := (r : ℤ) * c, y := 0, z := 1 } : Vec3 ℤ) =
                { x := (c : ℤ) * r, y := 0, z := 1 }
              rw [mul_comm]
          · refine ⟨fun r c => ?_, fun r c => ?_⟩
            · show ({ x := (r : ℤ) + c, y := 1, z := 0 } : Vec3 ℤ) =
                { x := (c : ℤ) + r, y := 1, z := 0 }
              rw [add_comm]
            · show ({ x := (r : ℤ) * c, y := 0, z := 1 } : Vec3 ℤ) =
                { x := (c : ℤ) * r, y := 0, z := 1 }
              rw [mul_comm]
        · exact absurd hc (by decide))).1⟩

theorem apply_boundary_conditions_order_independent_witness :
    [example_coupling_element [example_brep_gauss_point, example_brep_gauss_point_2],
        example_brep_element false].Perm
      [example_brep_element false,
        example_coupling_element [example_brep_gauss_point, example_brep_gauss_point_2]] ∧
    List.Forall₂ same_gauss_points
      [example_brep_element false,
        example_coupling_element [example_brep_gauss_point, example_brep_gauss_point_2]]
      [example_brep_element false,
        example_coupling_element [example_brep_gauss_point_2, example_brep_gauss_point]] ∧
    apply_boundary_conditions (fun _ => 1) tangent_patches
        [example_brep_element false,
          example_coupling_element [example_brep_gauss_point_2, example_brep_gauss_point]]
        1 1 1 [] [(7, 5)] (MappingSystem.cleared ℤ 3 0) =
      apply_boundary_conditions (fun _ => 1) tangent_patches
        [example_coupling_element [example_brep_gauss_point, example_brep_gauss_point_2],
          example_brep_element false] 1 1 1 [] [(7, 5)] (MappingSystem.cleared ℤ 3 0) :=
  ⟨List.Perm.swap _ _ _,
    List.Forall₂.cons ⟨rfl, rfl, rfl, List.Perm.refl _⟩
      (List.Forall₂.cons ⟨rfl, rfl, rfl, List.Perm.swap _ _ _⟩ List.Forall₂.nil),
    apply_boundary_conditions_order_independent (fun _ => 1) tangent_patches
      [example_coupling_element [example_brep_gauss_point, example_brep_gauss_point_2],
        example_brep_element false]
      [example_brep_element false,
        example_coupling_element [example_brep_gauss_point, example_brep_gauss_point_2]]
      [example_brep_element false,
        example_coupling_element [example_brep_gauss_point_2, example_brep_gauss_point]]
      1 1 1 [] [(7, 5)] (MappingSystem.cleared ℤ 3 0) (List.Perm.swap _ _ _)
      (List.Forall₂.cons ⟨rfl, rfl, rfl, List.Perm.refl _⟩
        (List.Forall₂.cons ⟨rfl, rfl, rfl, List.Perm.swap _ _ _⟩ List.Forall₂.nil))⟩


/-- Claim C4 as stated fails in `double` arithmetic: with the weight `0.1` and the basis
values `0.1` and `0.9` the assembly stores `(0.1*0.1)*0.9` at `(0, 3)` and `(0.1*0.9)*0.1`
at `(3, 0)`, which round to different numbers. -/
theorem compute_mapping_matrix_CAD_CAD_not_symmetric_in_double :
    ((compute_mapping_matrix_assembly double_patches double_lists double_conditions 2
        1).m_mapping_matrix_CAD_CAD 0 3).value = 5188146770730813 / 576460752303423488 ∧
    ((compute_mapping_matrix_assembly double_patches double_lists double_conditions 2
        1).m_mapping_matrix_CAD_CAD 3 0).value = 1297036692682703 / 144115188075855872 ∧
    (compute_mapping_matrix_assembly double_patches double_lists double_conditions 2
        1).m_mapping_matrix_CAD_CAD 0 3 ≠
      (compute_mapping_matrix_assembly double_patches double_lists double_conditions 2
        1).m_mapping_matrix_CAD_CAD 3 0 := by
  decide!

/-- Claim C21 as stated fails in `double` arithmetic: from the cleared (symmetric) matrix,
with the penalty factor 1, the weight `0.1`, `J1 = 1` and the basis values `0.1` and `0.9`,
both the Dirichlet merge and the displacement coupling store `(0.1*0.1)*0.9` at `(0, 3)` and
`(0.1*0.9)*0.1` at `(3, 0)`, which round to different numbers. -/
theorem constraint_blocks_not_symmetric_in_double :
    symmetric_matrix (MappingSystem.cleared Binary64 2 0).m_mapping_matrix_CAD_CAD ∧
    (apply_dirichlet_condition double_norm_2 double_patches double_dirichlet_element
        (Binary64.literal 1) [] (MappingSystem.cleared Binary64 2 0)).m_mapping_matrix_CAD_CAD
        0 3 ≠
      (apply_dirichlet_condition double_norm_2 double_patches double_dirichlet_element
        (Binary64.literal 1) [] (MappingSystem.cleared Binary64 2 0)).m_mapping_matrix_CAD_CAD
        3 0 ∧
    (apply_displacement_coupling
        (double_surface.GetMappingMatrixIds 0 0 0 0)
        (double_slave_surface.GetMappingMatrixIds 0 0 0 0)
        (double_surface.EvaluateNURBSFunctions 0 0 0 0)
        (double_slave_surface.EvaluateNURBSFunctions 0 0 0 0)
        (Binary64.literal 1) (Binary64.literal (1 / 10)) (Binary64.literal 1)
        (MappingSystem.cleared Binary64 3 0)).m_mapping_matrix_CAD_CAD 0 3 ≠
      (apply_displacement_coupling
        (double_surface.GetMappingMatrixIds 0 0 0 0)
        (double_slave_surface.GetMappingMatrixIds 0 0 0 0)
        (double_surface.EvaluateNURBSFunctions 0 0 0 0)
        (double_slave_surface.EvaluateNURBSFunctions 0 0 0 0)
        (Binary64.literal 1) (Binary64.literal (1 / 10)) (Binary64.literal 1)
        (MappingSystem.cleared Binary64 3 0)).m_mapping_matrix_CAD_CAD 3 0 := by
  refine ⟨fun _ _ => rfl, by decide!, by decide!⟩

theorem parabolic_strip_newton_step (u v : ℚ) (hu : 5 / 2 ≤ u) :
    newton_step parabolic_strip (parabolic_strip.EvaluateSurfacePoint 3 0) u v =
      (3 + (u - 3) ^ 2 * (2 * u + 3) / (3 * u ^ 2 - 7), 0) := by
  have hd : (3 * u ^ 2 - 7 : ℚ) ≠ 0 := by nlinarith
  have e : (2 * (u * u + 1 + (u * u / 2 - 3 * 3 / 2)) * 2 - 0 * 0 : ℚ) =
      2 * (3 * u ^ 2 - 7) := by ring
  have e' : (2 * (u * u + 1 + (u * u / 2 - 3 * 3 / 2)) : ℚ) = 3 * u ^ 2 - 7 := by ring
  simp only [newton_step, newton_raphson_body, newton_raphson_init, parabolic_strip,
    InvertMatrix, prod2]
  refine Prod.ext ?_ ?_
  · simp only []
    rw [e]
    field_simp
    ring
  · simp only []
    rw [e, e']
    field_simp
    ring

theorem parabolic_strip_newton_basin :
    newton_basin parabolic_strip (parabolic_strip.EvaluateSurfacePoint 3 0) 3 0
      (fun u _ => 5 / 2 ≤ u ∧ u ≤ 7 / 2) := by
  intro u v hD
  obtain ⟨hu, hu'⟩ := hD
  have hd : (0 : ℚ) < 3 * u ^ 2 - 7 := by nlinarith
  have hr0 : 0 ≤ (u - 3) ^ 2 * (2 * u + 3) / (3 * u ^ 2 - 7) :=
    div_nonneg (mul_nonneg (sq_nonneg _) (by linarith)) hd.le
  have hsq : (u - 3) ^ 2 ≤ 1 / 4 := by nlinarith
  have hr1 : (u - 3) ^ 2 * (2 * u + 3) / (3 * u ^ 2 - 7) ≤ 1 / 4 := by
    rw [div_le_iff₀ hd]
    nlinarith [sq_nonneg (u - 3)]
  rw [parabolic_strip_newton_step u v hu]
  refine ⟨?_, ⟨by linarith, by linarith⟩, ?_⟩
  · simp only [hessian_determinant, parabolic_strip]
    nlinarith
  · simp only [parameter_distance_sq]
    have ha0 : 0 ≤ |u - 3| := abs_nonneg _
    have ha : |u - 3| ≤ 1 / 2 := abs_le.mpr ⟨by linarith, by linarith⟩
    have ha2 : |u - 3| ^ 2 = (u - 3) ^ 2 := sq_abs _
    have hd47 : (47 / 4 : ℚ) ≤ 3 * u ^ 2 - 7 := by nlinarith
    have hprod : |u - 3| * (2 * u + 3) ≤ 1 / 2 * 10 :=
      mul_le_mul ha (by linarith) (by linarith) (by norm_num)
    have hr2 : 2 * ((u - 3) ^ 2 * (2 * u + 3) / (3 * u ^ 2 - 7)) ≤ |u - 3| := by
      rw [← ha2, ← mul_div_assoc, div_le_iff₀ hd]
      nlinarith [mul_nonneg ha0
        (by linarith : (0 : ℚ) ≤ 3 * u ^ 2 - 7 - 2 * (|u - 3| * (2 * u + 3)))]
    have h4 : 4 * ((u - 3) ^ 2 * (2 * u + 3) / (3 * u ^ 2 - 7)) ^ 2 ≤ (u - 3) ^ 2 := by
      have hsum : 0 ≤ |u - 3| + 2 * ((u - 3) ^ 2 * (2 * u + 3) / (3 * u ^ 2 - 7)) := by
        linarith
      nlinarith [mul_nonneg (sub_nonneg.mpr hr2) hsum]
    nlinarith [sq_nonneg v, h4]

theorem newton_raphson_converges_in_basin_witness :
    newton_basin parabolic_strip (parabolic_strip.EvaluateSurfacePoint 3 0) 3 0
      (fun u _ => 5 / 2 ≤ u ∧ u ≤ 7 / 2) ∧
    ((5 / 2 : ℚ) ≤ 7 / 2 ∧ (7 / 2 : ℚ) ≤ 7 / 2) ∧
    ∃ (fuel : Nat) (s : NewtonState ℚ),
      newton_raphson_loop parabolic_strip (parabolic_strip.EvaluateSurfacePoint 3 0) fuel
        (newton_raphson_init (7 / 2) 1 (parabolic_strip.EvaluateSurfacePoint (7 / 2) 1)) =
        some s ∧
      1 ≤ s.k ∧
      parameter_distance_sq s.u_k s.v_k 3 0 ≤ (1 / 100000) ^ 2 ∧
      s.Q_k = parabolic_strip.EvaluateSurfacePoint s.u_k s.v_k :=
  ⟨parabolic_strip_newton_basin, ⟨by norm_num, le_refl _⟩,
    (newton_raphson_converges_in_basin parabolic_strip 3 0 (fun u _ => 5 / 2 ≤ u ∧ u ≤ 7 / 2)
      parabolic_strip_newton_basin (7 / 2) 1 ⟨by norm_num, le_refl _⟩).1⟩

/-- Claim C17, the behaviour of the code on `level_patches` (levels `z = 0` with six knot
spans and `z = 2` with one, coarse samples `(3, 4, 0)` and `(3, 4, 2)`): the build with the
Gauss points `B1`, `B2`, `B3` finds all three on the patch at position 0 and flags 12
control points; the build with the additional Gauss point `A = (3, 7, 0)`, visited first,
moves the sample of the patch at position 0 to `A`, finds `B1`, `B2`, `B3` on the patch at
position 1 and flags 8 control points. -/
theorem relevant_control_points_drop_with_added_gauss_point :
    coarse_sampling (fun _ _ => true) level_GetKnotVectorU level_GetKnotVectorV level_patches
      2 2 = level_samples ∧
    (search_conditions Tree.SearchNearestPoint level_GetKnotSpan level_GlobalCoordinates
        level_patches level_samples 3 [level_condition 3]
        (some (SearchState.initial level_samples))).map (fun st => st.nearest_points) =
      some [level_record 0 (1 / 2) 4 1, level_record 0 (5 / 2) 4 3,
        level_record 0 (11 / 2) 4 6] ∧
    (search_conditions Tree.SearchNearestPoint level_GetKnotSpan level_GlobalCoordinates
        level_patches level_samples 3 [level_condition 1, level_condition 3]
        (some (SearchState.initial level_samples))).map (fun st => st.nearest_points) =
      some [level_record 0 3 7 4, level_record 1 (1 / 2) 4 1, level_record 1 (5 / 2) 4 1,
        level_record 1 (11 / 2) 4 1] ∧
    (search_gauss_point Tree.SearchNearestPoint level_GetKnotSpan level_patches level_samples 3
        { x := 3, y := 7, z := 0 } (SearchState.initial level_samples)).map
        (fun st => st.list_of_cad_nodes.map (fun node => node.Coordinates)) =
      some [{ x := 3, y := 7, z := 0 }, { x := 3, y := 4, z := 2 }] ∧
    (compute_mapping_matrix_relevance level_support level_patches
      [level_record 0 (1 / 2) 4 1, level_record 0 (5 / 2) 4 3,
        level_record 0 (11 / 2) 4 6] []).2.m_n_relevant_control_points = 12 ∧
    (compute_mapping_matrix_relevance level_support level_patches
      [level_record 0 3 7 4, level_record 1 (1 / 2) 4 1, level_record 1 (5 / 2) 4 1,
        level_record 1 (11 / 2) 4 1] []).2.m_n_relevant_control_points = 8 := by
  refine ⟨by decide!, by decide!, by decide!, by decide!, by decide!, by decide!⟩

theorem mapping_matrix_id_stable_when_appended_witness :
    search_conditions Tree.SearchNearestPoint level_GetKnotSpan level_GlobalCoordinates
        level_patches level_samples 3 [level_condition 3]
        (some (SearchState.initial level_samples)) = some level_state_B ∧
    search_conditions Tree.SearchNearestPoint level_GetKnotSpan level_GlobalCoordinates
        level_patches level_samples 3 ([level_condition 3] ++ [level_condition 1])
        (some (SearchState.initial level_samples)) = some level_state_B_A ∧
    (all_control_points (compute_mapping_matrix_relevance level_support level_patches
      level_state_B.nearest_points []).1)[0]? = some level_control_point_0 ∧
    level_state_B.nearest_points <+: level_state_B_A.nearest_points ∧
    ∃ cp', (all_control_points (compute_mapping_matrix_relevance level_support level_patches
        level_state_B_A.nearest_points []).1)[0]? = some cp' ∧
      cp'.m_is_relevant_for_mapping = true :=
  ⟨by decide!, by decide!, by decide!,
    (mapping_matrix_id_stable_when_appended Tree.SearchNearestPoint level_GetKnotSpan
      level_GlobalCoordinates level_support level_patches level_samples 3 [level_condition 3]
      [level_condition 1] [] level_state_B level_state_B_A (by decide!) (by decide!) 0
      level_control_point_0 (by decide!) rfl).1,
    (mapping_matrix_id_stable_when_appended Tree.SearchNearestPoint level_GetKnotSpan
      level_GlobalCoordinates level_support level_patches level_samples 3 [level_condition 3]
      [level_condition 1] [] level_state_B level_state_B_A (by decide!) (by decide!) 0
      level_control_point_0 (by decide!) rfl).2.imp (fun _ hc => ⟨hc.1, hc.2.1⟩)⟩

end Kratos
